import Mathlib

/-!
# libhal (hal-dummy): changesets over an explicit heap

A shallow embedding of `src/libhal/libhal.c`.  C objects live in a heap that is
passed explicitly; a pointer is a natural number (`Nat`) and `0` is `NULL`.  A function
of the library becomes a function from the heap before the call to the returned
value and the heap after it, wrapped in `Option`: `none` stands for undefined
behaviour (a dereference of a pointer that is not live, an invalid `free`, a read
past the end of an array).

`calloc` and `strdup` draw their outcome from an oracle carried by the heap, so
that every allocation may fail.  `free` records the released address in a log.
The writes of `hal_logger` and `fprintf (stderr, ...)` are not part of the model.
-/

namespace LibHal

/-- Modelled from the spec: the enum `LibHalPropertyType` is declared in
`libhal.h`, which is not among the sources.  The spec gives the closed set of
tags and says that INVALID is the zero value, which is what `calloc` leaves in
`change_type`. -/
inductive LibHalPropertyType
  | INVALID
  | INT32
  | UINT64
  | DOUBLE
  | BOOLEAN
  | STRING
  | STRLIST
  deriving DecidableEq, Repr

/-- The anonymous union `value` of `struct LibHalChangeSetElement_s`.  `zero` is
the all-zero content left by `calloc`; a `double` is kept as its 64-bit pattern
and a `dbus_bool_t` as the unsigned integer it is. -/
inductive ElemValue
  | zero
  | val_str (p : Nat)
  | val_int (v : Int)
  | val_uint64 (v : Nat)
  | val_double (bits : Nat)
  | val_bool (v : Nat)
  | val_strlist (p : Nat)
  deriving DecidableEq, Repr

/-- The `struct LibHalChangeSetElement_s` of libhal.c. -/
structure LibHalChangeSetElement where
  key : Nat
  change_type : LibHalPropertyType
  value : ElemValue
  next : Nat
  prev : Nat
  deriving DecidableEq, Repr

/-- The `struct LibHalChangeSet_s` of libhal.c. -/
structure LibHalChangeSet where
  udi : Nat
  head : Nat
  tail : Nat
  deriving DecidableEq, Repr

/-- The `struct LibHalContext_s` of libhal.c; callbacks are function pointers.
The flags `is_initialized`, `is_shutdown` and `is_direct` are only ever assigned
the constants `TRUE` and `FALSE`; `cache_enabled` receives the caller's
`dbus_bool_t` and is kept as the unsigned integer it is. -/
structure LibHalContext where
  connection : Nat
  is_initialized : Bool
  is_shutdown : Bool
  cache_enabled : Nat
  is_direct : Bool
  device_added : Nat
  device_removed : Nat
  device_new_capability : Nat
  device_lost_capability : Nat
  device_property_modified : Nat
  device_condition : Nat
  global_interface_lock_acquired : Nat
  global_interface_lock_released : Nat
  interface_lock_acquired : Nat
  interface_lock_released : Nat
  singleton_device_added : Nat
  singleton_device_removed : Nat
  user_data : Nat
  deriving DecidableEq, Repr

/-- The anonymous union `v` of `struct LibHalProperty_s`; a `double` is kept as
its 64-bit pattern and a `dbus_bool_t` as the unsigned integer it is. -/
inductive PropValue
  | str_value (p : Nat)
  | int_value (v : Int)
  | uint64_value (v : Nat)
  | double_value (bits : Nat)
  | bool_value (v : Nat)
  | strlist_value (p : Nat)
  deriving DecidableEq, Repr

/-- The `struct LibHalProperty_s` of libhal.c. -/
structure LibHalProperty where
  type : LibHalPropertyType
  key : Nat
  v : PropValue
  deriving DecidableEq, Repr

/-- The `struct LibHalPropertySet_s` of libhal.c: a pointer to the properties. -/
structure LibHalPropertySet where
  properties : Nat
  deriving DecidableEq, Repr

/-- Modelled from the spec: the struct `LibHalPropertySetIterator` is declared in
`libhal.h`, which is not among the sources; no function of libhal.c reads or
writes a field of it.  In the spec an iterator is bound to a set at a position. -/
structure LibHalPropertySetIterator where
  set : Nat
  idx : Nat
  deriving DecidableEq, Repr

/-- What one allocated block holds.  `str s` is a `char` buffer holding the bytes
`s` followed by the terminating NUL; `strv cells` is an array of `char *`;
`int v` is one `int` variable and `ptr p` one pointer variable, the objects an
out-parameter points to; `props ps` is an array of `LibHalProperty`. -/
inductive Obj
  | str (s : List Nat)
  | strv (cells : List Nat)
  | elem (e : LibHalChangeSetElement)
  | cset (c : LibHalChangeSet)
  | ctx (c : LibHalContext)
  | int (v : Int)
  | ptr (p : Nat)
  | pset (s : LibHalPropertySet)
  | props (ps : List LibHalProperty)
  | iter (i : LibHalPropertySetIterator)
  deriving DecidableEq, Repr

/-- The heap.  The block at address `a + 1` is `heap[a]`; `none` marks a block
that has been released.  `oracle[k]` is the outcome of the `k`-th allocation
attempt (success when the list is too short), `nalloc` counts the attempts made
so far and `freed` lists the released addresses, oldest first. -/
structure Mem where
  heap : List (Option Obj)
  oracle : List Bool
  nalloc : Nat
  freed : List Nat
  deriving DecidableEq, Repr

namespace Mem

/-- The live block at `p`, if any. -/
def read (m : Mem) (p : Nat) : Option Obj :=
  if p = 0 then none else (m.heap.getD (p - 1) none)

/-- Outcome of the `k`-th allocation attempt. -/
def outcome (m : Mem) (k : Nat) : Bool :=
  m.oracle.getD k true

/-- One allocation attempt: a fresh block holding `o`, or `NULL`. -/
def alloc (m : Mem) (o : Obj) : Nat × Mem :=
  if m.outcome m.nalloc then
    (m.heap.length + 1, { m with heap := m.heap ++ [some o], nalloc := m.nalloc + 1 })
  else
    (0, { m with nalloc := m.nalloc + 1 })

/-- A store through `p`, which has to point to a live block. -/
def write (m : Mem) (p : Nat) (o : Obj) : Option Mem :=
  match m.read p with
  | some _ => some { m with heap := m.heap.set (p - 1) (some o) }
  | none => none

/-- The C `free`: nothing for `NULL`, undefined for a block that is not live. -/
def free (m : Mem) (p : Nat) : Option Mem :=
  if p = 0 then some m else
  match m.read p with
  | some _ => some { m with heap := m.heap.set (p - 1) none, freed := m.freed ++ [p] }
  | none => none

end Mem

/-! ### Heap states used in the proofs -/

namespace Mem

/-- Number of blocks ever allocated; live addresses are `1 .. size`. -/
def size (m : Mem) : Nat := m.heap.length

/-- The heap after a successful allocation of `o`. -/
def push (m : Mem) (o : Obj) : Mem :=
  { m with heap := m.heap ++ [some o], nalloc := m.nalloc + 1 }

/-- The heap after a failed allocation. -/
def tick (m : Mem) : Mem :=
  { m with nalloc := m.nalloc + 1 }

/-- The heap after a store of `o` at the address `p`, when `p` is live. -/
def put (m : Mem) (p : Nat) (o : Obj) : Mem :=
  if (m.read p).isSome then { m with heap := m.heap.set (p - 1) (some o) } else m

/-- The heap after the release of the address `p`, when `p` is live. -/
def del (m : Mem) (p : Nat) : Mem :=
  if (m.read p).isSome then
    { m with heap := m.heap.set (p - 1) none, freed := m.freed ++ [p] }
  else m

end Mem

/-- The bytes of an ASCII literal. -/
def ascii (s : String) : List Nat :=
  s.toList.map Char.toNat

/-- The C string held in a buffer: the bytes before the first NUL. -/
def cstr (s : List Nat) : List Nat :=
  s.takeWhile (fun c => c ≠ 0)

/-- The C `strncmp` on two buffers (the end of a buffer reads as NUL). -/
def strncmp : List Nat → List Nat → Nat → Int
  | _, _, 0 => 0
  | a, b, n + 1 =>
    if a.headD 0 ≠ b.headD 0 then (a.headD 0 : Int) - (b.headD 0 : Int)
    else if a.headD 0 = 0 then 0
    else strncmp a.tail b.tail n

/-- The C `strdup`: reads the string at `s` and allocates a copy of it. -/
def strdup (m : Mem) (s : Nat) : Option (Nat × Mem) :=
  match m.read s with
  | some (Obj.str b) => some (m.alloc (Obj.str (cstr b)))
  | _ => none

/-- The literal in `LIBHAL_CHECK_UDI_VALID`. -/
def UDI_PREFIX : List Nat := ascii "/org/freedesktop/Hal/devices/"

/-- The macro `LIBHAL_CHECK_PARAM_VALID`: `true` when the function goes on,
`false` when the macro returns `_ret_`. -/
def LIBHAL_CHECK_PARAM_VALID (param : Nat) : Bool :=
  !(param == 0)

/-- The macro `LIBHAL_CHECK_UDI_VALID`: `some true` when the function goes on,
`some false` when the macro returns `_ret_`. -/
def LIBHAL_CHECK_UDI_VALID (m : Mem) (udi : Nat) : Option Bool :=
  if udi = 0 then some false
  else match m.read udi with
    | some (Obj.str s) => some (strncmp s UDI_PREFIX 29 == 0)
    | _ => none

/-! ### Access to the fields of heap objects -/

namespace Mem

/-- The element structure `*p`. -/
def getElem (m : Mem) (p : Nat) : Option LibHalChangeSetElement :=
  match m.read p with
  | some (Obj.elem e) => some e
  | _ => none

/-- An assignment to a field of the element `*p`. -/
def setElem (m : Mem) (p : Nat) (f : LibHalChangeSetElement → LibHalChangeSetElement) :
    Option Mem :=
  match m.read p with
  | some (Obj.elem e) => m.write p (Obj.elem (f e))
  | _ => none

/-- The changeset structure `*p`. -/
def getCset (m : Mem) (p : Nat) : Option LibHalChangeSet :=
  match m.read p with
  | some (Obj.cset c) => some c
  | _ => none

/-- An assignment to a field of the changeset `*p`. -/
def setCset (m : Mem) (p : Nat) (f : LibHalChangeSet → LibHalChangeSet) : Option Mem :=
  match m.read p with
  | some (Obj.cset c) => m.write p (Obj.cset (f c))
  | _ => none

/-- The context structure `*p`. -/
def getCtx (m : Mem) (p : Nat) : Option LibHalContext :=
  match m.read p with
  | some (Obj.ctx c) => some c
  | _ => none

/-- The array element `arr[i]`; reading past the end is undefined. -/
def getCell (m : Mem) (arr i : Nat) : Option Nat :=
  match m.read arr with
  | some (Obj.strv cells) => cells[i]?
  | _ => none

/-- The assignment `arr[i] = v`; writing past the end is undefined. -/
def setCell (m : Mem) (arr i v : Nat) : Option Mem :=
  match m.read arr with
  | some (Obj.strv cells) =>
    if i < cells.length then m.write arr (Obj.strv (cells.set i v)) else none
  | _ => none

/-- Number of cells of the array at `arr` (`0` when there is none). -/
def cellCount (m : Mem) (arr : Nat) : Nat :=
  match m.read arr with
  | some (Obj.strv cells) => cells.length
  | _ => 0

end Mem

/-- A union member read as a pointer: the pointer stored last, or `NULL` right
after `calloc`.  An integer or floating-point pattern read back as a pointer is
left undefined. -/
def ElemValue.asPtr : ElemValue → Option Nat
  | ElemValue.zero => some 0
  | ElemValue.val_str p => some p
  | ElemValue.val_strlist p => some p
  | _ => none

/-- The element left by `calloc (1, sizeof (LibHalChangeSetElement))`. -/
def zeroElem : LibHalChangeSetElement :=
  { key := 0, change_type := LibHalPropertyType.INVALID, value := ElemValue.zero,
    next := 0, prev := 0 }

/-- The changeset left by `calloc (1, sizeof (LibHalChangeSet))`. -/
def zeroCset : LibHalChangeSet :=
  { udi := 0, head := 0, tail := 0 }

/-! ### libhal_free_string_array -/

/-- The loop `for (i = 0; str_array[i] != NULL; i++)` of
`libhal_free_string_array`, entered at index `i`.  `fuel` bounds the number of
iterations; the caller passes one more than the number of cells, which the
index cannot pass without reading out of bounds. -/
def free_string_array_loop (str_array : Nat) : Nat → Nat → Mem → Option Mem
  | 0, _, _ => none
  | fuel + 1, i, m =>
    match m.getCell str_array i with
    | none => none
    | some c =>
      if c = 0 then some m
      else
        -- free (str_array[i]); str_array[i] = NULL;
        match m.free c with
        | none => none
        | some m1 =>
          match m1.setCell str_array i 0 with
          | none => none
          | some m2 => free_string_array_loop str_array fuel (i + 1) m2

/-- The function `libhal_free_string_array`. -/
def libhal_free_string_array (m : Mem) (str_array : Nat) : Option Mem :=
  if str_array ≠ 0 then
    match free_string_array_loop str_array (m.cellCount str_array + 1) 0 m with
    | none => none
    | some m1 => m1.free str_array
  else some m

/-! ### Changesets -/

/-- The function `libhal_device_new_changeset`. -/
def libhal_device_new_changeset (m : Mem) (udi : Nat) : Option (Nat × Mem) :=
  match LIBHAL_CHECK_UDI_VALID m udi with
  | none => none
  | some false => some (0, m)
  | some true =>
    -- changeset = calloc (1, sizeof (LibHalChangeSet));
    match m.alloc (Obj.cset zeroCset) with
    | (changeset, m1) =>
      if changeset = 0 then some (0, m1)
      else
        -- changeset->udi = strdup (udi);
        match strdup m1 udi with
        | none => none
        | some (u, m2) =>
          match m2.setCset changeset (fun c => { c with udi := u }) with
          | none => none
          | some m3 =>
            if u = 0 then
              -- free (changeset); changeset = NULL;
              match m3.free changeset with
              | none => none
              | some m4 => some (0, m4)
            else
              -- changeset->head = NULL; changeset->tail = NULL;
              match m3.setCset changeset (fun c => { c with head := 0 }) with
              | none => none
              | some m4 =>
                match m4.setCset changeset (fun c => { c with tail := 0 }) with
                | none => none
                | some m5 => some (changeset, m5)

/-- The static function `libhal_changeset_append`. -/
def libhal_changeset_append (m : Mem) (changeset elem : Nat) : Option Mem :=
  if !LIBHAL_CHECK_PARAM_VALID changeset then some m
  else if !LIBHAL_CHECK_PARAM_VALID elem then some m
  else
    match m.getCset changeset with
    | none => none
    | some c =>
      if c.head = 0 then
        -- changeset->head = elem; changeset->tail = elem;
        -- elem->next = NULL; elem->prev = NULL;
        match m.setCset changeset (fun c => { c with head := elem }) with
        | none => none
        | some m1 =>
          match m1.setCset changeset (fun c => { c with tail := elem }) with
          | none => none
          | some m2 =>
            match m2.setElem elem (fun e => { e with next := 0 }) with
            | none => none
            | some m3 => m3.setElem elem (fun e => { e with prev := 0 })
      else
        -- elem->prev = changeset->tail; elem->next = NULL;
        -- elem->prev->next = elem; changeset->tail = elem;
        match m.setElem elem (fun e => { e with prev := c.tail }) with
        | none => none
        | some m1 =>
          match m1.setElem elem (fun e => { e with next := 0 }) with
          | none => none
          | some m2 =>
            match m2.getElem elem with
            | none => none
            | some e =>
              match m2.setElem e.prev (fun t => { t with next := elem }) with
              | none => none
              | some m3 => m3.setCset changeset (fun c => { c with tail := elem })

/-- The function `libhal_changeset_set_property_string`. -/
def libhal_changeset_set_property_string (m : Mem) (changeset key value : Nat) :
    Option (Bool × Mem) :=
  if !LIBHAL_CHECK_PARAM_VALID changeset then some (false, m)
  else if !LIBHAL_CHECK_PARAM_VALID key then some (false, m)
  else if !LIBHAL_CHECK_PARAM_VALID value then some (false, m)
  else
    -- elem = calloc (1, sizeof (LibHalChangeSetElement));
    match m.alloc (Obj.elem zeroElem) with
    | (elem, m1) =>
      if elem = 0 then some (false, m1)
      else
        -- elem->key = strdup (key);
        match strdup m1 key with
        | none => none
        | some (k, m2) =>
          match m2.setElem elem (fun e => { e with key := k }) with
          | none => none
          | some m3 =>
            if k = 0 then
              -- free (elem); elem = NULL;
              match m3.free elem with
              | none => none
              | some m4 => some (false, m4)
            else
              -- elem->change_type = LIBHAL_PROPERTY_TYPE_STRING;
              match m3.setElem elem
                  (fun e => { e with change_type := LibHalPropertyType.STRING }) with
              | none => none
              | some m4 =>
                -- elem->value.val_str = strdup (value);
                match strdup m4 value with
                | none => none
                | some (v, m5) =>
                  match m5.setElem elem (fun e => { e with value := ElemValue.val_str v }) with
                  | none => none
                  | some m6 =>
                    if v = 0 then
                      -- free (elem->key); free (elem); elem = NULL;
                      match m6.getElem elem with
                      | none => none
                      | some e =>
                        match m6.free e.key with
                        | none => none
                        | some m7 =>
                          match m7.free elem with
                          | none => none
                          | some m8 => some (false, m8)
                    else
                      match libhal_changeset_append m6 changeset elem with
                      | none => none
                      | some m7 => some (true, m7)

/-- The function `libhal_changeset_set_property_int`. -/
def libhal_changeset_set_property_int (m : Mem) (changeset key : Nat) (value : Int) :
    Option (Bool × Mem) :=
  if !LIBHAL_CHECK_PARAM_VALID changeset then some (false, m)
  else if !LIBHAL_CHECK_PARAM_VALID key then some (false, m)
  else
    -- elem = calloc (1, sizeof (LibHalChangeSetElement));
    match m.alloc (Obj.elem zeroElem) with
    | (elem, m1) =>
      if elem = 0 then some (false, m1)
      else
        -- elem->key = strdup (key);
        match strdup m1 key with
        | none => none
        | some (k, m2) =>
          match m2.setElem elem (fun e => { e with key := k }) with
          | none => none
          | some m3 =>
            if k = 0 then
              -- free (elem); elem = NULL;
              match m3.free elem with
              | none => none
              | some m4 => some (false, m4)
            else
              -- elem->change_type = LIBHAL_PROPERTY_TYPE_INT32; elem->value.val_int = value;
              match m3.setElem elem
                  (fun e => { e with change_type := LibHalPropertyType.INT32 }) with
              | none => none
              | some m4 =>
                match m4.setElem elem (fun e => { e with value := ElemValue.val_int value }) with
                | none => none
                | some m5 =>
                  match libhal_changeset_append m5 changeset elem with
                  | none => none
                  | some m6 => some (true, m6)

/-- The function `libhal_changeset_set_property_uint64`. -/
def libhal_changeset_set_property_uint64 (m : Mem) (changeset key : Nat) (value : Nat) :
    Option (Bool × Mem) :=
  if !LIBHAL_CHECK_PARAM_VALID changeset then some (false, m)
  else if !LIBHAL_CHECK_PARAM_VALID key then some (false, m)
  else
    -- elem = calloc (1, sizeof (LibHalChangeSetElement));
    match m.alloc (Obj.elem zeroElem) with
    | (elem, m1) =>
      if elem = 0 then some (false, m1)
      else
        -- elem->key = strdup (key);
        match strdup m1 key with
        | none => none
        | some (k, m2) =>
          match m2.setElem elem (fun e => { e with key := k }) with
          | none => none
          | some m3 =>
            if k = 0 then
              -- free (elem); elem = NULL;
              match m3.free elem with
              | none => none
              | some m4 => some (false, m4)
            else
              -- elem->change_type = LIBHAL_PROPERTY_TYPE_UINT64; elem->value.val_uint64 = value;
              match m3.setElem elem
                  (fun e => { e with change_type := LibHalPropertyType.UINT64 }) with
              | none => none
              | some m4 =>
                match m4.setElem elem (fun e => { e with value := ElemValue.val_uint64 value }) with
                | none => none
                | some m5 =>
                  match libhal_changeset_append m5 changeset elem with
                  | none => none
                  | some m6 => some (true, m6)

/-- The function `libhal_changeset_set_property_double`; `value` is the bit
pattern of the `double`. -/
def libhal_changeset_set_property_double (m : Mem) (changeset key : Nat) (value : Nat) :
    Option (Bool × Mem) :=
  if !LIBHAL_CHECK_PARAM_VALID changeset then some (false, m)
  else if !LIBHAL_CHECK_PARAM_VALID key then some (false, m)
  else
    -- elem = calloc (1, sizeof (LibHalChangeSetElement));
    match m.alloc (Obj.elem zeroElem) with
    | (elem, m1) =>
      if elem = 0 then some (false, m1)
      else
        -- elem->key = strdup (key);
        match strdup m1 key with
        | none => none
        | some (k, m2) =>
          match m2.setElem elem (fun e => { e with key := k }) with
          | none => none
          | some m3 =>
            if k = 0 then
              -- free (elem); elem = NULL;
              match m3.free elem with
              | none => none
              | some m4 => some (false, m4)
            else
              -- elem->change_type = LIBHAL_PROPERTY_TYPE_DOUBLE; elem->value.val_double = value;
              match m3.setElem elem
                  (fun e => { e with change_type := LibHalPropertyType.DOUBLE }) with
              | none => none
              | some m4 =>
                match m4.setElem elem (fun e => { e with value := ElemValue.val_double value }) with
                | none => none
                | some m5 =>
                  match libhal_changeset_append m5 changeset elem with
                  | none => none
                  | some m6 => some (true, m6)

/-- The function `libhal_changeset_set_property_bool`. -/
def libhal_changeset_set_property_bool (m : Mem) (changeset key : Nat) (value : Nat) :
    Option (Bool × Mem) :=
  if !LIBHAL_CHECK_PARAM_VALID changeset then some (false, m)
  else if !LIBHAL_CHECK_PARAM_VALID key then some (false, m)
  else
    -- elem = calloc (1, sizeof (LibHalChangeSetElement));
    match m.alloc (Obj.elem zeroElem) with
    | (elem, m1) =>
      if elem = 0 then some (false, m1)
      else
        -- elem->key = strdup (key);
        match strdup m1 key with
        | none => none
        | some (k, m2) =>
          match m2.setElem elem (fun e => { e with key := k }) with
          | none => none
          | some m3 =>
            if k = 0 then
              -- free (elem); elem = NULL;
              match m3.free elem with
              | none => none
              | some m4 => some (false, m4)
            else
              -- elem->change_type = LIBHAL_PROPERTY_TYPE_BOOLEAN; elem->value.val_bool = value;
              match m3.setElem elem
                  (fun e => { e with change_type := LibHalPropertyType.BOOLEAN }) with
              | none => none
              | some m4 =>
                match m4.setElem elem (fun e => { e with value := ElemValue.val_bool value }) with
                | none => none
                | some m5 =>
                  match libhal_changeset_append m5 changeset elem with
                  | none => none
                  | some m6 => some (true, m6)

/-- The loop `for (i = 0; value[i] != NULL; i++) ;` on the cells of the array
`value`: the index of the first `NULL`, undefined when the array has none. -/
def strlist_len : List Nat → Option Nat
  | [] => none
  | c :: rest =>
    if c = 0 then some 0
    else
      match strlist_len rest with
      | none => none
      | some n => some (n + 1)

/-- The loop `for (j = 0; j < i; j++) free (value_copy[j]);`, entered at index
`j` with `n = i - j` iterations left. -/
def strlist_free_copies (value_copy : Nat) : Nat → Nat → Mem → Option Mem
  | 0, _, m => some m
  | n + 1, j, m =>
    match m.getCell value_copy j with
    | none => none
    | some c =>
      match m.free c with
      | none => none
      | some m1 => strlist_free_copies value_copy n (j + 1) m1

/-- The loop `for (i = 0; i < len; i++) { value_copy[i] = strdup (value[i]); ... }`
of `libhal_changeset_set_property_strlist`, entered at index `i` with
`n = len - i` iterations left.  Returns `false` after the clean-up of a failed
copy (`elem = NULL`) and `true` when the loop ran to its end. -/
def strlist_copy_loop (value value_copy elem : Nat) : Nat → Nat → Mem → Option (Bool × Mem)
  | 0, _, m => some (true, m)
  | n + 1, i, m =>
    match m.getCell value i with
    | none => none
    | some src =>
      match strdup m src with
      | none => none
      | some (d, m1) =>
        match m1.setCell value_copy i d with
        | none => none
        | some m2 =>
          if d = 0 then
            match strlist_free_copies value_copy i 0 m2 with
            | none => none
            | some m3 =>
              -- free (value_copy); free (elem->key); free (elem);
              match m3.free value_copy with
              | none => none
              | some m4 =>
                match m4.getElem elem with
                | none => none
                | some e =>
                  match m4.free e.key with
                  | none => none
                  | some m5 =>
                    match m5.free elem with
                    | none => none
                    | some m6 => some (false, m6)
          else strlist_copy_loop value value_copy elem n (i + 1) m2

/-- The function `libhal_changeset_set_property_strlist`.  The `int` counters
`len`, `i` and `j` are natural numbers here: an input array is taken to have
fewer than `INT_MAX` entries. -/
def libhal_changeset_set_property_strlist (m : Mem) (changeset key value : Nat) :
    Option (Bool × Mem) :=
  if !LIBHAL_CHECK_PARAM_VALID changeset then some (false, m)
  else if !LIBHAL_CHECK_PARAM_VALID key then some (false, m)
  else
    -- elem = calloc (1, sizeof (LibHalChangeSetElement));
    match m.alloc (Obj.elem zeroElem) with
    | (elem, m1) =>
      if elem = 0 then some (false, m1)
      else
        -- elem->key = strdup (key);
        match strdup m1 key with
        | none => none
        | some (k, m2) =>
          match m2.setElem elem (fun e => { e with key := k }) with
          | none => none
          | some m3 =>
            if k = 0 then
              -- free (elem); elem = NULL;
              match m3.free elem with
              | none => none
              | some m4 => some (false, m4)
            else
              -- for (i = 0; value[i] != NULL; i++) ; len = i;
              match m3.read value with
              | some (Obj.strv cells) =>
                match strlist_len cells with
                | none => none
                | some len =>
                  -- value_copy = calloc (len + 1, sizeof (char *));
                  match m3.alloc (Obj.strv (List.replicate (len + 1) 0)) with
                  | (value_copy, m4) =>
                    if value_copy = 0 then
                      -- free (elem->key); free (elem); elem = NULL;
                      match m4.getElem elem with
                      | none => none
                      | some e =>
                        match m4.free e.key with
                        | none => none
                        | some m5 =>
                          match m5.free elem with
                          | none => none
                          | some m6 => some (false, m6)
                    else
                      match strlist_copy_loop value value_copy elem len 0 m4 with
                      | none => none
                      | some (false, m5) => some (false, m5)
                      | some (true, m5) =>
                        -- value_copy[i] = NULL;
                        match m5.setCell value_copy len 0 with
                        | none => none
                        | some m6 =>
                          -- elem->change_type = LIBHAL_PROPERTY_TYPE_STRLIST;
                          match m6.setElem elem
                              (fun e => { e with change_type := LibHalPropertyType.STRLIST }) with
                          | none => none
                          | some m7 =>
                            -- elem->value.val_strlist = value_copy;
                            match m7.setElem elem
                                (fun e => { e with value := ElemValue.val_strlist value_copy }) with
                            | none => none
                            | some m8 =>
                              match libhal_changeset_append m8 changeset elem with
                              | none => none
                              | some m9 => some (true, m9)
              | _ => none

/-- Modelled from the spec: the macro `LIBHAL_CHECK_LIBHALCONTEXT` is defined in
`libhal.h`, which is not among the sources.  The spec lists a null Context
among the local argument-validation errors; `libhal_ctx_init` runs the same
check on a context that is not yet initialized, so the check does not look at
`is_initialized`.  `true` when the function goes on. -/
def LIBHAL_CHECK_LIBHALCONTEXT (ctx : Nat) : Bool :=
  !(ctx == 0)

/-- The function `libhal_device_commit_changeset`. -/
def libhal_device_commit_changeset (m : Mem) (ctx changeset _error : Nat) :
    Option (Bool × Mem) :=
  if !LIBHAL_CHECK_LIBHALCONTEXT ctx then some (false, m)
  else
    match m.getCset changeset with
    | none => none
    | some c =>
      match LIBHAL_CHECK_UDI_VALID m c.udi with
      | none => none
      | some false => some (false, m)
      | some true => some (false, m)

/-- The function `libhal_device_get_all_properties`. -/
def libhal_device_get_all_properties (m : Mem) (ctx udi _error : Nat) : Option (Nat × Mem) :=
  if !LIBHAL_CHECK_LIBHALCONTEXT ctx then some (0, m)
  else
    match LIBHAL_CHECK_UDI_VALID m udi with
    | none => none
    | some false => some (0, m)
    | some true => some (0, m)

/-- The function `libhal_ps_get_strlist`; `NULL` is the only value it returns. -/
def libhal_ps_get_strlist (set key : Nat) : Nat :=
  if !LIBHAL_CHECK_PARAM_VALID set then 0
  else if !LIBHAL_CHECK_PARAM_VALID key then 0
  else 0

/-- The body of the loop of `libhal_device_free_changeset` for the element
`elem`: the `switch` on `elem->change_type`, then `free (elem->key); free (elem);`. -/
def free_changeset_elem (m : Mem) (elem : Nat) : Option Mem :=
  match m.getElem elem with
  | none => none
  | some e =>
    match (match e.change_type with
      | LibHalPropertyType.STRING =>
        -- free (elem->value.val_str);
        match e.value.asPtr with
        | none => none
        | some p => m.free p
      | LibHalPropertyType.STRLIST =>
        -- libhal_free_string_array (elem->value.val_strlist);
        match e.value.asPtr with
        | none => none
        | some p => libhal_free_string_array m p
      | _ => some m) with
    | none => none
    | some m1 =>
      match m1.getElem elem with
      | none => none
      | some e1 =>
        match m1.free e1.key with
        | none => none
        | some m2 => m2.free elem

/-- The loop `for (elem = changeset->head; elem != NULL; elem = elem2)` of
`libhal_device_free_changeset`.  Every iteration releases the block of one
element, so the number of blocks bounds the number of iterations; `fuel`
carries that bound. -/
def free_changeset_loop : Nat → Mem → Nat → Option Mem
  | 0, m, elem => if elem = 0 then some m else none
  | fuel + 1, m, elem =>
    if elem = 0 then some m
    else
      -- elem2 = elem->next;
      match m.getElem elem with
      | none => none
      | some e =>
        match free_changeset_elem m elem with
        | none => none
        | some m1 => free_changeset_loop fuel m1 e.next

/-- The function `libhal_device_free_changeset`. -/
def libhal_device_free_changeset (m : Mem) (changeset : Nat) : Option Mem :=
  match m.getCset changeset with
  | none => none
  | some c =>
    match free_changeset_loop m.size m c.head with
    | none => none
    | some m1 =>
      -- free (changeset->udi); free (changeset);
      match m1.getCset changeset with
      | none => none
      | some c1 =>
        match m1.free c1.udi with
        | none => none
        | some m2 => m2.free changeset

/-! ### Reading a changeset back -/

/-- The element sequence of a list: the addresses met when walking from `p`
along `next` until `NULL`, in at most `fuel` steps. -/
def walk (m : Mem) : Nat → Nat → Option (List Nat)
  | 0, p => if p = 0 then some [] else none
  | fuel + 1, p =>
    if p = 0 then some []
    else
      match m.getElem p with
      | none => none
      | some e =>
        match walk m fuel e.next with
        | none => none
        | some l => some (p :: l)

/-- The C string stored at `p`. -/
def cstring (m : Mem) (p : Nat) : Option (List Nat) :=
  match m.read p with
  | some (Obj.str s) => some (cstr s)
  | _ => none

/-- The strings that the cells of a `NULL`-terminated array point to, up to the
first `NULL`. -/
def cstrings_of (m : Mem) : List Nat → Option (List (List Nat))
  | [] => none
  | c :: rest =>
    if c = 0 then some []
    else
      match cstring m c, cstrings_of m rest with
      | some s, some l => some (s :: l)
      | _, _ => none

/-- The list of strings stored in the `NULL`-terminated array at `p`. -/
def cstrings (m : Mem) (p : Nat) : Option (List (List Nat)) :=
  match m.read p with
  | some (Obj.strv cells) => cstrings_of m cells
  | _ => none


/-! ### The six typed setters as one family -/

/-- One call of a typed setter on a changeset: which setter, its `key` argument
and its `value` argument. -/
inductive SetterCall
  | string (key value : Nat)
  | int (key : Nat) (value : Int)
  | uint64 (key : Nat) (value : Nat)
  | double (key : Nat) (value : Nat)
  | bool (key : Nat) (value : Nat)
  | strlist (key value : Nat)
  deriving DecidableEq, Repr

namespace SetterCall

/-- The `key` argument of the call. -/
def key : SetterCall → Nat
  | string k _ => k
  | int k _ => k
  | uint64 k _ => k
  | double k _ => k
  | bool k _ => k
  | strlist k _ => k

/-- The call itself, on the changeset `changeset`. -/
def run (m : Mem) (changeset : Nat) : SetterCall → Option (Bool × Mem)
  | string k v => libhal_changeset_set_property_string m changeset k v
  | int k v => libhal_changeset_set_property_int m changeset k v
  | uint64 k v => libhal_changeset_set_property_uint64 m changeset k v
  | double k v => libhal_changeset_set_property_double m changeset k v
  | bool k v => libhal_changeset_set_property_bool m changeset k v
  | strlist k v => libhal_changeset_set_property_strlist m changeset k v

end SetterCall

/-- The calls of `calls` made in turn on the changeset `changeset`, each of
which has to return TRUE. -/
def run_setters (changeset : Nat) : List SetterCall → Mem → Option Mem
  | [], m => some m
  | call :: rest, m =>
    match call.run m changeset with
    | some (true, m1) => run_setters changeset rest m1
    | _ => none

/-! ### Notions used to state what a setter call does -/

/-- Some allocation attempted between the heap states `m` and `m'` failed. -/
def AllocFailed (m m' : Mem) : Prop :=
  ∃ k, m.nalloc ≤ k ∧ k < m'.nalloc ∧ m.outcome k = false

/-- The heap `m'` is `m` after a successful append to the changeset `cs`, whose
record was `c`: the new element is the block `m.size + 1`, with tag `tag` and
payload `v`, its key is the block `m.size + 2` holding `ks`, and no block of `m`
other than the changeset record and the old tail has changed. -/
structure Appended (m m' : Mem) (cs : Nat) (c : LibHalChangeSet) (tag : LibHalPropertyType)
    (v : ElemValue) (ks : List Nat) : Prop where
  size_le : m.size + 2 ≤ m'.size
  freed : m'.freed = m.freed
  frame : ∀ q, q ≤ m.size → q ≠ cs → (c.head = 0 ∨ q ≠ c.tail) → m'.read q = m.read q
  cs_new : m'.read cs = some (Obj.cset
    { udi := c.udi, head := if c.head = 0 then m.size + 1 else c.head, tail := m.size + 1 })
  tail_upd : c.head ≠ 0 → ∃ t, m.read c.tail = some (Obj.elem t) ∧
    m'.read c.tail = some (Obj.elem { t with next := m.size + 1 })
  elem_new : m'.read (m.size + 1) = some (Obj.elem
    { key := m.size + 2, change_type := tag, value := v, next := 0,
      prev := if c.head = 0 then 0 else c.tail })
  key_new : m'.read (m.size + 2) = some (Obj.str (cstr ks))

/-- The body of the four scalar setters, with the tag and the union member as
parameters. -/
def changeset_set_scalar (m : Mem) (changeset key : Nat) (tag : LibHalPropertyType)
    (v : ElemValue) : Option (Bool × Mem) :=
  if !LIBHAL_CHECK_PARAM_VALID changeset then some (false, m)
  else if !LIBHAL_CHECK_PARAM_VALID key then some (false, m)
  else
    match m.alloc (Obj.elem zeroElem) with
    | (elem, m1) =>
      if elem = 0 then some (false, m1)
      else
        match strdup m1 key with
        | none => none
        | some (k, m2) =>
          match m2.setElem elem (fun e => { e with key := k }) with
          | none => none
          | some m3 =>
            if k = 0 then
              match m3.free elem with
              | none => none
              | some m4 => some (false, m4)
            else
              match m3.setElem elem (fun e => { e with change_type := tag }) with
              | none => none
              | some m4 =>
                match m4.setElem elem (fun e => { e with value := v }) with
                | none => none
                | some m5 =>
                  match libhal_changeset_append m5 changeset elem with
                  | none => none
                  | some m6 => some (true, m6)

/-- The type tag that the setter of the call writes into the element. -/
def SetterCall.tag : SetterCall → LibHalPropertyType
  | SetterCall.string _ _ => LibHalPropertyType.STRING
  | SetterCall.int _ _ => LibHalPropertyType.INT32
  | SetterCall.uint64 _ _ => LibHalPropertyType.UINT64
  | SetterCall.double _ _ => LibHalPropertyType.DOUBLE
  | SetterCall.bool _ _ => LibHalPropertyType.BOOLEAN
  | SetterCall.strlist _ _ => LibHalPropertyType.STRLIST

/-- The pointer arguments of the call are what the setter expects: `key` points
to a string, and `value` points to a string (string setter) or to a
`NULL`-terminated array of pointers to strings (string-list setter). -/
def SetterCall.ArgsOk (m : Mem) : SetterCall → Prop
  | SetterCall.string k v => (cstring m k).isSome ∧ (cstring m v).isSome
  | SetterCall.int k _ => (cstring m k).isSome
  | SetterCall.uint64 k _ => (cstring m k).isSome
  | SetterCall.double k _ => (cstring m k).isSome
  | SetterCall.bool k _ => (cstring m k).isSome
  | SetterCall.strlist k v => (cstring m k).isSome ∧ (cstrings m v).isSome

/-- Whether the pointer arguments of a call are valid can be computed. -/
instance SetterCall.decArgsOk (m : Mem) : (call : SetterCall) → Decidable (call.ArgsOk m)
  | SetterCall.string k v =>
    inferInstanceAs (Decidable ((cstring m k).isSome ∧ (cstring m v).isSome))
  | SetterCall.int k _ => inferInstanceAs (Decidable ((cstring m k).isSome))
  | SetterCall.uint64 k _ => inferInstanceAs (Decidable ((cstring m k).isSome))
  | SetterCall.double k _ => inferInstanceAs (Decidable ((cstring m k).isSome))
  | SetterCall.bool k _ => inferInstanceAs (Decidable ((cstring m k).isSome))
  | SetterCall.strlist k v =>
    inferInstanceAs (Decidable ((cstring m k).isSome ∧ (cstrings m v).isSome))

/-- The payload `v` that a successful call leaves in the new element, together
with the blocks that hold it in the heap `m'` after the call (`m` is the heap
before the call). -/
def SetterCall.Payload (m m' : Mem) : SetterCall → ElemValue → Prop
  | SetterCall.string _ val, v =>
    v = ElemValue.val_str (m.size + 3) ∧ m'.size = m.size + 3 ∧
      ∃ vs, m.read val = some (Obj.str vs) ∧ m'.read (m.size + 3) = some (Obj.str (cstr vs))
  | SetterCall.int _ x, v => v = ElemValue.val_int x ∧ m'.size = m.size + 2
  | SetterCall.uint64 _ x, v => v = ElemValue.val_uint64 x ∧ m'.size = m.size + 2
  | SetterCall.double _ x, v => v = ElemValue.val_double x ∧ m'.size = m.size + 2
  | SetterCall.bool _ x, v => v = ElemValue.val_bool x ∧ m'.size = m.size + 2
  | SetterCall.strlist _ val, v =>
    v = ElemValue.val_strlist (m.size + 3) ∧
      ∃ cells len, m.read val = some (Obj.strv cells) ∧ strlist_len cells = some len ∧
        m'.size = m.size + 3 + len ∧
        m'.read (m.size + 3) = some (Obj.strv (List.range' (m.size + 4) len ++ [0])) ∧
        ∀ j, j < len → ∃ cj s, cells[j]? = some cj ∧ m.read cj = some (Obj.str s) ∧
          m'.read (m.size + 4 + j) = some (Obj.str (cstr s))

/-- What a successful call stores as the payload `v` of the new element: the
scalar itself, or a pointer to a block that did not exist in the heap `m`
before the call, is not the caller's `value`, and holds in the heap `m'` after
the call the same string, or the same list of strings, as `value`. -/
def SetterCall.Stored (m m' : Mem) : SetterCall → ElemValue → Prop
  | SetterCall.string _ val, v =>
    ∃ p, v = ElemValue.val_str p ∧ p ≠ val ∧ m.read p = none ∧
      (cstring m' p).isSome ∧ cstring m' p = cstring m val
  | SetterCall.int _ x, v => v = ElemValue.val_int x
  | SetterCall.uint64 _ x, v => v = ElemValue.val_uint64 x
  | SetterCall.double _ x, v => v = ElemValue.val_double x
  | SetterCall.bool _ x, v => v = ElemValue.val_bool x
  | SetterCall.strlist _ val, v =>
    ∃ p, v = ElemValue.val_strlist p ∧ p ≠ val ∧ m.read p = none ∧
      (cstrings m' p).isSome ∧ cstrings m' p = cstrings m val

/-- The state of the copy loop of `libhal_changeset_set_property_strlist` when
it is entered at index `i`: `m` is the heap at the call, `cells` the input
array, `ks` the key and `len` the number of strings to copy. -/
structure CopyInv (m : Mem) (cells : List Nat) (ks : List Nat) (len i : Nat) (μ : Mem) :
    Prop where
  size : μ.size = m.size + 3 + i
  frame : ∀ q, q ≤ m.size → μ.read q = m.read q
  elem : μ.read (m.size + 1) = some (Obj.elem { key := m.size + 2, change_type := LibHalPropertyType.INVALID, value := ElemValue.zero, next := 0, prev := 0 })
  key : μ.read (m.size + 2) = some (Obj.str (cstr ks))
  arr : μ.read (m.size + 3) =
    some (Obj.strv (List.range' (m.size + 4) i ++ List.replicate (len + 1 - i) 0))
  copies : ∀ j, j < i → ∃ cj s, cells[j]? = some cj ∧ m.read cj = some (Obj.str s) ∧
    μ.read (m.size + 4 + j) = some (Obj.str (cstr s))
  freed : μ.freed = m.freed
  nalloc : μ.nalloc = m.nalloc + 3 + i
  outcome : ∀ k, μ.outcome k = m.outcome k
  ok : ∀ k, m.nalloc ≤ k → k < μ.nalloc → m.outcome k = true

/-- The sequence `l` is what a walk from `p` along `next` meets before `NULL`. -/
def IsSeq (m : Mem) : Nat → List Nat → Prop
  | p, [] => p = 0
  | p, a :: l => p = a ∧ a ≠ 0 ∧ ∃ e, m.read a = some (Obj.elem e) ∧ IsSeq m e.next l

/-! ### The blocks owned by a changeset -/

/-- The strings of the `NULL`-terminated array at `arr`: its cells before the
first `NULL`. -/
def strv_blocks (m : Mem) (arr : Nat) : List Nat :=
  match m.read arr with
  | some (Obj.strv cells) =>
    match strlist_len cells with
    | some len => cells.take len
    | none => []
  | _ => []

/-- The blocks that belong to the payload of an element, in the order in which
`libhal_device_free_changeset` has to release them: the string of a STRING
element; every string and then the array of a STRLIST element; nothing for the
scalar types. -/
def payload_blocks (m : Mem) (e : LibHalChangeSetElement) : List Nat :=
  match e.change_type with
  | LibHalPropertyType.STRING => [e.value.asPtr.getD 0]
  | LibHalPropertyType.STRLIST =>
    strv_blocks m (e.value.asPtr.getD 0) ++ [e.value.asPtr.getD 0]
  | _ => []

/-- The blocks that belong to the element at `a`, in release order: its
payload, its key and the element itself. -/
def elem_blocks (m : Mem) (a : Nat) : List Nat :=
  match m.getElem a with
  | some e => payload_blocks m e ++ [e.key, a]
  | none => []

/-- The blocks that belong to the changeset at `cs` with record `c` and element
sequence `L`, in release order: the elements in list order, then the device
identifier and the changeset itself. -/
def changeset_blocks (m : Mem) (cs : Nat) (c : LibHalChangeSet) (L : List Nat) : List Nat :=
  (L.map (elem_blocks m)).flatten ++ [c.udi, cs]

/-- The element at `a` is complete: its key is a string and its payload is what
its tag announces. -/
def ElemOwned (m : Mem) (a : Nat) : Prop :=
  ∃ e, m.read a = some (Obj.elem e) ∧ (∃ ks, m.read e.key = some (Obj.str ks)) ∧
    (e.change_type = LibHalPropertyType.STRING →
      ∃ p s, e.value = ElemValue.val_str p ∧ m.read p = some (Obj.str s)) ∧
    (e.change_type = LibHalPropertyType.STRLIST →
      ∃ p cells len, e.value = ElemValue.val_strlist p ∧ m.read p = some (Obj.strv cells) ∧
        strlist_len cells = some len ∧
        ∀ j, j < len → ∃ cj s, cells[j]? = some cj ∧ m.read cj = some (Obj.str s))

/-- The changeset at `cs`, with record `c` and element sequence `L`, as built on
top of the caller's heap `m0`: the blocks of `m0` are untouched, nothing has
been released, every element is complete, and the blocks of the changeset are
exactly the blocks allocated since `m0`, each of them once. -/
structure Owned (m0 m : Mem) (cs : Nat) (c : LibHalChangeSet) (L : List Nat) : Prop where
  base : ∀ q, q ≤ m0.size → m.read q = m0.read q
  freed : m.freed = m0.freed
  size_le : m0.size ≤ m.size
  hcs : m.read cs = some (Obj.cset c)
  hudi : ∃ s, m.read c.udi = some (Obj.str s)
  seq : IsSeq m c.head L
  tail : c.tail = L.getLastD 0
  elems : ∀ a, a ∈ L → ElemOwned m a
  perm : (changeset_blocks m cs c L).Perm (List.range' (m0.size + 1) (m.size - m0.size))

/-! ### The context -/

namespace Mem

/-- An assignment to a field of the context `*p`. -/
def setCtx (m : Mem) (p : Nat) (f : LibHalContext → LibHalContext) : Option Mem :=
  match m.read p with
  | some (Obj.ctx c) => m.write p (Obj.ctx (f c))
  | _ => none

/-- The assignment `*p = v` through an `int *`. -/
def setInt (m : Mem) (p : Nat) (v : Int) : Option Mem :=
  match m.read p with
  | some (Obj.int _) => m.write p (Obj.int v)
  | _ => none

/-- The assignment `*p = v` through a pointer to a pointer. -/
def setPtr (m : Mem) (p v : Nat) : Option Mem :=
  match m.read p with
  | some (Obj.ptr _) => m.write p (Obj.ptr v)
  | _ => none

end Mem

/-- The context left by `calloc (1, sizeof (LibHalContext))`. -/
def zeroCtx : LibHalContext :=
  { connection := 0, is_initialized := false, is_shutdown := false, cache_enabled := 0,
    is_direct := false, device_added := 0, device_removed := 0,
    device_new_capability := 0, device_lost_capability := 0,
    device_property_modified := 0, device_condition := 0,
    global_interface_lock_acquired := 0, global_interface_lock_released := 0,
    interface_lock_acquired := 0, interface_lock_released := 0,
    singleton_device_added := 0, singleton_device_removed := 0, user_data := 0 }

/-- The function `libhal_ctx_set_user_data`. -/
def libhal_ctx_set_user_data (m : Mem) (ctx user_data : Nat) : Option (Bool × Mem) :=
  if !LIBHAL_CHECK_LIBHALCONTEXT ctx then some (false, m)
  else
    match m.setCtx ctx (fun c => { c with user_data := user_data }) with
    | none => none
    | some m1 => some (true, m1)

/-- The function `libhal_ctx_get_user_data`. -/
def libhal_ctx_get_user_data (m : Mem) (ctx : Nat) : Option Nat :=
  if !LIBHAL_CHECK_LIBHALCONTEXT ctx then some 0
  else
    match m.getCtx ctx with
    | none => none
    | some c => some c.user_data

/-- The function `libhal_ctx_new`. -/
def libhal_ctx_new (m : Mem) : Option (Nat × Mem) :=
  -- ctx = calloc (1, sizeof (LibHalContext));
  match m.alloc (Obj.ctx zeroCtx) with
  | (ctx, m1) =>
    if ctx = 0 then some (0, m1)
    else
      match m1.setCtx ctx (fun c => { c with is_initialized := false }) with
      | none => none
      | some m2 =>
        match m2.setCtx ctx (fun c => { c with is_shutdown := false }) with
        | none => none
        | some m3 =>
          match m3.setCtx ctx (fun c => { c with connection := 0 }) with
          | none => none
          | some m4 =>
            match m4.setCtx ctx (fun c => { c with is_direct := false }) with
            | none => none
            | some m5 => some (ctx, m5)

/-- The function `libhal_ctx_set_cache`. -/
def libhal_ctx_set_cache (m : Mem) (ctx use_cache : Nat) : Option (Bool × Mem) :=
  if !LIBHAL_CHECK_LIBHALCONTEXT ctx then some (false, m)
  else
    match m.setCtx ctx (fun c => { c with cache_enabled := use_cache }) with
    | none => none
    | some m1 => some (true, m1)

/-- The function `libhal_ctx_set_dbus_connection`. -/
def libhal_ctx_set_dbus_connection (m : Mem) (ctx conn : Nat) : Option (Bool × Mem) :=
  if !LIBHAL_CHECK_LIBHALCONTEXT ctx then some (false, m)
  else if conn = 0 then some (false, m)
  else
    match m.setCtx ctx (fun c => { c with connection := conn }) with
    | none => none
    | some m1 => some (true, m1)

/-- The function `libhal_ctx_get_dbus_connection`. -/
def libhal_ctx_get_dbus_connection (m : Mem) (ctx : Nat) : Option Nat :=
  if !LIBHAL_CHECK_LIBHALCONTEXT ctx then some 0
  else
    match m.getCtx ctx with
    | none => none
    | some c => some c.connection

/-- The function `libhal_ctx_init`. -/
def libhal_ctx_init (m : Mem) (ctx _error : Nat) : Option (Bool × Mem) :=
  if !LIBHAL_CHECK_LIBHALCONTEXT ctx then some (false, m)
  else
    match m.getCtx ctx with
    | none => none
    | some c =>
      if c.connection = 0 then some (false, m)
      else
        match m.setCtx ctx (fun c => { c with is_initialized := true }) with
        | none => none
        | some m1 =>
          match m1.setCtx ctx (fun c => { c with is_direct := false }) with
          | none => none
          | some m2 => some (true, m2)

/-- The function `libhal_ctx_shutdown`. -/
def libhal_ctx_shutdown (m : Mem) (ctx _error : Nat) : Option (Bool × Mem) :=
  if !LIBHAL_CHECK_LIBHALCONTEXT ctx then some (false, m)
  else
    match m.setCtx ctx (fun c => { c with is_initialized := false }) with
    | none => none
    | some m1 => some (true, m1)

/-- The function `libhal_ctx_free`. -/
def libhal_ctx_free (m : Mem) (ctx : Nat) : Option (Bool × Mem) :=
  match m.free ctx with
  | none => none
  | some m1 => some (true, m1)

/-- The function `libhal_ctx_init_direct`.  The environment is an input:
`hald_direct_addr` is what `getenv ("HALD_DIRECT_ADDR")` returns, `NULL` when
the variable is not set. -/
def libhal_ctx_init_direct (m : Mem) (hald_direct_addr _error : Nat) : Option (Nat × Mem) :=
  match libhal_ctx_new m with
  | none => none
  | some (ctx, m1) =>
    if ctx = 0 then some (ctx, m1)
    else if hald_direct_addr = 0 then
      -- libhal_ctx_free (ctx); ctx = NULL;
      match libhal_ctx_free m1 ctx with
      | none => none
      | some (_, m2) => some (0, m2)
    else
      match m1.setCtx ctx (fun c => { c with is_initialized := true }) with
      | none => none
      | some m2 =>
        match m2.setCtx ctx (fun c => { c with is_direct := true }) with
        | none => none
        | some m3 => some (ctx, m3)

/-! ### The callback setters -/

/-- The function `libhal_ctx_set_device_added`. -/
def libhal_ctx_set_device_added (m : Mem) (ctx callback : Nat) : Option (Bool × Mem) :=
  if !LIBHAL_CHECK_LIBHALCONTEXT ctx then some (false, m)
  else
    match m.setCtx ctx (fun c => { c with device_added := callback }) with
    | none => none
    | some m1 => some (true, m1)

/-- The function `libhal_ctx_set_device_removed`. -/
def libhal_ctx_set_device_removed (m : Mem) (ctx callback : Nat) : Option (Bool × Mem) :=
  if !LIBHAL_CHECK_LIBHALCONTEXT ctx then some (false, m)
  else
    match m.setCtx ctx (fun c => { c with device_removed := callback }) with
    | none => none
    | some m1 => some (true, m1)

/-- The function `libhal_ctx_set_device_new_capability`. -/
def libhal_ctx_set_device_new_capability (m : Mem) (ctx callback : Nat) : Option (Bool × Mem) :=
  if !LIBHAL_CHECK_LIBHALCONTEXT ctx then some (false, m)
  else
    match m.setCtx ctx (fun c => { c with device_new_capability := callback }) with
    | none => none
    | some m1 => some (true, m1)

/-- The function `libhal_ctx_set_device_lost_capability`. -/
def libhal_ctx_set_device_lost_capability (m : Mem) (ctx callback : Nat) : Option (Bool × Mem) :=
  if !LIBHAL_CHECK_LIBHALCONTEXT ctx then some (false, m)
  else
    match m.setCtx ctx (fun c => { c with device_lost_capability := callback }) with
    | none => none
    | some m1 => some (true, m1)

/-- The function `libhal_ctx_set_device_property_modified`. -/
def libhal_ctx_set_device_property_modified (m : Mem) (ctx callback : Nat) : Option (Bool × Mem) :=
  if !LIBHAL_CHECK_LIBHALCONTEXT ctx then some (false, m)
  else
    match m.setCtx ctx (fun c => { c with device_property_modified := callback }) with
    | none => none
    | some m1 => some (true, m1)

/-- The function `libhal_ctx_set_device_condition`. -/
def libhal_ctx_set_device_condition (m : Mem) (ctx callback : Nat) : Option (Bool × Mem) :=
  if !LIBHAL_CHECK_LIBHALCONTEXT ctx then some (false, m)
  else
    match m.setCtx ctx (fun c => { c with device_condition := callback }) with
    | none => none
    | some m1 => some (true, m1)

/-- The function `libhal_ctx_set_singleton_device_added`. -/
def libhal_ctx_set_singleton_device_added (m : Mem) (ctx callback : Nat) : Option (Bool × Mem) :=
  if !LIBHAL_CHECK_LIBHALCONTEXT ctx then some (false, m)
  else
    match m.setCtx ctx (fun c => { c with singleton_device_added := callback }) with
    | none => none
    | some m1 => some (true, m1)

/-- The function `libhal_ctx_set_singleton_device_removed`. -/
def libhal_ctx_set_singleton_device_removed (m : Mem) (ctx callback : Nat) : Option (Bool × Mem) :=
  if !LIBHAL_CHECK_LIBHALCONTEXT ctx then some (false, m)
  else
    match m.setCtx ctx (fun c => { c with singleton_device_removed := callback }) with
    | none => none
    | some m1 => some (true, m1)

/-- The function `libhal_ctx_set_global_interface_lock_acquired`. -/
def libhal_ctx_set_global_interface_lock_acquired (m : Mem) (ctx callback : Nat) : Option (Bool × Mem) :=
  if !LIBHAL_CHECK_LIBHALCONTEXT ctx then some (false, m)
  else
    match m.setCtx ctx (fun c => { c with global_interface_lock_acquired := callback }) with
    | none => none
    | some m1 => some (true, m1)

/-- The function `libhal_ctx_set_global_interface_lock_released`. -/
def libhal_ctx_set_global_interface_lock_released (m : Mem) (ctx callback : Nat) : Option (Bool × Mem) :=
  if !LIBHAL_CHECK_LIBHALCONTEXT ctx then some (false, m)
  else
    match m.setCtx ctx (fun c => { c with global_interface_lock_released := callback }) with
    | none => none
    | some m1 => some (true, m1)

/-- The function `libhal_ctx_set_interface_lock_acquired`. -/
def libhal_ctx_set_interface_lock_acquired (m : Mem) (ctx callback : Nat) : Option (Bool × Mem) :=
  if !LIBHAL_CHECK_LIBHALCONTEXT ctx then some (false, m)
  else
    match m.setCtx ctx (fun c => { c with interface_lock_acquired := callback }) with
    | none => none
    | some m1 => some (true, m1)

/-- The function `libhal_ctx_set_interface_lock_released`. -/
def libhal_ctx_set_interface_lock_released (m : Mem) (ctx callback : Nat) : Option (Bool × Mem) :=
  if !LIBHAL_CHECK_LIBHALCONTEXT ctx then some (false, m)
  else
    match m.setCtx ctx (fun c => { c with interface_lock_released := callback }) with
    | none => none
    | some m1 => some (true, m1)

/-- The twelve kinds of event, one for each callback setter of libhal.c. -/
inductive Callback
  | device_added
  | device_removed
  | device_new_capability
  | device_lost_capability
  | device_property_modified
  | device_condition
  | singleton_device_added
  | singleton_device_removed
  | global_interface_lock_acquired
  | global_interface_lock_released
  | interface_lock_acquired
  | interface_lock_released
  deriving DecidableEq, Repr

/-- Every kind of event. -/
def Callback.all : List Callback :=
  [Callback.device_added, Callback.device_removed, Callback.device_new_capability, Callback.device_lost_capability,
    Callback.device_property_modified, Callback.device_condition, Callback.singleton_device_added, Callback.singleton_device_removed,
    Callback.global_interface_lock_acquired, Callback.global_interface_lock_released,
    Callback.interface_lock_acquired, Callback.interface_lock_released]

/-- The setter of libhal.c for the event kind `k`. -/
def Callback.setter : Callback → Mem → Nat → Nat → Option (Bool × Mem)
  | Callback.device_added => libhal_ctx_set_device_added
  | Callback.device_removed => libhal_ctx_set_device_removed
  | Callback.device_new_capability => libhal_ctx_set_device_new_capability
  | Callback.device_lost_capability => libhal_ctx_set_device_lost_capability
  | Callback.device_property_modified => libhal_ctx_set_device_property_modified
  | Callback.device_condition => libhal_ctx_set_device_condition
  | Callback.singleton_device_added => libhal_ctx_set_singleton_device_added
  | Callback.singleton_device_removed => libhal_ctx_set_singleton_device_removed
  | Callback.global_interface_lock_acquired => libhal_ctx_set_global_interface_lock_acquired
  | Callback.global_interface_lock_released => libhal_ctx_set_global_interface_lock_released
  | Callback.interface_lock_acquired => libhal_ctx_set_interface_lock_acquired
  | Callback.interface_lock_released => libhal_ctx_set_interface_lock_released

/-- The field of the context that belongs to the event kind `k`. -/
def Callback.slot : Callback → LibHalContext → Nat
  | Callback.device_added, c => c.device_added
  | Callback.device_removed, c => c.device_removed
  | Callback.device_new_capability, c => c.device_new_capability
  | Callback.device_lost_capability, c => c.device_lost_capability
  | Callback.device_property_modified, c => c.device_property_modified
  | Callback.device_condition, c => c.device_condition
  | Callback.singleton_device_added, c => c.singleton_device_added
  | Callback.singleton_device_removed, c => c.singleton_device_removed
  | Callback.global_interface_lock_acquired, c => c.global_interface_lock_acquired
  | Callback.global_interface_lock_released, c => c.global_interface_lock_released
  | Callback.interface_lock_acquired, c => c.interface_lock_acquired
  | Callback.interface_lock_released, c => c.interface_lock_released

/-- The context `c` with `cb` in the field of the event kind `k` and every other
field as in `c`. -/
def Callback.store : Callback → Nat → LibHalContext → LibHalContext
  | Callback.device_added, cb, c => { c with device_added := cb }
  | Callback.device_removed, cb, c => { c with device_removed := cb }
  | Callback.device_new_capability, cb, c => { c with device_new_capability := cb }
  | Callback.device_lost_capability, cb, c => { c with device_lost_capability := cb }
  | Callback.device_property_modified, cb, c => { c with device_property_modified := cb }
  | Callback.device_condition, cb, c => { c with device_condition := cb }
  | Callback.singleton_device_added, cb, c => { c with singleton_device_added := cb }
  | Callback.singleton_device_removed, cb, c => { c with singleton_device_removed := cb }
  | Callback.global_interface_lock_acquired, cb, c => { c with global_interface_lock_acquired := cb }
  | Callback.global_interface_lock_released, cb, c => { c with global_interface_lock_released := cb }
  | Callback.interface_lock_acquired, cb, c => { c with interface_lock_acquired := cb }
  | Callback.interface_lock_released, cb, c => { c with interface_lock_released := cb }

/-! ### Protocol calls -/

/-- The C `strcmp` on two buffers (the end of a buffer reads as NUL). -/
def strcmp : List Nat → List Nat → Int
  | [], b => if (0 : Nat) ≠ b.headD 0 then (0 : Int) - (b.headD 0 : Int) else 0
  | c :: a, b =>
    if c ≠ b.headD 0 then (c : Int) - (b.headD 0 : Int)
    else if c = 0 then 0
    else strcmp a b.tail

/-- The C `strdup` applied to a string literal. -/
def strdup_literal (m : Mem) (lit : List Nat) : Nat × Mem :=
  m.alloc (Obj.str (cstr lit))

/-- The literal `"/org/freedesktop/Hal/devices/computer"`. -/
def UDI_COMPUTER : List Nat := ascii "/org/freedesktop/Hal/devices/computer"

/-- The literal `"system.hardware.serial"`. -/
def KEY_SERIAL : List Nat := ascii "system.hardware.serial"

/-- The literal `"System Serial Number"`. -/
def SERIAL_NUMBER : List Nat := ascii "System Serial Number"

/-- Modelled from the spec: the constant `DBUS_TYPE_STRING` comes from the D-Bus
headers, which are not among the sources.  `libhal_device_get_property_type`
returns it as a `LibHalPropertyType`; in the closed set of tags of the spec it
is the tag of a string property. -/
def DBUS_TYPE_STRING : LibHalPropertyType := LibHalPropertyType.STRING

/-- The condition `strcmp (udi, "/org/freedesktop/Hal/devices/computer") == 0 &&
strcmp (key, "system.hardware.serial") == 0`; `key` is read only when the first
comparison holds. -/
def is_computer_serial (m : Mem) (udi key : Nat) : Option Bool :=
  match m.read udi with
  | some (Obj.str u) =>
    if strcmp u UDI_COMPUTER = 0 then
      match m.read key with
      | some (Obj.str k) => some (strcmp k KEY_SERIAL == 0)
      | _ => none
    else some false
  | _ => none

/-- The function `libhal_device_get_property_type`. -/
def libhal_device_get_property_type (m : Mem) (ctx udi key _error : Nat) :
    Option LibHalPropertyType :=
  if !LIBHAL_CHECK_LIBHALCONTEXT ctx then some LibHalPropertyType.INVALID
  else
    match LIBHAL_CHECK_UDI_VALID m udi with
    | none => none
    | some false => some LibHalPropertyType.INVALID
    | some true =>
      if !LIBHAL_CHECK_PARAM_VALID key then some LibHalPropertyType.INVALID
      else
        match is_computer_serial m udi key with
        | none => none
        | some true => some DBUS_TYPE_STRING
        | some false => some LibHalPropertyType.INVALID

/-- The function `libhal_device_get_property_string`. -/
def libhal_device_get_property_string (m : Mem) (ctx udi key _error : Nat) :
    Option (Nat × Mem) :=
  if !LIBHAL_CHECK_LIBHALCONTEXT ctx then some (0, m)
  else
    match LIBHAL_CHECK_UDI_VALID m udi with
    | none => none
    | some false => some (0, m)
    | some true =>
      if !LIBHAL_CHECK_PARAM_VALID key then some (0, m)
      else
        match is_computer_serial m udi key with
        | none => none
        | some true => some (strdup_literal m SERIAL_NUMBER)
        | some false => some (0, m)

/-- The function `libhal_get_all_devices_with_properties`. -/
def libhal_get_all_devices_with_properties (m : Mem)
    (ctx out_num_devices out_udi out_properties _error : Nat) : Option (Bool × Mem) :=
  if !LIBHAL_CHECK_LIBHALCONTEXT ctx then some (false, m)
  else if !LIBHAL_CHECK_PARAM_VALID out_num_devices then some (false, m)
  else if !LIBHAL_CHECK_PARAM_VALID out_udi then some (false, m)
  else if !LIBHAL_CHECK_PARAM_VALID out_properties then some (false, m)
  else
    -- *out_num_devices = 0; *out_udi = NULL; *out_properties = NULL;
    match m.setInt out_num_devices 0 with
    | none => none
    | some m1 =>
      match m1.setPtr out_udi 0 with
      | none => none
      | some m2 =>
        match m2.setPtr out_properties 0 with
        | none => none
        | some m3 => some (true, m3)

/-! ### Sequences of calls on one context -/

/-- A call of a public function of libhal.c on a context that exists already:
the functions that store into the context, and the protocol calls
`libhal_device_get_property_string` and
`libhal_get_all_devices_with_properties`, which change the heap elsewhere. -/
inductive CtxOp
  | set_user_data (user_data : Nat)
  | set_cache (use_cache : Nat)
  | set_dbus_connection (conn : Nat)
  | init (error : Nat)
  | shutdown (error : Nat)
  | set_callback (k : Callback) (callback : Nat)
  | get_property_string (udi key error : Nat)
  | get_all_devices_with_properties (out_num_devices out_udi out_properties error : Nat)
  deriving DecidableEq, Repr

/-- The heap after the call `op` on the context `ctx`; the returned value is
dropped. -/
def CtxOp.run (ctx : Nat) : CtxOp → Mem → Option Mem
  | CtxOp.set_user_data d, m => (libhal_ctx_set_user_data m ctx d).map Prod.snd
  | CtxOp.set_cache b, m => (libhal_ctx_set_cache m ctx b).map Prod.snd
  | CtxOp.set_dbus_connection conn, m => (libhal_ctx_set_dbus_connection m ctx conn).map Prod.snd
  | CtxOp.init e, m => (libhal_ctx_init m ctx e).map Prod.snd
  | CtxOp.shutdown e, m => (libhal_ctx_shutdown m ctx e).map Prod.snd
  | CtxOp.set_callback k cb, m => (k.setter m ctx cb).map Prod.snd
  | CtxOp.get_property_string udi key e, m =>
    (libhal_device_get_property_string m ctx udi key e).map Prod.snd
  | CtxOp.get_all_devices_with_properties n u ps e, m =>
    (libhal_get_all_devices_with_properties m ctx n u ps e).map Prod.snd

/-- The call `op` is a call of `libhal_ctx_init`. -/
def CtxOp.isInit : CtxOp → Bool
  | CtxOp.init _ => true
  | _ => false

/-- The calls `ops` on the context `ctx`, one after the other. -/
def run_ctx_ops (ctx : Nat) : List CtxOp → Mem → Option Mem
  | [], m => some m
  | op :: ops, m =>
    match op.run ctx m with
    | none => none
    | some m1 => run_ctx_ops ctx ops m1

/-- The flag `is_initialized` of the context at `ctx`. -/
def initialized (m : Mem) (ctx : Nat) : Option Bool :=
  (m.getCtx ctx).map (fun c => c.is_initialized)

/-! ### Device calls -/

/-- The conversion of an integer constant to `dbus_uint64_t`. -/
def to_uint64 (v : Int) : Nat :=
  (v % 2 ^ 64).toNat

/-- The `double` constant `-1.0` as its IEEE 754 binary64 pattern: sign bit set,
biased exponent 1023, fraction 0.  The `float` constant `-1.0f` converts to the
same `double`. -/
def DOUBLE_MINUS_ONE : Nat := 0xBFF0000000000000

/-- The `double` constant `0.0` as its IEEE 754 binary64 pattern. -/
def DOUBLE_ZERO : Nat := 0

/-- The function `libhal_device_get_property_strlist`. -/
def libhal_device_get_property_strlist (m : Mem) (ctx udi key _error : Nat) : Option (Nat × Mem) :=
  if !LIBHAL_CHECK_LIBHALCONTEXT ctx then some (0, m)
  else
    match LIBHAL_CHECK_UDI_VALID m udi with
    | none => none
    | some false => some (0, m)
    | some true =>
      if !LIBHAL_CHECK_PARAM_VALID key then some (0, m)
      else some (0, m)

/-- The function `libhal_device_get_property_int`. -/
def libhal_device_get_property_int (m : Mem) (ctx udi key _error : Nat) : Option (Int × Mem) :=
  if !LIBHAL_CHECK_LIBHALCONTEXT ctx then some (-1, m)
  else
    match LIBHAL_CHECK_UDI_VALID m udi with
    | none => none
    | some false => some (-1, m)
    | some true =>
      if !LIBHAL_CHECK_PARAM_VALID key then some (-1, m)
      else some (-1, m)

/-- The function `libhal_device_get_property_uint64`. -/
def libhal_device_get_property_uint64 (m : Mem) (ctx udi key _error : Nat) : Option (Nat × Mem) :=
  if !LIBHAL_CHECK_LIBHALCONTEXT ctx then some (to_uint64 (-1), m)
  else
    match LIBHAL_CHECK_UDI_VALID m udi with
    | none => none
    | some false => some (to_uint64 (-1), m)
    | some true =>
      if !LIBHAL_CHECK_PARAM_VALID key then some (to_uint64 (-1), m)
      else some (to_uint64 (-1), m)

/-- The function `libhal_device_get_property_double`. -/
def libhal_device_get_property_double (m : Mem) (ctx udi key _error : Nat) : Option (Nat × Mem) :=
  if !LIBHAL_CHECK_LIBHALCONTEXT ctx then some (DOUBLE_MINUS_ONE, m)
  else
    match LIBHAL_CHECK_UDI_VALID m udi with
    | none => none
    | some false => some (DOUBLE_MINUS_ONE, m)
    | some true =>
      if !LIBHAL_CHECK_PARAM_VALID key then some (DOUBLE_MINUS_ONE, m)
      else some (DOUBLE_MINUS_ONE, m)

/-- The function `libhal_device_get_property_bool`. -/
def libhal_device_get_property_bool (m : Mem) (ctx udi key _error : Nat) : Option (Bool × Mem) :=
  if !LIBHAL_CHECK_LIBHALCONTEXT ctx then some (false, m)
  else
    match LIBHAL_CHECK_UDI_VALID m udi with
    | none => none
    | some false => some (false, m)
    | some true =>
      if !LIBHAL_CHECK_PARAM_VALID key then some (false, m)
      else some (false, m)

/-- The function `libhal_device_set_property_string`. -/
def libhal_device_set_property_string (m : Mem) (ctx udi key value _error : Nat) :
    Option (Bool × Mem) :=
  if !LIBHAL_CHECK_LIBHALCONTEXT ctx then some (false, m)
  else
    match LIBHAL_CHECK_UDI_VALID m udi with
    | none => none
    | some false => some (false, m)
    | some true =>
      if !LIBHAL_CHECK_PARAM_VALID key then some (false, m)
      else
        if !LIBHAL_CHECK_PARAM_VALID value then some (false, m)
        else some (false, m)

/-- The function `libhal_device_set_property_int`. -/
def libhal_device_set_property_int (m : Mem) (ctx udi key : Nat) (_value : Int) (_error : Nat) :
    Option (Bool × Mem) :=
  if !LIBHAL_CHECK_LIBHALCONTEXT ctx then some (false, m)
  else
    match LIBHAL_CHECK_UDI_VALID m udi with
    | none => none
    | some false => some (false, m)
    | some true =>
      if !LIBHAL_CHECK_PARAM_VALID key then some (false, m)
      else some (false, m)

/-- The function `libhal_device_set_property_uint64`. -/
def libhal_device_set_property_uint64 (m : Mem) (ctx udi key _value _error : Nat) :
    Option (Bool × Mem) :=
  if !LIBHAL_CHECK_LIBHALCONTEXT ctx then some (false, m)
  else
    match LIBHAL_CHECK_UDI_VALID m udi with
    | none => none
    | some false => some (false, m)
    | some true =>
      if !LIBHAL_CHECK_PARAM_VALID key then some (false, m)
      else some (false, m)

/-- The function `libhal_device_set_property_double`. -/
def libhal_device_set_property_double (m : Mem) (ctx udi key _value _error : Nat) :
    Option (Bool × Mem) :=
  if !LIBHAL_CHECK_LIBHALCONTEXT ctx then some (false, m)
  else
    match LIBHAL_CHECK_UDI_VALID m udi with
    | none => none
    | some false => some (false, m)
    | some true =>
      if !LIBHAL_CHECK_PARAM_VALID key then some (false, m)
      else some (false, m)

/-- The function `libhal_device_set_property_bool`. -/
def libhal_device_set_property_bool (m : Mem) (ctx udi key _value _error : Nat) :
    Option (Bool × Mem) :=
  if !LIBHAL_CHECK_LIBHALCONTEXT ctx then some (false, m)
  else
    match LIBHAL_CHECK_UDI_VALID m udi with
    | none => none
    | some false => some (false, m)
    | some true =>
      if !LIBHAL_CHECK_PARAM_VALID key then some (false, m)
      else some (false, m)

/-- The function `libhal_device_remove_property`. -/
def libhal_device_remove_property (m : Mem) (ctx udi key _error : Nat) : Option (Bool × Mem) :=
  if !LIBHAL_CHECK_LIBHALCONTEXT ctx then some (false, m)
  else
    match LIBHAL_CHECK_UDI_VALID m udi with
    | none => none
    | some false => some (false, m)
    | some true =>
      if !LIBHAL_CHECK_PARAM_VALID key then some (false, m)
      else some (false, m)

/-- The function `libhal_device_property_strlist_append`. -/
def libhal_device_property_strlist_append (m : Mem) (ctx udi key value _error : Nat) :
    Option (Bool × Mem) :=
  if !LIBHAL_CHECK_LIBHALCONTEXT ctx then some (false, m)
  else
    match LIBHAL_CHECK_UDI_VALID m udi with
    | none => none
    | some false => some (false, m)
    | some true =>
      if !LIBHAL_CHECK_PARAM_VALID key then some (false, m)
      else
        if !LIBHAL_CHECK_PARAM_VALID value then some (false, m)
        else some (false, m)

/-- The function `libhal_device_property_strlist_prepend`. -/
def libhal_device_property_strlist_prepend (m : Mem) (ctx udi key value _error : Nat) :
    Option (Bool × Mem) :=
  if !LIBHAL_CHECK_LIBHALCONTEXT ctx then some (false, m)
  else
    match LIBHAL_CHECK_UDI_VALID m udi with
    | none => none
    | some false => some (false, m)
    | some true =>
      if !LIBHAL_CHECK_PARAM_VALID key then some (false, m)
      else
        if !LIBHAL_CHECK_PARAM_VALID value then some (false, m)
        else some (false, m)

/-- The function `libhal_device_property_strlist_remove_index`. -/
def libhal_device_property_strlist_remove_index (m : Mem) (ctx udi key _idx _error : Nat) :
    Option (Bool × Mem) :=
  if !LIBHAL_CHECK_LIBHALCONTEXT ctx then some (false, m)
  else
    match LIBHAL_CHECK_UDI_VALID m udi with
    | none => none
    | some false => some (false, m)
    | some true =>
      if !LIBHAL_CHECK_PARAM_VALID key then some (false, m)
      else some (false, m)

/-- The function `libhal_device_property_strlist_remove`. -/
def libhal_device_property_strlist_remove (m : Mem) (ctx udi key value _error : Nat) :
    Option (Bool × Mem) :=
  if !LIBHAL_CHECK_LIBHALCONTEXT ctx then some (false, m)
  else
    match LIBHAL_CHECK_UDI_VALID m udi with
    | none => none
    | some false => some (false, m)
    | some true =>
      if !LIBHAL_CHECK_PARAM_VALID key then some (false, m)
      else
        if !LIBHAL_CHECK_PARAM_VALID value then some (false, m)
        else some (false, m)

/-- The function `libhal_device_lock`. -/
def libhal_device_lock (m : Mem) (ctx udi _reason_to_lock reason_why_locked _error : Nat) :
    Option (Bool × Mem) :=
  if !LIBHAL_CHECK_LIBHALCONTEXT ctx then some (false, m)
  else
    match LIBHAL_CHECK_UDI_VALID m udi with
    | none => none
    | some false => some (false, m)
    | some true =>
      if reason_why_locked ≠ 0 then
        -- *reason_why_locked = NULL;
        match m.setPtr reason_why_locked 0 with
        | none => none
        | some m1 => some (false, m1)
      else some (false, m)

/-- The function `libhal_device_unlock`. -/
def libhal_device_unlock (m : Mem) (ctx udi _error : Nat) : Option (Bool × Mem) :=
  if !LIBHAL_CHECK_LIBHALCONTEXT ctx then some (false, m)
  else
    match LIBHAL_CHECK_UDI_VALID m udi with
    | none => none
    | some false => some (false, m)
    | some true =>
      some (false, m)

/-- The function `libhal_device_commit_to_gdl`. -/
def libhal_device_commit_to_gdl (m : Mem) (ctx temp_udi udi _error : Nat) : Option (Bool × Mem) :=
  if !LIBHAL_CHECK_LIBHALCONTEXT ctx then some (false, m)
  else
    match LIBHAL_CHECK_UDI_VALID m temp_udi with
    | none => none
    | some false => some (false, m)
    | some true =>
      match LIBHAL_CHECK_UDI_VALID m udi with
      | none => none
      | some false => some (false, m)
      | some true =>
        some (false, m)

/-- The function `libhal_remove_device`. -/
def libhal_remove_device (m : Mem) (ctx udi _error : Nat) : Option (Bool × Mem) :=
  if !LIBHAL_CHECK_LIBHALCONTEXT ctx then some (false, m)
  else
    match LIBHAL_CHECK_UDI_VALID m udi with
    | none => none
    | some false => some (false, m)
    | some true =>
      some (false, m)

/-- The function `libhal_device_exists`. -/
def libhal_device_exists (m : Mem) (ctx udi _error : Nat) : Option (Bool × Mem) :=
  if !LIBHAL_CHECK_LIBHALCONTEXT ctx then some (false, m)
  else
    match LIBHAL_CHECK_UDI_VALID m udi with
    | none => none
    | some false => some (false, m)
    | some true =>
      some (false, m)

/-- The function `libhal_device_property_exists`. -/
def libhal_device_property_exists (m : Mem) (ctx udi key _error : Nat) : Option (Bool × Mem) :=
  if !LIBHAL_CHECK_LIBHALCONTEXT ctx then some (false, m)
  else
    match LIBHAL_CHECK_UDI_VALID m udi with
    | none => none
    | some false => some (false, m)
    | some true =>
      if !LIBHAL_CHECK_PARAM_VALID key then some (false, m)
      else some (false, m)

/-- The function `libhal_merge_properties`. -/
def libhal_merge_properties (m : Mem) (ctx target_udi source_udi _error : Nat) :
    Option (Bool × Mem) :=
  if !LIBHAL_CHECK_LIBHALCONTEXT ctx then some (false, m)
  else
    match LIBHAL_CHECK_UDI_VALID m target_udi with
    | none => none
    | some false => some (false, m)
    | some true =>
      match LIBHAL_CHECK_UDI_VALID m source_udi with
      | none => none
      | some false => some (false, m)
      | some true =>
        some (false, m)

/-- The function `libhal_device_matches`. -/
def libhal_device_matches (m : Mem) (ctx udi1 udi2 property_namespace _error : Nat) :
    Option (Bool × Mem) :=
  if !LIBHAL_CHECK_LIBHALCONTEXT ctx then some (false, m)
  else
    match LIBHAL_CHECK_UDI_VALID m udi1 with
    | none => none
    | some false => some (false, m)
    | some true =>
      match LIBHAL_CHECK_UDI_VALID m udi2 with
      | none => none
      | some false => some (false, m)
      | some true =>
        if !LIBHAL_CHECK_PARAM_VALID property_namespace then some (false, m)
        else some (false, m)

/-- The function `libhal_device_add_capability`. -/
def libhal_device_add_capability (m : Mem) (ctx udi capability _error : Nat) :
    Option (Bool × Mem) :=
  if !LIBHAL_CHECK_LIBHALCONTEXT ctx then some (false, m)
  else
    match LIBHAL_CHECK_UDI_VALID m udi with
    | none => none
    | some false => some (false, m)
    | some true =>
      if !LIBHAL_CHECK_PARAM_VALID capability then some (false, m)
      else some (false, m)

/-- The function `libhal_device_query_capability`. -/
def libhal_device_query_capability (m : Mem) (ctx udi capability _error : Nat) :
    Option (Bool × Mem) :=
  if !LIBHAL_CHECK_LIBHALCONTEXT ctx then some (false, m)
  else
    match LIBHAL_CHECK_UDI_VALID m udi with
    | none => none
    | some false => some (false, m)
    | some true =>
      if !LIBHAL_CHECK_PARAM_VALID capability then some (false, m)
      else some (false, m)

/-- The function `libhal_device_property_watch_all`. -/
def libhal_device_property_watch_all (m : Mem) (ctx _error : Nat) : Option (Bool × Mem) :=
  if !LIBHAL_CHECK_LIBHALCONTEXT ctx then some (false, m)
  else some (false, m)

/-- The function `libhal_device_property_remove_watch_all`. -/
def libhal_device_property_remove_watch_all (m : Mem) (ctx _error : Nat) : Option (Bool × Mem) :=
  if !LIBHAL_CHECK_LIBHALCONTEXT ctx then some (false, m)
  else some (false, m)

/-- The function `libhal_device_add_property_watch`. -/
def libhal_device_add_property_watch (m : Mem) (ctx udi _error : Nat) : Option (Bool × Mem) :=
  if !LIBHAL_CHECK_LIBHALCONTEXT ctx then some (false, m)
  else
    match LIBHAL_CHECK_UDI_VALID m udi with
    | none => none
    | some false => some (false, m)
    | some true =>
      some (false, m)

/-- The function `libhal_device_remove_property_watch`. -/
def libhal_device_remove_property_watch (m : Mem) (_ctx _udi _error : Nat) : Option (Bool × Mem) :=
  some (false, m)

/-- The function `libhal_device_rescan`. -/
def libhal_device_rescan (m : Mem) (ctx udi _error : Nat) : Option (Bool × Mem) :=
  if !LIBHAL_CHECK_LIBHALCONTEXT ctx then some (false, m)
  else
    match LIBHAL_CHECK_UDI_VALID m udi with
    | none => none
    | some false => some (false, m)
    | some true =>
      some (false, m)

/-- The function `libhal_device_reprobe`. -/
def libhal_device_reprobe (m : Mem) (ctx udi _error : Nat) : Option (Bool × Mem) :=
  if !LIBHAL_CHECK_LIBHALCONTEXT ctx then some (false, m)
  else
    match LIBHAL_CHECK_UDI_VALID m udi with
    | none => none
    | some false => some (false, m)
    | some true =>
      some (false, m)

/-- The function `libhal_device_emit_condition`. -/
def libhal_device_emit_condition (m : Mem) (ctx udi condition_name condition_details _error : Nat) :
    Option (Bool × Mem) :=
  if !LIBHAL_CHECK_LIBHALCONTEXT ctx then some (false, m)
  else
    match LIBHAL_CHECK_UDI_VALID m udi with
    | none => none
    | some false => some (false, m)
    | some true =>
      if !LIBHAL_CHECK_PARAM_VALID condition_name then some (false, m)
      else
        if !LIBHAL_CHECK_PARAM_VALID condition_details then some (false, m)
        else some (false, m)

/-- The function `libhal_device_addon_is_ready`. -/
def libhal_device_addon_is_ready (m : Mem) (ctx udi _error : Nat) : Option (Bool × Mem) :=
  if !LIBHAL_CHECK_LIBHALCONTEXT ctx then some (false, m)
  else
    match LIBHAL_CHECK_UDI_VALID m udi with
    | none => none
    | some false => some (false, m)
    | some true =>
      some (false, m)

/-- The function `libhal_device_claim_interface`. -/
def libhal_device_claim_interface (m : Mem) (ctx udi interface_name _introspection_xml _error : Nat) :
    Option (Bool × Mem) :=
  if !LIBHAL_CHECK_LIBHALCONTEXT ctx then some (false, m)
  else
    match LIBHAL_CHECK_UDI_VALID m udi with
    | none => none
    | some false => some (false, m)
    | some true =>
      if !LIBHAL_CHECK_PARAM_VALID interface_name then some (false, m)
      else some (false, m)

/-- The function `libhal_device_acquire_interface_lock`. -/
def libhal_device_acquire_interface_lock (m : Mem) (ctx udi interface _exclusive _error : Nat) :
    Option (Bool × Mem) :=
  if !LIBHAL_CHECK_LIBHALCONTEXT ctx then some (false, m)
  else
    match LIBHAL_CHECK_UDI_VALID m udi with
    | none => none
    | some false => some (false, m)
    | some true =>
      if !LIBHAL_CHECK_PARAM_VALID interface then some (false, m)
      else some (false, m)

/-- The function `libhal_device_release_interface_lock`. -/
def libhal_device_release_interface_lock (m : Mem) (ctx udi interface _error : Nat) :
    Option (Bool × Mem) :=
  if !LIBHAL_CHECK_LIBHALCONTEXT ctx then some (false, m)
  else
    match LIBHAL_CHECK_UDI_VALID m udi with
    | none => none
    | some false => some (false, m)
    | some true =>
      if !LIBHAL_CHECK_PARAM_VALID interface then some (false, m)
      else some (false, m)

/-- The function `libhal_device_is_caller_locked_out`. -/
def libhal_device_is_caller_locked_out (m : Mem) (ctx udi interface caller _error : Nat) :
    Option (Bool × Mem) :=
  if !LIBHAL_CHECK_LIBHALCONTEXT ctx then some (true, m)
  else
    match LIBHAL_CHECK_UDI_VALID m udi with
    | none => none
    | some false => some (true, m)
    | some true =>
      if !LIBHAL_CHECK_PARAM_VALID interface then some (true, m)
      else
        if !LIBHAL_CHECK_PARAM_VALID caller then some (true, m)
        else some (true, m)

/-- The function `libhal_device_is_locked_by_others`. -/
def libhal_device_is_locked_by_others (m : Mem) (ctx udi interface _error : Nat) :
    Option (Bool × Mem) :=
  if !LIBHAL_CHECK_LIBHALCONTEXT ctx then some (true, m)
  else
    match LIBHAL_CHECK_UDI_VALID m udi with
    | none => none
    | some false => some (true, m)
    | some true =>
      if !LIBHAL_CHECK_PARAM_VALID interface then some (true, m)
      else some (true, m)

/-- The function `libhal_device_is_caller_privileged`. -/
def libhal_device_is_caller_privileged (m : Mem) (ctx udi action caller _error : Nat) :
    Option (Nat × Mem) :=
  if !LIBHAL_CHECK_LIBHALCONTEXT ctx then some (0, m)
  else
    match LIBHAL_CHECK_UDI_VALID m udi with
    | none => none
    | some false => some (0, m)
    | some true =>
      if !LIBHAL_CHECK_PARAM_VALID action then some (0, m)
      else
        if !LIBHAL_CHECK_PARAM_VALID caller then some (0, m)
        else some (0, m)

/-! ### The calls that take a device identifier -/

/-- A value returned by a call of libhal.c, with its C type. -/
inductive Ret
  | bool (b : Bool)
  | ptr (p : Nat)
  | int32 (v : Int)
  | uint64 (v : Nat)
  | double (bits : Nat)
  | tag (t : LibHalPropertyType)
  deriving DecidableEq, Repr

/-- A call of one of the functions of libhal.c that take a context and a device
identifier, with its other arguments.  A function with two device identifiers
has one entry for each of them, named after the parameter that receives the
identifier under consideration; the other one is an argument of the entry. -/
inductive UdiCall
  | device_get_property_type (key error : Nat)
  | device_get_property_strlist (key error : Nat)
  | device_get_property_string (key error : Nat)
  | device_get_property_int (key error : Nat)
  | device_get_property_uint64 (key error : Nat)
  | device_get_property_double (key error : Nat)
  | device_get_property_bool (key error : Nat)
  | device_set_property_string (key value error : Nat)
  | device_set_property_int (key : Nat) (value : Int) (error : Nat)
  | device_set_property_uint64 (key value error : Nat)
  | device_set_property_double (key value error : Nat)
  | device_set_property_bool (key value error : Nat)
  | device_remove_property (key error : Nat)
  | device_property_strlist_append (key value error : Nat)
  | device_property_strlist_prepend (key value error : Nat)
  | device_property_strlist_remove_index (key idx error : Nat)
  | device_property_strlist_remove (key value error : Nat)
  | device_lock (reason_to_lock reason_why_locked error : Nat)
  | device_unlock (error : Nat)
  | device_commit_to_gdl_temp_udi (udi error : Nat)
  | device_commit_to_gdl_udi (temp_udi error : Nat)
  | remove_device (error : Nat)
  | device_exists (error : Nat)
  | device_property_exists (key error : Nat)
  | merge_properties_target_udi (source_udi error : Nat)
  | merge_properties_source_udi (target_udi error : Nat)
  | device_matches_udi1 (udi2 property_namespace error : Nat)
  | device_matches_udi2 (udi1 property_namespace error : Nat)
  | device_add_capability (capability error : Nat)
  | device_query_capability (capability error : Nat)
  | device_add_property_watch (error : Nat)
  | device_remove_property_watch (error : Nat)
  | device_rescan (error : Nat)
  | device_reprobe (error : Nat)
  | device_emit_condition (condition_name condition_details error : Nat)
  | device_addon_is_ready (error : Nat)
  | device_claim_interface (interface_name introspection_xml error : Nat)
  | device_acquire_interface_lock (interface exclusive error : Nat)
  | device_release_interface_lock (interface error : Nat)
  | device_is_caller_locked_out (interface caller error : Nat)
  | device_is_locked_by_others (interface error : Nat)
  | device_is_caller_privileged (action caller error : Nat)
  deriving DecidableEq, Repr

/-- The call on the heap `m` with the context `ctx` and the device identifier
`u`. -/
def UdiCall.run (m : Mem) (ctx u : Nat) : UdiCall → Option (Ret × Mem)
  | UdiCall.device_get_property_type key error =>
    (libhal_device_get_property_type m ctx u key error).map (fun t => (Ret.tag t, m))
  | UdiCall.device_get_property_strlist key error =>
    (libhal_device_get_property_strlist m ctx u key error).map
      (fun r => (Ret.ptr r.1, r.2))
  | UdiCall.device_get_property_string key error =>
    (libhal_device_get_property_string m ctx u key error).map
      (fun r => (Ret.ptr r.1, r.2))
  | UdiCall.device_get_property_int key error =>
    (libhal_device_get_property_int m ctx u key error).map
      (fun r => (Ret.int32 r.1, r.2))
  | UdiCall.device_get_property_uint64 key error =>
    (libhal_device_get_property_uint64 m ctx u key error).map
      (fun r => (Ret.uint64 r.1, r.2))
  | UdiCall.device_get_property_double key error =>
    (libhal_device_get_property_double m ctx u key error).map
      (fun r => (Ret.double r.1, r.2))
  | UdiCall.device_get_property_bool key error =>
    (libhal_device_get_property_bool m ctx u key error).map
      (fun r => (Ret.bool r.1, r.2))
  | UdiCall.device_set_property_string key value error =>
    (libhal_device_set_property_string m ctx u key value error).map
      (fun r => (Ret.bool r.1, r.2))
  | UdiCall.device_set_property_int key value error =>
    (libhal_device_set_property_int m ctx u key value error).map
      (fun r => (Ret.bool r.1, r.2))
  | UdiCall.device_set_property_uint64 key value error =>
    (libhal_device_set_property_uint64 m ctx u key value error).map
      (fun r => (Ret.bool r.1, r.2))
  | UdiCall.device_set_property_double key value error =>
    (libhal_device_set_property_double m ctx u key value error).map
      (fun r => (Ret.bool r.1, r.2))
  | UdiCall.device_set_property_bool key value error =>
    (libhal_device_set_property_bool m ctx u key value error).map
      (fun r => (Ret.bool r.1, r.2))
  | UdiCall.device_remove_property key error =>
    (libhal_device_remove_property m ctx u key error).map
      (fun r => (Ret.bool r.1, r.2))
  | UdiCall.device_property_strlist_append key value error =>
    (libhal_device_property_strlist_append m ctx u key value error).map
      (fun r => (Ret.bool r.1, r.2))
  | UdiCall.device_property_strlist_prepend key value error =>
    (libhal_device_property_strlist_prepend m ctx u key value error).map
      (fun r => (Ret.bool r.1, r.2))
  | UdiCall.device_property_strlist_remove_index key idx error =>
    (libhal_device_property_strlist_remove_index m ctx u key idx error).map
      (fun r => (Ret.bool r.1, r.2))
  | UdiCall.device_property_strlist_remove key value error =>
    (libhal_device_property_strlist_remove m ctx u key value error).map
      (fun r => (Ret.bool r.1, r.2))
  | UdiCall.device_lock reason_to_lock reason_why_locked error =>
    (libhal_device_lock m ctx u reason_to_lock reason_why_locked error).map
      (fun r => (Ret.bool r.1, r.2))
  | UdiCall.device_unlock error =>
    (libhal_device_unlock m ctx u error).map
      (fun r => (Ret.bool r.1, r.2))
  | UdiCall.device_commit_to_gdl_temp_udi udi error =>
    (libhal_device_commit_to_gdl m ctx u udi error).map
      (fun r => (Ret.bool r.1, r.2))
  | UdiCall.device_commit_to_gdl_udi temp_udi error =>
    (libhal_device_commit_to_gdl m ctx temp_udi u error).map
      (fun r => (Ret.bool r.1, r.2))
  | UdiCall.remove_device error =>
    (libhal_remove_device m ctx u error).map
      (fun r => (Ret.bool r.1, r.2))
  | UdiCall.device_exists error =>
    (libhal_device_exists m ctx u error).map
      (fun r => (Ret.bool r.1, r.2))
  | UdiCall.device_property_exists key error =>
    (libhal_device_property_exists m ctx u key error).map
      (fun r => (Ret.bool r.1, r.2))
  | UdiCall.merge_properties_target_udi source_udi error =>
    (libhal_merge_properties m ctx u source_udi error).map
      (fun r => (Ret.bool r.1, r.2))
  | UdiCall.merge_properties_source_udi target_udi error =>
    (libhal_merge_properties m ctx target_udi u error).map
      (fun r => (Ret.bool r.1, r.2))
  | UdiCall.device_matches_udi1 udi2 property_namespace error =>
    (libhal_device_matches m ctx u udi2 property_namespace error).map
      (fun r => (Ret.bool r.1, r.2))
  | UdiCall.device_matches_udi2 udi1 property_namespace error =>
    (libhal_device_matches m ctx udi1 u property_namespace error).map
      (fun r => (Ret.bool r.1, r.2))
  | UdiCall.device_add_capability capability error =>
    (libhal_device_add_capability m ctx u capability error).map
      (fun r => (Ret.bool r.1, r.2))
  | UdiCall.device_query_capability capability error =>
    (libhal_device_query_capability m ctx u capability error).map
      (fun r => (Ret.bool r.1, r.2))
  | UdiCall.device_add_property_watch error =>
    (libhal_device_add_property_watch m ctx u error).map
      (fun r => (Ret.bool r.1, r.2))
  | UdiCall.device_remove_property_watch error =>
    (libhal_device_remove_property_watch m ctx u error).map
      (fun r => (Ret.bool r.1, r.2))
  | UdiCall.device_rescan error =>
    (libhal_device_rescan m ctx u error).map
      (fun r => (Ret.bool r.1, r.2))
  | UdiCall.device_reprobe error =>
    (libhal_device_reprobe m ctx u error).map
      (fun r => (Ret.bool r.1, r.2))
  | UdiCall.device_emit_condition condition_name condition_details error =>
    (libhal_device_emit_condition m ctx u condition_name condition_details error).map
      (fun r => (Ret.bool r.1, r.2))
  | UdiCall.device_addon_is_ready error =>
    (libhal_device_addon_is_ready m ctx u error).map
      (fun r => (Ret.bool r.1, r.2))
  | UdiCall.device_claim_interface interface_name introspection_xml error =>
    (libhal_device_claim_interface m ctx u interface_name introspection_xml error).map
      (fun r => (Ret.bool r.1, r.2))
  | UdiCall.device_acquire_interface_lock interface exclusive error =>
    (libhal_device_acquire_interface_lock m ctx u interface exclusive error).map
      (fun r => (Ret.bool r.1, r.2))
  | UdiCall.device_release_interface_lock interface error =>
    (libhal_device_release_interface_lock m ctx u interface error).map
      (fun r => (Ret.bool r.1, r.2))
  | UdiCall.device_is_caller_locked_out interface caller error =>
    (libhal_device_is_caller_locked_out m ctx u interface caller error).map
      (fun r => (Ret.bool r.1, r.2))
  | UdiCall.device_is_locked_by_others interface error =>
    (libhal_device_is_locked_by_others m ctx u interface error).map
      (fun r => (Ret.bool r.1, r.2))
  | UdiCall.device_is_caller_privileged action caller error =>
    (libhal_device_is_caller_privileged m ctx u action caller error).map
      (fun r => (Ret.ptr r.1, r.2))

/-- The value that the function of the call passes to its validation macros,
which is also the value its last `return` gives. -/
def UdiCall.failure : UdiCall → Ret
  | UdiCall.device_get_property_type _ _ => Ret.tag LibHalPropertyType.INVALID
  | UdiCall.device_get_property_strlist _ _ => Ret.ptr 0
  | UdiCall.device_get_property_string _ _ => Ret.ptr 0
  | UdiCall.device_get_property_int _ _ => Ret.int32 (-1)
  | UdiCall.device_get_property_uint64 _ _ => Ret.uint64 (to_uint64 (-1))
  | UdiCall.device_get_property_double _ _ => Ret.double DOUBLE_MINUS_ONE
  | UdiCall.device_get_property_bool _ _ => Ret.bool false
  | UdiCall.device_set_property_string _ _ _ => Ret.bool false
  | UdiCall.device_set_property_int _ _ _ => Ret.bool false
  | UdiCall.device_set_property_uint64 _ _ _ => Ret.bool false
  | UdiCall.device_set_property_double _ _ _ => Ret.bool false
  | UdiCall.device_set_property_bool _ _ _ => Ret.bool false
  | UdiCall.device_remove_property _ _ => Ret.bool false
  | UdiCall.device_property_strlist_append _ _ _ => Ret.bool false
  | UdiCall.device_property_strlist_prepend _ _ _ => Ret.bool false
  | UdiCall.device_property_strlist_remove_index _ _ _ => Ret.bool false
  | UdiCall.device_property_strlist_remove _ _ _ => Ret.bool false
  | UdiCall.device_lock _ _ _ => Ret.bool false
  | UdiCall.device_unlock _ => Ret.bool false
  | UdiCall.device_commit_to_gdl_temp_udi _ _ => Ret.bool false
  | UdiCall.device_commit_to_gdl_udi _ _ => Ret.bool false
  | UdiCall.remove_device _ => Ret.bool false
  | UdiCall.device_exists _ => Ret.bool false
  | UdiCall.device_property_exists _ _ => Ret.bool false
  | UdiCall.merge_properties_target_udi _ _ => Ret.bool false
  | UdiCall.merge_properties_source_udi _ _ => Ret.bool false
  | UdiCall.device_matches_udi1 _ _ _ => Ret.bool false
  | UdiCall.device_matches_udi2 _ _ _ => Ret.bool false
  | UdiCall.device_add_capability _ _ => Ret.bool false
  | UdiCall.device_query_capability _ _ => Ret.bool false
  | UdiCall.device_add_property_watch _ => Ret.bool false
  | UdiCall.device_remove_property_watch _ => Ret.bool false
  | UdiCall.device_rescan _ => Ret.bool false
  | UdiCall.device_reprobe _ => Ret.bool false
  | UdiCall.device_emit_condition _ _ _ => Ret.bool false
  | UdiCall.device_addon_is_ready _ => Ret.bool false
  | UdiCall.device_claim_interface _ _ _ => Ret.bool false
  | UdiCall.device_acquire_interface_lock _ _ _ => Ret.bool false
  | UdiCall.device_release_interface_lock _ _ => Ret.bool false
  | UdiCall.device_is_caller_locked_out _ _ _ => Ret.bool true
  | UdiCall.device_is_locked_by_others _ _ => Ret.bool true
  | UdiCall.device_is_caller_privileged _ _ _ => Ret.ptr 0

/-- The device identifier that the function of the call validates before the
one under consideration, if there is one, can be read. -/
def UdiCall.defined (m : Mem) : UdiCall → Bool
  | UdiCall.device_commit_to_gdl_udi temp_udi _ => (LIBHAL_CHECK_UDI_VALID m temp_udi).isSome
  | UdiCall.merge_properties_source_udi target_udi _ => (LIBHAL_CHECK_UDI_VALID m target_udi).isSome
  | UdiCall.device_matches_udi2 udi1 _ _ => (LIBHAL_CHECK_UDI_VALID m udi1).isSome
  | _ => true

/-! ### Property sets and iterators -/

/-- The function `libhal_property_set_sort`: its body is empty. -/
def libhal_property_set_sort (m : Mem) (_set : Nat) : Mem :=
  m

/-- The function `libhal_property_set_get_num_elems`. -/
def libhal_property_set_get_num_elems (_m : Mem) (_set : Nat) : Nat :=
  0

/-- The function `libhal_ps_get_type`. -/
def libhal_ps_get_type (set key : Nat) : LibHalPropertyType :=
  if !LIBHAL_CHECK_PARAM_VALID set then LibHalPropertyType.INVALID
  else if !LIBHAL_CHECK_PARAM_VALID key then LibHalPropertyType.INVALID
  else LibHalPropertyType.INVALID

/-- The function `libhal_ps_get_string`. -/
def libhal_ps_get_string (set key : Nat) : Nat :=
  if !LIBHAL_CHECK_PARAM_VALID set then 0
  else if !LIBHAL_CHECK_PARAM_VALID key then 0
  else 0

/-- The function `libhal_ps_get_int32`. -/
def libhal_ps_get_int32 (set key : Nat) : Int :=
  if !LIBHAL_CHECK_PARAM_VALID set then 0
  else if !LIBHAL_CHECK_PARAM_VALID key then 0
  else 0

/-- The function `libhal_ps_get_uint64`. -/
def libhal_ps_get_uint64 (set key : Nat) : Nat :=
  if !LIBHAL_CHECK_PARAM_VALID set then 0
  else if !LIBHAL_CHECK_PARAM_VALID key then 0
  else 0

/-- The function `libhal_ps_get_double`; the result is the pattern of the
`double` returned. -/
def libhal_ps_get_double (set key : Nat) : Nat :=
  if !LIBHAL_CHECK_PARAM_VALID set then DOUBLE_ZERO
  else if !LIBHAL_CHECK_PARAM_VALID key then DOUBLE_ZERO
  else DOUBLE_ZERO

/-- The function `libhal_ps_get_bool`. -/
def libhal_ps_get_bool (set key : Nat) : Bool :=
  if !LIBHAL_CHECK_PARAM_VALID set then false
  else if !LIBHAL_CHECK_PARAM_VALID key then false
  else false

/-- The function `libhal_psi_init`: it returns when `set` is NULL and has nothing
after that test. -/
def libhal_psi_init (m : Mem) (_iter set : Nat) : Mem :=
  if set = 0 then m
  else m

/-- The function `libhal_psi_has_more`. -/
def libhal_psi_has_more (_m : Mem) (_iter : Nat) : Bool :=
  false

/-- The function `libhal_psi_next`: its body is empty. -/
def libhal_psi_next (m : Mem) (_iter : Nat) : Mem :=
  m

/-- The caller's loop
`for (libhal_psi_init (&it, s); libhal_psi_has_more (&it); libhal_psi_next (&it)) n++;`
after the call of `libhal_psi_init`, with `n` advances made so far.  The result
is the number of advances and the heap at the end. -/
def psi_advance_loop (iter : Nat) : Nat → Mem → Nat → Option (Nat × Mem)
  | 0, _, _ => none
  | fuel + 1, m, n =>
    if libhal_psi_has_more m iter then psi_advance_loop iter fuel (libhal_psi_next m iter) (n + 1)
    else some (n, m)

/-- The number of `libhal_psi_next` advances of the caller's loop over the set
`set` with the iterator at `iter`. -/
def psi_count_advances (fuel : Nat) (m : Mem) (iter set : Nat) : Option (Nat × Mem) :=
  psi_advance_loop iter fuel (libhal_psi_init m iter set) 0

namespace Mem

/-- The iterator structure `*p`. -/
def getIter (m : Mem) (p : Nat) : Option LibHalPropertySetIterator :=
  match m.read p with
  | some (Obj.iter i) => some i
  | _ => none

/-- The properties of the set `*set`: the array that `set->properties` points
to, no property when that pointer is NULL. -/
def getProps (m : Mem) (set : Nat) : Option (List LibHalProperty) :=
  match m.read set with
  | some (Obj.pset s) =>
    if s.properties = 0 then some []
    else
      match m.read s.properties with
      | some (Obj.props ps) => some ps
      | _ => none
  | _ => none

end Mem

/-- The keys of the properties `ps`, as strings, in the order of `ps`. -/
def keys_of (m : Mem) : List LibHalProperty → Option (List (List Nat))
  | [] => some []
  | p :: ps =>
    match cstring m p.key, keys_of m ps with
    | some k, some ks => some (k :: ks)
    | _, _ => none

/-- The keys of the properties of the set `*set`, in the order of the set. -/
def property_keys (m : Mem) (set : Nat) : Option (List (List Nat)) :=
  match m.getProps set with
  | some ps => keys_of m ps
  | none => none

/-- The keys `ks` are in non-decreasing order: `strcmp` of each key with the
next one is not positive. -/
def keys_sorted : List (List Nat) → Bool
  | a :: b :: rest => decide (strcmp a b ≤ 0) && keys_sorted (b :: rest)
  | _ => true

/-! ### libhal_string_array_length -/

/-- The loop `for (i = 0; str_array[i] != NULL; i++) ;` of
`libhal_string_array_length`, entered at index `i`; `i` is an `unsigned int`.
`fuel` bounds the number of iterations. -/
def string_array_length_loop (str_array : Nat) : Nat → Nat → Mem → Option Nat
  | 0, _, _ => none
  | fuel + 1, i, m =>
    match m.getCell str_array i with
    | none => none
    | some c =>
      if c = 0 then some i
      else string_array_length_loop str_array fuel ((i + 1) % 2 ^ 32) m

/-- The function `libhal_string_array_length`. -/
def libhal_string_array_length (m : Mem) (str_array : Nat) : Option Nat :=
  if str_array = 0 then some 0
  else string_array_length_loop str_array (m.cellCount str_array + 1) 0 m

/-! ### Delivery of notifications -/

/-- Modelled from the spec: a notification delivered by the transport, with its
event kind and its payload, the device and the key as strings. -/
structure Notification where
  kind : Callback
  udi : List Nat
  key : List Nat
  deriving DecidableEq, Repr

/-- Modelled from the spec: one call of a registered callback, with the function
called, the context and the payload passed to it. -/
structure Invocation where
  callback : Nat
  ctx : Nat
  udi : List Nat
  key : List Nat
  deriving DecidableEq, Repr

/-- Modelled from the spec: libhal.c has no function that receives a notification
from the transport, and no function of it calls through a callback slot.  In
the spec, when the transport delivers a notification matching a registered
kind, the registry invokes the corresponding callback synchronously with the
context and the event payload, and an unregistered event kind is silently
dropped.  The result lists the calls made. -/
def dispatch (m : Mem) (ctx : Nat) (n : Notification) : Option (List Invocation) :=
  match m.getCtx ctx with
  | none => none
  | some c =>
    if n.kind.slot c = 0 then some []
    else some [{ callback := n.kind.slot c, ctx := ctx, udi := n.udi, key := n.key }]

/-! ### Changesets under calls that may fail -/

/-- The calls of `calls` made in turn on the changeset `changeset`, whatever
each of them returns.  The result is the number of calls that returned TRUE and
the heap after the last call. -/
def run_setters_count (changeset : Nat) : List SetterCall → Mem → Option (Nat × Mem)
  | [], m => some (0, m)
  | call :: rest, m =>
    match call.run m changeset with
    | none => none
    | some (r, m1) =>
      match run_setters_count changeset rest m1 with
      | none => none
      | some (n, m2) => some (if r then n + 1 else n, m2)

/-- The call has a NULL argument that its setter tests before it allocates: the
key, and for the string setter the value as well. -/
def SetterCall.nullArg : SetterCall → Bool
  | SetterCall.string k v => k == 0 || v == 0
  | SetterCall.int k _ => k == 0
  | SetterCall.uint64 k _ => k == 0
  | SetterCall.double k _ => k == 0
  | SetterCall.bool k _ => k == 0
  | SetterCall.strlist k _ => k == 0

/-- Along the sequence `l`, the `prev` pointer of each element is the element
before it, and `p` for the first one. -/
def PrevChain (m : Mem) : Nat → List Nat → Prop
  | _, [] => True
  | p, a :: l => (∃ e, m.read a = some (Obj.elem e) ∧ e.prev = p) ∧ PrevChain m a l

/-- The changeset at `cs`, with record `c`, is a doubly-linked list with the
element sequence `L`, and its device identifier is a block holding the string
`us`. -/
structure Chain (m : Mem) (cs : Nat) (c : LibHalChangeSet) (L : List Nat) (us : List Nat) :
    Prop where
  hcs : m.read cs = some (Obj.cset c)
  hudi : m.read c.udi = some (Obj.str us)
  seq : IsSeq m c.head L
  tail : c.tail = L.getLastD 0
  nodup : L.Nodup
  prev : PrevChain m 0 L

/-! ### What a caller sees of a context -/

/-- The value returned by the call `op` on the context `ctx`. -/
def CtxOp.ret (ctx : Nat) : CtxOp → Mem → Option Ret
  | CtxOp.set_user_data d, m => (libhal_ctx_set_user_data m ctx d).map (fun r => Ret.bool r.1)
  | CtxOp.set_cache b, m => (libhal_ctx_set_cache m ctx b).map (fun r => Ret.bool r.1)
  | CtxOp.set_dbus_connection conn, m =>
    (libhal_ctx_set_dbus_connection m ctx conn).map (fun r => Ret.bool r.1)
  | CtxOp.init e, m => (libhal_ctx_init m ctx e).map (fun r => Ret.bool r.1)
  | CtxOp.shutdown e, m => (libhal_ctx_shutdown m ctx e).map (fun r => Ret.bool r.1)
  | CtxOp.set_callback k cb, m => (k.setter m ctx cb).map (fun r => Ret.bool r.1)
  | CtxOp.get_property_string udi key e, m =>
    (libhal_device_get_property_string m ctx udi key e).map (fun r => Ret.ptr r.1)
  | CtxOp.get_all_devices_with_properties n u ps e, m =>
    (libhal_get_all_devices_with_properties m ctx n u ps e).map (fun r => Ret.bool r.1)

/-- What a caller sees of the calls `ops` made in turn on the context `ctx`: the
values they return, and at the end what `libhal_ctx_get_dbus_connection` and
`libhal_ctx_get_user_data` return and the heap, in which the caller can read
every block but the context, which is opaque. -/
def observe (ctx : Nat) : List CtxOp → Mem → Option (List Ret × Nat × Nat × Mem)
  | [], m =>
    match libhal_ctx_get_dbus_connection m ctx, libhal_ctx_get_user_data m ctx with
    | some c, some d => some ([], c, d, m)
    | _, _ => none
  | op :: ops, m =>
    match op.ret ctx m, op.run ctx m with
    | some r, some m1 =>
      match observe ctx ops m1 with
      | some (rs, c, d, m2) => some (r :: rs, c, d, m2)
      | none => none
    | _, _ => none

/-- The contexts `x` and `y` have the same connection, the same callbacks and
the same user data; their flags may differ. -/
structure SameButFlags (x y : LibHalContext) : Prop where
  connection : x.connection = y.connection
  user_data : x.user_data = y.user_data
  slots : ∀ k : Callback, k.slot x = k.slot y

/-! ### Example heaps -/

/-- A caller's heap: the device identifier `/org/freedesktop/Hal/devices/foo` at
address 1, the strings `k`, `a`, `b`, `c` at 2, 3, 4, 5, the array
`{"a", "b", "c", NULL, "b"}` at 6, the string `not-a-real-udi` at 7 and an
initialized context at 8.  Every allocation succeeds. -/
def exHeap : Mem :=
  { heap := [some (Obj.str (ascii "/org/freedesktop/Hal/devices/foo")),
      some (Obj.str (ascii "k")), some (Obj.str (ascii "a")), some (Obj.str (ascii "b")),
      some (Obj.str (ascii "c")), some (Obj.strv [3, 4, 5, 0, 4]),
      some (Obj.str (ascii "not-a-real-udi")),
      some (Obj.ctx { connection := 77, is_initialized := true, is_shutdown := false, cache_enabled := 0, is_direct := false, device_added := 0, device_removed := 0, device_new_capability := 0, device_lost_capability := 0, device_property_modified := 0, device_condition := 0, global_interface_lock_acquired := 0, global_interface_lock_released := 0, interface_lock_acquired := 0, interface_lock_released := 0, singleton_device_added := 0, singleton_device_removed := 0, user_data := 0 })],
    oracle := [], nalloc := 0, freed := [] }

/-- The heap `exHeap` after `libhal_device_new_changeset` on the identifier at
address 1: the changeset is the block 9 and its copy of the identifier the
block 10. -/
def exHeapCs : Mem :=
  { exHeap with
    heap := exHeap.heap ++ [some (Obj.cset { udi := 10, head := 0, tail := 0 }),
      some (Obj.str (ascii "/org/freedesktop/Hal/devices/foo"))],
    nalloc := 2 }

/-- The heap `exHeapCs` after `libhal_changeset_set_property_string` with the
key `k` (address 2) and the value `a` (address 3): the element is the block 11,
its key the block 12 and its payload the block 13. -/
def exHeapS : Mem :=
  { exHeap with
    heap := exHeap.heap ++ [some (Obj.cset { udi := 10, head := 11, tail := 11 }),
      some (Obj.str (ascii "/org/freedesktop/Hal/devices/foo")),
      some (Obj.elem { key := 12, change_type := LibHalPropertyType.STRING, value := ElemValue.val_str 13, next := 0, prev := 0 }),
      some (Obj.str (ascii "k")), some (Obj.str (ascii "a"))],
    nalloc := 5 }

/-- The heap `exHeapCs` after `libhal_changeset_set_property_strlist` with the
key `k` (address 2) and the array at address 6: the element is the block 11,
its key the block 12, the copied array the block 13 and the copied strings the
blocks 14, 15, 16. -/
def exHeapL : Mem :=
  { exHeap with
    heap := exHeap.heap ++ [some (Obj.cset { udi := 10, head := 11, tail := 11 }),
      some (Obj.str (ascii "/org/freedesktop/Hal/devices/foo")),
      some (Obj.elem { key := 12, change_type := LibHalPropertyType.STRLIST, value := ElemValue.val_strlist 13, next := 0, prev := 0 }),
      some (Obj.str (ascii "k")), some (Obj.strv [14, 15, 16, 0]),
      some (Obj.str (ascii "a")), some (Obj.str (ascii "b")), some (Obj.str (ascii "c"))],
    nalloc := 8 }

/-- The heap `exHeapL` after `libhal_changeset_set_property_int` with the key
`k` (address 2) and the value `-7`: the second element is the block 17 and its
key the block 18. -/
def exHeapLI : Mem :=
  { exHeap with
    heap := exHeap.heap ++ [some (Obj.cset { udi := 10, head := 11, tail := 17 }),
      some (Obj.str (ascii "/org/freedesktop/Hal/devices/foo")),
      some (Obj.elem { key := 12, change_type := LibHalPropertyType.STRLIST, value := ElemValue.val_strlist 13, next := 17, prev := 0 }),
      some (Obj.str (ascii "k")), some (Obj.strv [14, 15, 16, 0]),
      some (Obj.str (ascii "a")), some (Obj.str (ascii "b")), some (Obj.str (ascii "c")),
      some (Obj.elem { key := 18, change_type := LibHalPropertyType.INT32, value := ElemValue.val_int (-7), next := 0, prev := 11 }),
      some (Obj.str (ascii "k"))],
    nalloc := 10 }

/-- A caller's heap for the protocol calls: the device identifier
`/org/freedesktop/Hal/devices/computer` at address 1, the key
`system.hardware.serial` at 2, an `int` variable at 3 and two pointer
variables at 4 and 5.  Every allocation succeeds. -/
def exHeapQ : Mem :=
  { heap := [some (Obj.str (ascii "/org/freedesktop/Hal/devices/computer")),
      some (Obj.str (ascii "system.hardware.serial")),
      some (Obj.int 5), some (Obj.ptr 1), some (Obj.ptr 2)],
    oracle := [], nalloc := 0, freed := [] }

/-- The heap `exHeapQ` after `libhal_ctx_new`: the context is the block 6. -/
def exHeapNew : Mem :=
  { exHeapQ with heap := exHeapQ.heap ++ [some (Obj.ctx zeroCtx)], nalloc := 1 }

/-- The heap `exHeapNew` after the connection handle 77 was attached to the
context 6, the context was initialized and then shut down. -/
def exHeapDown : Mem :=
  { exHeapQ with
    heap := exHeapQ.heap ++ [some (Obj.ctx { zeroCtx with connection := 77 })],
    nalloc := 1 }

/-- The heap `exHeapNew` after the connection handle 77 was attached to the
context 6 and the context was initialized. -/
def exHeapUp : Mem :=
  { exHeapQ with
    heap := exHeapQ.heap ++
      [some (Obj.ctx { zeroCtx with connection := 77, is_initialized := true })],
    nalloc := 1 }

/-- A caller's heap with a property set: the keys `b` and `a` at the addresses 1
and 2, the array of the two properties `b` and `a`, in this order, at 3, the
property set at 4, an iterator that was never initialized at 5 and an iterator
bound to the set 4 at position 0 at 6. -/
def exHeapP : Mem :=
  { heap := [some (Obj.str (ascii "b")), some (Obj.str (ascii "a")),
      some (Obj.props [{ type := LibHalPropertyType.STRING, key := 1, v := PropValue.str_value 1 },
        { type := LibHalPropertyType.INT32, key := 2, v := PropValue.int_value 7 }]),
      some (Obj.pset { properties := 3 }),
      some (Obj.iter { set := 0, idx := 9 }), some (Obj.iter { set := 4, idx := 0 })],
    oracle := [], nalloc := 0, freed := [] }

/-- A caller's heap for the lock calls: the device identifier
`/org/freedesktop/Hal/devices/D` at address 1, the interface name `X` at 2, the
bus name `:1.2` of a second caller at 3 and an initialized context at 4. -/
def exHeapK : Mem :=
  { heap := [some (Obj.str (ascii "/org/freedesktop/Hal/devices/D")),
      some (Obj.str (ascii "X")), some (Obj.str (ascii ":1.2")),
      some (Obj.ctx { zeroCtx with connection := 77, is_initialized := true })],
    oracle := [], nalloc := 0, freed := [] }

/-- The heap `exHeapCs` of a caller whose third allocation attempt fails: the
first two attempts were those of `libhal_device_new_changeset`. -/
def exHeapCsF : Mem :=
  { exHeapCs with oracle := [true, true, false] }

/-! ### Basic facts about the heap -/

theorem Mem.read_zero (m : Mem) : m.read 0 = none := by
  simp [Mem.read]

theorem Mem.read_eq_none_of_size_lt (m : Mem) (p : Nat) (h : m.size < p) : m.read p = none := by
  unfold Mem.read Mem.size at *
  split
  · rfl
  · rw [List.getD_eq_getElem?_getD, List.getElem?_eq_none (by omega)]
    rfl

theorem Mem.le_size_of_read (m : Mem) (p : Nat) (o : Obj) (h : m.read p = some o) :
    p ≠ 0 ∧ p ≤ m.size := by
  constructor
  · rintro rfl
    simp [Mem.read] at h
  · by_contra hlt
    rw [Mem.read_eq_none_of_size_lt m p (by omega)] at h
    cases h

theorem Mem.alloc_ok (m : Mem) (o : Obj) (h : m.outcome m.nalloc = true) :
    m.alloc o = (m.size + 1, m.push o) := by
  simp [Mem.alloc, h, Mem.size, Mem.push]

theorem Mem.alloc_fail (m : Mem) (o : Obj) (h : m.outcome m.nalloc = false) :
    m.alloc o = (0, m.tick) := by
  simp [Mem.alloc, h, Mem.tick]

theorem Mem.write_eq (m : Mem) (p : Nat) (o : Obj) :
    m.write p o = if (m.read p).isSome then some (m.put p o) else none := by
  unfold Mem.write Mem.put
  cases m.read p <;> simp

theorem Mem.free_eq (m : Mem) (p : Nat) :
    m.free p = if p = 0 then some m else if (m.read p).isSome then some (m.del p) else none := by
  unfold Mem.free Mem.del
  cases m.read p <;> simp

theorem Mem.read_push (m : Mem) (o : Obj) (p : Nat) :
    (m.push o).read p = if p = m.size + 1 then some o else m.read p := by
  unfold Mem.read Mem.push Mem.size
  by_cases h0 : p = 0
  · simp [h0]
  · simp only [h0, if_false]
    rw [List.getD_eq_getElem?_getD, List.getD_eq_getElem?_getD, List.getElem?_append]
    by_cases h1 : p = m.heap.length + 1
    · subst h1
      simp
    · by_cases h2 : p - 1 < m.heap.length
      · simp [h1, h2]
      · have h3 : ¬ (p - 1 - m.heap.length = 0) := by omega
        obtain ⟨k, hk⟩ : ∃ k, p - 1 - m.heap.length = k + 1 := ⟨p - 1 - m.heap.length - 1, by omega⟩
        simp [h1, h2, List.getElem?_eq_none (show m.heap.length ≤ p - 1 by omega), hk]

theorem Mem.read_tick (m : Mem) (p : Nat) : m.tick.read p = m.read p := rfl

theorem Mem.read_set (m m2 : Mem) (p q : Nat) (x : Option Obj) (h : (m.read p).isSome)
    (h2 : m2.heap = m.heap.set (p - 1) x) :
    m2.read q = if q = p then x else m.read q := by
  have hp : p ≠ 0 ∧ p ≤ m.size := by
    cases hr : m.read p with
    | none => simp [hr] at h
    | some x => exact Mem.le_size_of_read m p x hr
  unfold Mem.read
  unfold Mem.size at hp
  rw [h2]
  by_cases h0 : q = 0
  · have : ¬ (0 = p) := fun e => hp.1 e.symm
    simp [h0, this]
  · simp only [h0, if_false]
    rw [List.getD_eq_getElem?_getD, List.getD_eq_getElem?_getD, List.getElem?_set]
    by_cases h1 : q = p
    · subst h1
      have : q - 1 < m.heap.length := by omega
      simp [this]
    · have : ¬ (p - 1 = q - 1) := by omega
      simp [h1, this]

theorem Mem.read_put (m : Mem) (p q : Nat) (o : Obj) :
    (m.put p o).read q = if q = p ∧ (m.read p).isSome then some o else m.read q := by
  unfold Mem.put
  by_cases h : (m.read p).isSome
  · rw [if_pos h, Mem.read_set m _ p q _ h rfl]
    simp [h]
  · simp [h]

theorem Mem.read_del (m : Mem) (p q : Nat) :
    (m.del p).read q = if q = p then none else m.read q := by
  unfold Mem.del
  by_cases h : (m.read p).isSome
  · rw [if_pos h, Mem.read_set m _ p q _ h rfl]
  · rw [if_neg h]
    by_cases hq : q = p
    · subst hq
      simpa using h
    · simp [hq]

theorem Mem.size_push (m : Mem) (o : Obj) : (m.push o).size = m.size + 1 := by
  simp [Mem.push, Mem.size]

theorem Mem.size_tick (m : Mem) : m.tick.size = m.size := rfl

theorem Mem.size_put (m : Mem) (p : Nat) (o : Obj) : (m.put p o).size = m.size := by
  unfold Mem.put Mem.size
  split <;> simp

theorem Mem.size_del (m : Mem) (p : Nat) : (m.del p).size = m.size := by
  unfold Mem.del Mem.size
  split <;> simp

attribute [simp] Mem.read_zero Mem.read_push Mem.read_tick Mem.read_put Mem.read_del
  Mem.size_push Mem.size_tick Mem.size_put Mem.size_del

@[simp] theorem Mem.nalloc_push (m : Mem) (o : Obj) : (m.push o).nalloc = m.nalloc + 1 := rfl
@[simp] theorem Mem.nalloc_tick (m : Mem) : m.tick.nalloc = m.nalloc + 1 := rfl
@[simp] theorem Mem.nalloc_put (m : Mem) (p : Nat) (o : Obj) : (m.put p o).nalloc = m.nalloc := by
  unfold Mem.put
  split <;> rfl
@[simp] theorem Mem.nalloc_del (m : Mem) (p : Nat) : (m.del p).nalloc = m.nalloc := by
  unfold Mem.del
  split <;> rfl
@[simp] theorem Mem.outcome_push (m : Mem) (o : Obj) (k : Nat) :
    (m.push o).outcome k = m.outcome k := rfl
@[simp] theorem Mem.outcome_tick (m : Mem) (k : Nat) : m.tick.outcome k = m.outcome k := rfl
@[simp] theorem Mem.outcome_put (m : Mem) (p : Nat) (o : Obj) (k : Nat) :
    (m.put p o).outcome k = m.outcome k := by
  unfold Mem.put
  split <;> rfl
@[simp] theorem Mem.outcome_del (m : Mem) (p : Nat) (k : Nat) :
    (m.del p).outcome k = m.outcome k := by
  unfold Mem.del
  split <;> rfl
@[simp] theorem Mem.freed_push (m : Mem) (o : Obj) : (m.push o).freed = m.freed := rfl
@[simp] theorem Mem.freed_tick (m : Mem) : m.tick.freed = m.freed := rfl
@[simp] theorem Mem.freed_put (m : Mem) (p : Nat) (o : Obj) : (m.put p o).freed = m.freed := by
  unfold Mem.put
  split <;> rfl
@[simp] theorem Mem.freed_del (m : Mem) (p : Nat) :
    (m.del p).freed = if (m.read p).isSome then m.freed ++ [p] else m.freed := by
  unfold Mem.del
  split <;> rfl

@[simp] theorem Mem.put_put (m : Mem) (p : Nat) (a b : Obj) :
    (m.put p a).put p b = m.put p b := by
  by_cases h : (m.read p).isSome
  · have h2 : ((m.put p a).read p).isSome := by simp [h]
    unfold Mem.put at h2 ⊢
    simp only [h, if_true] at h2 ⊢
    simp [h2]
  · have h2 : m.put p a = m := by simp [Mem.put, h]
    rw [h2]

theorem strncmp_prefix (p : List Nat) (hp : ∀ c ∈ p, c ≠ 0) (s : List Nat) :
    strncmp s p p.length = 0 ↔ p <+: s := by
  induction p generalizing s with
  | nil => simp [strncmp]
  | cons c p ih =>
    have hc : c ≠ 0 := hp c (by simp)
    have hp2 : ∀ d ∈ p, d ≠ 0 := fun d hd => hp d (by simp [hd])
    cases s with
    | nil =>
      simp [strncmp, hc]
      omega
    | cons a s =>
      by_cases hac : a = c
      · subst hac
        simp [strncmp, hc, ih hp2 s, List.cons_prefix_cons]
      · simp [strncmp, hac, List.cons_prefix_cons]
        omega

theorem udi_check_iff (s : List Nat) : (strncmp s UDI_PREFIX 29 == 0) = true ↔ UDI_PREFIX <+: s := by
  have h := strncmp_prefix UDI_PREFIX (by decide) s
  have hl : UDI_PREFIX.length = 29 := by decide
  rw [hl] at h
  simp [h]

theorem new_changeset_ok (m : Mem) (udi : Nat) (s : List Nat)
    (hs : m.read udi = some (Obj.str s)) (hp : UDI_PREFIX <+: s)
    (h1 : m.outcome m.nalloc = true) (h2 : m.outcome (m.nalloc + 1) = true) :
    libhal_device_new_changeset m udi = some (m.size + 1,
      ((m.push (Obj.cset zeroCset)).push (Obj.str (cstr s))).put (m.size + 1)
        (Obj.cset { udi := m.size + 2, head := 0, tail := 0 })) := by
  have hu := Mem.le_size_of_read m udi _ hs
  have hne : udi ≠ m.size + 1 := by omega
  simp [libhal_device_new_changeset, LIBHAL_CHECK_UDI_VALID, hu.1, hs, (udi_check_iff s).2 hp,
    Mem.alloc_ok, h1, h2, strdup, hne, Mem.setCset, Mem.write_eq, zeroCset]


theorem append_head (m : Mem) (cs n : Nat) (c : LibHalChangeSet) (e : LibHalChangeSetElement)
    (hcs : m.read cs = some (Obj.cset c)) (hn : m.read n = some (Obj.elem e)) (hh : c.head = 0) :
    libhal_changeset_append m cs n = some
      ((m.put cs (Obj.cset { c with head := n, tail := n })).put n
        (Obj.elem { e with next := 0, prev := 0 })) := by
  have h1 := Mem.le_size_of_read m cs _ hcs
  have h2 := Mem.le_size_of_read m n _ hn
  have hne : n ≠ cs := by
    rintro rfl
    rw [hcs] at hn
    cases hn
  simp [libhal_changeset_append, LIBHAL_CHECK_PARAM_VALID, h1.1, h2.1, Mem.getCset, Mem.setCset,
    Mem.setElem, Mem.write_eq, hcs, hn, hh, hne]

theorem append_tail (m : Mem) (cs n : Nat) (c : LibHalChangeSet) (e t : LibHalChangeSetElement)
    (hcs : m.read cs = some (Obj.cset c)) (hn : m.read n = some (Obj.elem e)) (hh : c.head ≠ 0)
    (ht : m.read c.tail = some (Obj.elem t)) (hnt : c.tail ≠ n) :
    libhal_changeset_append m cs n = some
      (((m.put n (Obj.elem { e with prev := c.tail, next := 0 })).put c.tail
        (Obj.elem { t with next := n })).put cs (Obj.cset { c with tail := n })) := by
  have h1 := Mem.le_size_of_read m cs _ hcs
  have h2 := Mem.le_size_of_read m n _ hn
  have hne : n ≠ cs := by
    rintro rfl
    rw [hcs] at hn
    cases hn
  have hne2 : c.tail ≠ cs := by
    intro h
    rw [h, hcs] at ht
    cases ht
  simp [libhal_changeset_append, LIBHAL_CHECK_PARAM_VALID, h1.1, h2.1, Mem.getCset, Mem.setCset,
    Mem.setElem, Mem.getElem, Mem.write_eq, hcs, hn, hh, hne, ht, hnt, hne2, Ne.symm hne, Ne.symm hne2, Ne.symm hnt]

theorem append_spec (m : Mem) (cs n : Nat) (c : LibHalChangeSet) (e : LibHalChangeSetElement)
    (hcs : m.read cs = some (Obj.cset c)) (hn : m.read n = some (Obj.elem e))
    (ht : c.head ≠ 0 → ∃ t, m.read c.tail = some (Obj.elem t) ∧ c.tail ≠ n) :
    ∃ m', libhal_changeset_append m cs n = some m' ∧ m'.size = m.size ∧ m'.freed = m.freed ∧
      m'.nalloc = m.nalloc ∧
      (∀ q, q ≠ cs → q ≠ n → (c.head = 0 ∨ q ≠ c.tail) → m'.read q = m.read q) ∧
      m'.read cs = some (Obj.cset
        { udi := c.udi, head := if c.head = 0 then n else c.head, tail := n }) ∧
      m'.read n = some (Obj.elem
        { e with next := 0, prev := if c.head = 0 then 0 else c.tail }) ∧
      (c.head ≠ 0 → ∃ t, m.read c.tail = some (Obj.elem t) ∧
        m'.read c.tail = some (Obj.elem { t with next := n })) := by
  have hne : n ≠ cs := by
    rintro rfl
    rw [hcs] at hn
    cases hn
  by_cases hh : c.head = 0
  · refine ⟨_, append_head m cs n c e hcs hn hh, ?_⟩
    simp [hh, hcs, hn, hne, Ne.symm hne]
    intro q h1 h2
    simp [h1, h2]
  · obtain ⟨t, htl, hnt⟩ := ht hh
    have hne2 : c.tail ≠ cs := by
      intro h
      rw [h, hcs] at htl
      cases htl
    refine ⟨_, append_tail m cs n c e t hcs hn hh htl hnt, ?_⟩
    simp [hh, hcs, hn, hne, Ne.symm hne, htl, hnt, Ne.symm hnt, hne2, Ne.symm hne2]
    intro q h1 h2 h3
    simp [h1, h2, h3]

theorem set_property_int_eq (m : Mem) (cs key : Nat) (v : Int) :
    libhal_changeset_set_property_int m cs key v =
      changeset_set_scalar m cs key LibHalPropertyType.INT32 (ElemValue.val_int v) := rfl

theorem set_property_uint64_eq (m : Mem) (cs key v : Nat) :
    libhal_changeset_set_property_uint64 m cs key v =
      changeset_set_scalar m cs key LibHalPropertyType.UINT64 (ElemValue.val_uint64 v) := rfl

theorem set_property_double_eq (m : Mem) (cs key v : Nat) :
    libhal_changeset_set_property_double m cs key v =
      changeset_set_scalar m cs key LibHalPropertyType.DOUBLE (ElemValue.val_double v) := rfl

theorem set_property_bool_eq (m : Mem) (cs key v : Nat) :
    libhal_changeset_set_property_bool m cs key v =
      changeset_set_scalar m cs key LibHalPropertyType.BOOLEAN (ElemValue.val_bool v) := rfl

theorem read_fresh (m : Mem) (q : Nat) (h : m.size < q) : m.read q = none :=
  Mem.read_eq_none_of_size_lt m q h

theorem scalar_spec (m : Mem) (cs key : Nat) (tag : LibHalPropertyType) (v : ElemValue)
    (c : LibHalChangeSet) (ks : List Nat)
    (hcs : m.read cs = some (Obj.cset c)) (hk : m.read key = some (Obj.str ks))
    (ht : c.head ≠ 0 → ∃ t, m.read c.tail = some (Obj.elem t)) :
    ∃ r m', changeset_set_scalar m cs key tag v = some (r, m') ∧
      (r = false ↔ AllocFailed m m') ∧
      (r = false → ∀ q, m'.read q = m.read q) ∧
      (r = true → Appended m m' cs c tag v ks ∧ m'.size = m.size + 2) := by
  have hc := Mem.le_size_of_read m cs _ hcs
  have hkey := Mem.le_size_of_read m key _ hk
  have hne : key ≠ m.size + 1 := by omega
  have hne2 : cs ≠ m.size + 1 := by omega
  have hne3 : cs ≠ m.size + 2 := by omega
  by_cases h1 : m.outcome m.nalloc = true
  swap
  · simp only [Bool.not_eq_true] at h1
    refine ⟨false, m.tick, ?_, ?_, ?_, ?_⟩
    · simp [changeset_set_scalar, LIBHAL_CHECK_PARAM_VALID, hc.1, hkey.1, Mem.alloc_fail, h1]
    · simp [AllocFailed]
      exact ⟨m.nalloc, le_refl _, by omega, h1⟩
    · simp
    · simp
  by_cases h2 : m.outcome (m.nalloc + 1) = true
  swap
  · simp only [Bool.not_eq_true] at h2
    refine ⟨false, (((m.push (Obj.elem zeroElem)).tick).put (m.size + 1)
        (Obj.elem zeroElem)).del (m.size + 1), ?_, ?_, ?_, ?_⟩
    · simp [changeset_set_scalar, LIBHAL_CHECK_PARAM_VALID, hc.1, hkey.1, Mem.alloc_ok,
        Mem.alloc_fail, h1, h2, strdup, hk, hne, Mem.setElem, Mem.write_eq, Mem.free_eq, zeroElem]
    · simp [AllocFailed]
      exact ⟨m.nalloc + 1, by omega, by omega, h2⟩
    · intro _ q
      simp
      split_ifs with hq
      · rw [hq, read_fresh m _ (by omega)]
      · rfl
    · simp
  -- both allocations succeed
  obtain ⟨M, hM, hrun⟩ : ∃ M, M = ((m.push (Obj.elem zeroElem)).push
        (Obj.str (cstr ks))).put (m.size + 1)
        (Obj.elem { key := m.size + 2, change_type := tag, value := v, next := 0, prev := 0 }) ∧
      changeset_set_scalar m cs key tag v =
        match libhal_changeset_append M cs (m.size + 1) with
        | none => none
        | some m6 => some (true, m6) := by
    refine ⟨_, rfl, ?_⟩
    simp [changeset_set_scalar, LIBHAL_CHECK_PARAM_VALID, hc.1, hkey.1, Mem.alloc_ok,
        h1, h2, strdup, hk, hne, Mem.setElem, Mem.write_eq, zeroElem]
  have hMr : ∀ q, M.read q = if q = m.size + 1 then some (Obj.elem
        { key := m.size + 2, change_type := tag, value := v, next := 0, prev := 0 })
      else if q = m.size + 2 then some (Obj.str (cstr ks)) else m.read q := by
    intro q
    rw [hM]
    simp
    split_ifs <;> rfl
  have hMs : M.size = m.size + 2 := by rw [hM]; simp
  have hMf : M.freed = m.freed := by rw [hM]; simp
  have hMn : M.nalloc = m.nalloc + 2 := by rw [hM]; simp
  obtain ⟨m', ha, hs, hf, hn, hfr, hcs', hn', ht'⟩ := append_spec M cs (m.size + 1) c
    { key := m.size + 2, change_type := tag, value := v, next := 0, prev := 0 }
    (by rw [hMr]; simp [hne2, hne3, hcs]) (by rw [hMr]; simp) (by
      intro hh
      obtain ⟨t, ht1⟩ := ht hh
      have := Mem.le_size_of_read m _ _ ht1
      have h3 : c.tail ≠ m.size + 1 := by omega
      have h4 : c.tail ≠ m.size + 2 := by omega
      refine ⟨t, ?_, h3⟩
      rw [hMr]
      simp [h3, h4, ht1])
  refine ⟨true, m', ?_, ?_, ?_, ?_⟩
  · rw [hrun, ha]
  · simp [AllocFailed]
    intro k hk1 hk2
    have : k = m.nalloc ∨ k = m.nalloc + 1 := by omega
    rcases this with rfl | rfl
    · exact h1
    · exact h2
  · simp
  · intro _
    refine ⟨⟨by omega, by rw [hf, hMf], ?_, hcs', ?_, hn', ?_⟩, by omega⟩
    · intro q hq1 hq2 hq3
      rw [hfr q hq2 (by omega) hq3, hMr]
      have h3 : q ≠ m.size + 1 := by omega
      have h4 : q ≠ m.size + 2 := by omega
      simp [h3, h4]
    · intro hh
      obtain ⟨t, ht1, ht2⟩ := ht' hh
      have hlive : ∃ t0, m.read c.tail = some (Obj.elem t0) := ht hh
      obtain ⟨t0, ht0⟩ := hlive
      have := Mem.le_size_of_read m _ _ ht0
      have h3 : c.tail ≠ m.size + 1 := by omega
      have h4 : c.tail ≠ m.size + 2 := by omega
      rw [hMr] at ht1
      simp [h3, h4] at ht1
      exact ⟨t, ht1, ht2⟩
    · rw [hfr _ (by omega) (by omega) (by
        by_cases hh : c.head = 0
        · exact Or.inl hh
        · obtain ⟨t0, ht0⟩ := ht hh
          have := Mem.le_size_of_read m _ _ ht0
          right
          omega), hMr]
      simp

theorem string_spec (m : Mem) (cs key value : Nat)
    (c : LibHalChangeSet) (ks vs : List Nat)
    (hcs : m.read cs = some (Obj.cset c)) (hk : m.read key = some (Obj.str ks))
    (hv : m.read value = some (Obj.str vs))
    (ht : c.head ≠ 0 → ∃ t, m.read c.tail = some (Obj.elem t)) :
    ∃ r m', libhal_changeset_set_property_string m cs key value = some (r, m') ∧
      (r = false ↔ AllocFailed m m') ∧
      (r = false → ∀ q, m'.read q = m.read q) ∧
      (r = true → Appended m m' cs c LibHalPropertyType.STRING (ElemValue.val_str (m.size + 3)) ks ∧
        m'.size = m.size + 3 ∧ m'.read (m.size + 3) = some (Obj.str (cstr vs))) := by
  have hc := Mem.le_size_of_read m cs _ hcs
  have hkey := Mem.le_size_of_read m key _ hk
  have hval := Mem.le_size_of_read m value _ hv
  have hne : key ≠ m.size + 1 := by omega
  have hnv1 : value ≠ m.size + 1 := by omega
  have hnv2 : value ≠ m.size + 2 := by omega
  have hne2 : cs ≠ m.size + 1 := by omega
  have hne3 : cs ≠ m.size + 2 := by omega
  by_cases h1 : m.outcome m.nalloc = true
  swap
  · simp only [Bool.not_eq_true] at h1
    refine ⟨false, m.tick, ?_, ?_, ?_, ?_⟩
    · simp [libhal_changeset_set_property_string, LIBHAL_CHECK_PARAM_VALID, hc.1, hkey.1, hval.1, Mem.alloc_fail, h1]
    · simp [AllocFailed]
      exact ⟨m.nalloc, le_refl _, by omega, h1⟩
    · simp
    · simp
  by_cases h2 : m.outcome (m.nalloc + 1) = true
  swap
  · simp only [Bool.not_eq_true] at h2
    refine ⟨false, (((m.push (Obj.elem zeroElem)).tick).put (m.size + 1)
        (Obj.elem zeroElem)).del (m.size + 1), ?_, ?_, ?_, ?_⟩
    · simp [libhal_changeset_set_property_string, LIBHAL_CHECK_PARAM_VALID, hc.1, hkey.1, hval.1, Mem.alloc_ok,
        Mem.alloc_fail, h1, h2, strdup, hk, hne, Mem.setElem, Mem.write_eq, Mem.free_eq, zeroElem]
    · simp [AllocFailed]
      exact ⟨m.nalloc + 1, by omega, by omega, h2⟩
    · intro _ q
      simp
      split_ifs with hq
      · rw [hq, read_fresh m _ (by omega)]
      · rfl
    · simp
  by_cases h3 : m.outcome (m.nalloc + 2) = true
  swap
  · simp only [Bool.not_eq_true] at h3
    refine ⟨false, ((((((m.push (Obj.elem zeroElem)).push (Obj.str (cstr ks))).put (m.size + 1)
        (Obj.elem { key := m.size + 2, change_type := LibHalPropertyType.STRING, value := ElemValue.zero, next := 0, prev := 0 })).tick).put (m.size + 1)
        (Obj.elem { key := m.size + 2, change_type := LibHalPropertyType.STRING, value := ElemValue.val_str 0, next := 0, prev := 0 })).del (m.size + 2)).del
            (m.size + 1), ?_, ?_, ?_, ?_⟩
    · simp [libhal_changeset_set_property_string, LIBHAL_CHECK_PARAM_VALID, hc.1, hkey.1, hval.1,
        Mem.alloc_ok, Mem.alloc_fail, h1, h2, h3, strdup, hk, hv, hne, hnv1, hnv2, Mem.setElem,
        Mem.getElem, Mem.write_eq, Mem.free_eq, zeroElem]
    · simp [AllocFailed]
      exact ⟨m.nalloc + 2, by omega, by omega, h3⟩
    · intro _ q
      simp
      split_ifs with hq hq2
      · rw [hq, read_fresh m _ (by omega)]
      · rw [hq2, read_fresh m _ (by omega)]
      · rfl
    · simp
  -- all allocations succeed
  obtain ⟨M, hM, hrun⟩ : ∃ M, M = ((((m.push (Obj.elem zeroElem)).push
        (Obj.str (cstr ks))).put (m.size + 1)
        (Obj.elem { key := m.size + 2, change_type := LibHalPropertyType.STRING, value := ElemValue.zero, next := 0, prev := 0 })).push (Obj.str (cstr vs))).put
        (m.size + 1)
        (Obj.elem { key := m.size + 2, change_type := LibHalPropertyType.STRING, value := ElemValue.val_str (m.size + 3), next := 0, prev := 0 }) ∧
      libhal_changeset_set_property_string m cs key value =
        match libhal_changeset_append M cs (m.size + 1) with
        | none => none
        | some m6 => some (true, m6) := by
    refine ⟨_, rfl, ?_⟩
    simp [libhal_changeset_set_property_string, LIBHAL_CHECK_PARAM_VALID, hc.1, hkey.1, hval.1,
        Mem.alloc_ok, h1, h2, h3, strdup, hk, hv, hne, hnv1, hnv2, Mem.setElem, Mem.write_eq, zeroElem]
  have hMr : ∀ q, M.read q = if q = m.size + 1 then some (Obj.elem
        { key := m.size + 2, change_type := LibHalPropertyType.STRING, value := ElemValue.val_str (m.size + 3), next := 0, prev := 0 })
      else if q = m.size + 2 then some (Obj.str (cstr ks))
      else if q = m.size + 3 then some (Obj.str (cstr vs)) else m.read q := by
    intro q
    rw [hM]
    simp
    split_ifs <;> first | rfl | omega
  have hMs : M.size = m.size + 3 := by rw [hM]; simp
  have hMf : M.freed = m.freed := by rw [hM]; simp
  have hMn : M.nalloc = m.nalloc + 3 := by rw [hM]; simp
  obtain ⟨m', ha, hs, hf, hn, hfr, hcs', hn', ht'⟩ := append_spec M cs (m.size + 1) c
    { key := m.size + 2, change_type := LibHalPropertyType.STRING, value := ElemValue.val_str (m.size + 3), next := 0, prev := 0 }
    (by rw [hMr]; simp [hne2, hne3, hcs]; omega) (by rw [hMr]; simp) (by
      intro hh
      obtain ⟨t, ht1⟩ := ht hh
      have := Mem.le_size_of_read m _ _ ht1
      have h3 : c.tail ≠ m.size + 1 := by omega
      have h4 : c.tail ≠ m.size + 2 := by omega
      have h5 : c.tail ≠ m.size + 3 := by omega
      refine ⟨t, ?_, h3⟩
      rw [hMr]
      simp [h3, h4, h5, ht1])
  refine ⟨true, m', ?_, ?_, ?_, ?_⟩
  · rw [hrun, ha]
  · simp [AllocFailed]
    intro k hk1 hk2
    have : k = m.nalloc ∨ k = m.nalloc + 1 ∨ k = m.nalloc + 2 := by omega
    rcases this with rfl | rfl | rfl
    · exact h1
    · exact h2
    · exact h3
  · simp
  · intro _
    have hfresh : c.head = 0 ∨ (c.tail ≠ m.size + 1 ∧ c.tail ≠ m.size + 2 ∧ c.tail ≠ m.size + 3) := by
      by_cases hh : c.head = 0
      · exact Or.inl hh
      · obtain ⟨t0, ht0⟩ := ht hh
        have := Mem.le_size_of_read m _ _ ht0
        right
        omega
    refine ⟨⟨by omega, by rw [hf, hMf], ?_, hcs', ?_, hn', ?_⟩, by omega, ?_⟩
    · intro q hq1 hq2 hq3
      rw [hfr q hq2 (by omega) hq3, hMr]
      have h3 : q ≠ m.size + 1 := by omega
      have h4 : q ≠ m.size + 2 := by omega
      have h5 : q ≠ m.size + 3 := by omega
      simp [h3, h4, h5]
    · intro hh
      obtain ⟨t, ht1, ht2⟩ := ht' hh
      rcases hfresh with h0 | ⟨h3, h4, h5⟩
      · exact absurd h0 hh
      · rw [hMr] at ht1
        simp [h3, h4, h5] at ht1
        exact ⟨t, ht1, ht2⟩
    · rw [hfr _ (by omega) (by omega) (by rcases hfresh with h0 | h0; exact Or.inl h0; right; omega), hMr]
      simp
    · rw [hfr _ (by omega) (by omega) (by rcases hfresh with h0 | h0; exact Or.inl h0; right; omega), hMr]
      simp

theorem strlist_len_spec (cells : List Nat) (len : Nat) (h : strlist_len cells = some len) :
    cells[len]? = some 0 ∧ ∀ j, j < len → ∃ c, cells[j]? = some c ∧ c ≠ 0 := by
  induction cells generalizing len with
  | nil => simp [strlist_len] at h
  | cons a l ih =>
    unfold strlist_len at h
    by_cases ha : a = 0
    · simp [ha] at h
      subst h
      simp [ha]
    · simp only [ha, if_false] at h
      cases hl : strlist_len l with
      | none => simp [hl] at h
      | some n =>
        simp [hl] at h
        subst h
        obtain ⟨h1, h2⟩ := ih n hl
        refine ⟨by simpa using h1, ?_⟩
        intro j hj
        cases j with
        | zero => exact ⟨a, by simp, ha⟩
        | succ j => simpa using h2 j (by omega)

theorem free_copies_spec (vc base : Nat) (A : List Nat) (hbase : vc < base) :
    ∀ n j (μ : Mem), μ.read vc = some (Obj.strv A) →
      (∀ t, j ≤ t → t < j + n → A[t]? = some (base + t)) →
      (∀ t, j ≤ t → t < j + n → (μ.read (base + t)).isSome) →
      ∃ μ', strlist_free_copies vc n j μ = some μ' ∧
        (∀ q, μ'.read q = if base + j ≤ q ∧ q < base + j + n then none else μ.read q) ∧
        μ'.size = μ.size ∧ μ'.nalloc = μ.nalloc ∧ ∀ k, μ'.outcome k = μ.outcome k := by
  intro n
  induction n with
  | zero =>
    intro j μ _ _ _
    refine ⟨μ, rfl, ?_, rfl, rfl, fun _ => rfl⟩
    intro q
    have : ¬ (base + j ≤ q ∧ q < base + j + 0) := by omega
    rw [if_neg this]
  | succ n ih =>
    intro j μ hvc hA hlive
    have hne : vc ≠ base + j := by omega
    have hb0 : base + j ≠ 0 := by omega
    obtain ⟨μ', h1, h2, h3, h4, h5⟩ := ih (j + 1) (μ.del (base + j))
      (by simp [hne, hvc]) (fun t ht1 ht2 => hA t (by omega) (by omega))
      (fun t ht1 ht2 => by
        have : base + t ≠ base + j := by omega
        simpa [this] using hlive t (by omega) (by omega))
    refine ⟨μ', ?_, ?_, ?_, ?_, ?_⟩
    · unfold strlist_free_copies
      simp [Mem.getCell, hvc, hA j (le_refl _) (by omega), Mem.free_eq, hb0,
        hlive j (le_refl _) (by omega), h1]
    · intro q
      rw [h2]
      simp
      by_cases hq : q = base + j
      · have : base + j ≤ q ∧ q < base + j + (n + 1) := by omega
        simp [hq]
      · by_cases hq2 : base + (j + 1) ≤ q ∧ q < base + (j + 1) + n
        · have : base + j ≤ q ∧ q < base + j + (n + 1) := by omega
          simp [hq2, this]
        · have : ¬ (base + j ≤ q ∧ q < base + j + (n + 1)) := by omega
          simp [hq2, this, hq]
    · rw [h3]; simp
    · rw [h4]; simp
    · intro k; rw [h5]; simp

theorem range_replicate_set (a i k d : Nat) (hd : d = a + i) :
    (List.range' a i ++ List.replicate (k + 1) 0).set i d =
      List.range' a (i + 1) ++ List.replicate k 0 := by
  rw [List.set_append_right _ _ (by simp)]
  subst hd
  simp [List.range'_concat, List.replicate_succ]

theorem range_replicate_get (a i k t : Nat) (ht : t < i) :
    (List.range' a i ++ List.replicate k 0)[t]? = some (a + t) := by
  rw [List.getElem?_append_left (by simpa using ht)]
  simp [List.getElem?_range', ht]

theorem copy_loop_spec (m : Mem) (value : Nat) (cells ks : List Nat) (len : Nat)
    (hv : m.read value = some (Obj.strv cells))
    (hsrc : ∀ j, j < len → ∃ cj s, cells[j]? = some cj ∧ m.read cj = some (Obj.str s)) :
    ∀ n i (μ : Mem), i + n = len → CopyInv m cells ks len i μ →
      ∃ r μ', strlist_copy_loop value (m.size + 3) (m.size + 1) n i μ = some (r, μ') ∧
        (r = true → CopyInv m cells ks len len μ') ∧
        (r = false → (∀ q, μ'.read q = m.read q) ∧ AllocFailed m μ') := by
  have hval := Mem.le_size_of_read m value _ hv
  intro n
  induction n with
  | zero =>
    intro i μ hi hinv
    have : i = len := by omega
    subst this
    exact ⟨true, μ, rfl, fun _ => hinv, fun h => by cases h⟩
  | succ n ih =>
    intro i μ hi hinv
    obtain ⟨cj, s, hcj, hs⟩ := hsrc i (by omega)
    have hcjle := Mem.le_size_of_read m cj _ hs
    have hvμ : μ.read value = some (Obj.strv cells) := by rw [hinv.frame _ hval.2, hv]
    have hsμ : μ.read cj = some (Obj.str s) := by rw [hinv.frame _ hcjle.2, hs]
    have hlen : len + 1 - i = (len - i) + 1 := by omega
    by_cases ho : μ.outcome μ.nalloc = true
    · -- the copy succeeds
      have hne1 : m.size + 3 ≠ μ.size + 1 := by rw [hinv.size]; omega
      have hR : ∀ q, ((μ.push (Obj.str (cstr s))).put (m.size + 3) (Obj.strv
            (List.range' (m.size + 4) (i + 1) ++ List.replicate (len + 1 - (i + 1)) 0))).read q =
          if q = m.size + 3 then some (Obj.strv
            (List.range' (m.size + 4) (i + 1) ++ List.replicate (len + 1 - (i + 1)) 0))
          else if q = μ.size + 1 then some (Obj.str (cstr s)) else μ.read q := by
        intro q
        simp [hne1, hinv.arr]
      have hsz := hinv.size
      have hinv2 : CopyInv m cells ks len (i + 1)
          ((μ.push (Obj.str (cstr s))).put (m.size + 3) (Obj.strv
            (List.range' (m.size + 4) (i + 1) ++ List.replicate (len + 1 - (i + 1)) 0))) := by
        refine ⟨by simp [hsz]; omega, ?_, ?_, ?_, ?_, ?_, by simp [hinv.freed],
          by simp [hinv.nalloc]; omega, by simp [hinv.outcome], ?_⟩
        · intro q hq
          have h1 : q ≠ m.size + 3 := by omega
          have h2 : q ≠ μ.size + 1 := by omega
          rw [hR, if_neg h1, if_neg h2, hinv.frame q hq]
        · have h1 : m.size + 1 ≠ m.size + 3 := by omega
          have h2 : m.size + 1 ≠ μ.size + 1 := by omega
          rw [hR, if_neg h1, if_neg h2, hinv.elem]
        · have h1 : m.size + 2 ≠ m.size + 3 := by omega
          have h2 : m.size + 2 ≠ μ.size + 1 := by omega
          rw [hR, if_neg h1, if_neg h2, hinv.key]
        · rw [hR, if_pos rfl]
        · intro j hj
          have h0 : m.size + 4 + j ≠ m.size + 3 := by omega
          by_cases hji : j = i
          · subst hji
            refine ⟨cj, s, hcj, hs, ?_⟩
            have h1 : m.size + 4 + j = μ.size + 1 := by omega
            rw [hR, if_neg h0, if_pos h1]
          · obtain ⟨c2, s2, hc2, hs2, hr2⟩ := hinv.copies j (by omega)
            refine ⟨c2, s2, hc2, hs2, ?_⟩
            have h1 : m.size + 4 + j ≠ μ.size + 1 := by omega
            rw [hR, if_neg h0, if_neg h1, hr2]
        · intro k hk1 hk2
          have hn2 : ((μ.push (Obj.str (cstr s))).put (m.size + 3) (Obj.strv
            (List.range' (m.size + 4) (i + 1) ++ List.replicate (len + 1 - (i + 1)) 0))).nalloc
              = μ.nalloc + 1 := by simp
          rw [hn2] at hk2
          by_cases hk : k = μ.nalloc
          · rw [hk, ← hinv.outcome]
            exact ho
          · exact hinv.ok k hk1 (by omega)
      obtain ⟨r, μ', hrun, hr1, hr2⟩ := ih (i + 1) _ (by omega) hinv2
      refine ⟨r, μ', ?_, hr1, hr2⟩
      unfold strlist_copy_loop
      have hset : (List.range' (m.size + 4) i ++ List.replicate (len + 1 - i) 0).set i (μ.size + 1)
          = List.range' (m.size + 4) (i + 1) ++ List.replicate (len + 1 - (i + 1)) 0 := by
        rw [hlen, range_replicate_set _ _ _ _ (by rw [hinv.size]; omega)]
        congr 2
        omega
      have hlt : i < len + 1 := by omega
      have e : len + 1 - (i + 1) = len - i := by omega
      rw [← hrun]
      simp [Mem.getCell, hvμ, hcj, strdup, hsμ, Mem.alloc_ok, ho, Mem.setCell, hne1, hinv.arr,
        Mem.write_eq, hset, hlt, e]
    · -- the copy fails
      simp only [Bool.not_eq_true] at ho
      have hsz := hinv.size
      have hlt : i < len + 1 := by omega
      have hA : ∀ t, 0 ≤ t → t < 0 + i →
          (List.range' (m.size + 4) i ++ List.replicate (len + 1 - i) 0)[t]? =
            some (m.size + 4 + t) := by
        intro t _ ht
        rw [range_replicate_get _ _ _ _ (by omega)]
      have hAset : (List.range' (m.size + 4) i ++ List.replicate (len + 1 - i) 0).set i 0 =
          List.range' (m.size + 4) i ++ List.replicate (len + 1 - i) 0 := by
        rw [hlen, List.set_append_right _ _ (by simp)]
        simp [List.replicate_succ]
      have hμ2 : ∀ q, ((μ.tick).put (m.size + 3) (Obj.strv
          (List.range' (m.size + 4) i ++ List.replicate (len + 1 - i) 0))).read q =
          if q = m.size + 3 then some (Obj.strv
            (List.range' (m.size + 4) i ++ List.replicate (len + 1 - i) 0))
          else μ.read q := by
        intro q
        simp [hinv.arr]
      obtain ⟨μ3, hf1, hf2, hf3, hf4, hf5⟩ := free_copies_spec (m.size + 3) (m.size + 4) _
        (by omega) i 0 _ (by rw [hμ2, if_pos rfl]) hA (by
          intro t _ ht
          obtain ⟨c2, s2, _, _, hr2⟩ := hinv.copies t (by omega)
          have h0 : m.size + 4 + t ≠ m.size + 3 := by omega
          rw [hμ2, if_neg h0, hr2]
          rfl)
      have hr3 : ∀ q, μ3.read q = if m.size + 4 ≤ q ∧ q < m.size + 4 + i then none
          else if q = m.size + 3 then some (Obj.strv
            (List.range' (m.size + 4) i ++ List.replicate (len + 1 - i) 0))
          else μ.read q := by
        intro q
        rw [hf2, hμ2]
      have hvc : μ3.read (m.size + 3) = some (Obj.strv
            (List.range' (m.size + 4) i ++ List.replicate (len + 1 - i) 0)) := by
        rw [hr3, if_neg (by omega), if_pos rfl]
      have hel : μ3.read (m.size + 1) = some (Obj.elem { key := m.size + 2, change_type := LibHalPropertyType.INVALID, value := ElemValue.zero, next := 0, prev := 0 }) := by
        rw [hr3, if_neg (by omega), if_neg (by omega), hinv.elem]
      have hky : μ3.read (m.size + 2) = some (Obj.str (cstr ks)) := by
        rw [hr3, if_neg (by omega), if_neg (by omega), hinv.key]
      refine ⟨false, ((μ3.del (m.size + 3)).del (m.size + 2)).del (m.size + 1), ?_, ?_, ?_⟩
      · unfold strlist_copy_loop
        have h12 : m.size + 1 ≠ m.size + 2 := by omega
        have h13 : m.size + 1 ≠ m.size + 3 := by omega
        have h23 : m.size + 2 ≠ m.size + 3 := by omega
        simp [Mem.getCell, hvμ, hcj, strdup, hsμ, Mem.alloc_fail, ho, Mem.setCell, hinv.arr,
          Mem.write_eq, hlt, hAset, hf1, Mem.free_eq, hvc, Mem.getElem, hel, hky, h12, h13, h23]
      · intro h
        cases h
      · intro _
        refine ⟨?_, μ.nalloc, by rw [hinv.nalloc]; omega, ?_, by rw [← hinv.outcome]; exact ho⟩
        · intro q
          simp only [Mem.read_del]
          by_cases h1 : q = m.size + 1
          · rw [if_pos h1, h1, read_fresh m _ (by omega)]
          rw [if_neg h1]
          by_cases h2 : q = m.size + 2
          · rw [if_pos h2, h2, read_fresh m _ (by omega)]
          rw [if_neg h2]
          by_cases h3 : q = m.size + 3
          · rw [if_pos h3, h3, read_fresh m _ (by omega)]
          rw [if_neg h3, hr3]
          by_cases h4 : m.size + 4 ≤ q ∧ q < m.size + 4 + i
          · rw [if_pos h4, read_fresh m _ (by omega)]
          rw [if_neg h4, if_neg h3]
          by_cases h5 : q ≤ m.size
          · exact hinv.frame q h5
          · rw [read_fresh m _ (by omega), read_fresh μ _ (by omega)]
        · simp [hf4]

theorem strlist_spec (m : Mem) (cs key value : Nat) (c : LibHalChangeSet) (ks cells : List Nat)
    (len : Nat)
    (hcs : m.read cs = some (Obj.cset c)) (hk : m.read key = some (Obj.str ks))
    (hv : m.read value = some (Obj.strv cells)) (hlen : strlist_len cells = some len)
    (hsrc : ∀ j, j < len → ∃ cj s, cells[j]? = some cj ∧ m.read cj = some (Obj.str s))
    (ht : c.head ≠ 0 → ∃ t, m.read c.tail = some (Obj.elem t)) :
    ∃ r m', libhal_changeset_set_property_strlist m cs key value = some (r, m') ∧
      (r = false ↔ AllocFailed m m') ∧
      (r = false → ∀ q, m'.read q = m.read q) ∧
      (r = true →
        Appended m m' cs c LibHalPropertyType.STRLIST (ElemValue.val_strlist (m.size + 3)) ks ∧
        m'.size = m.size + 3 + len ∧
        m'.read (m.size + 3) = some (Obj.strv (List.range' (m.size + 4) len ++ [0])) ∧
        ∀ j, j < len → ∃ cj s, cells[j]? = some cj ∧ m.read cj = some (Obj.str s) ∧
          m'.read (m.size + 4 + j) = some (Obj.str (cstr s))) := by
  have hc := Mem.le_size_of_read m cs _ hcs
  have hkey := Mem.le_size_of_read m key _ hk
  have hval := Mem.le_size_of_read m value _ hv
  have hne : key ≠ m.size + 1 := by omega
  have hnv1 : value ≠ m.size + 1 := by omega
  have hnv2 : value ≠ m.size + 2 := by omega
  have hne2 : cs ≠ m.size + 1 := by omega
  have hne3 : cs ≠ m.size + 2 := by omega
  have hne4 : cs ≠ m.size + 3 := by omega
  have h12 : m.size + 1 ≠ m.size + 2 := by omega
  by_cases h1 : m.outcome m.nalloc = true
  swap
  · simp only [Bool.not_eq_true] at h1
    refine ⟨false, m.tick, ?_, ?_, ?_, ?_⟩
    · simp [libhal_changeset_set_property_strlist, LIBHAL_CHECK_PARAM_VALID, hc.1, hkey.1,
        Mem.alloc_fail, h1]
    · simp [AllocFailed]
      exact ⟨m.nalloc, le_refl _, by omega, h1⟩
    · simp
    · simp
  by_cases h2 : m.outcome (m.nalloc + 1) = true
  swap
  · simp only [Bool.not_eq_true] at h2
    refine ⟨false, (((m.push (Obj.elem zeroElem)).tick).put (m.size + 1)
        (Obj.elem zeroElem)).del (m.size + 1), ?_, ?_, ?_, ?_⟩
    · simp [libhal_changeset_set_property_strlist, LIBHAL_CHECK_PARAM_VALID, hc.1, hkey.1,
        Mem.alloc_ok, Mem.alloc_fail, h1, h2, strdup, hk, hne, Mem.setElem, Mem.write_eq,
        Mem.free_eq, zeroElem]
    · simp [AllocFailed]
      exact ⟨m.nalloc + 1, by omega, by omega, h2⟩
    · intro _ q
      simp
      split_ifs with hq
      · rw [hq, read_fresh m _ (by omega)]
      · rfl
    · simp
  by_cases h3 : m.outcome (m.nalloc + 2) = true
  swap
  · simp only [Bool.not_eq_true] at h3
    refine ⟨false, (((((m.push (Obj.elem zeroElem)).push (Obj.str (cstr ks))).put (m.size + 1)
        (Obj.elem { key := m.size + 2, change_type := LibHalPropertyType.INVALID, value := ElemValue.zero, next := 0, prev := 0 })).tick).del (m.size + 2)).del
            (m.size + 1), ?_, ?_, ?_, ?_⟩
    · simp [libhal_changeset_set_property_strlist, LIBHAL_CHECK_PARAM_VALID, hc.1, hkey.1,
        Mem.alloc_ok, Mem.alloc_fail, h1, h2, h3, strdup, hk, hv, hlen, hne, hnv1, hnv2,
        Mem.setElem, Mem.getElem, Mem.write_eq, Mem.free_eq, zeroElem, h12]
    · simp [AllocFailed]
      exact ⟨m.nalloc + 2, by omega, by omega, h3⟩
    · intro _ q
      simp
      split_ifs with hq hq2
      · rw [hq, read_fresh m _ (by omega)]
      · rw [hq2, read_fresh m _ (by omega)]
      · rfl
    · simp
  -- the loop
  have hinv0 : CopyInv m cells ks len 0 ((((m.push (Obj.elem zeroElem)).push
      (Obj.str (cstr ks))).put (m.size + 1) (Obj.elem { key := m.size + 2, change_type := LibHalPropertyType.INVALID, value := ElemValue.zero, next := 0, prev := 0 })).push
        (Obj.strv (List.replicate (len + 1) 0))) := by
    refine ⟨by simp, ?_, ?_, ?_, ?_, ?_, by simp, by simp, by simp, ?_⟩
    · intro q hq
      have e1 : q ≠ m.size + 1 := by omega
      have e2 : q ≠ m.size + 2 := by omega
      have e3 : q ≠ m.size + 3 := by omega
      simp [e1, e2, e3]
    · simp
    · simp
    · simp
    · intro j hj
      omega
    · intro k hk1 hk2
      simp at hk2
      have : k = m.nalloc ∨ k = m.nalloc + 1 ∨ k = m.nalloc + 2 := by omega
      rcases this with rfl | rfl | rfl
      · exact h1
      · exact h2
      · exact h3
  obtain ⟨r, μ', hloop, hr1, hr2⟩ := copy_loop_spec m value cells ks len hv hsrc len 0 _
    (by omega) hinv0
  cases r with
  | false =>
    obtain ⟨hrd, hfail⟩ := hr2 rfl
    refine ⟨false, μ', ?_, ?_, ?_, ?_⟩
    · simp [zeroElem] at hloop
      simp [libhal_changeset_set_property_strlist, LIBHAL_CHECK_PARAM_VALID, hc.1, hkey.1,
        Mem.alloc_ok, Mem.alloc_fail, h1, h2, h3, strdup, hk, hv, hlen, hne, hnv1, hnv2,
        Mem.setElem, Mem.getElem, Mem.write_eq, Mem.free_eq, zeroElem, h12, hloop]
    · simp [hfail]
    · intro _
      exact hrd
    · simp
  | true =>
    have hinv := hr1 rfl
    have hA : List.range' (m.size + 4) len ++ List.replicate (len + 1 - len) 0 =
        List.range' (m.size + 4) len ++ [0] := by
      have : len + 1 - len = 1 := by omega
      rw [this]
      rfl
    have harr := hinv.arr
    rw [hA] at harr
    have hAset : (List.range' (m.size + 4) len ++ [0]).set len 0 =
        List.range' (m.size + 4) len ++ [0] := by
      rw [List.set_append_right _ _ (by simp)]
      simp
    have h13 : m.size + 1 ≠ m.size + 3 := by omega
    obtain ⟨M, hM, hrun⟩ : ∃ M, M = (μ'.put (m.size + 3)
          (Obj.strv (List.range' (m.size + 4) len ++ [0]))).put (m.size + 1)
          (Obj.elem { key := m.size + 2, change_type := LibHalPropertyType.STRLIST, value := ElemValue.val_strlist (m.size + 3), next := 0, prev := 0 }) ∧
        libhal_changeset_set_property_strlist m cs key value =
          match libhal_changeset_append M cs (m.size + 1) with
          | none => none
          | some m6 => some (true, m6) := by
      refine ⟨_, rfl, ?_⟩
      simp [zeroElem] at hloop
      simp [libhal_changeset_set_property_strlist, LIBHAL_CHECK_PARAM_VALID, hc.1, hkey.1,
        Mem.alloc_ok, Mem.alloc_fail, h1, h2, h3, strdup, hk, hv, hlen, hne, hnv1, hnv2,
        Mem.setElem, Mem.getElem, Mem.setCell, Mem.write_eq, Mem.free_eq, zeroElem, h12, h13, hloop,
        harr, hinv.elem, hAset]
    have hMr : ∀ q, M.read q = if q = m.size + 1 then some (Obj.elem
          { key := m.size + 2, change_type := LibHalPropertyType.STRLIST, value := ElemValue.val_strlist (m.size + 3), next := 0, prev := 0 })
        else if q = m.size + 3 then some (Obj.strv (List.range' (m.size + 4) len ++ [0]))
        else μ'.read q := by
      intro q
      rw [hM]
      simp [harr, hinv.elem, h13]
    have hMs : M.size = m.size + 3 + len := by rw [hM]; simp [hinv.size]
    have hMf : M.freed = m.freed := by rw [hM]; simp [hinv.freed]
    have hMn : M.nalloc = m.nalloc + 3 + len := by rw [hM]; simp [hinv.nalloc]
    have hfresh : c.head = 0 ∨ (c.tail ≤ m.size ∧ c.tail ≠ 0) := by
      by_cases hh : c.head = 0
      · exact Or.inl hh
      · obtain ⟨t0, ht0⟩ := ht hh
        have := Mem.le_size_of_read m _ _ ht0
        right
        omega
    obtain ⟨m', ha, hs, hf, hn, hfr, hcs', hn', ht'⟩ := append_spec M cs (m.size + 1) c
      { key := m.size + 2, change_type := LibHalPropertyType.STRLIST, value := ElemValue.val_strlist (m.size + 3), next := 0, prev := 0 }
      (by rw [hMr, if_neg hne2, if_neg hne4, hinv.frame _ hc.2, hcs]) (by rw [hMr, if_pos rfl]) (by
        intro hh
        obtain ⟨t, ht1⟩ := ht hh
        have := Mem.le_size_of_read m _ _ ht1
        have e1 : c.tail ≠ m.size + 1 := by omega
        have e3 : c.tail ≠ m.size + 3 := by omega
        refine ⟨t, ?_, e1⟩
        rw [hMr, if_neg e1, if_neg e3, hinv.frame _ this.2, ht1])
    refine ⟨true, m', ?_, ?_, ?_, ?_⟩
    · rw [hrun, ha]
    · simp [AllocFailed]
      intro k hk1 hk2
      exact hinv.ok k hk1 (by rw [hinv.nalloc]; omega)
    · simp
    · intro _
      refine ⟨⟨by omega, by rw [hf, hMf], ?_, hcs', ?_, hn', ?_⟩, by omega, ?_, ?_⟩
      · intro q hq1 hq2 hq3
        rw [hfr q hq2 (by omega) hq3, hMr, if_neg (by omega), if_neg (by omega), hinv.frame q hq1]
      · intro hh
        obtain ⟨t, ht1, ht2⟩ := ht' hh
        rcases hfresh with h0 | ⟨e1, e2⟩
        · exact absurd h0 hh
        · rw [hMr, if_neg (by omega), if_neg (by omega), hinv.frame _ e1] at ht1
          exact ⟨t, ht1, ht2⟩
      · rw [hfr _ (by omega) (by omega) (by rcases hfresh with h0 | h0; exact Or.inl h0; right; omega),
          hMr, if_neg (by omega), if_neg (by omega), hinv.key]
      · rw [hfr _ (by omega) (by omega) (by rcases hfresh with h0 | h0; exact Or.inl h0; right; omega),
          hMr, if_neg (by omega), if_pos rfl]
      · intro j hj
        obtain ⟨cj, s, e1, e2, e3⟩ := hinv.copies j hj
        refine ⟨cj, s, e1, e2, ?_⟩
        rw [hfr _ (by omega) (by omega) (by rcases hfresh with h0 | h0; exact Or.inl h0; right; omega),
          hMr, if_neg (by omega), if_neg (by omega), e3]

theorem cstring_eq_some (m : Mem) (p : Nat) (l : List Nat) (h : cstring m p = some l) :
    ∃ s, m.read p = some (Obj.str s) ∧ l = cstr s := by
  unfold cstring at h
  split at h
  · rename_i s hs
    exact ⟨s, hs, by simpa using h.symm⟩
  · cases h

theorem cstring_of_read (m : Mem) (p : Nat) (s : List Nat) (h : m.read p = some (Obj.str s)) :
    cstring m p = some (cstr s) := by
  simp [cstring, h]

theorem cstring_isSome (m : Mem) (p : Nat) (h : (cstring m p).isSome) :
    ∃ s, m.read p = some (Obj.str s) := by
  cases hc : cstring m p with
  | none => simp [hc] at h
  | some l =>
    obtain ⟨s, hs, _⟩ := cstring_eq_some m p l hc
    exact ⟨s, hs⟩

theorem cstrings_of_eq_some (m : Mem) (cells : List Nat) (l : List (List Nat))
    (h : cstrings_of m cells = some l) :
    strlist_len cells = some l.length ∧
      ∀ j, j < l.length → ∃ cj s, cells[j]? = some cj ∧ m.read cj = some (Obj.str s) ∧
        l[j]? = some (cstr s) := by
  induction cells generalizing l with
  | nil => simp [cstrings_of] at h
  | cons a rest ih =>
    unfold cstrings_of at h
    by_cases ha : a = 0
    · simp [ha] at h
      subst h
      simp [strlist_len, ha]
    · simp only [ha, if_false] at h
      cases hs : cstring m a with
      | none => simp [hs] at h
      | some s0 =>
        cases hr : cstrings_of m rest with
        | none => simp [hs, hr] at h
        | some l0 =>
          simp [hs, hr] at h
          subst h
          obtain ⟨h1, h2⟩ := ih l0 hr
          obtain ⟨s, hsr, hs0⟩ := cstring_eq_some m a s0 hs
          refine ⟨by simp [strlist_len, ha, h1], ?_⟩
          intro j hj
          cases j with
          | zero => exact ⟨a, s, by simp, hsr, by simp [hs0]⟩
          | succ j =>
            obtain ⟨cj, s', e1, e2, e3⟩ := h2 j (by simpa using hj)
            exact ⟨cj, s', by simpa using e1, e2, by simpa using e3⟩

theorem cstrings_isSome (m : Mem) (p : Nat) (h : (cstrings m p).isSome) :
    ∃ cells len, m.read p = some (Obj.strv cells) ∧ strlist_len cells = some len ∧
      ∀ j, j < len → ∃ cj s, cells[j]? = some cj ∧ m.read cj = some (Obj.str s) := by
  cases hc : cstrings m p with
  | none => simp [hc] at h
  | some l =>
    unfold cstrings at hc
    split at hc
    · rename_i cells hcells
      obtain ⟨h1, h2⟩ := cstrings_of_eq_some m cells l hc
      refine ⟨cells, l.length, hcells, h1, ?_⟩
      intro j hj
      obtain ⟨cj, s, e1, e2, _⟩ := h2 j hj
      exact ⟨cj, s, e1, e2⟩
    · cases hc

theorem SetterCall.key_ok (m : Mem) (call : SetterCall) (h : call.ArgsOk m) :
    ∃ ks, m.read call.key = some (Obj.str ks) := by
  cases call <;> simp only [SetterCall.ArgsOk, SetterCall.key] at * <;>
    first
    | exact cstring_isSome m _ h
    | exact cstring_isSome m _ h.1

theorem setter_spec (m : Mem) (cs : Nat) (c : LibHalChangeSet) (call : SetterCall)
    (hcs : m.read cs = some (Obj.cset c)) (hargs : call.ArgsOk m)
    (ht : c.head ≠ 0 → ∃ t, m.read c.tail = some (Obj.elem t)) :
    ∃ r m', call.run m cs = some (r, m') ∧
      (r = false ↔ AllocFailed m m') ∧
      (r = false → ∀ q, m'.read q = m.read q) ∧
      (r = true → ∃ v ks, m.read call.key = some (Obj.str ks) ∧
        Appended m m' cs c call.tag v ks ∧ call.Payload m m' v) := by
  cases call with
  | string k val =>
    obtain ⟨ks, hk⟩ := cstring_isSome m k hargs.1
    obtain ⟨vs, hv⟩ := cstring_isSome m val hargs.2
    obtain ⟨r, m', h1, h2, h3, h4⟩ := string_spec m cs k val c ks vs hcs hk hv ht
    refine ⟨r, m', h1, h2, h3, fun hr => ?_⟩
    obtain ⟨e1, e2, e3⟩ := h4 hr
    exact ⟨_, ks, hk, e1, rfl, e2, vs, hv, e3⟩
  | int k x =>
    obtain ⟨ks, hk⟩ := cstring_isSome m k hargs
    obtain ⟨r, m', h1, h2, h3, h4⟩ := scalar_spec m cs k LibHalPropertyType.INT32
      (ElemValue.val_int x) c ks hcs hk ht
    exact ⟨r, m', h1, h2, h3, fun hr => ⟨_, ks, hk, (h4 hr).1, rfl, (h4 hr).2⟩⟩
  | uint64 k x =>
    obtain ⟨ks, hk⟩ := cstring_isSome m k hargs
    obtain ⟨r, m', h1, h2, h3, h4⟩ := scalar_spec m cs k LibHalPropertyType.UINT64
      (ElemValue.val_uint64 x) c ks hcs hk ht
    exact ⟨r, m', h1, h2, h3, fun hr => ⟨_, ks, hk, (h4 hr).1, rfl, (h4 hr).2⟩⟩
  | double k x =>
    obtain ⟨ks, hk⟩ := cstring_isSome m k hargs
    obtain ⟨r, m', h1, h2, h3, h4⟩ := scalar_spec m cs k LibHalPropertyType.DOUBLE
      (ElemValue.val_double x) c ks hcs hk ht
    exact ⟨r, m', h1, h2, h3, fun hr => ⟨_, ks, hk, (h4 hr).1, rfl, (h4 hr).2⟩⟩
  | bool k x =>
    obtain ⟨ks, hk⟩ := cstring_isSome m k hargs
    obtain ⟨r, m', h1, h2, h3, h4⟩ := scalar_spec m cs k LibHalPropertyType.BOOLEAN
      (ElemValue.val_bool x) c ks hcs hk ht
    exact ⟨r, m', h1, h2, h3, fun hr => ⟨_, ks, hk, (h4 hr).1, rfl, (h4 hr).2⟩⟩
  | strlist k val =>
    obtain ⟨ks, hk⟩ := cstring_isSome m k hargs.1
    obtain ⟨cells, len, hv, hlen, hsrc⟩ := cstrings_isSome m val hargs.2
    obtain ⟨r, m', h1, h2, h3, h4⟩ := strlist_spec m cs k val c ks cells len hcs hk hv hlen hsrc ht
    refine ⟨r, m', h1, h2, h3, fun hr => ?_⟩
    obtain ⟨e1, e2, e3, e4⟩ := h4 hr
    exact ⟨_, ks, hk, e1, rfl, cells, len, hv, hlen, e2, e3, e4⟩

theorem walk_eq_some_iff (m : Mem) (fuel p : Nat) (l : List Nat) :
    walk m fuel p = some l ↔ IsSeq m p l ∧ l.length ≤ fuel := by
  induction fuel generalizing p l with
  | zero =>
    unfold walk
    by_cases hp : p = 0
    · cases l with
      | nil => simp [hp, IsSeq]
      | cons a l => simp [hp, IsSeq]
    · cases l with
      | nil => simp [hp, IsSeq]
      | cons a l => simp [hp, IsSeq]
  | succ fuel ih =>
    unfold walk
    by_cases hp : p = 0
    · cases l with
      | nil => simp [hp, IsSeq]
      | cons a l =>
        simp [hp, IsSeq]
        intro h1 h2
        exact absurd h1.symm h2
    · simp only [hp, if_false]
      cases hr : m.read p with
      | none =>
        cases l with
        | nil => simp [Mem.getElem, hr, IsSeq, hp]
        | cons a l =>
          simp [Mem.getElem, hr, IsSeq]
          intro h1 h2 e he
          rw [← h1, hr] at he
          cases he
      | some o =>
        cases o with
        | elem e =>
          cases l with
          | nil =>
            simp [Mem.getElem, hr, IsSeq, hp]
            cases walk m fuel e.next <;> simp
          | cons a l =>
            simp only [Mem.getElem, hr, IsSeq]
            cases hw : walk m fuel e.next with
            | none =>
              simp
              intro h1 h2 e' he' hs
              rw [← h1, hr] at he'
              cases he'
              by_contra hlen
              have := (ih e.next l).2 ⟨hs, by omega⟩
              rw [hw] at this
              cases this
            | some l' =>
              simp
              constructor
              · rintro ⟨rfl, rfl⟩
                obtain ⟨h1, h2⟩ := (ih e.next l').1 hw
                exact ⟨⟨rfl, hp, e, hr, h1⟩, by omega⟩
              · rintro ⟨⟨rfl, _, e', he', hs⟩, hlen⟩
                rw [hr] at he'
                cases he'
                have := (ih e.next l).2 ⟨hs, by omega⟩
                rw [hw] at this
                cases this
                exact ⟨rfl, rfl⟩
        | _ =>
          cases l with
          | nil => simp [Mem.getElem, hr, IsSeq, hp]
          | cons a l =>
            simp [Mem.getElem, hr, IsSeq]
            intro h1 h2 e he
            rw [← h1, hr] at he
            cases he

theorem IsSeq.head_zero_iff (m : Mem) (p : Nat) (l : List Nat) (h : IsSeq m p l) :
    p = 0 ↔ l = [] := by
  cases l with
  | nil => simpa [IsSeq] using h
  | cons a l =>
    obtain ⟨h1, h2, _⟩ := h
    simp
    omega

theorem IsSeq.mem (m : Mem) (p : Nat) (l : List Nat) (h : IsSeq m p l) (a : Nat) (ha : a ∈ l) :
    a ≠ 0 ∧ ∃ e, m.read a = some (Obj.elem e) := by
  induction l generalizing p with
  | nil => cases ha
  | cons b l ih =>
    obtain ⟨h1, h2, e, he, hs⟩ := h
    rcases List.mem_cons.1 ha with rfl | hmem
    · exact ⟨h2, e, he⟩
    · exact ih e.next hs hmem

theorem IsSeq.last (m : Mem) (p : Nat) (l : List Nat) (h : IsSeq m p l) (hne : l ≠ []) :
    ∃ e, m.read (l.getLastD 0) = some (Obj.elem e) ∧ e.next = 0 := by
  induction l generalizing p with
  | nil => exact absurd rfl hne
  | cons b l ih =>
    obtain ⟨h1, h2, e, he, hs⟩ := h
    cases l with
    | nil =>
      refine ⟨e, by simpa using he, ?_⟩
      simpa [IsSeq] using hs
    | cons c l =>
      obtain ⟨e', he', hn⟩ := ih e.next hs (by simp)
      exact ⟨e', by simpa using he', hn⟩

theorem IsSeq.unique (m : Mem) (p : Nat) (l1 l2 : List Nat) (h1 : IsSeq m p l1)
    (h2 : IsSeq m p l2) : l1 = l2 := by
  induction l1 generalizing p l2 with
  | nil =>
    have hp : p = 0 := by simpa [IsSeq] using h1
    exact ((IsSeq.head_zero_iff m p l2 h2).1 hp).symm
  | cons a l1 ih =>
    obtain ⟨e1, e2, e, he, hs⟩ := h1
    cases l2 with
    | nil =>
      have hp : p = 0 := by simpa [IsSeq] using h2
      omega
    | cons b l2 =>
      obtain ⟨f1, f2, e', he', hs'⟩ := h2
      have hab : a = b := by omega
      subst hab
      rw [he] at he'
      cases he'
      rw [ih e.next l2 hs hs']

theorem IsSeq.frame_next (m m' : Mem) (p : Nat) (l : List Nat) (h : IsSeq m p l)
    (hf : ∀ a, a ∈ l → ∀ e, m.read a = some (Obj.elem e) →
      ∃ e', m'.read a = some (Obj.elem e') ∧ e'.next = e.next) : IsSeq m' p l := by
  induction l generalizing p with
  | nil => exact h
  | cons b l ih =>
    obtain ⟨h1, h2, e, he, hs⟩ := h
    obtain ⟨e', he', hn⟩ := hf b (by simp) e he
    refine ⟨h1, h2, e', he', ?_⟩
    rw [hn]
    exact ih e.next hs (fun a ha => hf a (by simp [ha]))

theorem IsSeq.snoc (m m' : Mem) (p n : Nat) (l : List Nat) (h : IsSeq m p l) (hne : l ≠ [])
    (et en : LibHalChangeSetElement)
    (ht : m.read (l.getLastD 0) = some (Obj.elem et))
    (ht' : m'.read (l.getLastD 0) = some (Obj.elem { et with next := n }))
    (hf : ∀ a, a ∈ l → a ≠ l.getLastD 0 → m'.read a = m.read a)
    (hn : m'.read n = some (Obj.elem en)) (hen : en.next = 0) (hn0 : n ≠ 0) :
    IsSeq m' p (l ++ [n]) := by
  induction l generalizing p with
  | nil => exact absurd rfl hne
  | cons b l ih =>
    obtain ⟨h1, h2, e, he, hs⟩ := h
    cases l with
    | nil =>
      simp only [List.getLastD_cons, List.getLastD_nil] at ht ht'
      exact ⟨h1, h2, _, ht', rfl, hn0, en, hn, by rw [hen]; rfl⟩
    | cons c l =>
      have hlast : (b :: c :: l).getLastD 0 = (c :: l).getLastD 0 := by simp
      rw [hlast] at ht ht' hf
      obtain ⟨el, hel, hnl⟩ := IsSeq.last m e.next (c :: l) hs (by simp)
      have hbne : b ≠ (c :: l).getLastD 0 := by
        intro hb
        rw [← hb, he] at hel
        cases hel
        obtain ⟨g1, g2, _⟩ := hs
        omega
      have hb' : m'.read b = some (Obj.elem e) := by rw [hf b (by simp) hbne, he]
      refine ⟨h1, h2, e, hb', ?_⟩
      exact ih e.next hs (by simp) ht ht' (fun a ha hne' => hf a (by simp [ha]) hne')

theorem Appended.seq (m m' : Mem) (cs : Nat) (c : LibHalChangeSet) (tag : LibHalPropertyType)
    (v : ElemValue) (ks : List Nat) (l : List Nat)
    (hcs : m.read cs = some (Obj.cset c))
    (h : Appended m m' cs c tag v ks) (hl : IsSeq m c.head l) (htl : c.tail = l.getLastD 0) :
    IsSeq m' (if c.head = 0 then m.size + 1 else c.head) (l ++ [m.size + 1]) := by
  by_cases hh : c.head = 0
  · have hl0 : l = [] := (IsSeq.head_zero_iff m _ l hl).1 hh
    subst hl0
    simp only [hh, if_true, List.nil_append]
    exact ⟨rfl, by omega, _, h.elem_new, rfl⟩
  · have hne : l ≠ [] := fun e => hh ((IsSeq.head_zero_iff m _ l hl).2 e)
    simp only [hh, if_false]
    obtain ⟨t, ht1, ht2⟩ := h.tail_upd hh
    rw [htl] at ht1 ht2
    refine IsSeq.snoc m m' c.head (m.size + 1) l hl hne t _ ht1 ht2 ?_ h.elem_new rfl (by omega)
    intro a ha hat
    obtain ⟨_, e, he⟩ := IsSeq.mem m _ l hl a ha
    have hale := Mem.le_size_of_read m a _ he
    refine h.frame a hale.2 ?_ (Or.inr (by rw [htl]; exact hat))
    rintro rfl
    rw [hcs] at he
    cases he

theorem cstr_idem (s : List Nat) : cstr (cstr s) = cstr s := by
  unfold cstr
  exact List.takeWhile_idem

theorem new_changeset_inv (m : Mem) (udi cs : Nat) (m' : Mem)
    (h : libhal_device_new_changeset m udi = some (cs, m')) (hcs : cs ≠ 0) :
    ∃ s, m.read udi = some (Obj.str s) ∧ UDI_PREFIX <+: s ∧ m.outcome m.nalloc = true ∧
      m.outcome (m.nalloc + 1) = true := by
  by_cases hu : udi = 0
  · simp [libhal_device_new_changeset, LIBHAL_CHECK_UDI_VALID, hu] at h
    omega
  cases hr : m.read udi with
  | none => simp [libhal_device_new_changeset, LIBHAL_CHECK_UDI_VALID, hu, hr] at h
  | some o =>
    cases o with
    | str s =>
      have hule := Mem.le_size_of_read m udi _ hr
      have hne : udi ≠ m.size + 1 := by omega
      by_cases hp : UDI_PREFIX <+: s
      swap
      · have : (strncmp s UDI_PREFIX 29 == 0) = false := by
          rw [Bool.eq_false_iff]
          intro hh
          exact hp ((udi_check_iff s).1 hh)
        simp [libhal_device_new_changeset, LIBHAL_CHECK_UDI_VALID, hu, hr, this] at h
        omega
      by_cases h1 : m.outcome m.nalloc = true
      swap
      · simp only [Bool.not_eq_true] at h1
        simp [libhal_device_new_changeset, LIBHAL_CHECK_UDI_VALID, hu, hr, (udi_check_iff s).2 hp,
          Mem.alloc_fail, h1] at h
        omega
      by_cases h2 : m.outcome (m.nalloc + 1) = true
      swap
      · simp only [Bool.not_eq_true] at h2
        simp [libhal_device_new_changeset, LIBHAL_CHECK_UDI_VALID, hu, hr, (udi_check_iff s).2 hp,
          Mem.alloc_ok, Mem.alloc_fail, h1, h2, strdup, hne, Mem.setCset, Mem.write_eq,
          Mem.free_eq, zeroCset] at h
        omega
      exact ⟨s, rfl, hp, h1, h2⟩
    | _ => simp [libhal_device_new_changeset, LIBHAL_CHECK_UDI_VALID, hu, hr] at h

/-- C1: `libhal_device_new_changeset` returns NULL, without touching the heap,
when `udi` is NULL or the string at `udi` does not begin with the 29 bytes
`/org/freedesktop/Hal/devices/`; when it does begin with them and both
allocations succeed, the result is not NULL. -/
theorem new_changeset_udi_rule (m : Mem) (udi : Nat) (s : List Nat)
    (hs : udi ≠ 0 → m.read udi = some (Obj.str s)) :
    UDI_PREFIX.length = 29 ∧
    ((udi = 0 ∨ ¬ UDI_PREFIX <+: s) → libhal_device_new_changeset m udi = some (0, m)) ∧
    (udi ≠ 0 → UDI_PREFIX <+: s → m.outcome m.nalloc = true →
      m.outcome (m.nalloc + 1) = true →
      ∃ cs m', libhal_device_new_changeset m udi = some (cs, m') ∧ cs ≠ 0) := by
  refine ⟨by decide, ?_, ?_⟩
  · intro h
    by_cases hu : udi = 0
    · simp [libhal_device_new_changeset, LIBHAL_CHECK_UDI_VALID, hu]
    · rcases h with h | h
      · exact absurd h hu
      · have : (strncmp s UDI_PREFIX 29 == 0) = false := by
          rw [Bool.eq_false_iff]
          intro hh
          exact h ((udi_check_iff s).1 hh)
        simp [libhal_device_new_changeset, LIBHAL_CHECK_UDI_VALID, hu, hs hu, this]
  · intro hu hp h1 h2
    exact ⟨_, _, new_changeset_ok m udi s (hs hu) hp h1 h2, by omega⟩

/-- Witness for C1: `not-a-real-udi` is rejected and
`/org/freedesktop/Hal/devices/foo` is accepted. -/
theorem new_changeset_udi_rule_witness :
    libhal_device_new_changeset exHeap 7 = some (0, exHeap) ∧
      ∃ cs m', libhal_device_new_changeset exHeap 1 = some (cs, m') ∧ cs ≠ 0 :=
  ⟨(new_changeset_udi_rule exHeap 7 (ascii "not-a-real-udi") (fun _ => by decide)).2.1
      (Or.inr (by decide)),
    (new_changeset_udi_rule exHeap 1 (ascii "/org/freedesktop/Hal/devices/foo")
      (fun _ => by decide)).2.2 (by decide) (by decide) (by decide) (by decide)⟩

/-- C2: the changeset returned by `libhal_device_new_changeset` has `head` and
`tail` NULL, so that its element sequence is empty, and its `udi` field points
to a new block, different from the argument, that holds the same string. -/
theorem new_changeset_empty (m : Mem) (udi cs : Nat) (m' : Mem)
    (h : libhal_device_new_changeset m udi = some (cs, m')) (hcs : cs ≠ 0) :
    ∃ c s, m'.read cs = some (Obj.cset c) ∧ c.head = 0 ∧ c.tail = 0 ∧
      (∀ fuel, walk m' fuel c.head = some []) ∧
      m.read udi = some (Obj.str s) ∧ m'.read udi = some (Obj.str s) ∧
      c.udi ≠ 0 ∧ c.udi ≠ udi ∧ m.read c.udi = none ∧
      cstring m' c.udi = some (cstr s) ∧ cstring m' c.udi = cstring m udi := by
  obtain ⟨s, hs, hp, h1, h2⟩ := new_changeset_inv m udi cs m' h hcs
  rw [new_changeset_ok m udi s hs hp h1 h2] at h
  simp only [Option.some.injEq, Prod.mk.injEq] at h
  obtain ⟨rfl, rfl⟩ := h
  have hule := Mem.le_size_of_read m udi _ hs
  have e1 : udi ≠ m.size + 1 := by omega
  have e2 : udi ≠ m.size + 2 := by omega
  refine ⟨{ udi := m.size + 2, head := 0, tail := 0 }, s, by simp, rfl, rfl, ?_, hs,
    by simp [e1, e2, hs], by simp, ?_, read_fresh m _ (by simp), ?_, ?_⟩
  · intro fuel
    cases fuel <;> simp [walk]
  · show m.size + 2 ≠ udi
    omega
  · simp [cstring, cstr_idem]
  · simp [cstring, hs, cstr_idem]

/-- Witness for C2, on the identifier `/org/freedesktop/Hal/devices/foo`. -/
theorem new_changeset_empty_witness :
    ∃ c s, exHeapCs.read 9 = some (Obj.cset c) ∧ c.head = 0 ∧ c.tail = 0 ∧
      (∀ fuel, walk exHeapCs fuel c.head = some []) ∧
      exHeap.read 1 = some (Obj.str s) ∧ exHeapCs.read 1 = some (Obj.str s) ∧
      c.udi ≠ 0 ∧ c.udi ≠ 1 ∧ exHeap.read c.udi = none ∧
      cstring exHeapCs c.udi = some (cstr s) ∧ cstring exHeapCs c.udi = cstring exHeap 1 :=
  new_changeset_empty exHeap 1 9 exHeapCs (by decide) (by decide)

theorem Appended.frame_str (m m' : Mem) (cs : Nat) (c : LibHalChangeSet)
    (tag : LibHalPropertyType) (v : ElemValue) (ks : List Nat)
    (hcs : m.read cs = some (Obj.cset c)) (h : Appended m m' cs c tag v ks) (q : Nat)
    (s : List Nat) (hq : m.read q = some (Obj.str s)) : m'.read q = some (Obj.str s) := by
  have hle := Mem.le_size_of_read m q _ hq
  rw [h.frame q hle.2 ?_ ?_, hq]
  · rintro rfl
    rw [hcs] at hq
    cases hq
  · by_cases hh : c.head = 0
    · exact Or.inl hh
    · right
      obtain ⟨t, ht, _⟩ := h.tail_upd hh
      rintro rfl
      rw [ht] at hq
      cases hq

theorem Appended.frame_strv (m m' : Mem) (cs : Nat) (c : LibHalChangeSet)
    (tag : LibHalPropertyType) (v : ElemValue) (ks : List Nat)
    (hcs : m.read cs = some (Obj.cset c)) (h : Appended m m' cs c tag v ks) (q : Nat)
    (cells : List Nat) (hq : m.read q = some (Obj.strv cells)) :
    m'.read q = some (Obj.strv cells) := by
  have hle := Mem.le_size_of_read m q _ hq
  rw [h.frame q hle.2 ?_ ?_, hq]
  · rintro rfl
    rw [hcs] at hq
    cases hq
  · by_cases hh : c.head = 0
    · exact Or.inl hh
    · right
      obtain ⟨t, ht, _⟩ := h.tail_upd hh
      rintro rfl
      rw [ht] at hq
      cases hq

theorem Appended.frame_elem (m m' : Mem) (cs : Nat) (c : LibHalChangeSet)
    (tag : LibHalPropertyType) (v : ElemValue) (ks : List Nat)
    (hcs : m.read cs = some (Obj.cset c)) (h : Appended m m' cs c tag v ks) (a : Nat)
    (ea : LibHalChangeSetElement) (ha : m.read a = some (Obj.elem ea)) :
    ∃ ea', m'.read a = some (Obj.elem ea') ∧ ea'.key = ea.key ∧
      ea'.change_type = ea.change_type ∧ ea'.value = ea.value ∧ ea'.prev = ea.prev ∧
      ((c.head = 0 ∨ a ≠ c.tail) → ea'.next = ea.next) := by
  have hle := Mem.le_size_of_read m a _ ha
  have hacs : a ≠ cs := by
    rintro rfl
    rw [hcs] at ha
    cases ha
  by_cases hh : c.head = 0 ∨ a ≠ c.tail
  · exact ⟨ea, by rw [h.frame a hle.2 hacs hh, ha], rfl, rfl, rfl, rfl, fun _ => rfl⟩
  · have h1 : c.head ≠ 0 := fun e => hh (Or.inl e)
    have h2 : a = c.tail := by
      by_contra e
      exact hh (Or.inr e)
    obtain ⟨t, ht, ht'⟩ := h.tail_upd h1
    subst h2
    rw [ha] at ht
    cases ht
    exact ⟨_, ht', rfl, rfl, rfl, rfl, fun e => absurd e hh⟩

theorem tail_live (m : Mem) (c : LibHalChangeSet) (l : List Nat) (hl : IsSeq m c.head l)
    (htl : c.tail = l.getLastD 0) : c.head ≠ 0 → ∃ t, m.read c.tail = some (Obj.elem t) := by
  intro hh
  have hne : l ≠ [] := fun e => hh ((IsSeq.head_zero_iff m _ l hl).2 e)
  obtain ⟨e, he, _⟩ := IsSeq.last m _ l hl hne
  exact ⟨e, by rw [htl]; exact he⟩

theorem setter_step (m : Mem) (cs : Nat) (c : LibHalChangeSet) (l : List Nat)
    (call : SetterCall) (m' : Mem)
    (hcs : m.read cs = some (Obj.cset c)) (hl : IsSeq m c.head l)
    (htl : c.tail = l.getLastD 0) (hargs : call.ArgsOk m)
    (hrun : call.run m cs = some (true, m')) :
    ∃ v ks, m.read call.key = some (Obj.str ks) ∧ Appended m m' cs c call.tag v ks ∧
      call.Payload m m' v ∧
      IsSeq m' (if c.head = 0 then m.size + 1 else c.head) (l ++ [m.size + 1]) ∧
      (m.size + 1) ∉ l := by
  obtain ⟨r, m'', h1, _, _, h4⟩ := setter_spec m cs c call hcs hargs (tail_live m c l hl htl)
  rw [hrun] at h1
  simp only [Option.some.injEq, Prod.mk.injEq] at h1
  obtain ⟨rfl, rfl⟩ := h1
  obtain ⟨v, ks, hk, happ, hpay⟩ := h4 rfl
  refine ⟨v, ks, hk, happ, hpay, Appended.seq m m' cs c _ v ks l hcs happ hl htl, ?_⟩
  intro hmem
  obtain ⟨_, e, he⟩ := IsSeq.mem m _ l hl _ hmem
  have := Mem.le_size_of_read m _ _ he
  omega

theorem walk_congr (m m' : Mem) (h : ∀ q, m'.read q = m.read q) (fuel p : Nat) :
    walk m' fuel p = walk m fuel p := by
  induction fuel generalizing p with
  | zero => rfl
  | succ fuel ih =>
    unfold walk
    simp only [Mem.getElem, h, ih]

/-- C3: a setter call that returns TRUE on a well-formed changeset with element
sequence `L` leaves the sequence `L ++ [n]`, where the new element `n` is the
tail and carries a copy of the key; every element of `L` keeps its key, tag and
value, and no string or string array of the heap changes.  Nothing depends on
whether the key already occurs in `L`: a second successful call leaves
`L ++ [n, nB]`, the later write after the earlier one. -/
theorem setter_appends_at_tail (m : Mem) (cs : Nat) (c : LibHalChangeSet) (L : List Nat)
    (fuel : Nat) (call : SetterCall) (m' : Mem)
    (hcs : m.read cs = some (Obj.cset c)) (hwalk : walk m fuel c.head = some L)
    (htail : c.tail = L.getLastD 0) (hargs : call.ArgsOk m)
    (hrun : call.run m cs = some (true, m')) :
    ∃ c' n e, m'.read cs = some (Obj.cset c') ∧ c'.udi = c.udi ∧ c'.tail = n ∧
      walk m' (fuel + 1) c'.head = some (L ++ [n]) ∧ n ∉ L ∧
      m'.read n = some (Obj.elem e) ∧ (cstring m call.key).isSome ∧
      cstring m' e.key = cstring m call.key ∧
      (∀ a ea, a ∈ L → m.read a = some (Obj.elem ea) →
        ∃ ea', m'.read a = some (Obj.elem ea') ∧ ea'.key = ea.key ∧
          ea'.change_type = ea.change_type ∧ ea'.value = ea.value) ∧
      (∀ q s, m.read q = some (Obj.str s) → m'.read q = some (Obj.str s)) ∧
      (∀ q cells, m.read q = some (Obj.strv cells) → m'.read q = some (Obj.strv cells)) ∧
      (∀ (callB : SetterCall) (m'' : Mem), callB.ArgsOk m' → callB.run m' cs = some (true, m'') →
        ∃ c'' nB eA eB, m''.read cs = some (Obj.cset c'') ∧ c''.tail = nB ∧
          walk m'' (fuel + 2) c''.head = some (L ++ [n, nB]) ∧
          m''.read n = some (Obj.elem eA) ∧ m''.read nB = some (Obj.elem eB) ∧
          cstring m'' eA.key = cstring m call.key ∧
          cstring m'' eB.key = cstring m' callB.key) := by
  obtain ⟨hl, hlen⟩ := (walk_eq_some_iff m fuel c.head L).1 hwalk
  obtain ⟨v, ks, hk, happ, hpay, hseq, hnew⟩ := setter_step m cs c L call m' hcs hl htail hargs hrun
  have hkey' : cstring m' (m.size + 2) = cstring m call.key := by
    simp [cstring, happ.key_new, hk, cstr_idem]
  refine ⟨_, m.size + 1, _, happ.cs_new, rfl, rfl, ?_, hnew, happ.elem_new, by simp [cstring, hk],
    hkey', ?_, ?_, ?_, ?_⟩
  · exact (walk_eq_some_iff m' _ _ _).2 ⟨hseq, by simp; omega⟩
  · intro a ea ha hea
    obtain ⟨ea', h1, h2, h3, h4, _⟩ := Appended.frame_elem m m' cs c _ v ks hcs happ a ea hea
    exact ⟨ea', h1, h2, h3, h4⟩
  · exact fun q s hq => Appended.frame_str m m' cs c _ v ks hcs happ q s hq
  · exact fun q cells hq => Appended.frame_strv m m' cs c _ v ks hcs happ q cells hq
  · intro callB m'' hargsB hrunB
    obtain ⟨vB, ksB, hkB, happB, hpayB, hseqB, hnewB⟩ := setter_step m' cs _ (L ++ [m.size + 1])
      callB m'' happ.cs_new hseq (by simp) hargsB hrunB
    have hsz := happ.size_le
    obtain ⟨eA, hA1, hA2, _⟩ := Appended.frame_elem m' m'' cs _ _ vB ksB happ.cs_new happB
      (m.size + 1) _ happ.elem_new
    have hkA : m''.read (m.size + 2) = some (Obj.str (cstr ks)) :=
      Appended.frame_str m' m'' cs _ _ vB ksB happ.cs_new happB _ _ happ.key_new
    refine ⟨_, m'.size + 1, eA, _, happB.cs_new, rfl, ?_, hA1, happB.elem_new, ?_, ?_⟩
    · refine (walk_eq_some_iff m'' _ _ _).2 ⟨?_, by simp; omega⟩
      have : L ++ [m.size + 1, m'.size + 1] = L ++ [m.size + 1] ++ [m'.size + 1] := by simp
      rw [this]
      simpa using hseqB
    · rw [hA2]
      simp [cstring, hkA, hk, cstr_idem]
    · simp [cstring, happB.key_new, hkB, cstr_idem]

/-- Witness for C3: the call `set_property_int (cs, "k", -7)` on the changeset
of `exHeapL`, whose only element already has the key `k`. -/
theorem setter_appends_at_tail_witness :
    ∃ c' n e, exHeapLI.read 9 = some (Obj.cset c') ∧ c'.udi = 10 ∧ c'.tail = n ∧
      walk exHeapLI 2 c'.head = some ([11] ++ [n]) ∧ n ∉ [11] ∧
      exHeapLI.read n = some (Obj.elem e) ∧ (cstring exHeapL 2).isSome ∧
      cstring exHeapLI e.key = cstring exHeapL 2 := by
  obtain ⟨c', n, e, h1, h2, h3, h4, h5, h6, h7, h8, _⟩ :=
    setter_appends_at_tail exHeapL 9 { udi := 10, head := 11, tail := 11 } [11] 1
      (SetterCall.int 2 (-7)) exHeapLI (by decide) (by decide) (by decide) (by decide) (by decide)
  exact ⟨c', n, e, h1, h2, h3, h4, h5, h6, h7, h8⟩

theorem cstrings_of_intro (m : Mem) (cells : List Nat) (l : List (List Nat))
    (h1 : strlist_len cells = some l.length)
    (h2 : ∀ j, j < l.length → ∃ cj s, cells[j]? = some cj ∧ m.read cj = some (Obj.str s) ∧
      l[j]? = some (cstr s)) : cstrings_of m cells = some l := by
  induction cells generalizing l with
  | nil => simp [strlist_len] at h1
  | cons a rest ih =>
    unfold strlist_len at h1
    unfold cstrings_of
    by_cases ha : a = 0
    · simp only [ha, if_true, Option.some.injEq] at h1 ⊢
      exact (List.length_eq_zero.1 h1.symm).symm
    · simp only [ha, if_false] at h1 ⊢
      cases hr : strlist_len rest with
      | none => simp [hr] at h1
      | some n =>
        simp only [hr, Option.some.injEq] at h1
        cases l with
        | nil => simp at h1
        | cons x l' =>
          simp only [List.length_cons, add_left_inj] at h1
          obtain ⟨cj, s, e1, e2, e3⟩ := h2 0 (by simp)
          simp only [List.getElem?_cons_zero, Option.some.injEq] at e1 e3
          subst e1
          have hx : cstring m a = some x := by simp [cstring, e2, e3]
          have hrest : cstrings_of m rest = some l' := by
            refine ih l' (by rw [hr, h1]) ?_
            intro j hj
            obtain ⟨cj, s', f1, f2, f3⟩ := h2 (j + 1) (by simpa using hj)
            exact ⟨cj, s', by simpa using f1, f2, by simpa using f3⟩
          simp [hx, hrest]

theorem strlist_len_range (a n : Nat) (ha : a ≠ 0) :
    strlist_len (List.range' a n ++ [0]) = some n := by
  induction n generalizing a with
  | zero => simp [strlist_len]
  | succ n ih =>
    simp [List.range'_succ, strlist_len, ha, ih (a + 1) (by omega)]

theorem range_snoc_get (a n t : Nat) (ht : t < n) :
    (List.range' a n ++ [0])[t]? = some (a + t) := by
  rw [List.getElem?_append_left (by simpa using ht)]
  simp [List.getElem?_range', ht]

theorem cstrings_of_take (m : Mem) (cells : List Nat) (len : Nat)
    (h : strlist_len cells = some len) :
    cstrings_of m (cells.take len ++ [0]) = cstrings_of m cells := by
  induction cells generalizing len with
  | nil => simp [strlist_len] at h
  | cons a rest ih =>
    unfold strlist_len at h
    by_cases ha : a = 0
    · simp only [ha, if_true, Option.some.injEq] at h
      subst h
      simp [cstrings_of, ha]
    · simp only [ha, if_false] at h
      cases hr : strlist_len rest with
      | none => simp [hr] at h
      | some n =>
        simp only [hr, Option.some.injEq] at h
        subst h
        simp [cstrings_of, ha, ih n hr]

theorem strlist_stored (m m' : Mem) (val : Nat) (cells : List Nat) (len : Nat)
    (hargs : (cstrings m val).isSome)
    (hv : m.read val = some (Obj.strv cells)) (hlen : strlist_len cells = some len)
    (harr : m'.read (m.size + 3) = some (Obj.strv (List.range' (m.size + 4) len ++ [0])))
    (hcopies : ∀ j, j < len → ∃ cj s, cells[j]? = some cj ∧ m.read cj = some (Obj.str s) ∧
      m'.read (m.size + 4 + j) = some (Obj.str (cstr s))) :
    (cstrings m' (m.size + 3)).isSome ∧ cstrings m' (m.size + 3) = cstrings m val := by
  cases hl : cstrings m val with
  | none => simp [hl] at hargs
  | some l =>
    have hl' : cstrings_of m cells = some l := by simpa [cstrings, hv] using hl
    obtain ⟨h1, h2⟩ := cstrings_of_eq_some m cells l hl'
    have hlen2 : l.length = len := by
      rw [hlen] at h1
      simpa using h1.symm
    have : cstrings m' (m.size + 3) = some l := by
      simp only [cstrings, harr]
      refine cstrings_of_intro m' _ l (by rw [hlen2]; exact strlist_len_range _ _ (by omega)) ?_
      intro j hj
      obtain ⟨cj, s, e1, e2, e3⟩ := h2 j hj
      obtain ⟨cj', s', f1, f2, f3⟩ := hcopies j (by omega)
      rw [e1] at f1
      cases f1
      rw [e2] at f2
      cases f2
      exact ⟨m.size + 4 + j, cstr s, range_snoc_get _ _ _ (by omega), f3, by rw [e3, cstr_idem]⟩
    simp [this]

/-- C4: the element appended by a setter call that returns TRUE carries the tag
of that setter and a payload equal to the `value` argument; its key, and its
string or string-list payload, are blocks that did not exist before the call
and hold copies of the caller's strings. -/
theorem setter_stores_copy (m : Mem) (cs : Nat) (c : LibHalChangeSet) (L : List Nat)
    (fuel : Nat) (call : SetterCall) (m' : Mem)
    (hcs : m.read cs = some (Obj.cset c)) (hwalk : walk m fuel c.head = some L)
    (htail : c.tail = L.getLastD 0) (hargs : call.ArgsOk m)
    (hrun : call.run m cs = some (true, m')) :
    ∃ c' e, m'.read cs = some (Obj.cset c') ∧ m'.read c'.tail = some (Obj.elem e) ∧
      e.change_type = call.tag ∧ e.key ≠ call.key ∧ m.read e.key = none ∧
      (cstring m' e.key).isSome ∧ cstring m' e.key = cstring m call.key ∧
      call.Stored m m' e.value := by
  obtain ⟨hl, hlen⟩ := (walk_eq_some_iff m fuel c.head L).1 hwalk
  obtain ⟨v, ks, hk, happ, hpay, hseq, hnew⟩ := setter_step m cs c L call m' hcs hl htail hargs hrun
  have hkle := Mem.le_size_of_read m _ _ hk
  refine ⟨_, _, happ.cs_new, happ.elem_new, rfl, ?_, read_fresh m _ (by simp), ?_, ?_, ?_⟩
  · show m.size + 2 ≠ call.key
    omega
  · simp [cstring, happ.key_new]
  · simp [cstring, happ.key_new, hk, cstr_idem]
  · show call.Stored m m' v
    cases call with
    | string k val =>
      obtain ⟨rfl, _, vs, hv, hv'⟩ := hpay
      have hvle := Mem.le_size_of_read m _ _ hv
      exact ⟨m.size + 3, rfl, by omega, read_fresh m _ (by omega), by simp [cstring, hv'],
        by simp [cstring, hv, hv', cstr_idem]⟩
    | int k x => exact hpay.1
    | uint64 k x => exact hpay.1
    | double k x => exact hpay.1
    | bool k x => exact hpay.1
    | strlist k val =>
      obtain ⟨rfl, cells, len, hv, hlen, _, harr, hcopies⟩ := hpay
      have hvle := Mem.le_size_of_read m _ _ hv
      obtain ⟨h1, h2⟩ := strlist_stored m m' val cells len hargs.2 hv hlen harr hcopies
      exact ⟨m.size + 3, rfl, by omega, read_fresh m _ (by omega), h1, h2⟩

/-- Witness for C4: the call `set_property_string (cs, "k", "a")` on the empty
changeset of `exHeapCs`. -/
theorem setter_stores_copy_witness :
    ∃ c' e, exHeapS.read 9 = some (Obj.cset c') ∧ exHeapS.read c'.tail = some (Obj.elem e) ∧
      e.change_type = LibHalPropertyType.STRING ∧ e.key ≠ 2 ∧ exHeapCs.read e.key = none ∧
      (cstring exHeapS e.key).isSome ∧ cstring exHeapS e.key = cstring exHeapCs 2 ∧
      (SetterCall.string 2 3).Stored exHeapCs exHeapS e.value :=
  setter_stores_copy exHeapCs 9 { udi := 10, head := 0, tail := 0 } [] 0
    (SetterCall.string 2 3) exHeapS (by decide) (by decide) (by decide) (by decide) (by decide)

/-- C5: a successful `libhal_changeset_set_property_strlist` on an input array
whose first NULL entry has index `len` stores an array of `len + 1` cells, the
last of which is NULL; for `i < len` the `i`-th cell points to a new block that
holds the same string as `value[i]`; the stored list is the one read from the
input cut after its first NULL. -/
theorem strlist_stores_prefix (m : Mem) (cs : Nat) (c : LibHalChangeSet) (L : List Nat)
    (fuel key value : Nat) (cells : List Nat) (len : Nat) (m' : Mem)
    (hcs : m.read cs = some (Obj.cset c)) (hwalk : walk m fuel c.head = some L)
    (htail : c.tail = L.getLastD 0) (hargs : (SetterCall.strlist key value).ArgsOk m)
    (hv : m.read value = some (Obj.strv cells)) (hlen : strlist_len cells = some len)
    (hrun : libhal_changeset_set_property_strlist m cs key value = some (true, m')) :
    ∃ c' e p cells', m'.read cs = some (Obj.cset c') ∧
      m'.read c'.tail = some (Obj.elem e) ∧
      e.change_type = LibHalPropertyType.STRLIST ∧ e.value = ElemValue.val_strlist p ∧
      m'.read p = some (Obj.strv cells') ∧ cells'.length = len + 1 ∧
      cells'[len]? = some 0 ∧ strlist_len cells' = some len ∧
      (∀ i, i < len → ∃ ci ci', cells[i]? = some ci ∧ cells'[i]? = some ci' ∧ ci' ≠ 0 ∧
        ci' ≠ ci ∧ (cstring m ci).isSome ∧ cstring m' ci' = cstring m ci) ∧
      (cstrings m' p).isSome ∧
      cstrings m' p = cstrings_of m (cells.take len ++ [0]) := by
  obtain ⟨hl, _⟩ := (walk_eq_some_iff m fuel c.head L).1 hwalk
  obtain ⟨v, ks, hk, happ, hpay, _, _⟩ := setter_step m cs c L (SetterCall.strlist key value) m'
    hcs hl htail hargs hrun
  obtain ⟨rfl, cells2, len2, hv2, hlen2, _, harr, hcopies⟩ := hpay
  rw [hv] at hv2
  cases hv2
  rw [hlen] at hlen2
  cases hlen2
  obtain ⟨h1, h2⟩ := strlist_stored m m' value cells len hargs.2 hv hlen harr hcopies
  refine ⟨_, _, m.size + 3, _, happ.cs_new, happ.elem_new, rfl, rfl, harr, by simp, ?_,
    strlist_len_range _ _ (by omega), ?_, h1, ?_⟩
  · rw [List.getElem?_append_right (by simp)]
    simp
  · intro i hi
    obtain ⟨ci, s, e1, e2, e3⟩ := hcopies i hi
    have hle := Mem.le_size_of_read m _ _ e2
    exact ⟨ci, m.size + 4 + i, e1, range_snoc_get _ _ _ hi, by omega, by omega,
      by simp [cstring, e2], by simp [cstring, e2, e3, cstr_idem]⟩
  · rw [h2, cstrings_of_take m cells len hlen]
    simp [cstrings, hv]

/-- Witness for C5: the input `{"a", "b", "c", NULL, "b"}` is stored as exactly
`{"a", "b", "c", NULL}`. -/
theorem strlist_stores_prefix_witness :
    cstrings exHeapL 13 = some [ascii "a", ascii "b", ascii "c"] ∧
    ∃ c' e p cells', exHeapL.read 9 = some (Obj.cset c') ∧
      exHeapL.read c'.tail = some (Obj.elem e) ∧
      e.change_type = LibHalPropertyType.STRLIST ∧ e.value = ElemValue.val_strlist p ∧
      exHeapL.read p = some (Obj.strv cells') ∧ cells'.length = 3 + 1 ∧
      cells'[3]? = some 0 ∧ strlist_len cells' = some 3 ∧
      (∀ i, i < 3 → ∃ ci ci', [3, 4, 5, 0, 4][i]? = some ci ∧ cells'[i]? = some ci' ∧ ci' ≠ 0 ∧
        ci' ≠ ci ∧ (cstring exHeapCs ci).isSome ∧ cstring exHeapL ci' = cstring exHeapCs ci) ∧
      (cstrings exHeapL p).isSome ∧
      cstrings exHeapL p = cstrings_of exHeapCs (List.take 3 [3, 4, 5, 0, 4] ++ [0]) :=
  ⟨by decide, strlist_stores_prefix exHeapCs 9 { udi := 10, head := 0, tail := 0 } [] 0 2 6
    [3, 4, 5, 0, 4] 3 exHeapL (by decide) (by decide) (by decide) (by decide) (by decide)
    (by decide) (by decide)⟩

/-- C6: on a well-formed changeset and with valid pointer arguments, a setter
call returns; it returns FALSE exactly when one of the allocations it attempted
failed, and then every block of the heap, hence the changeset record (`udi`,
`head`, `tail`) and its element sequence, is as before the call. -/
theorem setter_fails_atomically (m : Mem) (cs : Nat) (c : LibHalChangeSet) (L : List Nat)
    (fuel : Nat) (call : SetterCall)
    (hcs : m.read cs = some (Obj.cset c)) (hwalk : walk m fuel c.head = some L)
    (htail : c.tail = L.getLastD 0) (hargs : call.ArgsOk m) :
    ∃ r m', call.run m cs = some (r, m') ∧ (r = false ↔ AllocFailed m m') ∧
      (r = false → m'.read cs = some (Obj.cset c) ∧ walk m' fuel c.head = some L ∧
        ∀ q, m'.read q = m.read q) := by
  obtain ⟨hl, _⟩ := (walk_eq_some_iff m fuel c.head L).1 hwalk
  obtain ⟨r, m', h1, h2, h3, _⟩ := setter_spec m cs c call hcs hargs (tail_live m c L hl htail)
  refine ⟨r, m', h1, h2, fun hr => ⟨by rw [h3 hr, hcs], ?_, h3 hr⟩⟩
  rw [walk_congr m m' (h3 hr), hwalk]

/-- Witness for C6: `set_property_strlist` on the one-element changeset of
`exHeapS` when the copy of the second string fails. -/
theorem setter_fails_atomically_witness :
    ∃ r m', (SetterCall.strlist 2 6).run { exHeapS with oracle := [true, true, true, true, true, true, true, true, true, false] } 9 = some (r, m') ∧
      (r = false ↔ AllocFailed { exHeapS with oracle := [true, true, true, true, true, true, true, true, true, false] } m') ∧
      (r = false → m'.read 9 = some (Obj.cset { udi := 10, head := 11, tail := 11 }) ∧
        walk m' 1 11 = some [11] ∧
        ∀ q, m'.read q = Mem.read { exHeapS with oracle := [true, true, true, true, true, true, true, true, true, false] } q) :=
  setter_fails_atomically { exHeapS with oracle := [true, true, true, true, true, true, true, true, true, false] } 9
    { udi := 10, head := 11, tail := 11 } [11] 1 (SetterCall.strlist 2 6)
    (by decide) (by decide) (by decide) (by decide)

/-- C7: each of the six typed setters returns FALSE on a NULL changeset and on
a NULL key, and `libhal_changeset_set_property_string` also on a NULL value;
the heap returned is the heap of the call, so nothing was allocated or changed. -/
theorem setter_null_argument (m : Mem) (cs key vp vn : Nat) (vi : Int) (call : SetterCall) :
    call.run m 0 = some (false, m) ∧
    libhal_changeset_set_property_string m cs 0 vp = some (false, m) ∧
    libhal_changeset_set_property_int m cs 0 vi = some (false, m) ∧
    libhal_changeset_set_property_uint64 m cs 0 vn = some (false, m) ∧
    libhal_changeset_set_property_double m cs 0 vn = some (false, m) ∧
    libhal_changeset_set_property_bool m cs 0 vn = some (false, m) ∧
    libhal_changeset_set_property_strlist m cs 0 vp = some (false, m) ∧
    libhal_changeset_set_property_string m cs key 0 = some (false, m) := by
  refine ⟨?_, ?_, ?_, ?_, ?_, ?_, ?_, ?_⟩
  · cases call <;>
      simp [SetterCall.run, libhal_changeset_set_property_string,
        libhal_changeset_set_property_int, libhal_changeset_set_property_uint64,
        libhal_changeset_set_property_double, libhal_changeset_set_property_bool,
        libhal_changeset_set_property_strlist, LIBHAL_CHECK_PARAM_VALID]
  · simp [libhal_changeset_set_property_string, LIBHAL_CHECK_PARAM_VALID]
  · simp [libhal_changeset_set_property_int, LIBHAL_CHECK_PARAM_VALID]
  · simp [libhal_changeset_set_property_uint64, LIBHAL_CHECK_PARAM_VALID]
  · simp [libhal_changeset_set_property_double, LIBHAL_CHECK_PARAM_VALID]
  · simp [libhal_changeset_set_property_bool, LIBHAL_CHECK_PARAM_VALID]
  · simp [libhal_changeset_set_property_strlist, LIBHAL_CHECK_PARAM_VALID]
  · simp [libhal_changeset_set_property_string, LIBHAL_CHECK_PARAM_VALID]

/-- C8: with a NULL `value`, `libhal_changeset_set_property_strlist` allocates
the element and the copy of the key and then reads `value[0]` through the NULL
pointer; the call has no defined result. -/
theorem strlist_null_value_undefined :
    libhal_changeset_set_property_strlist exHeapCs 9 2 0 = none ∧
    libhal_changeset_set_property_string exHeapCs 9 2 0 = some (false, exHeapCs) := by
  decide

theorem strlist_len_split (cells : List Nat) (len : Nat) (h : strlist_len cells = some len) :
    cells = cells.take len ++ 0 :: cells.drop (len + 1) ∧ (∀ c, c ∈ cells.take len → c ≠ 0) ∧
      len < cells.length := by
  induction cells generalizing len with
  | nil => simp [strlist_len] at h
  | cons a rest ih =>
    unfold strlist_len at h
    by_cases ha : a = 0
    · simp only [ha, if_true, Option.some.injEq] at h
      subst h
      simp [ha]
    · simp only [ha, if_false] at h
      cases hr : strlist_len rest with
      | none => simp [hr] at h
      | some n =>
        simp only [hr, Option.some.injEq] at h
        subst h
        obtain ⟨h1, h2, h3⟩ := ih n hr
        refine ⟨?_, ?_, by simpa using h3⟩
        · simp only [List.take_succ_cons, List.drop_succ_cons, List.cons_append]
          rw [← h1]
        · intro c hc
          simp only [List.take_succ_cons, List.mem_cons] at hc
          rcases hc with rfl | hc
          · exact ha
          · exact h2 c hc

theorem fsa_loop_spec (arr : Nat) :
    ∀ (seg pre post : List Nat) (μ : Mem) (fuel : Nat), seg.length < fuel →
      μ.read arr = some (Obj.strv (pre ++ seg ++ 0 :: post)) →
      (∀ c, c ∈ seg → c ≠ 0 ∧ c ≠ arr ∧ (μ.read c).isSome) → seg.Nodup →
      ∃ μ', free_string_array_loop arr fuel pre.length μ = some μ' ∧
        μ'.freed = μ.freed ++ seg ∧
        (∀ q, q ≠ arr → μ'.read q = if q ∈ seg then none else μ.read q) ∧
        (μ'.read arr).isSome ∧ μ'.size = μ.size := by
  intro seg
  induction seg with
  | nil =>
    intro pre post μ fuel hf harr _ _
    obtain ⟨f, rfl⟩ : ∃ f, fuel = f + 1 := ⟨fuel - 1, by simp at hf; omega⟩
    refine ⟨μ, ?_, by simp, by simp, by simp [harr], rfl⟩
    have hget : (pre ++ [] ++ 0 :: post)[pre.length]? = some 0 := by
      rw [List.append_nil, List.getElem?_append_right (le_refl _)]
      simp
    unfold free_string_array_loop
    simp only [Mem.getCell, harr, hget]
    simp
  | cons c seg ih =>
    intro pre post μ fuel hf harr hseg hnd
    obtain ⟨f, rfl⟩ : ∃ f, fuel = f + 1 := ⟨fuel - 1, by simp at hf; omega⟩
    obtain ⟨hc0, hca, hcl⟩ := hseg c (by simp)
    have hnd' := List.nodup_cons.1 hnd
    have hset : (pre ++ c :: seg ++ 0 :: post).set pre.length 0 =
        (pre ++ [0]) ++ seg ++ 0 :: post := by
      rw [List.append_assoc, List.set_append_right _ _ (le_refl _)]
      simp
    have hlt : pre.length < (pre ++ c :: seg ++ 0 :: post).length := by simp
    obtain ⟨μ', h1, h2, h3, h4, h5⟩ := ih (pre ++ [0]) post
      ((μ.del c).put arr (Obj.strv ((pre ++ [0]) ++ seg ++ 0 :: post))) f
      (by simp at hf ⊢; omega)
      (by simp [Ne.symm hca, harr])
      (by
        intro d hd
        obtain ⟨hd0, hda, hdl⟩ := hseg d (by simp [hd])
        have hdc : d ≠ c := by
          rintro rfl
          exact hnd'.1 hd
        refine ⟨hd0, hda, ?_⟩
        simpa [hda, hdc] using hdl)
      hnd'.2
    refine ⟨μ', ?_, ?_, ?_, h4, by rw [h5]; simp⟩
    · unfold free_string_array_loop
      have hget : (pre ++ c :: seg ++ 0 :: post)[pre.length]? = some c := by
        rw [List.append_assoc, List.getElem?_append_right (le_refl _)]
        simp
      simp only [List.length_append, List.length_singleton] at h1
      simp only [Mem.getCell, harr, hget]
      simp [hc0, Mem.free_eq, hcl, Mem.setCell, Ne.symm hca, Mem.write_eq, harr, hset]
      simpa using h1
    · rw [h2]
      simp [hcl]
    · intro q hq
      rw [h3 q hq]
      by_cases hqc : q = c
      · subst hqc
        simp [hq]
      · simp [hq, hqc]

theorem free_string_array_spec (m : Mem) (arr : Nat) (cells : List Nat) (len : Nat)
    (harr : m.read arr = some (Obj.strv cells)) (hlen : strlist_len cells = some len)
    (hlive : ∀ c, c ∈ cells.take len → (m.read c).isSome)
    (hnd : (cells.take len ++ [arr]).Nodup) :
    ∃ m', libhal_free_string_array m arr = some m' ∧
      m'.freed = m.freed ++ (cells.take len ++ [arr]) ∧
      (∀ q, m'.read q = if q ∈ cells.take len ++ [arr] then none else m.read q) ∧
      m'.size = m.size := by
  obtain ⟨hsplit, hnz, hlt⟩ := strlist_len_split cells len hlen
  have harr0 := (Mem.le_size_of_read m arr _ harr).1
  have hnd1 : (cells.take len).Nodup := (List.nodup_append.1 hnd).1
  have hnotin : arr ∉ cells.take len := by
    intro h
    exact (List.nodup_append.1 hnd).2.2 h (by simp)
  obtain ⟨μ', h1, h2, h3, h4, h5⟩ := fsa_loop_spec arr (cells.take len) [] (cells.drop (len + 1))
    m (cells.length + 1) (by simp) (by simpa using hsplit ▸ harr)
    (fun c hc => ⟨hnz c hc, fun e => hnotin (e ▸ hc), hlive c hc⟩) hnd1
  refine ⟨μ'.del arr, ?_, ?_, ?_, by simp [h5]⟩
  · simp only [List.length_nil] at h1
    simp [libhal_free_string_array, harr0, Mem.cellCount, harr, h1, Mem.free_eq, h4]
  · simp [h2, h4]
  · intro q
    by_cases hq : q = arr
    · subst hq
      simp
    · simp [hq, h3 q hq]

theorem free_elem_scalar (m : Mem) (a : Nat) (e : LibHalChangeSetElement) (ks : List Nat)
    (he : m.read a = some (Obj.elem e)) (hk : m.read e.key = some (Obj.str ks))
    (h1 : e.change_type ≠ LibHalPropertyType.STRING)
    (h2 : e.change_type ≠ LibHalPropertyType.STRLIST) :
    elem_blocks m a = [e.key, a] ∧
      free_changeset_elem m a = some ((m.del e.key).del a) := by
  have ha0 := (Mem.le_size_of_read m a _ he).1
  have hk0 := (Mem.le_size_of_read m e.key _ hk).1
  have hne : a ≠ e.key := by
    intro h
    rw [← h, he] at hk
    cases hk
  constructor
  · unfold elem_blocks payload_blocks
    simp only [Mem.getElem, he]
    cases hct : e.change_type <;> simp_all
  · unfold free_changeset_elem
    simp only [Mem.getElem, he]
    cases hct : e.change_type <;>
      simp_all [Mem.free_eq, Mem.getElem]

theorem free_elem_spec (m : Mem) (a : Nat) (hown : ElemOwned m a)
    (hnd : (elem_blocks m a).Nodup) :
    ∃ m1, free_changeset_elem m a = some m1 ∧ m1.freed = m.freed ++ elem_blocks m a ∧
      (∀ q, m1.read q = if q ∈ elem_blocks m a then none else m.read q) ∧
      m1.size = m.size := by
  obtain ⟨e, he, ⟨ks, hk⟩, hS, hL⟩ := hown
  have ha0 := (Mem.le_size_of_read m a _ he).1
  have hk0 := (Mem.le_size_of_read m e.key _ hk).1
  have hne : a ≠ e.key := by
    intro h
    rw [← h, he] at hk
    cases hk
  by_cases hs : e.change_type = LibHalPropertyType.STRING
  · obtain ⟨p, s, hv, hp⟩ := hS hs
    have hp0 := (Mem.le_size_of_read m p _ hp).1
    have hb : elem_blocks m a = [p, e.key, a] := by
      simp [elem_blocks, payload_blocks, Mem.getElem, he, hs, hv, ElemValue.asPtr]
    rw [hb] at hnd ⊢
    simp only [List.nodup_cons, List.mem_cons, List.mem_singleton, not_or, List.not_mem_nil,
      not_false_eq_true, List.nodup_nil, and_true] at hnd
    obtain ⟨⟨hpk, hpa⟩, hka⟩ := hnd
    refine ⟨((m.del p).del e.key).del a, ?_, ?_, ?_, by simp⟩
    · unfold free_changeset_elem
      simp [Mem.getElem, he, hs, hv, ElemValue.asPtr, Mem.free_eq, hp0, hp, Ne.symm hpa, hk0,
        Ne.symm hpk, hk, ha0, hne, Ne.symm hka]
    · simp [hp, hk, he, Ne.symm hpk, Ne.symm hpa, hne]
    · intro q
      simp only [Mem.read_del, List.mem_cons, List.mem_singleton, List.not_mem_nil, or_false]
      by_cases h1 : q = a
      · simp [h1]
      · by_cases h2 : q = e.key
        · simp [h2]
        · by_cases h3 : q = p
          · simp [h3]
          · simp [h1, h2, h3]
  by_cases hl : e.change_type = LibHalPropertyType.STRLIST
  · obtain ⟨p, cells, len, hv, hp, hlen, hsrc⟩ := hL hl
    have hp0 := (Mem.le_size_of_read m p _ hp).1
    have hb : elem_blocks m a = (cells.take len ++ [p]) ++ [e.key, a] := by
      simp [elem_blocks, payload_blocks, strv_blocks, Mem.getElem, he, hl, hv, ElemValue.asPtr,
        hp, hlen]
    rw [hb] at hnd ⊢
    have hnd1 := (List.nodup_append.1 hnd).1
    have hdisj := (List.nodup_append.1 hnd).2.2
    have hka : e.key ≠ a := Ne.symm hne
    have hlive : ∀ c, c ∈ cells.take len → (m.read c).isSome := by
      intro c hc
      obtain ⟨j, hcj⟩ := List.mem_iff_getElem?.1 hc
      rw [List.getElem?_take] at hcj
      have hjl : j < len := by
        by_contra hge
        simp [hge] at hcj
      simp only [hjl, if_true] at hcj
      obtain ⟨cj, s, e1, e2⟩ := hsrc j hjl
      have : c = cj := by
        rw [e1] at hcj
        simpa using hcj.symm
      subst this
      simp [e2]
    obtain ⟨m', f1, f2, f3, f4⟩ := free_string_array_spec m p cells len hp hlen hlive hnd1
    have hk' : e.key ∉ cells.take len ++ [p] := fun h => hdisj h (by simp)
    have ha' : a ∉ cells.take len ++ [p] := fun h => hdisj h (by simp)
    have hea : m'.read a = some (Obj.elem e) := by rw [f3, if_neg ha', he]
    have hek : m'.read e.key = some (Obj.str ks) := by rw [f3, if_neg hk', hk]
    refine ⟨(m'.del e.key).del a, ?_, ?_, ?_, by simp [f4]⟩
    · unfold free_changeset_elem
      simp [Mem.getElem, he, hl, hv, ElemValue.asPtr, f1, hea, Mem.free_eq, hk0, hek, ha0, hne]
    · simp [f2, hek, hea, hne]
    · intro q
      simp only [Mem.read_del, f3]
      by_cases h1 : q = a
      · simp [h1]
      · by_cases h2 : q = e.key
        · simp [h2]
        · by_cases h3 : q ∈ cells.take len ++ [p]
          · have h3' := h3
            simp only [List.mem_append, List.mem_singleton] at h3'
            simp [h1, h2, h3, h3']
          · have h3' := h3
            simp only [List.mem_append, List.mem_singleton] at h3'
            simp [h1, h2, h3, h3']
  · obtain ⟨hb, hf⟩ := free_elem_scalar m a e ks he hk hs hl
    rw [hb]
    refine ⟨_, hf, by simp [hk, he, hne], ?_, by simp⟩
    intro q
    simp only [Mem.read_del, List.mem_cons, List.mem_singleton, List.not_mem_nil, or_false]
    by_cases h1 : q = a
    · simp [h1]
    · by_cases h2 : q = e.key
      · simp [h2]
      · simp [h1, h2]

theorem mem_take_of_getElem? (cells : List Nat) (len j c : Nat) (hj : j < len)
    (h : cells[j]? = some c) : c ∈ cells.take len := by
  rw [List.mem_iff_getElem?]
  exact ⟨j, by rw [List.getElem?_take, if_pos hj, h]⟩

theorem getElem?_of_mem_take (cells : List Nat) (len c : Nat) (h : c ∈ cells.take len) :
    ∃ j, j < len ∧ cells[j]? = some c := by
  obtain ⟨j, hcj⟩ := List.mem_iff_getElem?.1 h
  rw [List.getElem?_take] at hcj
  have hjl : j < len := by
    by_contra hge
    simp [hge] at hcj
  simp only [hjl, if_true] at hcj
  exact ⟨j, hjl, hcj⟩

theorem ElemOwned.self_mem (m : Mem) (a : Nat) (h : ElemOwned m a) : a ∈ elem_blocks m a := by
  obtain ⟨e, he, _⟩ := h
  simp [elem_blocks, Mem.getElem, he]

theorem ElemOwned.frame_blocks (m m1 : Mem) (b : Nat) (hown : ElemOwned m b)
    (hf : ∀ q, q ∈ elem_blocks m b → m1.read q = m.read q) :
    ElemOwned m1 b ∧ elem_blocks m1 b = elem_blocks m b := by
  obtain ⟨e, he, ⟨ks, hk⟩, hS, hL⟩ := hown
  have hb : elem_blocks m b = payload_blocks m e ++ [e.key, b] := by
    simp [elem_blocks, Mem.getElem, he]
  have he1 : m1.read b = some (Obj.elem e) := by rw [hf b (by simp [hb]), he]
  have hk1 : m1.read e.key = some (Obj.str ks) := by rw [hf e.key (by simp [hb]), hk]
  have hb1 : elem_blocks m1 b = payload_blocks m1 e ++ [e.key, b] := by
    simp [elem_blocks, Mem.getElem, he1]
  by_cases hs : e.change_type = LibHalPropertyType.STRING
  · obtain ⟨p, s, hv, hp⟩ := hS hs
    have hpb : p ∈ elem_blocks m b := by
      simp [hb, payload_blocks, hs, hv, ElemValue.asPtr]
    refine ⟨⟨e, he1, ⟨ks, hk1⟩, fun _ => ⟨p, s, hv, by rw [hf p hpb, hp]⟩, fun h => ?_⟩, ?_⟩
    · rw [hs] at h
      cases h
    · rw [hb, hb1]
      simp [payload_blocks, hs]
  by_cases hl : e.change_type = LibHalPropertyType.STRLIST
  · obtain ⟨p, cells, len, hv, hp, hlen, hsrc⟩ := hL hl
    have hpl : payload_blocks m e = cells.take len ++ [p] := by
      simp [payload_blocks, strv_blocks, hl, hv, ElemValue.asPtr, hp, hlen]
    have hpb : p ∈ elem_blocks m b := by simp [hb, hpl]
    have hp1 : m1.read p = some (Obj.strv cells) := by rw [hf p hpb, hp]
    have hpl1 : payload_blocks m1 e = cells.take len ++ [p] := by
      simp [payload_blocks, strv_blocks, hl, hv, ElemValue.asPtr, hp1, hlen]
    refine ⟨⟨e, he1, ⟨ks, hk1⟩, fun h => absurd h hs, fun _ => ⟨p, cells, len, hv, hp1, hlen, ?_⟩⟩,
      by rw [hb, hb1, hpl, hpl1]⟩
    intro j hj
    obtain ⟨cj, s, e1, e2⟩ := hsrc j hj
    refine ⟨cj, s, e1, ?_⟩
    rw [hf cj ?_, e2]
    rw [hb, hpl]
    have := mem_take_of_getElem? cells len j cj hj e1
    simp [this]
  · refine ⟨⟨e, he1, ⟨ks, hk1⟩, fun h => absurd h hs, fun h => absurd h hl⟩, ?_⟩
    rw [hb, hb1]
    unfold payload_blocks
    cases hct : e.change_type <;> simp_all

theorem free_loop_spec :
    ∀ (L : List Nat) (fuel : Nat) (m : Mem) (p : Nat), IsSeq m p L → L.length ≤ fuel →
      (∀ a, a ∈ L → ElemOwned m a) → ((L.map (elem_blocks m)).flatten).Nodup →
      ∃ m', free_changeset_loop fuel m p = some m' ∧
        m'.freed = m.freed ++ (L.map (elem_blocks m)).flatten ∧
        (∀ q, m'.read q = if q ∈ (L.map (elem_blocks m)).flatten then none else m.read q) ∧
        m'.size = m.size := by
  intro L
  induction L with
  | nil =>
    intro fuel m p hseq _ _ _
    have hp : p = 0 := by simpa [IsSeq] using hseq
    refine ⟨m, ?_, by simp, by simp, rfl⟩
    cases fuel <;> simp [free_changeset_loop, hp]
  | cons a rest ih =>
    intro fuel m p hseq hfuel hown hnd
    obtain ⟨hpa, ha0, e, he, hrest⟩ := hseq
    subst hpa
    obtain ⟨f, rfl⟩ : ∃ f, fuel = f + 1 := ⟨fuel - 1, by simp at hfuel; omega⟩
    simp only [List.map_cons, List.flatten_cons] at hnd ⊢
    obtain ⟨hndA, hndB, hdisj⟩ := List.nodup_append.1 hnd
    obtain ⟨m1, g1, g2, g3, g4⟩ := free_elem_spec m p (hown p (by simp)) hndA
    have hfr : ∀ b, b ∈ rest → ∀ q, q ∈ elem_blocks m b → m1.read q = m.read q := by
      intro b hb q hq
      have hqB : q ∈ (rest.map (elem_blocks m)).flatten :=
        List.mem_flatten.2 ⟨_, List.mem_map.2 ⟨b, hb, rfl⟩, hq⟩
      have : q ∉ elem_blocks m p := fun h => hdisj h hqB
      rw [g3, if_neg this]
    have hown1 : ∀ b, b ∈ rest → ElemOwned m1 b := fun b hb =>
      (ElemOwned.frame_blocks m m1 b (hown b (by simp [hb])) (hfr b hb)).1
    have hmap : rest.map (elem_blocks m1) = rest.map (elem_blocks m) :=
      List.map_congr_left (fun b hb =>
        (ElemOwned.frame_blocks m m1 b (hown b (by simp [hb])) (hfr b hb)).2)
    have hseq1 : IsSeq m1 e.next rest := by
      refine IsSeq.frame_next m m1 e.next rest hrest ?_
      intro b hb eb heb
      refine ⟨eb, ?_, rfl⟩
      rw [hfr b hb b (ElemOwned.self_mem m b (hown b (by simp [hb]))), heb]
    obtain ⟨m', k1, k2, k3, k4⟩ := ih f m1 e.next hseq1 (by simp at hfuel; omega) hown1
      (by rw [hmap]; exact hndB)
    rw [hmap] at k2 k3
    refine ⟨m', ?_, ?_, ?_, by rw [k4, g4]⟩
    · unfold free_changeset_loop
      simp [ha0, Mem.getElem, he, g1, k1]
    · rw [k2, g2, List.append_assoc]
    · intro q
      rw [k3, g3]
      simp only [List.mem_append]
      by_cases h1 : q ∈ (rest.map (elem_blocks m)).flatten
      · simp [h1]
      · by_cases h2 : q ∈ elem_blocks m p
        · simp [h1, h2]
        · simp [h1, h2]

theorem free_changeset_spec (m : Mem) (cs : Nat) (c : LibHalChangeSet) (L : List Nat)
    (hcs : m.read cs = some (Obj.cset c)) (hudi : ∃ s, m.read c.udi = some (Obj.str s))
    (hseq : IsSeq m c.head L) (hown : ∀ a, a ∈ L → ElemOwned m a)
    (hnd : (changeset_blocks m cs c L).Nodup) (hfuel : L.length ≤ m.size) :
    ∃ m', libhal_device_free_changeset m cs = some m' ∧
      m'.freed = m.freed ++ changeset_blocks m cs c L ∧
      (∀ q, m'.read q = if q ∈ changeset_blocks m cs c L then none else m.read q) ∧
      m'.size = m.size := by
  unfold changeset_blocks at hnd ⊢
  obtain ⟨s, hs⟩ := hudi
  obtain ⟨hndA, hndB, hdisj⟩ := List.nodup_append.1 hnd
  obtain ⟨m1, g1, g2, g3, g4⟩ := free_loop_spec L m.size m c.head hseq hfuel hown hndA
  have hu0 := (Mem.le_size_of_read m _ _ hs).1
  have hc0 := (Mem.le_size_of_read m _ _ hcs).1
  have h1 : c.udi ∉ (L.map (elem_blocks m)).flatten := fun h => hdisj h (by simp)
  have h2 : cs ∉ (L.map (elem_blocks m)).flatten := fun h => hdisj h (by simp)
  have hne : cs ≠ c.udi := by
    intro h
    rw [← h, hcs] at hs
    cases hs
  have hcs1 : m1.read cs = some (Obj.cset c) := by rw [g3, if_neg h2, hcs]
  have hs1 : m1.read c.udi = some (Obj.str s) := by rw [g3, if_neg h1, hs]
  refine ⟨(m1.del c.udi).del cs, ?_, ?_, ?_, by simp [g4]⟩
  · unfold libhal_device_free_changeset
    simp [Mem.getCset, hcs, g1, hcs1, Mem.free_eq, hu0, hs1, hc0, hne]
  · simp [g2, hs1, hcs1, hne]
  · intro q
    simp only [Mem.read_del, g3, List.mem_append, List.mem_cons, List.mem_singleton,
      List.not_mem_nil, or_false]
    by_cases e1 : q = cs
    · simp [e1]
    · by_cases e2 : q = c.udi
      · simp [e2]
      · simp [e1, e2]

theorem ElemOwned.frame_typed (m m1 : Mem) (b : Nat) (hown : ElemOwned m b)
    (hb : ∀ e, m.read b = some (Obj.elem e) → ∃ e', m1.read b = some (Obj.elem e') ∧
      e'.key = e.key ∧ e'.change_type = e.change_type ∧ e'.value = e.value)
    (hstr : ∀ q s, m.read q = some (Obj.str s) → m1.read q = some (Obj.str s))
    (hstrv : ∀ q cells, m.read q = some (Obj.strv cells) → m1.read q = some (Obj.strv cells)) :
    ElemOwned m1 b ∧ elem_blocks m1 b = elem_blocks m b := by
  obtain ⟨e, he, ⟨ks, hk⟩, hS, hL⟩ := hown
  obtain ⟨e', he', hk', ht', hv'⟩ := hb e he
  have hblk : elem_blocks m b = payload_blocks m e ++ [e.key, b] := by
    simp [elem_blocks, Mem.getElem, he]
  have hblk1 : elem_blocks m1 b = payload_blocks m1 e' ++ [e.key, b] := by
    simp [elem_blocks, Mem.getElem, he', hk']
  by_cases hs : e.change_type = LibHalPropertyType.STRING
  · obtain ⟨p, s, hv, hp⟩ := hS hs
    refine ⟨⟨e', he', ⟨ks, by rw [hk']; exact hstr _ _ hk⟩,
      fun _ => ⟨p, s, by rw [hv', hv], hstr _ _ hp⟩, fun h => ?_⟩, ?_⟩
    · rw [ht', hs] at h
      cases h
    · rw [hblk, hblk1]
      simp [payload_blocks, hs, ht', hv']
  by_cases hl : e.change_type = LibHalPropertyType.STRLIST
  · obtain ⟨p, cells, len, hv, hp, hlen, hsrc⟩ := hL hl
    have hpl : payload_blocks m e = cells.take len ++ [p] := by
      simp [payload_blocks, strv_blocks, hl, hv, ElemValue.asPtr, hp, hlen]
    have hpl1 : payload_blocks m1 e' = cells.take len ++ [p] := by
      simp [payload_blocks, strv_blocks, hl, hv, ht', hv', ElemValue.asPtr, hstrv _ _ hp, hlen]
    refine ⟨⟨e', he', ⟨ks, by rw [hk']; exact hstr _ _ hk⟩, fun h => ?_,
      fun _ => ⟨p, cells, len, by rw [hv', hv], hstrv _ _ hp, hlen, ?_⟩⟩,
      by rw [hblk, hblk1, hpl, hpl1]⟩
    · rw [ht'] at h
      exact absurd h hs
    · intro j hj
      obtain ⟨cj, s, e1, e2⟩ := hsrc j hj
      exact ⟨cj, s, e1, hstr _ _ e2⟩
  · refine ⟨⟨e', he', ⟨ks, by rw [hk']; exact hstr _ _ hk⟩, fun h => ?_, fun h => ?_⟩, ?_⟩
    · rw [ht'] at h
      exact absurd h hs
    · rw [ht'] at h
      exact absurd h hl
    · rw [hblk, hblk1]
      unfold payload_blocks
      rw [ht']
      cases hct : e.change_type <;> simp_all

theorem Owned.block_range (m0 m : Mem) (cs : Nat) (c : LibHalChangeSet) (L : List Nat)
    (h : Owned m0 m cs c L) (q : Nat) :
    q ∈ changeset_blocks m cs c L ↔ m0.size < q ∧ q ≤ m.size := by
  rw [h.perm.mem_iff, List.mem_range'_1]
  have := h.size_le
  omega

theorem new_changeset_owned (m0 : Mem) (udi cs : Nat) (m1 : Mem)
    (h : libhal_device_new_changeset m0 udi = some (cs, m1)) (hcs : cs ≠ 0) :
    ∃ c, Owned m0 m1 cs c [] := by
  obtain ⟨s, hs, hp, h1, h2⟩ := new_changeset_inv m0 udi cs m1 h hcs
  rw [new_changeset_ok m0 udi s hs hp h1 h2] at h
  simp only [Option.some.injEq, Prod.mk.injEq] at h
  obtain ⟨rfl, rfl⟩ := h
  have hsz : (((m0.push (Obj.cset zeroCset)).push (Obj.str (cstr s))).put (m0.size + 1)
      (Obj.cset { udi := m0.size + 2, head := 0, tail := 0 })).size = m0.size + 2 := by simp
  refine ⟨{ udi := m0.size + 2, head := 0, tail := 0 },
    { base := ?_
      freed := (by simp)
      size_le := (by rw [hsz]; omega)
      hcs := (by simp)
      hudi := ⟨cstr s, by simp⟩
      seq := rfl
      tail := rfl
      elems := fun a ha => (by cases ha)
      perm := ?_ }⟩
  · intro q hq
    have e1 : q ≠ m0.size + 1 := by omega
    have e2 : q ≠ m0.size + 2 := by omega
    simp [e1, e2]
  · rw [hsz]
    have e2 : m0.size + 2 - m0.size = 2 := by omega
    rw [e2]
    simp only [changeset_blocks, List.map_nil, List.flatten_nil, List.nil_append]
    exact List.Perm.swap _ _ _

theorem take_range_snoc (a n : Nat) : (List.range' a n ++ [0]).take n = List.range' a n := by
  rw [List.take_append_of_le_length (by simp)]
  simp

theorem new_elem_owned (m m' : Mem) (cs : Nat) (c : LibHalChangeSet) (call : SetterCall)
    (v : ElemValue) (ks : List Nat) (happ : Appended m m' cs c call.tag v ks)
    (hpay : call.Payload m m' v) :
    ElemOwned m' (m.size + 1) ∧
      (elem_blocks m' (m.size + 1)).Perm (List.range' (m.size + 1) (m'.size - m.size)) := by
  have hblk : elem_blocks m' (m.size + 1) = payload_blocks m'
      { key := m.size + 2, change_type := call.tag, value := v, next := 0, prev := if c.head = 0 then 0 else c.tail } ++ [m.size + 2, m.size + 1] := by
    simp [elem_blocks, Mem.getElem, happ.elem_new]
  have hscalar : ∀ (hv : m'.size = m.size + 2) (h1 : call.tag ≠ LibHalPropertyType.STRING)
      (h2 : call.tag ≠ LibHalPropertyType.STRLIST),
      ElemOwned m' (m.size + 1) ∧
        (elem_blocks m' (m.size + 1)).Perm (List.range' (m.size + 1) (m'.size - m.size)) := by
    intro hv h1 h2
    refine ⟨⟨_, happ.elem_new, ⟨_, happ.key_new⟩, fun h => absurd h h1, fun h => absurd h h2⟩, ?_⟩
    have e2 : m'.size - m.size = 2 := by omega
    rw [hblk, e2]
    have : payload_blocks m' { key := m.size + 2, change_type := call.tag, value := v, next := 0, prev := if c.head = 0 then 0 else c.tail } = [] := by
      unfold payload_blocks
      cases hct : call.tag <;> simp_all
    rw [this]
    exact List.Perm.swap _ _ _
  cases call with
  | string k val =>
    obtain ⟨rfl, hsz, vs, hv, hv'⟩ := hpay
    refine ⟨⟨_, happ.elem_new, ⟨_, happ.key_new⟩, fun _ => ⟨_, _, rfl, hv'⟩, fun h => ?_⟩, ?_⟩
    · simp [SetterCall.tag] at h
    · have e2 : m'.size - m.size = 3 := by omega
      rw [hblk, e2]
      simp only [payload_blocks, SetterCall.tag, ElemValue.asPtr, Option.getD_some,
        List.singleton_append]
      have : [m.size + 3, m.size + 2, m.size + 1] = [m.size + 1, m.size + 2, m.size + 3].reverse :=
        by simp
      rw [this]
      exact List.reverse_perm _
  | int k x => exact hscalar hpay.2 (by simp [SetterCall.tag]) (by simp [SetterCall.tag])
  | uint64 k x => exact hscalar hpay.2 (by simp [SetterCall.tag]) (by simp [SetterCall.tag])
  | double k x => exact hscalar hpay.2 (by simp [SetterCall.tag]) (by simp [SetterCall.tag])
  | bool k x => exact hscalar hpay.2 (by simp [SetterCall.tag]) (by simp [SetterCall.tag])
  | strlist k val =>
    obtain ⟨rfl, cells, len, hv, hlen, hsz, harr, hcopies⟩ := hpay
    have hl' := strlist_len_range (m.size + 4) len (by omega)
    refine ⟨⟨_, happ.elem_new, ⟨_, happ.key_new⟩, fun h => ?_,
      fun _ => ⟨_, _, len, rfl, harr, hl', ?_⟩⟩, ?_⟩
    · simp [SetterCall.tag] at h
    · intro j hj
      obtain ⟨cj, s, _, _, e3⟩ := hcopies j hj
      exact ⟨m.size + 4 + j, cstr s, range_snoc_get _ _ _ hj, e3⟩
    · have e2 : m'.size - m.size = 3 + len := by omega
      rw [hblk, e2]
      simp only [payload_blocks, SetterCall.tag, ElemValue.asPtr, Option.getD_some, strv_blocks,
        harr, hl', take_range_snoc]
      have hr : List.range' (m.size + 1) (3 + len) =
          [m.size + 1, m.size + 2, m.size + 3] ++ List.range' (m.size + 4) len := by
        have := List.range'_append (m.size + 1) 3 len 1
        simp only [Nat.one_mul] at this
        rw [Nat.add_comm 3 len, ← this]
        rfl
      rw [hr, List.append_assoc]
      refine List.perm_append_comm.trans (List.Perm.append_right _ ?_)
      have : [m.size + 3] ++ [m.size + 2, m.size + 1] =
          [m.size + 1, m.size + 2, m.size + 3].reverse := by simp
      rw [this]
      exact List.reverse_perm _

theorem Owned.step (m0 m : Mem) (cs : Nat) (c : LibHalChangeSet) (L : List Nat)
    (call : SetterCall) (m' : Mem) (h : Owned m0 m cs c L) (hargs : call.ArgsOk m)
    (hrun : call.run m cs = some (true, m')) :
    (∃ c', Owned m0 m' cs c' (L ++ [m.size + 1])) ∧
      (∀ q s, m.read q = some (Obj.str s) → m'.read q = some (Obj.str s)) ∧
      (∀ q cells, m.read q = some (Obj.strv cells) → m'.read q = some (Obj.strv cells)) := by
  obtain ⟨v, ks, hk, happ, hpay, hseq, hnew⟩ :=
    setter_step m cs c L call m' h.hcs h.seq h.tail hargs hrun
  have hstr := fun q s hq => Appended.frame_str m m' cs c _ v ks h.hcs happ q s hq
  have hstrv := fun q cells hq => Appended.frame_strv m m' cs c _ v ks h.hcs happ q cells hq
  refine ⟨?_, hstr, hstrv⟩
  obtain ⟨hnown, hnperm⟩ := new_elem_owned m m' cs c call v ks happ hpay
  have hsz := happ.size_le
  have hszle := h.size_le
  have hold : ∀ a, a ∈ L → ElemOwned m' a ∧ elem_blocks m' a = elem_blocks m a := by
    intro a ha
    refine ElemOwned.frame_typed m m' a (h.elems a ha) ?_ hstr hstrv
    intro e he
    obtain ⟨e', g1, g2, g3, g4, _⟩ := Appended.frame_elem m m' cs c _ v ks h.hcs happ a e he
    exact ⟨e', g1, g2, g3, g4⟩
  have hmap : L.map (elem_blocks m') = L.map (elem_blocks m) :=
    List.map_congr_left (fun a ha => (hold a ha).2)
  have hcsr := (Owned.block_range m0 m cs c L h cs).1 (by simp [changeset_blocks])
  refine ⟨_, { base := ?_
               freed := (by rw [happ.freed, h.freed])
               size_le := (by omega)
               hcs := happ.cs_new
               hudi := ?_
               seq := hseq
               tail := (by simp)
               elems := ?_
               perm := ?_ }⟩
  · intro q hq
    rw [happ.frame q (by omega) (by omega) ?_, h.base q hq]
    by_cases hh : c.head = 0
    · exact Or.inl hh
    · right
      have hne : L ≠ [] := fun e => hh ((IsSeq.head_zero_iff m _ L h.seq).2 e)
      have hmem : c.tail ∈ L := by
        rw [h.tail, List.getLastD_eq_getLast?, List.getLast?_eq_getLast _ hne]
        exact List.getLast_mem hne
      have hblk : c.tail ∈ changeset_blocks m cs c L := by
        unfold changeset_blocks
        refine List.mem_append_left _ (List.mem_flatten.2 ⟨_, List.mem_map.2 ⟨_, hmem, rfl⟩, ?_⟩)
        exact ElemOwned.self_mem m _ (h.elems _ hmem)
      have := (Owned.block_range m0 m cs c L h c.tail).1 hblk
      omega
  · obtain ⟨s, hs⟩ := h.hudi
    exact ⟨s, hstr _ _ hs⟩
  · intro a ha
    rcases List.mem_append.1 ha with ha | ha
    · exact (hold a ha).1
    · simp only [List.mem_singleton] at ha
      subst ha
      exact hnown
  · have hsplit : m'.size - m0.size = (m'.size - m.size) + (m.size - m0.size) := by omega
    have hr := List.range'_append (m0.size + 1) (m.size - m0.size) (m'.size - m.size) 1
    simp only [Nat.one_mul] at hr
    have hstart : m0.size + 1 + (m.size - m0.size) = m.size + 1 := by omega
    rw [hstart] at hr
    rw [hsplit, ← hr]
    simp only [changeset_blocks, List.map_append, List.flatten_append, List.map_cons,
      List.map_nil, List.flatten_cons, List.flatten_nil, List.append_nil, hmap]
    have hp := h.perm
    simp only [changeset_blocks] at hp
    rw [List.append_assoc]
    refine (List.Perm.append_left _ List.perm_append_comm).trans ?_
    rw [← List.append_assoc]
    exact List.Perm.append hp hnperm

theorem SetterCall.ArgsOk.frame_args (m m' : Mem) (call : SetterCall) (h : call.ArgsOk m)
    (hstr : ∀ q s, m.read q = some (Obj.str s) → m'.read q = some (Obj.str s))
    (hstrv : ∀ q cells, m.read q = some (Obj.strv cells) → m'.read q = some (Obj.strv cells)) :
    call.ArgsOk m' := by
  have hc : ∀ p, (cstring m p).isSome → (cstring m' p).isSome := by
    intro p hp
    obtain ⟨s, hs⟩ := cstring_isSome m p hp
    simp [cstring, hstr p s hs]
  have hcs : ∀ p, (cstrings m p).isSome → (cstrings m' p).isSome := by
    intro p hp
    cases hl : cstrings m p with
    | none => simp [hl] at hp
    | some l =>
      obtain ⟨cells, len, hv, hlen, hsrc⟩ := cstrings_isSome m p hp
      have hl' : cstrings_of m cells = some l := by simpa [cstrings, hv] using hl
      obtain ⟨h1, h2⟩ := cstrings_of_eq_some m cells l hl'
      have : cstrings_of m' cells = some l := by
        refine cstrings_of_intro m' cells l h1 ?_
        intro j hj
        obtain ⟨cj, s, e1, e2, e3⟩ := h2 j hj
        exact ⟨cj, s, e1, hstr _ _ e2, e3⟩
      simp [cstrings, hstrv p cells hv, this]
  cases call with
  | string k v => exact ⟨hc k h.1, hc v h.2⟩
  | int k x => exact hc k h
  | uint64 k x => exact hc k h
  | double k x => exact hc k h
  | bool k x => exact hc k h
  | strlist k v => exact ⟨hc k h.1, hcs v h.2⟩

theorem run_setters_owned (m0 : Mem) (cs : Nat) :
    ∀ (calls : List SetterCall) (m : Mem) (c : LibHalChangeSet) (L : List Nat) (m2 : Mem),
      Owned m0 m cs c L → (∀ call, call ∈ calls → call.ArgsOk m) →
      run_setters cs calls m = some m2 →
      ∃ c2 L2, Owned m0 m2 cs c2 L2 ∧ L2.length = L.length + calls.length := by
  intro calls
  induction calls with
  | nil =>
    intro m c L m2 h _ hrun
    simp only [run_setters, Option.some.injEq] at hrun
    subst hrun
    exact ⟨c, L, h, by simp⟩
  | cons call rest ih =>
    intro m c L m2 h hargs hrun
    unfold run_setters at hrun
    cases hr : call.run m cs with
    | none => simp [hr] at hrun
    | some r =>
      obtain ⟨b, m1⟩ := r
      cases b with
      | false => simp [hr] at hrun
      | true =>
        simp only [hr] at hrun
        obtain ⟨⟨c1, h1⟩, hstr, hstrv⟩ := Owned.step m0 m cs c L call m1 h
          (hargs call (by simp)) hr
        obtain ⟨c2, L2, h2, hlen⟩ := ih m1 c1 _ m2 h1
          (fun x hx => SetterCall.ArgsOk.frame_args m m1 x (hargs x (by simp [hx])) hstr hstrv) hrun
        refine ⟨c2, L2, h2, ?_⟩
        rw [hlen]
        simp
        omega

theorem length_le_flatten (m : Mem) (L : List Nat) (h : ∀ a, a ∈ L → ElemOwned m a) :
    L.length ≤ ((L.map (elem_blocks m)).flatten).length := by
  induction L with
  | nil => simp
  | cons a rest ih =>
    have h1 := ElemOwned.self_mem m a (h a (by simp))
    have h2 : 1 ≤ (elem_blocks m a).length := List.length_pos_of_mem h1
    have h3 := ih (fun b hb => h b (by simp [hb]))
    simp only [List.map_cons, List.flatten_cons, List.length_append, List.length_cons]
    omega

/-- C9: for a changeset built by `libhal_device_new_changeset` and `N` setter
calls that all returned TRUE, `libhal_device_free_changeset` returns; the
changeset has `N` elements; the releases are, element by element in list order,
the payload blocks (the string of a STRING element, every string and then the
array of a STRLIST element, nothing for a scalar), the key and the element,
followed by the device identifier and the changeset; no address is released
twice, the released addresses are exactly the blocks allocated since the heap
`m0` of the caller, and the heap is again what it was in `m0`. -/
theorem free_changeset_releases_once (m0 : Mem) (udi cs : Nat) (m1 : Mem)
    (calls : List SetterCall) (m2 : Mem)
    (hnew : libhal_device_new_changeset m0 udi = some (cs, m1)) (hcs : cs ≠ 0)
    (hargs : ∀ call, call ∈ calls → call.ArgsOk m0)
    (hrun : run_setters cs calls m1 = some m2) :
    ∃ c L m3, m2.read cs = some (Obj.cset c) ∧ walk m2 calls.length c.head = some L ∧
      L.length = calls.length ∧
      libhal_device_free_changeset m2 cs = some m3 ∧
      m3.freed = m0.freed ++ ((L.map (elem_blocks m2)).flatten ++ [c.udi, cs]) ∧
      ((L.map (elem_blocks m2)).flatten ++ [c.udi, cs]).Nodup ∧
      (∀ a, a ∈ L → ∃ e, m2.read a = some (Obj.elem e) ∧
        elem_blocks m2 a = payload_blocks m2 e ++ [e.key, a]) ∧
      (∀ q, q ∈ (L.map (elem_blocks m2)).flatten ++ [c.udi, cs] ↔ m0.size < q ∧ q ≤ m2.size) ∧
      (∀ q, m3.read q = m0.read q) := by
  obtain ⟨c1, h1⟩ := new_changeset_owned m0 udi cs m1 hnew hcs
  have hargs1 : ∀ call, call ∈ calls → call.ArgsOk m1 := by
    intro call hc
    refine SetterCall.ArgsOk.frame_args m0 m1 call (hargs call hc) ?_ ?_
    · intro q s hq
      rw [h1.base q (Mem.le_size_of_read m0 q _ hq).2, hq]
    · intro q cells hq
      rw [h1.base q (Mem.le_size_of_read m0 q _ hq).2, hq]
  obtain ⟨c, L, h2, hlen⟩ := run_setters_owned m0 cs calls m1 c1 [] m2 h1 hargs1 hrun
  simp only [List.length_nil, Nat.zero_add] at hlen
  have hrange := Owned.block_range m0 m2 cs c L h2
  have hnd : (changeset_blocks m2 cs c L).Nodup := by
    rw [h2.perm.nodup_iff]
    exact List.nodup_range' _ _
  have hfuel : L.length ≤ m2.size := by
    have hl := h2.perm.length_eq
    simp only [changeset_blocks, List.length_append, List.length_range'] at hl
    have := length_le_flatten m2 L h2.elems
    omega
  obtain ⟨m3, f1, f2, f3, f4⟩ := free_changeset_spec m2 cs c L h2.hcs h2.hudi h2.seq h2.elems
    hnd hfuel
  refine ⟨c, L, m3, h2.hcs, (walk_eq_some_iff m2 _ _ _).2 ⟨h2.seq, by omega⟩, hlen, f1,
    by rw [f2, h2.freed]; rfl, hnd, ?_, hrange, ?_⟩
  · intro a ha
    obtain ⟨e, he, _⟩ := h2.elems a ha
    exact ⟨e, he, by simp [elem_blocks, Mem.getElem, he]⟩
  · intro q
    rw [f3]
    by_cases hq : q ∈ changeset_blocks m2 cs c L
    · rw [if_pos hq, read_fresh m0 q ((hrange q).1 hq).1]
    · rw [if_neg hq]
      by_cases hq0 : q ≤ m0.size
      · exact h2.base q hq0
      · have : m2.size < q := by
          by_contra hle
          exact hq ((hrange q).2 ⟨by omega, by omega⟩)
        rw [read_fresh m2 q this, read_fresh m0 q (by omega)]

/-- Witness for C9: the changeset of `exHeapLI`, built on `exHeap` by a
string-list setter and an integer setter; the release log is
`[14, 15, 16, 13, 12, 11, 18, 17, 10, 9]`. -/
theorem free_changeset_releases_once_witness :
    (libhal_device_free_changeset exHeapLI 9).map Mem.freed =
      some [14, 15, 16, 13, 12, 11, 18, 17, 10, 9] ∧
    ∃ c L m3, exHeapLI.read 9 = some (Obj.cset c) ∧ walk exHeapLI 2 c.head = some L ∧
      L.length = 2 ∧
      libhal_device_free_changeset exHeapLI 9 = some m3 ∧
      m3.freed = exHeap.freed ++ ((L.map (elem_blocks exHeapLI)).flatten ++ [c.udi, 9]) ∧
      ((L.map (elem_blocks exHeapLI)).flatten ++ [c.udi, 9]).Nodup ∧
      (∀ a, a ∈ L → ∃ e, exHeapLI.read a = some (Obj.elem e) ∧
        elem_blocks exHeapLI a = payload_blocks exHeapLI e ++ [e.key, a]) ∧
      (∀ q, q ∈ (L.map (elem_blocks exHeapLI)).flatten ++ [c.udi, 9] ↔
        exHeap.size < q ∧ q ≤ exHeapLI.size) ∧
      (∀ q, m3.read q = exHeap.read q) :=
  ⟨by decide, free_changeset_releases_once exHeap 1 9 exHeapCs
    [SetterCall.strlist 2 6, SetterCall.int 2 (-7)] exHeapLI (by decide) (by decide)
    (by decide) (by decide)⟩

/-- C10, the claim as stated fails: on the changeset of `exHeapL`, which holds
the string list `{"a", "b", "c"}` under the key `k`, and with the initialized
context at address 8, `libhal_device_commit_changeset` returns FALSE and
`libhal_device_get_all_properties` returns NULL. -/
theorem commit_round_trip_counterexample :
    libhal_device_new_changeset exHeap 1 = some (9, exHeapCs) ∧
    libhal_changeset_set_property_strlist exHeapCs 9 2 6 = some (true, exHeapL) ∧
    (exHeapL.getCtx 8).map (fun x => x.is_initialized) = some true ∧
    libhal_device_commit_changeset exHeapL 8 9 0 = some (false, exHeapL) ∧
    libhal_device_get_all_properties exHeapL 8 1 0 = some (0, exHeapL) := by
  decide

/-- C10 as amended: for a non-NULL context, a changeset whose device identifier
is a string, and a device identifier `udi`, `libhal_device_commit_changeset`
returns FALSE and `libhal_device_get_all_properties` returns NULL, whatever the
changeset holds; neither changes the heap, so the changeset keeps its elements
and no property set is produced. -/
theorem commit_round_trip_amended (m : Mem) (ctx cs udi error : Nat) (c : LibHalChangeSet)
    (hctx : ctx ≠ 0) (hcs : m.read cs = some (Obj.cset c))
    (hcu : (cstring m c.udi).isSome) (hudi : (cstring m udi).isSome) :
    libhal_device_commit_changeset m ctx cs error = some (false, m) ∧
    libhal_device_get_all_properties m ctx udi error = some (0, m) ∧
    ∀ set key, libhal_ps_get_strlist set key = 0 := by
  obtain ⟨s1, h1⟩ := cstring_isSome m _ hcu
  obtain ⟨s2, h2⟩ := cstring_isSome m _ hudi
  have e1 := (Mem.le_size_of_read m _ _ h1).1
  have e2 := (Mem.le_size_of_read m _ _ h2).1
  refine ⟨?_, ?_, ?_⟩
  · simp only [libhal_device_commit_changeset, LIBHAL_CHECK_LIBHALCONTEXT, Mem.getCset, hcs,
      LIBHAL_CHECK_UDI_VALID, e1, h1]
    cases (strncmp s1 UDI_PREFIX 29 == 0) <;> simp [hctx]
  · simp only [libhal_device_get_all_properties, LIBHAL_CHECK_LIBHALCONTEXT,
      LIBHAL_CHECK_UDI_VALID, e2, h2]
    cases (strncmp s2 UDI_PREFIX 29 == 0) <;> simp [hctx]
  · intro set key
    simp [libhal_ps_get_strlist]

/-- Witness for C10 as amended: the changeset of `exHeapL` and the context at
address 8. -/
theorem commit_round_trip_amended_witness :
    libhal_device_commit_changeset exHeapL 8 9 0 = some (false, exHeapL) ∧
    libhal_device_get_all_properties exHeapL 8 1 0 = some (0, exHeapL) ∧
    ∀ set key, libhal_ps_get_strlist set key = 0 :=
  commit_round_trip_amended exHeapL 8 9 1 0 { udi := 10, head := 11, tail := 11 }
    (by decide) (by decide) (by decide) (by decide)

/-! ### Basic facts about contexts -/

theorem Mem.getCtx_eq_some (m : Mem) (p : Nat) (x : LibHalContext) :
    m.getCtx p = some x ↔ m.read p = some (Obj.ctx x) := by
  unfold Mem.getCtx
  cases h : m.read p with
  | none => simp
  | some o => cases o <;> simp

theorem Mem.getCtx_ne_zero (m : Mem) (p : Nat) (x : LibHalContext) (h : m.getCtx p = some x) :
    p ≠ 0 := by
  intro e
  subst e
  simp [Mem.getCtx] at h

theorem Mem.setCtx_eq (m : Mem) (p : Nat) (f : LibHalContext → LibHalContext)
    (x : LibHalContext) (h : m.getCtx p = some x) :
    m.setCtx p f = some (m.put p (Obj.ctx (f x))) := by
  rw [Mem.getCtx_eq_some] at h
  simp [Mem.setCtx, h, Mem.write_eq]

theorem Mem.getCtx_put (m : Mem) (p : Nat) (x y : LibHalContext) (h : m.getCtx p = some x) :
    (m.put p (Obj.ctx y)).getCtx p = some y := by
  rw [Mem.getCtx_eq_some] at h ⊢
  simp [h]

theorem Mem.getCtx_push (m : Mem) (x : LibHalContext) :
    (m.push (Obj.ctx x)).getCtx (m.size + 1) = some x := by
  rw [Mem.getCtx_eq_some]
  simp

theorem Mem.put_push (m : Mem) (a b : Obj) :
    (m.push a).put (m.size + 1) b = m.push b := by
  have h : ((m.push a).read (m.size + 1)).isSome := by simp
  unfold Mem.put
  rw [if_pos h]
  simp [Mem.push, Mem.size]

theorem Mem.del_push (m : Mem) (a : Obj) :
    (m.push a).del (m.size + 1) =
      { m with heap := m.heap ++ [none], nalloc := m.nalloc + 1,
               freed := m.freed ++ [m.size + 1] } := by
  have h : ((m.push a).read (m.size + 1)).isSome := by simp
  unfold Mem.del
  rw [if_pos h]
  simp [Mem.push, Mem.size]

theorem check_context_iff (ctx : Nat) : LIBHAL_CHECK_LIBHALCONTEXT ctx = true ↔ ctx ≠ 0 := by
  simp [LIBHAL_CHECK_LIBHALCONTEXT]

/-! ### The context functions in closed form -/

theorem ctx_new_eq (m : Mem) :
    libhal_ctx_new m =
      if m.outcome m.nalloc = true then some (m.size + 1, m.push (Obj.ctx zeroCtx))
      else some (0, m.tick) := by
  unfold libhal_ctx_new
  by_cases h : m.outcome m.nalloc = true
  · have ha : m.alloc (Obj.ctx zeroCtx) = (m.size + 1, m.push (Obj.ctx zeroCtx)) := by
      simp [Mem.alloc, h, Mem.size, Mem.push]
    rw [ha, if_pos h]
    simp only [Nat.succ_ne_zero, if_false]
    rw [Mem.setCtx_eq _ _ _ zeroCtx (Mem.getCtx_push m zeroCtx), Mem.put_push]
    simp only []
    rw [Mem.setCtx_eq _ _ _ _ (Mem.getCtx_push m _), Mem.put_push]
    simp only []
    rw [Mem.setCtx_eq _ _ _ _ (Mem.getCtx_push m _), Mem.put_push]
    simp only []
    rw [Mem.setCtx_eq _ _ _ _ (Mem.getCtx_push m _), Mem.put_push]
    rfl
  · have hf : m.outcome m.nalloc = false := by simpa using h
    have ha : m.alloc (Obj.ctx zeroCtx) = (0, m.tick) := by
      simp [Mem.alloc, hf, Mem.tick]
    rw [ha, if_neg h]
    simp

theorem ctx_store_eq (m : Mem) (ctx : Nat) (x : LibHalContext) (f : LibHalContext → LibHalContext)
    (h : m.getCtx ctx = some x) :
    (if !LIBHAL_CHECK_LIBHALCONTEXT ctx then some (false, m)
      else
        match m.setCtx ctx f with
        | none => none
        | some m1 => some (true, m1)) = some (true, m.put ctx (Obj.ctx (f x))) := by
  have h0 := Mem.getCtx_ne_zero m ctx x h
  simp [LIBHAL_CHECK_LIBHALCONTEXT, h0, Mem.setCtx_eq m ctx f x h]

theorem set_user_data_eq (m : Mem) (ctx d : Nat) (x : LibHalContext) (h : m.getCtx ctx = some x) :
    libhal_ctx_set_user_data m ctx d =
      some (true, m.put ctx (Obj.ctx { x with user_data := d })) :=
  ctx_store_eq m ctx x _ h

theorem set_cache_eq (m : Mem) (ctx b : Nat) (x : LibHalContext) (h : m.getCtx ctx = some x) :
    libhal_ctx_set_cache m ctx b =
      some (true, m.put ctx (Obj.ctx { x with cache_enabled := b })) :=
  ctx_store_eq m ctx x _ h

theorem shutdown_eq (m : Mem) (ctx err : Nat) (x : LibHalContext) (h : m.getCtx ctx = some x) :
    libhal_ctx_shutdown m ctx err =
      some (true, m.put ctx (Obj.ctx { x with is_initialized := false })) :=
  ctx_store_eq m ctx x _ h

theorem callback_setter_eq (k : Callback) (m : Mem) (ctx cb : Nat) (x : LibHalContext)
    (h : m.getCtx ctx = some x) :
    k.setter m ctx cb = some (true, m.put ctx (Obj.ctx (k.store cb x))) := by
  cases k <;> exact ctx_store_eq m ctx x _ h

theorem callback_setter_null (k : Callback) (m : Mem) (cb : Nat) :
    k.setter m 0 cb = some (false, m) := by
  cases k <;> rfl

theorem set_dbus_connection_eq (m : Mem) (ctx conn : Nat) (x : LibHalContext)
    (h : m.getCtx ctx = some x) :
    libhal_ctx_set_dbus_connection m ctx conn =
      if conn = 0 then some (false, m)
      else some (true, m.put ctx (Obj.ctx { x with connection := conn })) := by
  have h0 := Mem.getCtx_ne_zero m ctx x h
  unfold libhal_ctx_set_dbus_connection
  by_cases hc : conn = 0
  · simp [LIBHAL_CHECK_LIBHALCONTEXT, h0, hc]
  · simp [LIBHAL_CHECK_LIBHALCONTEXT, h0, hc, Mem.setCtx_eq m ctx _ x h]

theorem get_dbus_connection_eq (m : Mem) (ctx : Nat) (x : LibHalContext)
    (h : m.getCtx ctx = some x) :
    libhal_ctx_get_dbus_connection m ctx = some x.connection := by
  have h0 := Mem.getCtx_ne_zero m ctx x h
  simp [libhal_ctx_get_dbus_connection, LIBHAL_CHECK_LIBHALCONTEXT, h0, h]

theorem get_user_data_eq (m : Mem) (ctx : Nat) (x : LibHalContext)
    (h : m.getCtx ctx = some x) :
    libhal_ctx_get_user_data m ctx = some x.user_data := by
  have h0 := Mem.getCtx_ne_zero m ctx x h
  simp [libhal_ctx_get_user_data, LIBHAL_CHECK_LIBHALCONTEXT, h0, h]

theorem ctx_init_eq (m : Mem) (ctx err : Nat) (x : LibHalContext) (h : m.getCtx ctx = some x) :
    libhal_ctx_init m ctx err =
      if x.connection = 0 then some (false, m)
      else some (true, m.put ctx (Obj.ctx { x with is_initialized := true, is_direct := false })) := by
  have h0 := Mem.getCtx_ne_zero m ctx x h
  unfold libhal_ctx_init
  by_cases hc : x.connection = 0
  · simp [LIBHAL_CHECK_LIBHALCONTEXT, h0, h, hc]
  · have e1 := Mem.setCtx_eq m ctx (fun c => { c with is_initialized := true }) x h
    have e2 := Mem.setCtx_eq _ ctx (fun c => { c with is_direct := false }) _
      (Mem.getCtx_put m ctx x { x with is_initialized := true } h)
    rw [Mem.put_put] at e2
    simp [LIBHAL_CHECK_LIBHALCONTEXT, h0, h, hc, e1, e2]

/-- C11.  When the allocation succeeds, `libhal_ctx_new` returns a fresh non-null
address holding a context in which the four flags are FALSE, the connection and
the user data are NULL and each of the twelve callback slots is NULL; the blocks
that existed before are as they were. -/
theorem ctx_new_uninitialized (m : Mem) (h : m.outcome m.nalloc = true) :
    ∃ ctx m', libhal_ctx_new m = some (ctx, m') ∧ ctx ≠ 0 ∧ m.read ctx = none ∧
      m'.getCtx ctx = some
        { connection := 0, is_initialized := false, is_shutdown := false, cache_enabled := 0,
          is_direct := false, device_added := 0, device_removed := 0,
          device_new_capability := 0, device_lost_capability := 0,
          device_property_modified := 0, device_condition := 0,
          global_interface_lock_acquired := 0, global_interface_lock_released := 0,
          interface_lock_acquired := 0, interface_lock_released := 0,
          singleton_device_added := 0, singleton_device_removed := 0, user_data := 0 } ∧
      initialized m' ctx = some false ∧
      ∀ q, q ≠ ctx → m'.read q = m.read q := by
  refine ⟨m.size + 1, m.push (Obj.ctx zeroCtx), ?_, Nat.succ_ne_zero _, ?_, ?_, ?_, ?_⟩
  · rw [ctx_new_eq, if_pos h]
  · exact read_fresh m _ (Nat.lt_succ_self _)
  · exact Mem.getCtx_push m zeroCtx
  · simp [initialized, Mem.getCtx_push, zeroCtx]
  · intro q hq
    simp [hq]

theorem ctx_new_uninitialized_witness :
    exHeapQ.outcome exHeapQ.nalloc = true ∧
    ∃ ctx m', libhal_ctx_new exHeapQ = some (ctx, m') ∧ ctx ≠ 0 ∧ exHeapQ.read ctx = none ∧
      m'.getCtx ctx = some
        { connection := 0, is_initialized := false, is_shutdown := false, cache_enabled := 0,
          is_direct := false, device_added := 0, device_removed := 0,
          device_new_capability := 0, device_lost_capability := 0,
          device_property_modified := 0, device_condition := 0,
          global_interface_lock_acquired := 0, global_interface_lock_released := 0,
          interface_lock_acquired := 0, interface_lock_released := 0,
          singleton_device_added := 0, singleton_device_removed := 0, user_data := 0 } ∧
      initialized m' ctx = some false ∧
      ∀ q, q ≠ ctx → m'.read q = exHeapQ.read q :=
  ⟨by decide, ctx_new_uninitialized exHeapQ (by decide)⟩

/-- C12.  On a NULL context `libhal_ctx_init` returns FALSE and leaves the heap
as it is.  On a context `x` it returns TRUE exactly when `x.connection` is not
NULL; on TRUE the context becomes `x` with `is_initialized` TRUE and `is_direct`
FALSE and nothing else in the heap changes, on FALSE the heap is unchanged. -/
theorem ctx_init_iff_connection (m : Mem) (ctx err : Nat) (x : LibHalContext)
    (h : m.getCtx ctx = some x) :
    libhal_ctx_init m 0 err = some (false, m) ∧
    ∃ r m', libhal_ctx_init m ctx err = some (r, m') ∧
      (r = true ↔ x.connection ≠ 0) ∧
      (r = true →
        m'.getCtx ctx = some { x with is_initialized := true, is_direct := false } ∧
        (∀ q, q ≠ ctx → m'.read q = m.read q) ∧
        m'.nalloc = m.nalloc ∧ m'.freed = m.freed ∧ m'.oracle = m.oracle) ∧
      (r = false → m' = m) := by
  refine ⟨rfl, ?_⟩
  rw [ctx_init_eq m ctx err x h]
  by_cases hc : x.connection = 0
  · exact ⟨false, m, by simp [hc], by simp [hc], by simp, fun _ => rfl⟩
  · refine ⟨true, _, by simp [hc], by simp [hc], fun _ => ⟨Mem.getCtx_put m ctx x _ h, ?_, ?_, ?_, ?_⟩,
      by simp⟩
    · intro q hq
      simp [hq]
    · simp
    · simp
    · simp [Mem.put]
      split <;> rfl

theorem ctx_init_iff_connection_witness :
    exHeapDown.getCtx 6 = some { zeroCtx with connection := 77 } ∧
    libhal_ctx_init exHeapDown 0 0 = some (false, exHeapDown) ∧
    ∃ r m', libhal_ctx_init exHeapDown 6 0 = some (r, m') ∧
      (r = true ↔ ({ zeroCtx with connection := 77 } : LibHalContext).connection ≠ 0) ∧
      (r = true →
        m'.getCtx 6 = some { ({ zeroCtx with connection := 77 } : LibHalContext) with
          is_initialized := true, is_direct := false } ∧
        (∀ q, q ≠ 6 → m'.read q = exHeapDown.read q) ∧
        m'.nalloc = exHeapDown.nalloc ∧ m'.freed = exHeapDown.freed ∧
        m'.oracle = exHeapDown.oracle) ∧
      (r = false → m' = exHeapDown) :=
  ⟨by decide, ctx_init_iff_connection exHeapDown 6 0 _ (by decide)⟩

/-- C13.  On a context `x`, `libhal_ctx_set_dbus_connection` with a non-NULL
handle `conn` returns TRUE and `libhal_ctx_get_dbus_connection` then returns
`conn`, every other field of the context being as before; with a NULL handle it
returns FALSE and the heap is unchanged, so that the getter still returns the
handle attached before. -/
theorem dbus_connection_set_get (m : Mem) (ctx conn : Nat) (x : LibHalContext)
    (h : m.getCtx ctx = some x) :
    (conn ≠ 0 →
      ∃ m', libhal_ctx_set_dbus_connection m ctx conn = some (true, m') ∧
        libhal_ctx_get_dbus_connection m' ctx = some conn ∧
        m'.getCtx ctx = some { x with connection := conn }) ∧
    libhal_ctx_set_dbus_connection m ctx 0 = some (false, m) ∧
    libhal_ctx_get_dbus_connection m ctx = some x.connection := by
  refine ⟨fun hc => ⟨m.put ctx (Obj.ctx { x with connection := conn }), ?_, ?_, ?_⟩, ?_, ?_⟩
  · rw [set_dbus_connection_eq m ctx conn x h, if_neg hc]
  · exact get_dbus_connection_eq _ ctx _ (Mem.getCtx_put m ctx x _ h)
  · exact Mem.getCtx_put m ctx x _ h
  · rw [set_dbus_connection_eq m ctx 0 x h, if_pos rfl]
  · exact get_dbus_connection_eq m ctx x h

theorem dbus_connection_set_get_witness :
    exHeap.getCtx 8 = some { zeroCtx with connection := 77, is_initialized := true } ∧
    ((5 : Nat) ≠ 0 →
      ∃ m', libhal_ctx_set_dbus_connection exHeap 8 5 = some (true, m') ∧
        libhal_ctx_get_dbus_connection m' 8 = some 5 ∧
        m'.getCtx 8 = some { ({ zeroCtx with connection := 77, is_initialized := true } :
          LibHalContext) with connection := 5 }) ∧
    libhal_ctx_set_dbus_connection exHeap 8 0 = some (false, exHeap) ∧
    libhal_ctx_get_dbus_connection exHeap 8 =
      some ({ zeroCtx with connection := 77, is_initialized := true } : LibHalContext).connection :=
  ⟨by decide, dbus_connection_set_get exHeap 8 5 _ (by decide)⟩

/-- C14.  On a context `x`, `libhal_ctx_shutdown` returns TRUE; afterwards the
context is not initialized, its connection field is the one `x` had, every other
field but `is_initialized` is as in `x`, and `libhal_ctx_get_dbus_connection`
returns the handle it returned before the call. -/
theorem ctx_shutdown_keeps_connection (m : Mem) (ctx err : Nat) (x : LibHalContext)
    (h : m.getCtx ctx = some x) :
    ∃ m' x', libhal_ctx_shutdown m ctx err = some (true, m') ∧
      m'.getCtx ctx = some x' ∧ x'.is_initialized = false ∧ x'.connection = x.connection ∧
      x' = { x with is_initialized := false } ∧
      initialized m' ctx = some false ∧
      libhal_ctx_get_dbus_connection m ctx = some x.connection ∧
      libhal_ctx_get_dbus_connection m' ctx = some x.connection := by
  have hp := Mem.getCtx_put m ctx x { x with is_initialized := false } h
  refine ⟨_, _, shutdown_eq m ctx err x h, hp, rfl, rfl, rfl, ?_, ?_, ?_⟩
  · simp [initialized, hp]
  · exact get_dbus_connection_eq m ctx x h
  · exact get_dbus_connection_eq _ ctx { x with is_initialized := false } hp

theorem ctx_shutdown_keeps_connection_witness :
    exHeap.getCtx 8 = some { zeroCtx with connection := 77, is_initialized := true } ∧
    ∃ m' x', libhal_ctx_shutdown exHeap 8 0 = some (true, m') ∧
      m'.getCtx 8 = some x' ∧ x'.is_initialized = false ∧
      x'.connection =
        ({ zeroCtx with connection := 77, is_initialized := true } : LibHalContext).connection ∧
      x' = { ({ zeroCtx with connection := 77, is_initialized := true } : LibHalContext) with
        is_initialized := false } ∧
      initialized m' 8 = some false ∧
      libhal_ctx_get_dbus_connection exHeap 8 =
        some ({ zeroCtx with connection := 77, is_initialized := true } :
          LibHalContext).connection ∧
      libhal_ctx_get_dbus_connection m' 8 =
        some ({ zeroCtx with connection := 77, is_initialized := true } :
          LibHalContext).connection :=
  ⟨by decide, ctx_shutdown_keeps_connection exHeap 8 0 _ (by decide)⟩

/-- C18.  For each of the twelve callback setters: on a NULL context it returns
FALSE and leaves the heap as it is; on a context it returns TRUE for every
callback value `cb1`, NULL included, and the slot of the setter then holds
`cb1` whatever it held before; a second call with `cb2` returns TRUE and leaves
`cb2` in the slot. -/
theorem callback_setter_overwrites (k : Callback) (m : Mem) (ctx cb1 cb2 : Nat)
    (x : LibHalContext) (h : m.getCtx ctx = some x) :
    k.setter m 0 cb1 = some (false, m) ∧
    ∃ m1 x1, k.setter m ctx cb1 = some (true, m1) ∧ m1.getCtx ctx = some x1 ∧
      k.slot x1 = cb1 ∧
      ∃ m2 x2, k.setter m1 ctx cb2 = some (true, m2) ∧ m2.getCtx ctx = some x2 ∧
        k.slot x2 = cb2 := by
  have h1 := Mem.getCtx_put m ctx x (k.store cb1 x) h
  have h2 := Mem.getCtx_put _ ctx _ (k.store cb2 (k.store cb1 x)) h1
  refine ⟨callback_setter_null k m cb1, _, _, callback_setter_eq k m ctx cb1 x h, h1, ?_,
    _, _, callback_setter_eq k _ ctx cb2 _ h1, h2, ?_⟩
  · cases k <;> rfl
  · cases k <;> rfl

theorem callback_setter_overwrites_witness :
    exHeapNew.getCtx 6 = some zeroCtx ∧
    Callback.device_condition.setter exHeapNew 0 41 = some (false, exHeapNew) ∧
    ∃ m1 x1, Callback.device_condition.setter exHeapNew 6 41 = some (true, m1) ∧
      m1.getCtx 6 = some x1 ∧ Callback.device_condition.slot x1 = 41 ∧
      ∃ m2 x2, Callback.device_condition.setter m1 6 0 = some (true, m2) ∧
        m2.getCtx 6 = some x2 ∧ Callback.device_condition.slot x2 = 0 :=
  ⟨by decide, callback_setter_overwrites Callback.device_condition exHeapNew 6 41 0 zeroCtx
    (by decide)⟩

/-- C19.  Each of the twelve callback setters writes its own slot only: on a
context `x`, after the call the eleven slots of the other event kinds, the
connection, the four flags and the user data are those of `x`, and every other
block of the heap is as before. -/
theorem callback_setter_frame (k : Callback) (m : Mem) (ctx cb : Nat) (x : LibHalContext)
    (h : m.getCtx ctx = some x) :
    ∃ m1 x1, k.setter m ctx cb = some (true, m1) ∧ m1.getCtx ctx = some x1 ∧
      (∀ j : Callback, j ≠ k → j.slot x1 = j.slot x) ∧
      x1.connection = x.connection ∧ x1.is_initialized = x.is_initialized ∧
      x1.is_shutdown = x.is_shutdown ∧ x1.is_direct = x.is_direct ∧
      x1.cache_enabled = x.cache_enabled ∧ x1.user_data = x.user_data ∧
      ∀ q, q ≠ ctx → m1.read q = m.read q := by
  have h1 := Mem.getCtx_put m ctx x (k.store cb x) h
  refine ⟨_, _, callback_setter_eq k m ctx cb x h, h1, ?_, ?_, ?_, ?_, ?_, ?_, ?_, ?_⟩
  · intro j hj
    cases k <;> cases j <;> first | rfl | exact absurd rfl hj
  · cases k <;> rfl
  · cases k <;> rfl
  · cases k <;> rfl
  · cases k <;> rfl
  · cases k <;> rfl
  · cases k <;> rfl
  · intro q hq
    simp [hq]

theorem callback_setter_frame_witness :
    exHeap.getCtx 8 = some { zeroCtx with connection := 77, is_initialized := true } ∧
    ∃ m1 x1, Callback.interface_lock_released.setter exHeap 8 41 = some (true, m1) ∧
      m1.getCtx 8 = some x1 ∧
      (∀ j : Callback, j ≠ Callback.interface_lock_released → j.slot x1 =
        j.slot ({ zeroCtx with connection := 77, is_initialized := true } : LibHalContext)) ∧
      x1.connection = 77 ∧ x1.is_initialized = true ∧
      x1.is_shutdown = false ∧ x1.is_direct = false ∧
      x1.cache_enabled = 0 ∧ x1.user_data = 0 ∧
      ∀ q, q ≠ 8 → m1.read q = exHeap.read q :=
  ⟨by decide, callback_setter_frame Callback.interface_lock_released exHeap 8 41 _ (by decide)⟩

theorem ctx_init_direct_eq (m : Mem) (env err : Nat) :
    libhal_ctx_init_direct m env err =
      if m.outcome m.nalloc = true then
        if env = 0 then some (0, (m.push (Obj.ctx zeroCtx)).del (m.size + 1))
        else some (m.size + 1,
          m.push (Obj.ctx { zeroCtx with is_initialized := true, is_direct := true }))
      else some (0, m.tick) := by
  unfold libhal_ctx_init_direct
  rw [ctx_new_eq]
  by_cases h : m.outcome m.nalloc = true
  · simp only [h, if_true, Nat.succ_ne_zero, if_false]
    by_cases he : env = 0
    · simp [he, libhal_ctx_free, Mem.free_eq]
    · have e1 : (m.push (Obj.ctx zeroCtx)).setCtx (m.size + 1)
          (fun c => { c with is_initialized := true }) =
          some (m.push (Obj.ctx { zeroCtx with is_initialized := true })) := by
        rw [Mem.setCtx_eq _ _ _ zeroCtx (Mem.getCtx_push m zeroCtx), Mem.put_push]
      have e2 : (m.push (Obj.ctx { zeroCtx with is_initialized := true })).setCtx (m.size + 1)
          (fun c => { c with is_direct := true }) =
          some (m.push (Obj.ctx { zeroCtx with is_initialized := true, is_direct := true })) := by
        rw [Mem.setCtx_eq _ _ _ _ (Mem.getCtx_push m _), Mem.put_push]
      simp only [he, if_false, e1, e2]
  · simp [h]

/-- C17.  With the value of the environment variable `HALD_DIRECT_ADDR` as an
input (`env`, NULL when the variable is not set), `libhal_ctx_init_direct`
returns a non-NULL context exactly when the variable is set and the allocation
succeeds.  The context returned is a fresh block with `is_initialized` and
`is_direct` TRUE, a NULL connection and NULL in every callback slot, and
nothing is released.  When the variable is not set and the allocation succeeded,
the fresh block is released (once, through `libhal_ctx_free`).  Whenever NULL
is returned, the heap has the same live blocks as before the call. -/
theorem ctx_init_direct_env (m : Mem) (env err : Nat) :
    ∃ ctx m', libhal_ctx_init_direct m env err = some (ctx, m') ∧
      (ctx ≠ 0 ↔ env ≠ 0 ∧ m.outcome m.nalloc = true) ∧
      (ctx ≠ 0 → m.read ctx = none ∧ m'.freed = m.freed ∧
        (∀ q, q ≠ ctx → m'.read q = m.read q) ∧
        m'.getCtx ctx = some
          { connection := 0, is_initialized := true, is_shutdown := false, cache_enabled := 0,
            is_direct := true, device_added := 0, device_removed := 0,
            device_new_capability := 0, device_lost_capability := 0,
            device_property_modified := 0, device_condition := 0,
            global_interface_lock_acquired := 0, global_interface_lock_released := 0,
            interface_lock_acquired := 0, interface_lock_released := 0,
            singleton_device_added := 0, singleton_device_removed := 0, user_data := 0 }) ∧
      (env = 0 → m.outcome m.nalloc = true →
        libhal_ctx_new m = some (m.size + 1, m.push (Obj.ctx zeroCtx)) ∧
        libhal_ctx_free (m.push (Obj.ctx zeroCtx)) (m.size + 1) = some (true, m') ∧
        m'.freed = m.freed ++ [m.size + 1]) ∧
      (ctx = 0 → ∀ q, m'.read q = m.read q) := by
  rw [ctx_init_direct_eq]
  by_cases h : m.outcome m.nalloc = true
  · by_cases he : env = 0
    · refine ⟨0, (m.push (Obj.ctx zeroCtx)).del (m.size + 1), by simp [h, he], by simp [he],
        by simp, ?_, ?_⟩
      · intro _ _
        refine ⟨by rw [ctx_new_eq, if_pos h], by simp [libhal_ctx_free, Mem.free_eq], by simp⟩
      · intro _ q
        by_cases hq : q = m.size + 1
        · subst hq
          simp [read_fresh m _ (Nat.lt_succ_self _)]
        · simp [hq]
    · refine ⟨m.size + 1,
        m.push (Obj.ctx { zeroCtx with is_initialized := true, is_direct := true }),
        by simp [h, he], by simp [h, he], ?_, by simp [he], by simp⟩
      intro _
      refine ⟨read_fresh m _ (Nat.lt_succ_self _), by simp, ?_, Mem.getCtx_push m _⟩
      intro q hq
      simp [hq]
  · refine ⟨0, m.tick, by simp [h], by simp [h], by simp, by simp [h], by simp⟩

/-- C20.  On a context `x`, `libhal_ctx_set_user_data` with the value `d` returns
TRUE, `libhal_ctx_get_user_data` then returns `d`, and the context is `x` with
`d` as user data: no callback slot, flag or connection changes.  On a context
fresh from `libhal_ctx_new` the getter returns NULL.  After a call of any
callback setter, of `libhal_ctx_init`, of `libhal_ctx_shutdown` or of
`libhal_ctx_set_cache` the getter returns the user data of `x`. -/
theorem user_data_set_get (m : Mem) (ctx d : Nat) (x : LibHalContext)
    (h : m.getCtx ctx = some x) :
    (∃ m1, libhal_ctx_set_user_data m ctx d = some (true, m1) ∧
      libhal_ctx_get_user_data m1 ctx = some d ∧
      m1.getCtx ctx = some { x with user_data := d } ∧
      ∀ q, q ≠ ctx → m1.read q = m.read q) ∧
    (∀ m0 : Mem, m0.outcome m0.nalloc = true →
      ∃ c0 m0', libhal_ctx_new m0 = some (c0, m0') ∧ c0 ≠ 0 ∧
        libhal_ctx_get_user_data m0' c0 = some 0) ∧
    libhal_ctx_get_user_data m ctx = some x.user_data ∧
    (∀ (k : Callback) (cb : Nat), ∃ m1, k.setter m ctx cb = some (true, m1) ∧
      libhal_ctx_get_user_data m1 ctx = some x.user_data) ∧
    (∀ err, ∃ r m1, libhal_ctx_init m ctx err = some (r, m1) ∧
      libhal_ctx_get_user_data m1 ctx = some x.user_data) ∧
    (∀ err, ∃ m1, libhal_ctx_shutdown m ctx err = some (true, m1) ∧
      libhal_ctx_get_user_data m1 ctx = some x.user_data) ∧
    (∀ use_cache, ∃ m1, libhal_ctx_set_cache m ctx use_cache = some (true, m1) ∧
      libhal_ctx_get_user_data m1 ctx = some x.user_data) := by
  refine ⟨⟨_, set_user_data_eq m ctx d x h, ?_, Mem.getCtx_put m ctx x _ h, ?_⟩, ?_, ?_, ?_,
    ?_, ?_, ?_⟩
  · exact get_user_data_eq _ ctx { x with user_data := d } (Mem.getCtx_put m ctx x _ h)
  · intro q hq
    simp [hq]
  · intro m0 h0
    refine ⟨m0.size + 1, m0.push (Obj.ctx zeroCtx), by rw [ctx_new_eq, if_pos h0],
      Nat.succ_ne_zero _, ?_⟩
    exact get_user_data_eq _ _ zeroCtx (Mem.getCtx_push m0 zeroCtx)
  · exact get_user_data_eq m ctx x h
  · intro k cb
    refine ⟨_, callback_setter_eq k m ctx cb x h, ?_⟩
    rw [get_user_data_eq _ ctx (k.store cb x) (Mem.getCtx_put m ctx x _ h)]
    cases k <;> rfl
  · intro err
    rw [ctx_init_eq m ctx err x h]
    by_cases hc : x.connection = 0
    · exact ⟨false, m, by simp [hc], get_user_data_eq m ctx x h⟩
    · exact ⟨true, _, by simp [hc],
        get_user_data_eq _ ctx { x with is_initialized := true, is_direct := false }
          (Mem.getCtx_put m ctx x _ h)⟩
  · intro err
    exact ⟨_, shutdown_eq m ctx err x h,
      get_user_data_eq _ ctx { x with is_initialized := false } (Mem.getCtx_put m ctx x _ h)⟩
  · intro b
    exact ⟨_, set_cache_eq m ctx b x h,
      get_user_data_eq _ ctx { x with cache_enabled := b } (Mem.getCtx_put m ctx x _ h)⟩

theorem user_data_set_get_witness :
    exHeap.getCtx 8 = some { zeroCtx with connection := 77, is_initialized := true } ∧
    (∃ m1, libhal_ctx_set_user_data exHeap 8 123 = some (true, m1) ∧
      libhal_ctx_get_user_data m1 8 = some 123 ∧
      m1.getCtx 8 = some { ({ zeroCtx with connection := 77, is_initialized := true } :
        LibHalContext) with user_data := 123 } ∧
      ∀ q, q ≠ 8 → m1.read q = exHeap.read q) :=
  ⟨by decide, (user_data_set_get exHeap 8 123 _ (by decide)).1⟩

/-! ### The protocol calls in closed form -/

theorem strcmp_eq_zero_iff (a b : List Nat) : strcmp a b = 0 ↔ cstr a = cstr b := by
  induction a generalizing b with
  | nil =>
    cases b with
    | nil => simp [strcmp, cstr]
    | cons d b =>
      by_cases hd : d = 0
      · simp [strcmp, cstr, hd]
      · have h0 : ¬ (0 = d) := fun e => hd e.symm
        simp [strcmp, cstr, hd, h0, List.takeWhile_cons]
  | cons c a ih =>
    cases b with
    | nil =>
      by_cases hc : c = 0
      · simp [strcmp, cstr, hc]
      · simp [strcmp, cstr, hc, List.takeWhile_cons]
    | cons d b =>
      by_cases hcd : c = d
      · subst hcd
        by_cases hc : c = 0
        · simp [strcmp, cstr, hc]
        · have := ih b
          simp only [cstr] at this
          simp [strcmp, cstr, hc, List.takeWhile_cons, this]
      · have hne : (c : Int) - (d : Int) ≠ 0 := by omega
        by_cases hc : c = 0
        · have hd : ¬ d = 0 := fun e => hcd (hc.trans e.symm)
          have hd' : ¬ (0 = d) := fun e => hd e.symm
          subst hc
          simp [strcmp, cstr, hd, hd', List.takeWhile_cons]
        · by_cases hd : d = 0
          · simp [strcmp, cstr, hcd, hne, hc, hd, List.takeWhile_cons]
          · simp [strcmp, cstr, hcd, hne, hc, hd, List.takeWhile_cons]

theorem cstr_prefix (s : List Nat) : cstr s <+: s :=
  List.takeWhile_prefix _

theorem udi_valid_of_computer (m : Mem) (udi : Nat) (h : cstring m udi = some UDI_COMPUTER) :
    LIBHAL_CHECK_UDI_VALID m udi = some true := by
  obtain ⟨u, hu, hc⟩ := cstring_eq_some m udi _ h
  have h0 := (Mem.le_size_of_read m _ _ hu).1
  have hp : UDI_PREFIX <+: u :=
    List.IsPrefix.trans (show UDI_PREFIX <+: UDI_COMPUTER by decide) (hc ▸ cstr_prefix u)
  simp [LIBHAL_CHECK_UDI_VALID, h0, hu, (udi_check_iff u).2 hp]

theorem is_computer_serial_eq (m : Mem) (udi key : Nat)
    (hudi : cstring m udi = some UDI_COMPUTER) (hkey : cstring m key = some KEY_SERIAL) :
    is_computer_serial m udi key = some true := by
  obtain ⟨u, hu, hcu⟩ := cstring_eq_some m udi _ hudi
  obtain ⟨k, hk, hck⟩ := cstring_eq_some m key _ hkey
  have e1 : strcmp u UDI_COMPUTER = 0 :=
    (strcmp_eq_zero_iff u UDI_COMPUTER).2 (hcu ▸ (by decide : UDI_COMPUTER = cstr UDI_COMPUTER))
  have e2 : strcmp k KEY_SERIAL = 0 :=
    (strcmp_eq_zero_iff k KEY_SERIAL).2 (hck ▸ (by decide : KEY_SERIAL = cstr KEY_SERIAL))
  simp [is_computer_serial, hu, hk, e1, e2]

theorem get_all_devices_eq (m : Mem) (ctx n u ps err : Nat) (v : Int) (p1 p2 : Nat)
    (hctx : ctx ≠ 0) (hn : m.read n = some (Obj.int v)) (hu : m.read u = some (Obj.ptr p1))
    (hps : m.read ps = some (Obj.ptr p2)) :
    libhal_get_all_devices_with_properties m ctx n u ps err =
      some (true, ((m.put n (Obj.int 0)).put u (Obj.ptr 0)).put ps (Obj.ptr 0)) := by
  have n0 := (Mem.le_size_of_read m _ _ hn).1
  have u0 := (Mem.le_size_of_read m _ _ hu).1
  have ps0 := (Mem.le_size_of_read m _ _ hps).1
  have hun : u ≠ n := by
    intro e
    rw [e, hn] at hu
    cases hu
  have hpn : ps ≠ n := by
    intro e
    rw [e, hn] at hps
    cases hps
  have e1 : m.setInt n 0 = some (m.put n (Obj.int 0)) := by
    simp [Mem.setInt, hn, Mem.write_eq]
  have r2 : (m.put n (Obj.int 0)).read u = some (Obj.ptr p1) := by
    simp [hun, hu]
  have e2 : (m.put n (Obj.int 0)).setPtr u 0 = some ((m.put n (Obj.int 0)).put u (Obj.ptr 0)) := by
    simp only [Mem.setPtr, r2, Mem.write_eq]
    simp
  have r3 : ∃ p, ((m.put n (Obj.int 0)).put u (Obj.ptr 0)).read ps = some (Obj.ptr p) := by
    by_cases e : ps = u
    · exact ⟨0, by rw [e, Mem.read_put]; simp [r2]⟩
    · exact ⟨p2, by simp [e, hpn, hps]⟩
  obtain ⟨p, r3⟩ := r3
  have e3 : ((m.put n (Obj.int 0)).put u (Obj.ptr 0)).setPtr ps 0 =
      some (((m.put n (Obj.int 0)).put u (Obj.ptr 0)).put ps (Obj.ptr 0)) := by
    simp only [Mem.setPtr, r3, Mem.write_eq]
    simp
  simp only [libhal_get_all_devices_with_properties, LIBHAL_CHECK_LIBHALCONTEXT,
    LIBHAL_CHECK_PARAM_VALID, e1, e2, e3]
  simp [hctx, n0, u0, ps0]

/-- C15, the claim as stated fails: the context 6 of `exHeapNew` is fresh from
`libhal_ctx_new` and not initialized, and the context 6 of `exHeapDown` was
initialized and then shut down; on both,
`libhal_device_get_property_string` on the identifier
`/org/freedesktop/Hal/devices/computer` and the key `system.hardware.serial`
returns the new block 7 holding `System Serial Number`,
`libhal_device_get_property_type` returns the string tag and
`libhal_get_all_devices_with_properties` returns TRUE. -/
theorem uninitialized_protocol_calls_counterexample :
    libhal_ctx_new exHeapQ = some (6, exHeapNew) ∧
    initialized exHeapNew 6 = some false ∧
    libhal_device_get_property_string exHeapNew 6 1 2 0 =
      some (7, exHeapNew.push (Obj.str (ascii "System Serial Number"))) ∧
    libhal_device_get_property_type exHeapNew 6 1 2 0 = some LibHalPropertyType.STRING ∧
    (libhal_get_all_devices_with_properties exHeapNew 6 3 4 5 0).map Prod.fst = some true ∧
    run_ctx_ops 6 [CtxOp.set_dbus_connection 77, CtxOp.init 0] exHeapNew = some exHeapUp ∧
    initialized exHeapUp 6 = some true ∧
    libhal_ctx_shutdown exHeapUp 6 0 = some (true, exHeapDown) ∧
    initialized exHeapDown 6 = some false ∧
    libhal_device_get_property_string exHeapDown 6 1 2 0 =
      some (7, exHeapDown.push (Obj.str (ascii "System Serial Number"))) ∧
    libhal_device_get_property_type exHeapDown 6 1 2 0 = some LibHalPropertyType.STRING ∧
    (libhal_get_all_devices_with_properties exHeapDown 6 3 4 5 0).map Prod.fst = some true := by
  decide

/-- C15 as amended: with a NULL context the three protocol calls return their
sentinels (NULL, the INVALID tag, FALSE) and leave the heap as it is.  With a
context that is not initialized, the identifier
`/org/freedesktop/Hal/devices/computer` and the key `system.hardware.serial`,
`libhal_device_get_property_string` returns a fresh copy of
`System Serial Number` (NULL only when the allocation fails),
`libhal_device_get_property_type` returns the string tag, and
`libhal_get_all_devices_with_properties` stores 0, NULL and NULL through its
out-parameters and returns TRUE. -/
theorem protocol_calls_ignore_state (m : Mem) (ctx udi key err n u ps : Nat) (v : Int)
    (p1 p2 : Nat)
    (hx : initialized m ctx = some false)
    (hudi : cstring m udi = some (ascii "/org/freedesktop/Hal/devices/computer"))
    (hkey : cstring m key = some (ascii "system.hardware.serial"))
    (hn : m.read n = some (Obj.int v)) (hu : m.read u = some (Obj.ptr p1))
    (hps : m.read ps = some (Obj.ptr p2)) :
    libhal_device_get_property_string m 0 udi key err = some (0, m) ∧
    libhal_device_get_property_type m 0 udi key err = some LibHalPropertyType.INVALID ∧
    libhal_get_all_devices_with_properties m 0 n u ps err = some (false, m) ∧
    libhal_device_get_property_string m ctx udi key err =
      (if m.outcome m.nalloc = true then
        some (m.size + 1, m.push (Obj.str (ascii "System Serial Number")))
      else some (0, m.tick)) ∧
    libhal_device_get_property_type m ctx udi key err = some LibHalPropertyType.STRING ∧
    libhal_get_all_devices_with_properties m ctx n u ps err =
      some (true, ((m.put n (Obj.int 0)).put u (Obj.ptr 0)).put ps (Obj.ptr 0)) := by
  have hctx : ctx ≠ 0 := by
    intro e
    subst e
    simp [initialized, Mem.getCtx] at hx
  have hk0 : key ≠ 0 := by
    obtain ⟨k, hk, _⟩ := cstring_eq_some m key _ hkey
    exact (Mem.le_size_of_read m _ _ hk).1
  have e1 := udi_valid_of_computer m udi hudi
  have e2 := is_computer_serial_eq m udi key hudi hkey
  refine ⟨rfl, rfl, rfl, ?_, ?_, get_all_devices_eq m ctx n u ps err v p1 p2 hctx hn hu hps⟩
  · simp only [libhal_device_get_property_string, LIBHAL_CHECK_LIBHALCONTEXT,
      LIBHAL_CHECK_PARAM_VALID, e1, e2, strdup_literal]
    have hs : cstr SERIAL_NUMBER = ascii "System Serial Number" := by decide
    by_cases ho : m.outcome m.nalloc = true
    · simp [hctx, hk0, ho, hs, Mem.alloc, Mem.push, Mem.size]
    · simp [hctx, hk0, ho, hs, Mem.alloc, Mem.tick]
  · simp only [libhal_device_get_property_type, LIBHAL_CHECK_LIBHALCONTEXT,
      LIBHAL_CHECK_PARAM_VALID, e1, e2, DBUS_TYPE_STRING]
    simp [hctx, hk0]

theorem protocol_calls_ignore_state_witness :
    libhal_device_get_property_string exHeapDown 0 1 2 0 = some (0, exHeapDown) ∧
    libhal_device_get_property_type exHeapDown 0 1 2 0 = some LibHalPropertyType.INVALID ∧
    libhal_get_all_devices_with_properties exHeapDown 0 3 4 5 0 = some (false, exHeapDown) ∧
    libhal_device_get_property_string exHeapDown 6 1 2 0 =
      (if exHeapDown.outcome exHeapDown.nalloc = true then
        some (exHeapDown.size + 1, exHeapDown.push (Obj.str (ascii "System Serial Number")))
      else some (0, exHeapDown.tick)) ∧
    libhal_device_get_property_type exHeapDown 6 1 2 0 = some LibHalPropertyType.STRING ∧
    libhal_get_all_devices_with_properties exHeapDown 6 3 4 5 0 =
      some (true, ((exHeapDown.put 3 (Obj.int 0)).put 4 (Obj.ptr 0)).put 5 (Obj.ptr 0)) :=
  protocol_calls_ignore_state exHeapDown 6 1 2 0 3 4 5 5 1 2 (by decide) (by decide) (by decide)
    (by decide) (by decide) (by decide)

/-! ### Calls that leave the initialization flag alone -/

theorem Mem.getCtx_push_of_live (m : Mem) (o : Obj) (p : Nat) (x : LibHalContext)
    (h : m.getCtx p = some x) : (m.push o).getCtx p = some x := by
  rw [Mem.getCtx_eq_some] at h ⊢
  have hp := (Mem.le_size_of_read m _ _ h).2
  have : p ≠ m.size + 1 := by omega
  simp [this, h]

theorem Mem.getCtx_tick (m : Mem) (p : Nat) : m.tick.getCtx p = m.getCtx p := rfl

theorem Mem.getCtx_setInt (m m1 : Mem) (p q : Nat) (v : Int) (h : m.setInt p v = some m1) :
    m1.getCtx q = m.getCtx q := by
  unfold Mem.setInt at h
  split at h
  · rename_i w hw
    rw [Mem.write_eq] at h
    simp only [hw, Option.isSome_some, if_true, Option.some.injEq] at h
    subst h
    unfold Mem.getCtx
    rw [Mem.read_put]
    by_cases e : q = p
    · subst e
      simp [hw]
    · simp [e]
  · cases h

theorem Mem.getCtx_setPtr (m m1 : Mem) (p q v : Nat) (h : m.setPtr p v = some m1) :
    m1.getCtx q = m.getCtx q := by
  unfold Mem.setPtr at h
  split at h
  · rename_i w hw
    rw [Mem.write_eq] at h
    simp only [hw, Option.isSome_some, if_true, Option.some.injEq] at h
    subst h
    unfold Mem.getCtx
    rw [Mem.read_put]
    by_cases e : q = p
    · subst e
      simp [hw]
    · simp [e]
  · cases h

theorem get_property_string_getCtx (m m1 : Mem) (ctx udi key err r p : Nat) (x : LibHalContext)
    (hx : m.getCtx p = some x)
    (h : libhal_device_get_property_string m ctx udi key err = some (r, m1)) :
    m1.getCtx p = some x := by
  unfold libhal_device_get_property_string at h
  have hal : (strdup_literal m SERIAL_NUMBER).2.getCtx p = some x := by
    unfold strdup_literal Mem.alloc
    split
    · exact Mem.getCtx_push_of_live m _ p x hx
    · exact hx
  split at h
  · cases h
    exact hx
  · split at h
    · cases h
    · cases h
      exact hx
    · split at h
      · cases h
        exact hx
      · split at h
        · cases h
        · injection h with h
          have e : m1 = (strdup_literal m SERIAL_NUMBER).2 := by rw [h]
          rw [e]
          exact hal
        · cases h
          exact hx

theorem get_all_devices_getCtx (m m1 : Mem) (ctx n u ps err p : Nat) (r : Bool)
    (h : libhal_get_all_devices_with_properties m ctx n u ps err = some (r, m1)) :
    m1.getCtx p = m.getCtx p := by
  unfold libhal_get_all_devices_with_properties at h
  split at h
  · cases h
    rfl
  · split at h
    · cases h
      rfl
    · split at h
      · cases h
        rfl
      · split at h
        · cases h
          rfl
        · split at h
          · cases h
          · rename_i m2 h2
            split at h
            · cases h
            · rename_i m3 h3
              split at h
              · cases h
              · rename_i m4 h4
                cases h
                rw [Mem.getCtx_setPtr _ _ _ p _ h4, Mem.getCtx_setPtr _ _ _ p _ h3,
                  Mem.getCtx_setInt _ _ _ p _ h2]

theorem CtxOp.run_keeps_uninitialized (ctx : Nat) (op : CtxOp) (m m1 : Mem)
    (hop : op.isInit = false) (hi : initialized m ctx = some false)
    (h : op.run ctx m = some m1) : initialized m1 ctx = some false := by
  obtain ⟨x, hx, hf⟩ : ∃ x, m.getCtx ctx = some x ∧ x.is_initialized = false := by
    unfold initialized at hi
    cases hg : m.getCtx ctx with
    | none => simp [hg] at hi
    | some x => exact ⟨x, rfl, by simpa [hg] using hi⟩
  have key : ∀ y : LibHalContext, y.is_initialized = false →
      initialized (m.put ctx (Obj.ctx y)) ctx = some false := by
    intro y hy
    simp [initialized, Mem.getCtx_put m ctx x y hx, hy]
  cases op with
  | set_user_data d =>
    simp only [CtxOp.run, set_user_data_eq m ctx d x hx, Option.map_some', Option.some.injEq] at h
    subst h
    exact key _ hf
  | set_cache b =>
    simp only [CtxOp.run, set_cache_eq m ctx b x hx, Option.map_some', Option.some.injEq] at h
    subst h
    exact key _ hf
  | set_dbus_connection conn =>
    simp only [CtxOp.run, set_dbus_connection_eq m ctx conn x hx] at h
    by_cases hc : conn = 0
    · simp only [hc, if_true, Option.map_some', Option.some.injEq] at h
      subst h
      exact hi
    · simp only [hc, if_false, Option.map_some', Option.some.injEq] at h
      subst h
      exact key _ hf
  | init e => cases hop
  | shutdown e =>
    simp only [CtxOp.run, shutdown_eq m ctx e x hx, Option.map_some', Option.some.injEq] at h
    subst h
    exact key _ rfl
  | set_callback k cb =>
    simp only [CtxOp.run, callback_setter_eq k m ctx cb x hx, Option.map_some',
      Option.some.injEq] at h
    subst h
    exact key _ (by cases k <;> exact hf)
  | get_property_string udi key e =>
    simp only [CtxOp.run] at h
    cases hr : libhal_device_get_property_string m ctx udi key e with
    | none => simp [hr] at h
    | some rm =>
      obtain ⟨r, m2⟩ := rm
      simp only [hr, Option.map_some', Option.some.injEq] at h
      subst h
      simp [initialized, get_property_string_getCtx m m2 ctx udi key e r ctx x hx hr, hf]
  | get_all_devices_with_properties n u ps e =>
    simp only [CtxOp.run] at h
    cases hr : libhal_get_all_devices_with_properties m ctx n u ps e with
    | none => simp [hr] at h
    | some rm =>
      obtain ⟨r, m2⟩ := rm
      simp only [hr, Option.map_some', Option.some.injEq] at h
      subst h
      simp [initialized, get_all_devices_getCtx m m2 ctx n u ps e ctx r hr, hx, hf]

theorem run_ctx_ops_keeps_uninitialized (ctx : Nat) (ops : List CtxOp) (m m1 : Mem)
    (hops : ∀ op ∈ ops, op.isInit = false) (hi : initialized m ctx = some false)
    (h : run_ctx_ops ctx ops m = some m1) : initialized m1 ctx = some false := by
  induction ops generalizing m with
  | nil =>
    simp only [run_ctx_ops, Option.some.injEq] at h
    subst h
    exact hi
  | cons op ops ih =>
    simp only [run_ctx_ops] at h
    cases hr : op.run ctx m with
    | none => simp [hr] at h
    | some m2 =>
      simp only [hr] at h
      exact ih m2 (fun o ho => hops o (List.mem_cons_of_mem _ ho))
        (CtxOp.run_keeps_uninitialized ctx op m m2 (hops op (List.mem_cons_self _ _)) hi hr) h

/-- C16, the claim as stated fails: `libhal_ctx_shutdown` succeeds on the
initialized context 6 of `exHeapUp` and leaves it not initialized; a following
`libhal_ctx_init`, the connection 77 being still attached, returns TRUE and the
context is initialized again. -/
theorem lifecycle_forward_only_counterexample :
    initialized exHeapUp 6 = some true ∧
    libhal_ctx_shutdown exHeapUp 6 0 = some (true, exHeapDown) ∧
    initialized exHeapDown 6 = some false ∧
    libhal_ctx_get_dbus_connection exHeapDown 6 = some 77 ∧
    libhal_ctx_init exHeapDown 6 0 = some (true, exHeapUp) ∧
    initialized exHeapUp 6 = some true := by
  decide

/-- C16 as amended: once `libhal_ctx_shutdown` has succeeded on a context, the
context is not initialized after any later sequence of calls on it that
contains no `libhal_ctx_init` (calls of the setters for the user data, the
cache flag, the connection and the callbacks, of `libhal_ctx_shutdown`, of
`libhal_device_get_property_string` and of
`libhal_get_all_devices_with_properties`); a call of `libhal_ctx_init` after
such a sequence returns TRUE and makes the context initialized again exactly
when a connection is attached. -/
theorem shutdown_stays_until_init (m : Mem) (ctx err : Nat) (m1 : Mem) (ops : List CtxOp)
    (m2 : Mem) (err2 : Nat)
    (hs : libhal_ctx_shutdown m ctx err = some (true, m1))
    (hops : ∀ op ∈ ops, op.isInit = false)
    (hrun : run_ctx_ops ctx ops m1 = some m2) :
    initialized m1 ctx = some false ∧
    initialized m2 ctx = some false ∧
    ∃ x r m3, m2.getCtx ctx = some x ∧ libhal_ctx_init m2 ctx err2 = some (r, m3) ∧
      (r = true ↔ x.connection ≠ 0) ∧ initialized m3 ctx = some r := by
  have h0 : ctx ≠ 0 := by
    intro e
    subst e
    simp [libhal_ctx_shutdown, LIBHAL_CHECK_LIBHALCONTEXT] at hs
  obtain ⟨x, hx⟩ : ∃ x, m.getCtx ctx = some x := by
    cases hg : m.getCtx ctx with
    | some x => exact ⟨x, rfl⟩
    | none =>
      have hr : ∀ y, m.read ctx ≠ some (Obj.ctx y) := by
        intro y hy
        rw [(Mem.getCtx_eq_some m ctx y).2 hy] at hg
        cases hg
      have : m.setCtx ctx (fun c => { c with is_initialized := false }) = none := by
        unfold Mem.setCtx
        split
        · rename_i c hc
          exact absurd hc (hr c)
        · rfl
      simp [libhal_ctx_shutdown, LIBHAL_CHECK_LIBHALCONTEXT, h0, this] at hs
  rw [shutdown_eq m ctx err x hx] at hs
  simp only [Option.some.injEq, Prod.mk.injEq, true_and] at hs
  subst hs
  have hi1 : initialized (m.put ctx (Obj.ctx { x with is_initialized := false })) ctx =
      some false := by
    simp [initialized, Mem.getCtx_put m ctx x _ hx]
  have hi2 := run_ctx_ops_keeps_uninitialized ctx ops _ m2 hops hi1 hrun
  refine ⟨hi1, hi2, ?_⟩
  obtain ⟨y, hy, hyf⟩ : ∃ y, m2.getCtx ctx = some y ∧ y.is_initialized = false := by
    unfold initialized at hi2
    cases hg : m2.getCtx ctx with
    | none => simp [hg] at hi2
    | some y => exact ⟨y, rfl, by simpa [hg] using hi2⟩
  rw [ctx_init_eq m2 ctx err2 y hy]
  by_cases hc : y.connection = 0
  · exact ⟨y, false, m2, hy, by simp [hc], by simp [hc], by simp [initialized, hy, hyf]⟩
  · exact ⟨y, true,
      m2.put ctx (Obj.ctx { y with is_initialized := true, is_direct := false }), hy,
      by simp [hc], by simp [hc], by simp [initialized, Mem.getCtx_put m2 ctx y _ hy]⟩

theorem shutdown_stays_until_init_witness :
    initialized exHeapDown 6 = some false ∧
    initialized (exHeapDown.put 6 (Obj.ctx { zeroCtx with connection := 77, user_data := 5 }))
      6 = some false ∧
    ∃ x r m3,
      (exHeapDown.put 6 (Obj.ctx { zeroCtx with connection := 77, user_data := 5 })).getCtx 6 =
        some x ∧
      libhal_ctx_init (exHeapDown.put 6 (Obj.ctx { zeroCtx with connection := 77, user_data := 5 }))
        6 0 = some (r, m3) ∧
      (r = true ↔ x.connection ≠ 0) ∧ initialized m3 6 = some r :=
  shutdown_stays_until_init exHeapUp 6 0 exHeapDown
    [CtxOp.set_user_data 5, CtxOp.set_callback Callback.device_added 0, CtxOp.shutdown 0]
    (exHeapDown.put 6 (Obj.ctx { zeroCtx with connection := 77, user_data := 5 })) 0
    (by decide) (by decide) (by decide)

theorem ctx_init_direct_env_witness :
    libhal_ctx_init_direct exHeapQ 0 0 =
      some (0, (exHeapQ.push (Obj.ctx zeroCtx)).del (exHeapQ.size + 1)) ∧
    ((exHeapQ.push (Obj.ctx zeroCtx)).del (exHeapQ.size + 1)).freed = [6] ∧
    ∃ ctx m', libhal_ctx_init_direct exHeapQ 9 0 = some (ctx, m') ∧
      (ctx ≠ 0 ↔ (9 : Nat) ≠ 0 ∧ exHeapQ.outcome exHeapQ.nalloc = true) ∧
      (ctx ≠ 0 → exHeapQ.read ctx = none ∧ m'.freed = exHeapQ.freed ∧
        (∀ q, q ≠ ctx → m'.read q = exHeapQ.read q) ∧
        m'.getCtx ctx = some
          { connection := 0, is_initialized := true, is_shutdown := false, cache_enabled := 0,
            is_direct := true, device_added := 0, device_removed := 0,
            device_new_capability := 0, device_lost_capability := 0,
            device_property_modified := 0, device_condition := 0,
            global_interface_lock_acquired := 0, global_interface_lock_released := 0,
            interface_lock_acquired := 0, interface_lock_released := 0,
            singleton_device_added := 0, singleton_device_removed := 0, user_data := 0 }) ∧
      ((9 : Nat) = 0 → exHeapQ.outcome exHeapQ.nalloc = true →
        libhal_ctx_new exHeapQ = some (exHeapQ.size + 1, exHeapQ.push (Obj.ctx zeroCtx)) ∧
        libhal_ctx_free (exHeapQ.push (Obj.ctx zeroCtx)) (exHeapQ.size + 1) = some (true, m') ∧
        m'.freed = exHeapQ.freed ++ [exHeapQ.size + 1]) ∧
      (ctx = 0 → ∀ q, m'.read q = exHeapQ.read q) :=
  ⟨by decide, by decide, ctx_init_direct_env exHeapQ 9 0⟩

/-! ### Validation of device identifiers -/

theorem udi_check_bad (m : Mem) (udi : Nat) (s : List Nat)
    (hs : udi ≠ 0 → m.read udi = some (Obj.str s)) (hbad : udi = 0 ∨ ¬ UDI_PREFIX <+: s) :
    LIBHAL_CHECK_UDI_VALID m udi = some false := by
  by_cases hu : udi = 0
  · simp [LIBHAL_CHECK_UDI_VALID, hu]
  · rcases hbad with h | h
    · exact absurd h hu
    · have : (strncmp s UDI_PREFIX 29 == 0) = false := by
        rw [Bool.eq_false_iff]
        intro hh
        exact h ((udi_check_iff s).1 hh)
      simp [LIBHAL_CHECK_UDI_VALID, hu, hs hu, this]

theorem udi_check_defined (m : Mem) (udi : Nat) (s : List Nat)
    (hs : udi ≠ 0 → m.read udi = some (Obj.str s)) :
    ∃ b, LIBHAL_CHECK_UDI_VALID m udi = some b := by
  by_cases hu : udi = 0
  · exact ⟨false, by simp [LIBHAL_CHECK_UDI_VALID, hu]⟩
  · exact ⟨strncmp s UDI_PREFIX 29 == 0, by simp [LIBHAL_CHECK_UDI_VALID, hu, hs hu]⟩

/-- C21.  Each of the four watch operations returns with the heap it was called
on, so the twelve callback slots and every other field of the context are the
same after the call as before it.  (`libhal_device_add_property_watch` reads
the device identifier, which has to be NULL or a string.) -/
theorem watch_calls_keep_registry (m : Mem) (ctx udi err : Nat) (s : List Nat)
    (hs : udi ≠ 0 → m.read udi = some (Obj.str s)) :
    (∃ r m', libhal_device_add_property_watch m ctx udi err = some (r, m') ∧ m' = m ∧
      m'.getCtx ctx = m.getCtx ctx) ∧
    (∃ r m', libhal_device_remove_property_watch m ctx udi err = some (r, m') ∧ m' = m ∧
      m'.getCtx ctx = m.getCtx ctx) ∧
    (∃ r m', libhal_device_property_watch_all m ctx err = some (r, m') ∧ m' = m ∧
      m'.getCtx ctx = m.getCtx ctx) ∧
    (∃ r m', libhal_device_property_remove_watch_all m ctx err = some (r, m') ∧ m' = m ∧
      m'.getCtx ctx = m.getCtx ctx) := by
  obtain ⟨b, hb⟩ := udi_check_defined m udi s hs
  refine ⟨⟨false, m, ?_, rfl, rfl⟩, ⟨false, m, rfl, rfl, rfl⟩, ⟨false, m, ?_, rfl, rfl⟩,
    ⟨false, m, ?_, rfl, rfl⟩⟩
  · unfold libhal_device_add_property_watch
    rw [hb]
    cases b <;> simp
  · simp [libhal_device_property_watch_all]
  · simp [libhal_device_property_remove_watch_all]

theorem watch_calls_keep_registry_witness :
    (∃ r m', libhal_device_add_property_watch exHeap 8 1 0 = some (r, m') ∧ m' = exHeap ∧
      m'.getCtx 8 = exHeap.getCtx 8) ∧
    (∃ r m', libhal_device_remove_property_watch exHeap 8 1 0 = some (r, m') ∧ m' = exHeap ∧
      m'.getCtx 8 = exHeap.getCtx 8) ∧
    (∃ r m', libhal_device_property_watch_all exHeap 8 0 = some (r, m') ∧ m' = exHeap ∧
      m'.getCtx 8 = exHeap.getCtx 8) ∧
    (∃ r m', libhal_device_property_remove_watch_all exHeap 8 0 = some (r, m') ∧ m' = exHeap ∧
      m'.getCtx 8 = exHeap.getCtx 8) :=
  watch_calls_keep_registry exHeap 8 1 0 (ascii "/org/freedesktop/Hal/devices/foo")
    (fun _ => by decide)

/-- C24.  For every property set, the caller's loop over the set (started by
`libhal_psi_init`, repeated while `libhal_psi_has_more` is TRUE) terminates and
makes as many `libhal_psi_next` advances as `libhal_property_set_get_num_elems`
returns for the set. -/
theorem num_elems_counts_advances (m : Mem) (iter set fuel : Nat) :
    psi_count_advances (fuel + 1) m iter set =
      some (libhal_property_set_get_num_elems m set, m) := by
  simp [psi_count_advances, psi_advance_loop, libhal_psi_has_more, libhal_psi_init,
    libhal_property_set_get_num_elems]

/-- C25.  For every property set and every key, NULL included, and so for every
key that is absent from the set: `libhal_ps_get_string` and
`libhal_ps_get_strlist` return NULL, `libhal_ps_get_int32` and
`libhal_ps_get_uint64` return 0, `libhal_ps_get_double` returns 0.0,
`libhal_ps_get_bool` returns FALSE and `libhal_ps_get_type` returns
`LIBHAL_PROPERTY_TYPE_INVALID`. -/
theorem ps_accessors_return_sentinels (set key : Nat) :
    libhal_ps_get_string set key = 0 ∧ libhal_ps_get_strlist set key = 0 ∧
    libhal_ps_get_int32 set key = 0 ∧ libhal_ps_get_uint64 set key = 0 ∧
    libhal_ps_get_double set key = DOUBLE_ZERO ∧ libhal_ps_get_bool set key = false ∧
    libhal_ps_get_type set key = LibHalPropertyType.INVALID := by
  refine ⟨?_, ?_, ?_, ?_, ?_, ?_, ?_⟩
  · simp [libhal_ps_get_string]
  · simp [libhal_ps_get_strlist]
  · simp [libhal_ps_get_int32]
  · simp [libhal_ps_get_uint64]
  · simp [libhal_ps_get_double]
  · simp [libhal_ps_get_bool]
  · simp [libhal_ps_get_type]

/-- C23, the claim as stated fails: on the initialized context 4 of `exHeapK`,
the device `/org/freedesktop/Hal/devices/D` and the interface `X`,
`libhal_device_acquire_interface_lock` with `exclusive = TRUE` returns FALSE,
`libhal_device_is_caller_locked_out` for the caller `:1.2` then reports TRUE,
`libhal_device_release_interface_lock` returns FALSE, and the same query
reports TRUE again, not FALSE. -/
theorem lock_scenario_counterexample :
    initialized exHeapK 4 = some true ∧
    cstring exHeapK 1 = some (ascii "/org/freedesktop/Hal/devices/D") ∧
    cstring exHeapK 2 = some (ascii "X") ∧
    libhal_device_acquire_interface_lock exHeapK 4 1 2 1 0 = some (false, exHeapK) ∧
    libhal_device_is_caller_locked_out exHeapK 4 1 2 3 0 = some (true, exHeapK) ∧
    libhal_device_release_interface_lock exHeapK 4 1 2 0 = some (false, exHeapK) ∧
    libhal_device_is_caller_locked_out exHeapK 4 1 2 3 0 ≠ some (false, exHeapK) := by
  decide

/-- C23 as amended: for a context, a device identifier that is NULL or a string,
an interface and a caller, `libhal_device_acquire_interface_lock` and
`libhal_device_release_interface_lock` return FALSE and
`libhal_device_is_caller_locked_out` reports TRUE, none of them changing the
heap; so the query reports TRUE after the acquisition and still reports TRUE
after the release. -/
theorem lock_query_always_true (m : Mem) (ctx udi interface caller exclusive err : Nat)
    (s : List Nat) (hs : udi ≠ 0 → m.read udi = some (Obj.str s)) :
    libhal_device_acquire_interface_lock m ctx udi interface exclusive err = some (false, m) ∧
    libhal_device_is_caller_locked_out m ctx udi interface caller err = some (true, m) ∧
    libhal_device_release_interface_lock m ctx udi interface err = some (false, m) := by
  obtain ⟨b, hb⟩ := udi_check_defined m udi s hs
  refine ⟨?_, ?_, ?_⟩
  · unfold libhal_device_acquire_interface_lock
    rw [hb]
    cases b <;> simp
  · unfold libhal_device_is_caller_locked_out
    rw [hb]
    cases b <;> simp
  · unfold libhal_device_release_interface_lock
    rw [hb]
    cases b <;> simp

theorem lock_query_always_true_witness :
    libhal_device_acquire_interface_lock exHeapK 4 1 2 1 0 = some (false, exHeapK) ∧
    libhal_device_is_caller_locked_out exHeapK 4 1 2 3 0 = some (true, exHeapK) ∧
    libhal_device_release_interface_lock exHeapK 4 1 2 0 = some (false, exHeapK) :=
  lock_query_always_true exHeapK 4 1 2 3 1 0 (ascii "/org/freedesktop/Hal/devices/D")
    (fun _ => by decide)

/-- C26, the claim as stated fails: in `exHeapP` the set 4 has two properties.
`libhal_psi_init` on the iterator 5 and the set 4 leaves the iterator as it was,
bound to no set and at position 9; and for the iterator 6, which is bound to the
set 4 at position 0, `libhal_psi_has_more` is FALSE although the position is
less than the number of properties. -/
theorem psi_init_binds_counterexample :
    (exHeapP.getProps 4).map List.length = some 2 ∧
    exHeapP.getIter 5 = some { set := 0, idx := 9 } ∧
    (libhal_psi_init exHeapP 5 4).getIter 5 = some { set := 0, idx := 9 } ∧
    libhal_psi_has_more (libhal_psi_init exHeapP 5 4) 5 = false ∧
    exHeapP.getIter 6 = some { set := 4, idx := 0 } ∧
    libhal_psi_has_more exHeapP 6 = false := by
  decide

/-- C26 as amended: `libhal_psi_init` leaves the heap, and with it the iterator,
as it was, and `libhal_psi_has_more` is FALSE for every iterator, whatever its
position and the number of properties of its set: FALSE when the position is
greater than or equal to that number, and FALSE as well right after
`libhal_psi_init` on a non-empty set. -/
theorem psi_has_more_always_false (m : Mem) (iter set : Nat) :
    libhal_psi_init m iter set = m ∧
    (libhal_psi_init m iter set).getIter iter = m.getIter iter ∧
    libhal_psi_has_more m iter = false ∧
    libhal_psi_has_more (libhal_psi_init m iter set) iter = false ∧
    (∀ (i : LibHalPropertySetIterator) (ps : List LibHalProperty), m.getIter iter = some i →
      m.getProps i.set = some ps → ps.length ≤ i.idx → libhal_psi_has_more m iter = false) := by
  have h : libhal_psi_init m iter set = m := by simp [libhal_psi_init]
  refine ⟨h, by rw [h], rfl, rfl, fun _ _ _ _ _ => rfl⟩

/-- C27, the claim as stated fails: the set 4 of `exHeapP` holds the keys `b`
and `a` in this order; after `libhal_property_set_sort` it holds them in the
same order, which is not non-decreasing. -/
theorem property_set_sort_counterexample :
    property_keys exHeapP 4 = some [ascii "b", ascii "a"] ∧
    property_keys (libhal_property_set_sort exHeapP 4) 4 = some [ascii "b", ascii "a"] ∧
    keys_sorted [ascii "b", ascii "a"] = false := by
  decide

/-- C27 as amended: `libhal_property_set_sort` leaves the set as it is.  The
properties after the call are the properties before it, in the same order: a
permutation of the original properties in which properties with equal keys keep
their relative order.  Applying the sort a second time changes nothing.  The
keys are in non-decreasing order after the call exactly when they were before
it. -/
theorem property_set_sort_keeps_order (m : Mem) (set : Nat) :
    libhal_property_set_sort m set = m ∧
    (libhal_property_set_sort m set).getProps set = m.getProps set ∧
    (∀ ps, m.getProps set = some ps →
      ∃ ps', (libhal_property_set_sort m set).getProps set = some ps' ∧ ps'.Perm ps ∧
        ps' = ps) ∧
    libhal_property_set_sort (libhal_property_set_sort m set) set =
      libhal_property_set_sort m set ∧
    (property_keys (libhal_property_set_sort m set) set).map keys_sorted =
      (property_keys m set).map keys_sorted := by
  refine ⟨rfl, rfl, fun ps h => ⟨ps, h, List.Perm.refl _, rfl⟩, rfl, rfl⟩

/-- C28, the claim as stated fails: on the initialized context 8 of `exHeap`,
the device identifier at 1 and the key at 2, a property that does not exist,
`libhal_device_get_property_int` returns -1, `libhal_device_get_property_uint64`
returns 18446744073709551615 and `libhal_device_get_property_double` returns
the pattern of -1.0, none of which is zero; the same values come back for a
NULL context, for the identifier `not-a-real-udi` at 7 and for a NULL key. -/
theorem scalar_getters_zero_counterexample :
    libhal_device_get_property_int exHeap 8 1 2 0 = some (-1, exHeap) ∧
    libhal_device_get_property_uint64 exHeap 8 1 2 0 = some (18446744073709551615, exHeap) ∧
    libhal_device_get_property_double exHeap 8 1 2 0 = some (0xBFF0000000000000, exHeap) ∧
    DOUBLE_MINUS_ONE ≠ DOUBLE_ZERO ∧
    libhal_device_get_property_int exHeap 0 1 2 0 = some (-1, exHeap) ∧
    libhal_device_get_property_int exHeap 8 7 2 0 = some (-1, exHeap) ∧
    libhal_device_get_property_int exHeap 8 1 0 0 = some (-1, exHeap) ∧
    libhal_device_get_property_uint64 exHeap 8 7 2 0 = some (18446744073709551615, exHeap) ∧
    libhal_device_get_property_double exHeap 8 7 2 0 = some (0xBFF0000000000000, exHeap) := by
  decide

/-- C28 as amended: for every context, device identifier (NULL or a string) and
key, and so whenever the local validation fails or the property does not exist,
`libhal_device_get_property_int` returns -1,
`libhal_device_get_property_uint64` returns -1 converted to `dbus_uint64_t`,
which is 2^64 - 1, `libhal_device_get_property_double` returns -1.0 and
`libhal_device_get_property_bool` returns FALSE; the heap is unchanged. -/
theorem scalar_getters_sentinels (m : Mem) (ctx udi key err : Nat) (s : List Nat)
    (hs : udi ≠ 0 → m.read udi = some (Obj.str s)) :
    libhal_device_get_property_int m ctx udi key err = some (-1, m) ∧
    libhal_device_get_property_uint64 m ctx udi key err = some (2 ^ 64 - 1, m) ∧
    libhal_device_get_property_double m ctx udi key err = some (DOUBLE_MINUS_ONE, m) ∧
    libhal_device_get_property_bool m ctx udi key err = some (false, m) := by
  obtain ⟨b, hb⟩ := udi_check_defined m udi s hs
  have h64 : to_uint64 (-1) = 2 ^ 64 - 1 := by decide
  refine ⟨?_, ?_, ?_, ?_⟩
  · unfold libhal_device_get_property_int
    rw [hb]
    cases b <;> simp
  · unfold libhal_device_get_property_uint64
    rw [hb, h64]
    cases b <;> simp
  · unfold libhal_device_get_property_double
    rw [hb]
    cases b <;> simp
  · unfold libhal_device_get_property_bool
    rw [hb]
    cases b <;> simp

theorem scalar_getters_sentinels_witness :
    libhal_device_get_property_int exHeap 8 7 2 0 = some (-1, exHeap) ∧
    libhal_device_get_property_uint64 exHeap 8 7 2 0 = some (2 ^ 64 - 1, exHeap) ∧
    libhal_device_get_property_double exHeap 8 7 2 0 = some (DOUBLE_MINUS_ONE, exHeap) ∧
    libhal_device_get_property_bool exHeap 8 7 2 0 = some (false, exHeap) :=
  scalar_getters_sentinels exHeap 8 7 2 0 (ascii "not-a-real-udi") (fun _ => by decide)

theorem psi_has_more_always_false_witness :
    libhal_psi_init exHeapP 6 4 = exHeapP ∧
    (libhal_psi_init exHeapP 6 4).getIter 6 = exHeapP.getIter 6 ∧
    libhal_psi_has_more exHeapP 6 = false ∧
    libhal_psi_has_more (libhal_psi_init exHeapP 6 4) 6 = false ∧
    (∀ (i : LibHalPropertySetIterator) (ps : List LibHalProperty), exHeapP.getIter 6 = some i →
      exHeapP.getProps i.set = some ps → ps.length ≤ i.idx →
      libhal_psi_has_more exHeapP 6 = false) :=
  psi_has_more_always_false exHeapP 6 4

theorem property_set_sort_keeps_order_witness :
    libhal_property_set_sort exHeapP 4 = exHeapP ∧
    (libhal_property_set_sort exHeapP 4).getProps 4 = exHeapP.getProps 4 ∧
    (∀ ps, exHeapP.getProps 4 = some ps →
      ∃ ps', (libhal_property_set_sort exHeapP 4).getProps 4 = some ps' ∧ ps'.Perm ps ∧
        ps' = ps) ∧
    libhal_property_set_sort (libhal_property_set_sort exHeapP 4) 4 =
      libhal_property_set_sort exHeapP 4 ∧
    (property_keys (libhal_property_set_sort exHeapP 4) 4).map keys_sorted =
      (property_keys exHeapP 4).map keys_sorted :=
  property_set_sort_keeps_order exHeapP 4

/-- C22.  Against the delivery of notifications as the spec describes it: after
`libhal_ctx_set_device_property_modified` has registered the callback `cb` on a
context, the delivery of one property-modified notification for the device `D`
and the key `k` makes exactly one call, of `cb`, with the context, `D` and `k`,
whatever the other eleven slots hold; and the delivery of a notification whose
kind has no callback registered makes no call. -/
theorem dispatch_property_modified (m : Mem) (ctx cb : Nat) (x : LibHalContext)
    (D k : List Nat) (hx : m.getCtx ctx = some x) (hcb : cb ≠ 0) :
    ∃ m1, libhal_ctx_set_device_property_modified m ctx cb = some (true, m1) ∧
      dispatch m1 ctx { kind := Callback.device_property_modified, udi := D, key := k } =
        some [{ callback := cb, ctx := ctx, udi := D, key := k }] ∧
      (∀ j : Callback, j ≠ Callback.device_property_modified →
        (m1.getCtx ctx).map j.slot = some (j.slot x)) ∧
      (∀ (j : Callback) (D' k' : List Nat), (m1.getCtx ctx).map j.slot = some 0 →
        dispatch m1 ctx { kind := j, udi := D', key := k' } = some []) := by
  have h1 := callback_setter_eq Callback.device_property_modified m ctx cb x hx
  have h2 := Mem.getCtx_put m ctx x (Callback.device_property_modified.store cb x) hx
  refine ⟨_, h1, ?_, ?_, ?_⟩
  · unfold dispatch
    rw [h2]
    simp [Callback.slot, Callback.store, hcb]
  · intro j hj
    rw [h2]
    cases j <;> first | rfl | exact absurd rfl hj
  · intro j D' k' hj
    rw [h2] at hj
    simp only [Option.map_some', Option.some.injEq] at hj
    unfold dispatch
    rw [h2]
    simp [hj]

theorem dispatch_property_modified_witness :
    exHeap.getCtx 8 = some { zeroCtx with connection := 77, is_initialized := true } ∧
    ∃ m1, libhal_ctx_set_device_property_modified exHeap 8 41 = some (true, m1) ∧
      dispatch m1 8 { kind := Callback.device_property_modified, udi := ascii "D", key := ascii "k" } =
        some [{ callback := 41, ctx := 8, udi := ascii "D", key := ascii "k" }] ∧
      (∀ j : Callback, j ≠ Callback.device_property_modified →
        (m1.getCtx 8).map j.slot = some (j.slot
          ({ zeroCtx with connection := 77, is_initialized := true } : LibHalContext))) ∧
      (∀ (j : Callback) (D' k' : List Nat), (m1.getCtx 8).map j.slot = some 0 →
        dispatch m1 8 { kind := j, udi := D', key := k' } = some []) :=
  ⟨by decide, dispatch_property_modified exHeap 8 41 _ (ascii "D") (ascii "k") (by decide)
    (by decide)⟩

/-- C29.  For a non-null context and a device identifier that is NULL or a string
that does not begin with `/org/freedesktop/Hal/devices/`, each call that takes a
device identifier returns the failure value of its function and leaves the heap,
and with it every field of the context, unchanged.  The failure value is the one
the function returns for a NULL context as well; it is TRUE for the two
lock-state queries `libhal_device_is_caller_locked_out` and
`libhal_device_is_locked_by_others`, and NULL, FALSE, -1 or the INVALID tag for
the other functions. -/
theorem udi_validation_fails (call : UdiCall) (m : Mem) (ctx udi : Nat) (s : List Nat)
    (hctx : ctx ≠ 0) (hs : udi ≠ 0 → m.read udi = some (Obj.str s))
    (hbad : udi = 0 ∨ ¬ UDI_PREFIX <+: s) (hdef : call.defined m = true) :
    call.run m ctx udi = some (call.failure, m) ∧
    call.run m 0 udi = some (call.failure, m) ∧
    (call.failure = Ret.bool true ↔
      (∃ i c e, call = UdiCall.device_is_caller_locked_out i c e) ∨
      (∃ i e, call = UdiCall.device_is_locked_by_others i e)) ∧
    call.failure ∈ [Ret.ptr 0, Ret.bool false, Ret.bool true, Ret.int32 (-1),
      Ret.uint64 (2 ^ 64 - 1), Ret.double DOUBLE_MINUS_ONE,
      Ret.tag LibHalPropertyType.INVALID] := by
  have hb := udi_check_bad m udi s hs hbad
  refine ⟨?_, ?_, ?_, ?_⟩
  · cases call <;>
      simp [UdiCall.run, UdiCall.failure, hb, hctx, LIBHAL_CHECK_LIBHALCONTEXT,
        libhal_device_get_property_type, libhal_device_get_property_strlist,
        libhal_device_get_property_string, libhal_device_get_property_int,
        libhal_device_get_property_uint64, libhal_device_get_property_double,
        libhal_device_get_property_bool, libhal_device_set_property_string,
        libhal_device_set_property_int, libhal_device_set_property_uint64,
        libhal_device_set_property_double, libhal_device_set_property_bool,
        libhal_device_remove_property, libhal_device_property_strlist_append,
        libhal_device_property_strlist_prepend, libhal_device_property_strlist_remove_index,
        libhal_device_property_strlist_remove, libhal_device_lock, libhal_device_unlock,
        libhal_remove_device, libhal_device_exists, libhal_device_property_exists,
        libhal_device_add_capability, libhal_device_query_capability,
        libhal_device_add_property_watch, libhal_device_remove_property_watch,
        libhal_device_rescan, libhal_device_reprobe, libhal_device_emit_condition,
        libhal_device_addon_is_ready, libhal_device_claim_interface,
        libhal_device_acquire_interface_lock, libhal_device_release_interface_lock,
        libhal_device_is_caller_locked_out, libhal_device_is_locked_by_others,
        libhal_device_is_caller_privileged, libhal_device_commit_to_gdl,
        libhal_merge_properties, libhal_device_matches]
    all_goals
      simp only [UdiCall.defined, Option.isSome_iff_exists] at hdef
      obtain ⟨b, hb2⟩ := hdef
      rw [hb2]
      cases b <;> simp
  · cases call <;> rfl
  · cases call <;> simp [UdiCall.failure]
  · cases call <;> simp [UdiCall.failure]
    all_goals decide

theorem udi_validation_fails_witness :
    (UdiCall.device_matches_udi2 1 2 0).run exHeap 8 7 =
      some ((UdiCall.device_matches_udi2 1 2 0).failure, exHeap) ∧
    (UdiCall.device_matches_udi2 1 2 0).run exHeap 0 7 =
      some ((UdiCall.device_matches_udi2 1 2 0).failure, exHeap) ∧
    ((UdiCall.device_matches_udi2 1 2 0).failure = Ret.bool true ↔
      (∃ i c e, UdiCall.device_matches_udi2 1 2 0 = UdiCall.device_is_caller_locked_out i c e) ∨
      (∃ i e, UdiCall.device_matches_udi2 1 2 0 = UdiCall.device_is_locked_by_others i e)) ∧
    (UdiCall.device_matches_udi2 1 2 0).failure ∈ [Ret.ptr 0, Ret.bool false, Ret.bool true,
      Ret.int32 (-1), Ret.uint64 (2 ^ 64 - 1), Ret.double DOUBLE_MINUS_ONE,
      Ret.tag LibHalPropertyType.INVALID] :=
  udi_validation_fails (UdiCall.device_matches_udi2 1 2 0) exHeap 8 7 (ascii "not-a-real-udi")
    (by decide) (fun _ => by decide) (Or.inr (by decide)) (by decide)

/-! ### libhal_string_array_length -/

theorem string_array_length_loop_spec (m : Mem) (arr : Nat) (cells : List Nat) (len : Nat)
    (hv : m.read arr = some (Obj.strv cells)) (hlen : strlist_len cells = some len)
    (hsmall : len < 2 ^ 32) (k : Nat) :
    ∀ i fuel, i + k = len → k < fuel → string_array_length_loop arr fuel i m = some len := by
  obtain ⟨h0, hne⟩ := strlist_len_spec cells len hlen
  induction k with
  | zero =>
    intro i fuel hi hf
    obtain ⟨f, rfl⟩ : ∃ f, fuel = f + 1 := ⟨fuel - 1, by omega⟩
    have : i = len := by omega
    subst this
    simp [string_array_length_loop, Mem.getCell, hv, h0]
  | succ k ih =>
    intro i fuel hi hf
    obtain ⟨f, rfl⟩ : ∃ f, fuel = f + 1 := ⟨fuel - 1, by omega⟩
    obtain ⟨c, hc, hc0⟩ := hne i (by omega)
    have hmod : (i + 1) % 2 ^ 32 = i + 1 := Nat.mod_eq_of_lt (by omega)
    simp only [string_array_length_loop, Mem.getCell, hv, hc, hc0, if_false, hmod]
    exact ih (i + 1) f (by omega) (by omega)

theorem string_array_length_spec (m : Mem) (arr : Nat) (cells : List Nat) (len : Nat)
    (hv : m.read arr = some (Obj.strv cells)) (hlen : strlist_len cells = some len)
    (hsmall : len < 2 ^ 32) :
    libhal_string_array_length m arr = some len := by
  have h0 := (Mem.le_size_of_read m _ _ hv).1
  obtain ⟨hz, _⟩ := strlist_len_spec cells len hlen
  have hlt : len < cells.length := by
    by_contra hcon
    rw [List.getElem?_eq_none (by omega)] at hz
    cases hz
  unfold libhal_string_array_length
  rw [if_neg h0]
  exact string_array_length_loop_spec m arr cells len hv hlen hsmall len 0 _ (by omega)
    (by simp [Mem.cellCount, hv]; omega)

/-- C30.  For an array of strings whose first NULL entry has the index `len`
(every entry before it is a string pointer), `libhal_string_array_length`
returns `len`; it returns 0 for a NULL array pointer.  After a successful
`libhal_changeset_set_property_strlist` with the array as value, it returns
`len` for the list stored in the new element, as it does for the input array.
(The counter is an `unsigned int`: `len` is taken below 2^32.) -/
theorem string_array_length_counts (m : Mem) (arr : Nat) (cells : List Nat) (len : Nat)
    (hv : m.read arr = some (Obj.strv cells)) (hlen : strlist_len cells = some len)
    (hsmall : len < 2 ^ 32) :
    libhal_string_array_length m arr = some len ∧
    cells[len]? = some 0 ∧ (∀ j, j < len → ∃ c, cells[j]? = some c ∧ c ≠ 0) ∧
    (∀ m0 : Mem, libhal_string_array_length m0 0 = some 0) ∧
    ∀ (cs key : Nat) (c : LibHalChangeSet) (m' : Mem),
      m.read cs = some (Obj.cset c) → (SetterCall.strlist key arr).ArgsOk m →
      (c.head ≠ 0 → ∃ t, m.read c.tail = some (Obj.elem t)) →
      libhal_changeset_set_property_strlist m cs key arr = some (true, m') →
      ∃ c' e p, m'.read cs = some (Obj.cset c') ∧ m'.read c'.tail = some (Obj.elem e) ∧
        e.change_type = LibHalPropertyType.STRLIST ∧ e.value = ElemValue.val_strlist p ∧
        p ≠ arr ∧ libhal_string_array_length m' p = some len ∧
        libhal_string_array_length m' arr = some len := by
  obtain ⟨hz, hne⟩ := strlist_len_spec cells len hlen
  refine ⟨string_array_length_spec m arr cells len hv hlen hsmall, hz, hne,
    fun m0 => by simp [libhal_string_array_length], ?_⟩
  intro cs key c m' hcs hargs ht hrun
  obtain ⟨r, m'', h1, _, _, h4⟩ := setter_spec m cs c (SetterCall.strlist key arr) hcs hargs ht
  have h1' : libhal_changeset_set_property_strlist m cs key arr = some (r, m'') := h1
  rw [hrun] at h1'
  simp only [Option.some.injEq, Prod.mk.injEq] at h1'
  obtain ⟨rfl, rfl⟩ := h1'
  obtain ⟨v, ks, _, happ, hpay⟩ := h4 rfl
  obtain ⟨rfl, cells2, len2, hv2, hlen2, _, harr, _⟩ := hpay
  rw [hv] at hv2
  cases hv2
  rw [hlen] at hlen2
  cases hlen2
  have hle := (Mem.le_size_of_read m _ _ hv).2
  refine ⟨_, _, m.size + 3, happ.cs_new, happ.elem_new, rfl, rfl, by omega, ?_, ?_⟩
  · exact string_array_length_spec m' _ _ len harr (strlist_len_range _ _ (by omega)) hsmall
  · exact string_array_length_spec m' arr cells len
      (Appended.frame_strv m m' cs c _ _ ks hcs happ arr cells hv) hlen hsmall

theorem string_array_length_counts_witness :
    libhal_string_array_length exHeapCs 6 = some 3 ∧
    ∃ c' e p, exHeapL.read 9 = some (Obj.cset c') ∧ exHeapL.read c'.tail = some (Obj.elem e) ∧
      e.change_type = LibHalPropertyType.STRLIST ∧ e.value = ElemValue.val_strlist p ∧
      p ≠ 6 ∧ libhal_string_array_length exHeapL p = some 3 ∧
      libhal_string_array_length exHeapL 6 = some 3 :=
  ⟨(string_array_length_counts exHeapCs 6 [3, 4, 5, 0, 4] 3 (by decide) (by decide)
      (by decide)).1,
    (string_array_length_counts exHeapCs 6 [3, 4, 5, 0, 4] 3 (by decide) (by decide)
      (by decide)).2.2.2.2 9 2 { udi := 10, head := 0, tail := 0 } exHeapL (by decide) (by decide)
      (fun h => absurd rfl h) (by decide)⟩

/-! ### Stub calls in closed form -/

theorem udi_check_good (m : Mem) (udi : Nat) (s : List Nat) (hu : m.read udi = some (Obj.str s))
    (hp : UDI_PREFIX <+: s) : LIBHAL_CHECK_UDI_VALID m udi = some true := by
  have h0 := (Mem.le_size_of_read m _ _ hu).1
  simp [LIBHAL_CHECK_UDI_VALID, h0, hu, (udi_check_iff s).2 hp]

theorem commit_changeset_eq (m : Mem) (ctx cs err : Nat) (c : LibHalChangeSet) (s : List Nat)
    (hcs : m.read cs = some (Obj.cset c)) (hs : c.udi ≠ 0 → m.read c.udi = some (Obj.str s)) :
    libhal_device_commit_changeset m ctx cs err = some (false, m) := by
  obtain ⟨b, hb⟩ := udi_check_defined m c.udi s hs
  by_cases hctx : ctx = 0
  · simp [libhal_device_commit_changeset, LIBHAL_CHECK_LIBHALCONTEXT, hctx]
  · simp only [libhal_device_commit_changeset, LIBHAL_CHECK_LIBHALCONTEXT, Mem.getCset, hcs, hb]
    cases b <;> simp [hctx]

/-- C33.  For a context, non-null or not, and a changeset whose device identifier
is NULL or a string, `libhal_device_commit_changeset` returns FALSE and the heap after
the call is the heap before it: the record of the changeset, its element
sequence, every element with its key, tag and value, and the context are
unchanged, and `libhal_device_free_changeset` and every typed setter do after
the commit what they would have done before it. -/
theorem commit_changeset_frame (m : Mem) (ctx cs err : Nat) (c : LibHalChangeSet) (s : List Nat)
    (hcs : m.read cs = some (Obj.cset c))
    (hs : c.udi ≠ 0 → m.read c.udi = some (Obj.str s)) :
    ∃ m', libhal_device_commit_changeset m ctx cs err = some (false, m') ∧
      (∀ q, m'.read q = m.read q) ∧ m'.read cs = some (Obj.cset c) ∧
      m'.getCtx ctx = m.getCtx ctx ∧
      (∀ fuel, walk m' fuel c.head = walk m fuel c.head) ∧
      libhal_device_free_changeset m' cs = libhal_device_free_changeset m cs ∧
      ∀ call : SetterCall, call.run m' cs = call.run m cs := by
  refine ⟨m, commit_changeset_eq m ctx cs err c s hcs hs, fun _ => rfl, hcs, rfl, fun _ => rfl,
    rfl, fun _ => rfl⟩

theorem commit_changeset_frame_witness :
    ∃ m', libhal_device_commit_changeset exHeapL 8 9 0 = some (false, m') ∧
      (∀ q, m'.read q = exHeapL.read q) ∧
      m'.read 9 = some (Obj.cset { udi := 10, head := 11, tail := 11 }) ∧
      m'.getCtx 8 = exHeapL.getCtx 8 ∧
      (∀ fuel, walk m' fuel 11 = walk exHeapL fuel 11) ∧
      libhal_device_free_changeset m' 9 = libhal_device_free_changeset exHeapL 9 ∧
      ∀ call : SetterCall, call.run m' 9 = call.run exHeapL 9 :=
  commit_changeset_frame exHeapL 8 9 0 { udi := 10, head := 11, tail := 11 }
    (ascii "/org/freedesktop/Hal/devices/foo") (by decide) (fun _ => by decide)

/-- C34.  Whatever the context, the device identifier and the error argument,
a call of `libhal_device_get_all_properties` that returns at all returns NULL
and leaves the heap as it is; it does return when the device identifier is NULL
or a string.  So no call of it yields a property set. -/
theorem get_all_properties_null (m : Mem) (ctx udi err : Nat) :
    (∀ r m', libhal_device_get_all_properties m ctx udi err = some (r, m') → r = 0 ∧ m' = m) ∧
    (∀ s : List Nat, (udi ≠ 0 → m.read udi = some (Obj.str s)) →
      libhal_device_get_all_properties m ctx udi err = some (0, m)) ∧
    libhal_device_get_all_properties m 0 udi err = some (0, m) := by
  refine ⟨?_, ?_, rfl⟩
  · intro r m' h
    unfold libhal_device_get_all_properties at h
    split at h
    · cases h
      exact ⟨rfl, rfl⟩
    · split at h
      · cases h
      · cases h
        exact ⟨rfl, rfl⟩
      · cases h
        exact ⟨rfl, rfl⟩
  · intro s hs
    obtain ⟨b, hb⟩ := udi_check_defined m udi s hs
    unfold libhal_device_get_all_properties
    rw [hb]
    cases b <;> simp

/-- C36.  `libhal_device_is_caller_locked_out` and
`libhal_device_is_locked_by_others` return TRUE and leave the heap as it is for
every input on which they return at all, and they return whenever the device
identifier is NULL or a string: for a NULL context, an invalid identifier, a
NULL interface or caller, and for valid arguments alike.  An acquire or release
call made before does not change the heap, so the result after it is TRUE as
well. -/
theorem lock_queries_constant (m : Mem) (ctx udi interface caller err : Nat) (s : List Nat)
    (hs : udi ≠ 0 → m.read udi = some (Obj.str s)) :
    libhal_device_is_caller_locked_out m ctx udi interface caller err = some (true, m) ∧
    libhal_device_is_locked_by_others m ctx udi interface err = some (true, m) ∧
    (∀ exclusive e2 r m1,
      libhal_device_acquire_interface_lock m ctx udi interface exclusive e2 = some (r, m1) →
      libhal_device_is_caller_locked_out m1 ctx udi interface caller err = some (true, m1) ∧
      libhal_device_is_locked_by_others m1 ctx udi interface err = some (true, m1)) ∧
    (∀ e2 r m1,
      libhal_device_release_interface_lock m ctx udi interface e2 = some (r, m1) →
      libhal_device_is_caller_locked_out m1 ctx udi interface caller err = some (true, m1) ∧
      libhal_device_is_locked_by_others m1 ctx udi interface err = some (true, m1)) := by
  obtain ⟨b, hb⟩ := udi_check_defined m udi s hs
  have h1 : libhal_device_is_caller_locked_out m ctx udi interface caller err = some (true, m) := by
    unfold libhal_device_is_caller_locked_out
    rw [hb]
    cases b <;> simp
  have h2 : libhal_device_is_locked_by_others m ctx udi interface err = some (true, m) := by
    unfold libhal_device_is_locked_by_others
    rw [hb]
    cases b <;> simp
  refine ⟨h1, h2, ?_, ?_⟩
  · intro exclusive e2 r m1 h
    have : m1 = m := by
      unfold libhal_device_acquire_interface_lock at h
      rw [hb] at h
      cases b <;> simp at h <;> exact h.2.symm
    subst this
    exact ⟨h1, h2⟩
  · intro e2 r m1 h
    have : m1 = m := by
      unfold libhal_device_release_interface_lock at h
      rw [hb] at h
      cases b <;> simp at h <;> exact h.2.symm
    subst this
    exact ⟨h1, h2⟩

theorem lock_queries_constant_witness :
    libhal_device_is_caller_locked_out exHeapK 0 1 2 0 0 = some (true, exHeapK) ∧
    libhal_device_is_locked_by_others exHeapK 0 1 2 0 = some (true, exHeapK) :=
  ⟨(lock_queries_constant exHeapK 0 1 2 0 0 (ascii "/org/freedesktop/Hal/devices/D")
      (fun _ => by decide)).1,
    (lock_queries_constant exHeapK 0 1 2 0 0 (ascii "/org/freedesktop/Hal/devices/D")
      (fun _ => by decide)).2.1⟩

/-- C38.  For a non-null context and a device identifier with the registry
prefix, `libhal_device_lock` returns FALSE and, when `reason_why_locked` is not
NULL, stores NULL in the pointer variable it points to and changes nothing
else; when it is NULL the heap is unchanged.  For a NULL context, and for a
device identifier that is NULL or lacks the prefix, it returns FALSE and the
heap, the caller's location included, is unchanged. -/
theorem device_lock_reason (m : Mem) (ctx udi reason rw err : Nat) (s : List Nat) (p : Nat)
    (hs : udi ≠ 0 → m.read udi = some (Obj.str s))
    (hrw : rw ≠ 0 → m.read rw = some (Obj.ptr p)) :
    (ctx ≠ 0 → udi ≠ 0 → UDI_PREFIX <+: s →
      ∃ m', libhal_device_lock m ctx udi reason rw err = some (false, m') ∧
        (rw = 0 → m' = m) ∧
        (rw ≠ 0 → m'.read rw = some (Obj.ptr 0) ∧ ∀ q, q ≠ rw → m'.read q = m.read q)) ∧
    ((ctx = 0 ∨ udi = 0 ∨ ¬ UDI_PREFIX <+: s) →
      libhal_device_lock m ctx udi reason rw err = some (false, m)) := by
  refine ⟨?_, ?_⟩
  · intro hctx hu hp
    have hg := udi_check_good m udi s (hs hu) hp
    by_cases h0 : rw = 0
    · exact ⟨m, by simp [libhal_device_lock, LIBHAL_CHECK_LIBHALCONTEXT, hctx, hg, h0],
        fun _ => rfl, fun h => absurd h0 h⟩
    · have hr := hrw h0
      refine ⟨m.put rw (Obj.ptr 0), ?_, fun h => absurd h h0, fun _ => ⟨?_, ?_⟩⟩
      · simp [libhal_device_lock, LIBHAL_CHECK_LIBHALCONTEXT, hctx, hg, h0, Mem.setPtr, hr,
          Mem.write_eq]
      · simp [hr]
      · intro q hq
        simp [hq]
  · intro h
    by_cases hctx : ctx = 0
    · simp [libhal_device_lock, LIBHAL_CHECK_LIBHALCONTEXT, hctx]
    · have hbad : udi = 0 ∨ ¬ UDI_PREFIX <+: s := by
        rcases h with h | h | h
        · exact absurd h hctx
        · exact Or.inl h
        · exact Or.inr h
      simp [libhal_device_lock, LIBHAL_CHECK_LIBHALCONTEXT, hctx, udi_check_bad m udi s hs hbad]

theorem device_lock_reason_witness :
    ∃ m', libhal_device_lock exHeapNew 6 1 2 4 0 = some (false, m') ∧
      ((4 : Nat) = 0 → m' = exHeapNew) ∧
      ((4 : Nat) ≠ 0 → m'.read 4 = some (Obj.ptr 0) ∧ ∀ q, q ≠ 4 → m'.read q = exHeapNew.read q) :=
  (device_lock_reason exHeapNew 6 1 2 4 0 (ascii "/org/freedesktop/Hal/devices/computer") 1
    (fun _ => by decide) (fun _ => by decide)).1 (by decide) (by decide) (by decide)

theorem is_computer_serial_iff (m : Mem) (udi key : Nat) (u k : List Nat)
    (hu : m.read udi = some (Obj.str u)) (hk : m.read key = some (Obj.str k)) :
    ∃ b, is_computer_serial m udi key = some b ∧
      (b = true ↔ cstr u = UDI_COMPUTER ∧ cstr k = KEY_SERIAL) := by
  have c1 : cstr UDI_COMPUTER = UDI_COMPUTER := by decide
  have c2 : cstr KEY_SERIAL = KEY_SERIAL := by decide
  have e1 := strcmp_eq_zero_iff u UDI_COMPUTER
  have e2 := strcmp_eq_zero_iff k KEY_SERIAL
  rw [c1] at e1
  rw [c2] at e2
  unfold is_computer_serial
  rw [hu]
  by_cases h1 : strcmp u UDI_COMPUTER = 0
  · by_cases h2 : strcmp k KEY_SERIAL = 0
    · exact ⟨true, by simp [h1, hk, h2], by simp [e1.1 h1, e2.1 h2]⟩
    · refine ⟨false, by simp [h1, hk, h2], ?_⟩
      simp only [Bool.false_eq_true, false_iff, not_and]
      exact fun _ h => h2 (e2.2 h)
  · refine ⟨false, by simp [h1], ?_⟩
    simp only [Bool.false_eq_true, false_iff, not_and]
    exact fun h => absurd (e1.2 h) h1

/-- C35.  For a non-null context, a device identifier with the registry prefix
and a key that is a string: `libhal_device_get_property_type` returns the STRING
tag exactly when the identifier is `/org/freedesktop/Hal/devices/computer` and
the key is `system.hardware.serial`.  In that case
`libhal_device_get_property_string` returns a fresh copy of
`System Serial Number`, or NULL when the allocation fails; so, the allocation
succeeding, it returns a non-NULL string exactly when the type is STRING.  For
every other identifier and key the type is `LIBHAL_PROPERTY_TYPE_INVALID`, the
string is NULL and the heap is unchanged. -/
theorem string_queries_agree (m : Mem) (ctx udi key err : Nat) (u k : List Nat)
    (hctx : ctx ≠ 0) (hu : m.read udi = some (Obj.str u)) (hp : UDI_PREFIX <+: u)
    (hk : m.read key = some (Obj.str k)) :
    (libhal_device_get_property_type m ctx udi key err = some LibHalPropertyType.STRING ↔
      cstr u = ascii "/org/freedesktop/Hal/devices/computer" ∧
        cstr k = ascii "system.hardware.serial") ∧
    (cstr u = ascii "/org/freedesktop/Hal/devices/computer" ∧
        cstr k = ascii "system.hardware.serial" →
      libhal_device_get_property_string m ctx udi key err =
        (if m.outcome m.nalloc = true then
          some (m.size + 1, m.push (Obj.str (ascii "System Serial Number")))
        else some (0, m.tick)) ∧
      m.read (m.size + 1) = none) ∧
    (¬ (cstr u = ascii "/org/freedesktop/Hal/devices/computer" ∧
        cstr k = ascii "system.hardware.serial") →
      libhal_device_get_property_type m ctx udi key err = some LibHalPropertyType.INVALID ∧
      libhal_device_get_property_string m ctx udi key err = some (0, m)) ∧
    (m.outcome m.nalloc = true →
      ((∃ p m', libhal_device_get_property_string m ctx udi key err = some (p, m') ∧ p ≠ 0) ↔
        libhal_device_get_property_type m ctx udi key err = some LibHalPropertyType.STRING)) := by
  have hg := udi_check_good m udi u hu hp
  have hk0 := (Mem.le_size_of_read m _ _ hk).1
  obtain ⟨b, hb, hiff⟩ := is_computer_serial_iff m udi key u k hu hk
  have hiff' : b = true ↔ cstr u = ascii "/org/freedesktop/Hal/devices/computer" ∧
      cstr k = ascii "system.hardware.serial" := hiff
  have hs : cstr SERIAL_NUMBER = ascii "System Serial Number" := by decide
  have ht : libhal_device_get_property_type m ctx udi key err =
      some (if b then LibHalPropertyType.STRING else LibHalPropertyType.INVALID) := by
    simp only [libhal_device_get_property_type, LIBHAL_CHECK_LIBHALCONTEXT,
      LIBHAL_CHECK_PARAM_VALID, hg, hb, DBUS_TYPE_STRING]
    cases b <;> simp [hctx, hk0]
  have hstr : libhal_device_get_property_string m ctx udi key err =
      (if b then
        (if m.outcome m.nalloc = true then
          some (m.size + 1, m.push (Obj.str (ascii "System Serial Number")))
        else some (0, m.tick))
      else some (0, m)) := by
    simp only [libhal_device_get_property_string, LIBHAL_CHECK_LIBHALCONTEXT,
      LIBHAL_CHECK_PARAM_VALID, hg, hb, strdup_literal, hs]
    cases b
    · simp [hctx, hk0]
    · by_cases ho : m.outcome m.nalloc = true
      · simp [hctx, hk0, ho, Mem.alloc, Mem.push, Mem.size]
      · simp [hctx, hk0, ho, Mem.alloc, Mem.tick]
  refine ⟨?_, ?_, ?_, ?_⟩
  · rw [ht, ← hiff']
    cases b <;> simp
  · intro h
    have hbt : b = true := hiff'.2 h
    rw [hstr, hbt]
    exact ⟨by simp, read_fresh m _ (Nat.lt_succ_self _)⟩
  · intro h
    have hbf : b = false := by
      cases b
      · rfl
      · exact absurd (hiff'.1 rfl) h
    rw [ht, hstr, hbf]
    exact ⟨by simp, by simp⟩
  · intro ho
    rw [ht, hstr]
    cases b
    · simp
    · simp [ho]

theorem string_queries_agree_witness :
    (libhal_device_get_property_type exHeapNew 6 1 2 0 = some LibHalPropertyType.STRING ↔
      cstr (ascii "/org/freedesktop/Hal/devices/computer") =
          ascii "/org/freedesktop/Hal/devices/computer" ∧
        cstr (ascii "system.hardware.serial") = ascii "system.hardware.serial") ∧
    libhal_device_get_property_type exHeapNew 6 1 2 0 = some LibHalPropertyType.STRING ∧
    libhal_device_get_property_type exHeap 8 1 2 0 = some LibHalPropertyType.INVALID ∧
    libhal_device_get_property_string exHeap 8 1 2 0 = some (0, exHeap) :=
  ⟨(string_queries_agree exHeapNew 6 1 2 0 _ _ (by decide) (by decide) (by decide)
      (by decide)).1,
    by decide,
    ((string_queries_agree exHeap 8 1 2 0 (ascii "/org/freedesktop/Hal/devices/foo") (ascii "k")
      (by decide) (by decide) (by decide) (by decide)).2.2.1 (by decide)).1,
    ((string_queries_agree exHeap 8 1 2 0 (ascii "/org/freedesktop/Hal/devices/foo") (ascii "k")
      (by decide) (by decide) (by decide) (by decide)).2.2.1 (by decide)).2⟩

/-! ### The doubly-linked list of a changeset -/

theorem PrevChain.congr (m m' : Mem) (p : Nat) (l : List Nat) (h : PrevChain m p l)
    (hf : ∀ a, a ∈ l → ∀ e, m.read a = some (Obj.elem e) →
      ∃ e', m'.read a = some (Obj.elem e') ∧ e'.prev = e.prev) : PrevChain m' p l := by
  induction l generalizing p with
  | nil => trivial
  | cons a l ih =>
    obtain ⟨⟨e, he, hp⟩, hrest⟩ := h
    obtain ⟨e', he', hp'⟩ := hf a (by simp) e he
    exact ⟨⟨e', he', by rw [hp', hp]⟩, ih a hrest (fun b hb => hf b (by simp [hb]))⟩

theorem PrevChain.append_last (m m' : Mem) (p n : Nat) (l : List Nat) (en : LibHalChangeSetElement)
    (h : PrevChain m p l)
    (hf : ∀ a, a ∈ l → ∀ e, m.read a = some (Obj.elem e) →
      ∃ e', m'.read a = some (Obj.elem e') ∧ e'.prev = e.prev)
    (hn : m'.read n = some (Obj.elem en)) (hp : en.prev = l.getLastD p) :
    PrevChain m' p (l ++ [n]) := by
  induction l generalizing p with
  | nil => exact ⟨⟨en, hn, by simpa using hp⟩, trivial⟩
  | cons a l ih =>
    obtain ⟨⟨e, he, hpe⟩, hrest⟩ := h
    obtain ⟨e', he', hp'⟩ := hf a (by simp) e he
    refine ⟨⟨e', he', by rw [hp', hpe]⟩, ?_⟩
    have hl : (a :: l).getLastD p = l.getLastD a := by
      cases l <;> simp [List.getLastD]
    rw [hl] at hp
    exact ih a hrest (fun b hb => hf b (by simp [hb])) hp

theorem PrevChain.next_prev (m : Mem) (p q : Nat) (l : List Nat) (hs : IsSeq m p l)
    (h : PrevChain m q l) :
    ∀ a, a ∈ l → ∀ e, m.read a = some (Obj.elem e) → e.next ≠ 0 →
      ∃ e', m.read e.next = some (Obj.elem e') ∧ e'.prev = a := by
  induction l generalizing p q with
  | nil => intro a ha; cases ha
  | cons b l ih =>
    obtain ⟨_, _, e0, he0, hs0⟩ := hs
    obtain ⟨_, hrest⟩ := h
    intro a ha e he hne
    rcases List.mem_cons.1 ha with rfl | hmem
    · rw [he0] at he
      cases he
      cases l with
      | nil => exact absurd (by simpa [IsSeq] using hs0) hne
      | cons c l =>
        obtain ⟨hc, _, _⟩ := hs0
        obtain ⟨⟨ec, hec, hpc⟩, _⟩ := hrest
        exact ⟨ec, by rw [hc]; exact hec, hpc⟩
    · exact ih e0.next b hs0 hrest a hmem e he hne

theorem prefix_cstr (p s : List Nat) (hp : ∀ c ∈ p, c ≠ 0) (h : p <+: s) : p <+: cstr s := by
  obtain ⟨t, rfl⟩ := h
  unfold cstr
  induction p with
  | nil => exact List.nil_prefix
  | cons a p ih =>
    have ha : a ≠ 0 := hp a (by simp)
    simp only [List.cons_append, List.takeWhile_cons, ha, ne_eq, not_false_eq_true, decide_True,
      if_true]
    exact List.prefix_cons_inj a |>.2 (ih (fun c hc => hp c (by simp [hc])))

theorem Chain.head_tail (m : Mem) (cs : Nat) (c : LibHalChangeSet) (L us : List Nat)
    (h : Chain m cs c L us) : (c.head = 0 ↔ L = []) ∧ (c.tail = 0 ↔ L = []) := by
  refine ⟨IsSeq.head_zero_iff m _ L h.seq, ?_⟩
  rw [h.tail]
  constructor
  · intro h0
    by_contra hne
    have hmem : L.getLastD 0 ∈ L := by
      cases L with
      | nil => exact absurd rfl hne
      | cons a l =>
        rw [List.getLastD_cons]
        have := List.getLast_mem (l := a :: l) (by simp)
        rw [List.getLast_eq_getLastD] at this
        simpa [List.getLastD_cons] using this
    exact (IsSeq.mem m _ L h.seq _ hmem).1 h0
  · rintro rfl
    rfl

theorem new_changeset_chain (m0 : Mem) (udi cs : Nat) (m1 : Mem) (s : List Nat)
    (hs : m0.read udi = some (Obj.str s))
    (h : libhal_device_new_changeset m0 udi = some (cs, m1)) (hcs : cs ≠ 0) :
    UDI_PREFIX <+: s ∧ Chain m1 cs { udi := m0.size + 2, head := 0, tail := 0 } [] (cstr s) := by
  obtain ⟨s', hs', hp, h1, h2⟩ := new_changeset_inv m0 udi cs m1 h hcs
  rw [hs] at hs'
  cases hs'
  rw [new_changeset_ok m0 udi s hs hp h1 h2] at h
  simp only [Option.some.injEq, Prod.mk.injEq] at h
  obtain ⟨rfl, rfl⟩ := h
  exact ⟨hp, Chain.mk (by simp) (by simp) rfl rfl List.nodup_nil trivial⟩

theorem Chain.step_true (m : Mem) (cs : Nat) (c : LibHalChangeSet) (L us : List Nat)
    (call : SetterCall) (m' : Mem) (h : Chain m cs c L us) (hargs : call.ArgsOk m)
    (hrun : call.run m cs = some (true, m')) :
    (∃ c', Chain m' cs c' (L ++ [m.size + 1]) us ∧ c'.udi = c.udi) ∧
      (∀ q s, m.read q = some (Obj.str s) → m'.read q = some (Obj.str s)) ∧
      (∀ q cells, m.read q = some (Obj.strv cells) → m'.read q = some (Obj.strv cells)) := by
  obtain ⟨v, ks, hk, happ, hpay, hseq, hnew⟩ :=
    setter_step m cs c L call m' h.hcs h.seq h.tail hargs hrun
  have hstr := fun q s hq => Appended.frame_str m m' cs c _ v ks h.hcs happ q s hq
  have hstrv := fun q cells hq => Appended.frame_strv m m' cs c _ v ks h.hcs happ q cells hq
  refine ⟨⟨_, Chain.mk happ.cs_new (hstr _ _ h.hudi) hseq (by simp) ?_ ?_, rfl⟩, hstr, hstrv⟩
  · exact List.Nodup.append h.nodup (by simp) (by simpa using hnew)
  · refine PrevChain.append_last m m' 0 _ L _ h.prev ?_ happ.elem_new ?_
    · intro a _ e he
      obtain ⟨e', he', _, _, _, hp, _⟩ := Appended.frame_elem m m' cs c _ v ks h.hcs happ a e he
      exact ⟨e', he', hp⟩
    · by_cases hh : c.head = 0
      · have : L = [] := (IsSeq.head_zero_iff m _ L h.seq).1 hh
        simp [hh, this]
      · simp [hh, h.tail]

theorem Chain.step_false (m : Mem) (cs : Nat) (c : LibHalChangeSet) (L us : List Nat)
    (m' : Mem) (h : Chain m cs c L us) (hread : ∀ q, m'.read q = m.read q) :
    Chain m' cs c L us :=
  Chain.mk (by rw [hread]; exact h.hcs) (by rw [hread]; exact h.hudi)
    (IsSeq.frame_next m m' _ L h.seq (fun a _ e he => ⟨e, by rw [hread]; exact he, rfl⟩))
    h.tail h.nodup
    (PrevChain.congr m m' 0 L h.prev (fun a _ e he => ⟨e, by rw [hread]; exact he, rfl⟩))

theorem setter_null_run (call : SetterCall) (m : Mem) (cs : Nat) (h : call.nullArg = true) :
    call.run m cs = some (false, m) := by
  cases call <;>
    simp only [SetterCall.nullArg, Bool.or_eq_true, beq_iff_eq] at h <;>
    by_cases hc : cs = 0 <;>
    simp [SetterCall.run, libhal_changeset_set_property_string,
      libhal_changeset_set_property_int, libhal_changeset_set_property_uint64,
      libhal_changeset_set_property_double, libhal_changeset_set_property_bool,
      libhal_changeset_set_property_strlist, LIBHAL_CHECK_PARAM_VALID, hc, h]
  all_goals
    rcases h with h | h <;> simp [h]

theorem run_setters_count_chain (cs : Nat) (us : List Nat) :
    ∀ (calls : List SetterCall) (m : Mem) (c : LibHalChangeSet) (L : List Nat),
      Chain m cs c L us → (∀ call, call ∈ calls → call.ArgsOk m ∨ call.nullArg = true) →
      ∃ n m2 c2 L2, run_setters_count cs calls m = some (n, m2) ∧ Chain m2 cs c2 L2 us ∧
        c2.udi = c.udi ∧ L2.length = L.length + n ∧ n ≤ calls.length := by
  intro calls
  induction calls with
  | nil =>
    intro m c L h _
    exact ⟨0, m, c, L, rfl, h, rfl, rfl, le_refl _⟩
  | cons call rest ih =>
    intro m c L h hargs
    have hframe : ∀ m1 : Mem,
        (∀ q s, m.read q = some (Obj.str s) → m1.read q = some (Obj.str s)) →
        (∀ q cells, m.read q = some (Obj.strv cells) → m1.read q = some (Obj.strv cells)) →
        ∀ x, x ∈ rest → x.ArgsOk m1 ∨ x.nullArg = true := by
      intro m1 hstr hstrv x hx
      rcases hargs x (by simp [hx]) with hok | hnull
      · exact Or.inl (SetterCall.ArgsOk.frame_args m m1 x hok hstr hstrv)
      · exact Or.inr hnull
    rcases hargs call (by simp) with ha | hnull
    swap
    · obtain ⟨n, m2, c2, L2, hrun, hc2, hu, hlen, hle⟩ := ih m c L h
        (hframe m (fun _ _ hq => hq) (fun _ _ hq => hq))
      refine ⟨n, m2, c2, L2, ?_, hc2, hu, hlen, by simp; omega⟩
      simp [run_setters_count, setter_null_run call m cs hnull, hrun]
    obtain ⟨r, m1, h1, _, h3, _⟩ :=
      setter_spec m cs c call h.hcs ha (tail_live m c L h.seq h.tail)
    cases r with
    | false =>
      have hread := h3 rfl
      have hch := Chain.step_false m cs c L us m1 h hread
      obtain ⟨n, m2, c2, L2, hrun, hc2, hu, hlen, hle⟩ := ih m1 c L hch
        (hframe m1 (fun q s hq => by rw [hread]; exact hq)
          (fun q cells hq => by rw [hread]; exact hq))
      refine ⟨n, m2, c2, L2, ?_, hc2, hu, hlen, by simp; omega⟩
      simp [run_setters_count, h1, hrun]
    | true =>
      obtain ⟨⟨c1, hch, hu1⟩, hstr, hstrv⟩ := Chain.step_true m cs c L us call m1 h ha h1
      obtain ⟨n, m2, c2, L2, hrun, hc2, hu, hlen, hle⟩ := ih m1 c1 _ hch (hframe m1 hstr hstrv)
      refine ⟨n + 1, m2, c2, L2, ?_, hc2, by rw [hu, hu1], ?_, by simp; omega⟩
      · simp [run_setters_count, h1, hrun]
      · rw [hlen]
        simp
        omega

/-- C31.  After `libhal_device_new_changeset` and any sequence of typed setter
calls, each of which may succeed, fail for want of memory or fail on a NULL
argument that the setter tests, the changeset is
a well-formed doubly-linked list: `head` is NULL exactly when `tail` is NULL;
otherwise `head->prev` and `tail->next` are NULL; for every element `e` with a
successor, `e->next->prev` is `e`; the walk along `next` from `head` ends after
finitely many steps, meets no element twice and ends at `tail`; and the number
of elements is the number of calls that returned TRUE. -/
theorem changeset_list_well_formed (m0 : Mem) (udi cs : Nat) (m1 : Mem)
    (calls : List SetterCall)
    (hnew : libhal_device_new_changeset m0 udi = some (cs, m1)) (hcs : cs ≠ 0)
    (hargs : ∀ call, call ∈ calls → call.ArgsOk m1 ∨ call.nullArg = true) :
    ∃ n m2 c L, run_setters_count cs calls m1 = some (n, m2) ∧
      m2.read cs = some (Obj.cset c) ∧
      (c.head = 0 ↔ c.tail = 0) ∧
      (c.head ≠ 0 → ∃ eh et, m2.read c.head = some (Obj.elem eh) ∧ eh.prev = 0 ∧
        m2.read c.tail = some (Obj.elem et) ∧ et.next = 0) ∧
      (∀ a e, a ∈ L → m2.read a = some (Obj.elem e) → e.next ≠ 0 →
        ∃ e', m2.read e.next = some (Obj.elem e') ∧ e'.prev = a) ∧
      (∀ fuel, L.length ≤ fuel → walk m2 fuel c.head = some L) ∧
      c.tail = L.getLastD 0 ∧ L.Nodup ∧ L.length = n ∧ n ≤ calls.length := by
  obtain ⟨s, hs, _⟩ := new_changeset_inv m0 udi cs m1 hnew hcs
  obtain ⟨_, hch⟩ := new_changeset_chain m0 udi cs m1 s hs hnew hcs
  obtain ⟨n, m2, c, L, hrun, h, _, hlen, hle⟩ :=
    run_setters_count_chain cs (cstr s) calls m1 _ [] hch hargs
  obtain ⟨hh, ht⟩ := Chain.head_tail m2 cs c L _ h
  refine ⟨n, m2, c, L, hrun, h.hcs, by rw [hh, ht], ?_,
    fun a e ha => PrevChain.next_prev m2 _ 0 L h.seq h.prev a ha e,
    fun fuel hf => (walk_eq_some_iff m2 fuel c.head L).2 ⟨h.seq, hf⟩, h.tail, h.nodup,
    by simpa using hlen, hle⟩
  intro hne
  have hL : L ≠ [] := fun e => hne (hh.2 e)
  obtain ⟨et, het, hnext⟩ := IsSeq.last m2 _ L h.seq hL
  cases L with
  | nil => exact absurd rfl hL
  | cons a l =>
    obtain ⟨ha, _, _⟩ := h.seq
    obtain ⟨⟨eh, heh, hprev⟩, _⟩ := h.prev
    exact ⟨eh, et, by rw [ha]; exact heh, hprev, by rw [h.tail]; exact het, hnext⟩

theorem changeset_list_well_formed_witness :
    (run_setters_count 9 [SetterCall.int 2 5, SetterCall.string 2 0, SetterCall.int 2 (-7)] exHeapCsF).map Prod.fst =
      some 1 ∧
    ∃ n m2 c L,
      run_setters_count 9 [SetterCall.int 2 5, SetterCall.string 2 0, SetterCall.int 2 (-7)] exHeapCsF = some (n, m2) ∧
      m2.read 9 = some (Obj.cset c) ∧
      (c.head = 0 ↔ c.tail = 0) ∧
      (c.head ≠ 0 → ∃ eh et, m2.read c.head = some (Obj.elem eh) ∧ eh.prev = 0 ∧
        m2.read c.tail = some (Obj.elem et) ∧ et.next = 0) ∧
      (∀ a e, a ∈ L → m2.read a = some (Obj.elem e) → e.next ≠ 0 →
        ∃ e', m2.read e.next = some (Obj.elem e') ∧ e'.prev = a) ∧
      (∀ fuel, L.length ≤ fuel → walk m2 fuel c.head = some L) ∧
      c.tail = L.getLastD 0 ∧ L.Nodup ∧ L.length = n ∧
      n ≤ [SetterCall.int 2 5, SetterCall.string 2 0, SetterCall.int 2 (-7)].length :=
  ⟨by decide, changeset_list_well_formed { exHeap with oracle := [true, true, false] } 1 9
    exHeapCsF [SetterCall.int 2 5, SetterCall.string 2 0, SetterCall.int 2 (-7)] (by decide) (by decide) (by decide)⟩

/-- C32.  The changeset returned by `libhal_device_new_changeset` for the string
`s` stores a copy of `s`; after any sequence of typed setter calls, each of which
may succeed, fail for want of memory or fail on a NULL argument that the setter
tests, the changeset still points to the
same block, which still holds the string `s`, and this string begins with
`/org/freedesktop/Hal/devices/`; so the check of the device identifier in
`libhal_device_commit_changeset` lets the changeset pass. -/
theorem changeset_udi_fixed (m0 : Mem) (udi cs : Nat) (m1 : Mem) (calls : List SetterCall)
    (s : List Nat) (hs : m0.read udi = some (Obj.str s))
    (hnew : libhal_device_new_changeset m0 udi = some (cs, m1)) (hcs : cs ≠ 0)
    (hargs : ∀ call, call ∈ calls → call.ArgsOk m1 ∨ call.nullArg = true) :
    ∃ c1 n m2 c2, m1.read cs = some (Obj.cset c1) ∧ cstring m1 c1.udi = some (cstr s) ∧
      run_setters_count cs calls m1 = some (n, m2) ∧ m2.read cs = some (Obj.cset c2) ∧
      c2.udi = c1.udi ∧ c2.udi ≠ udi ∧ cstring m2 c2.udi = some (cstr s) ∧
      UDI_PREFIX <+: cstr s ∧ LIBHAL_CHECK_UDI_VALID m2 c2.udi = some true ∧
      ∀ ctx err, libhal_device_commit_changeset m2 ctx cs err = some (false, m2) := by
  obtain ⟨hp, hch⟩ := new_changeset_chain m0 udi cs m1 s hs hnew hcs
  obtain ⟨n, m2, c, L, hrun, h, hu, _, _⟩ :=
    run_setters_count_chain cs (cstr s) calls m1 _ [] hch hargs
  have hpc : UDI_PREFIX <+: cstr s := prefix_cstr _ _ (by decide) hp
  have hle := (Mem.le_size_of_read m0 _ _ hs).2
  refine ⟨_, n, m2, c, hch.hcs, by simp [cstring, hch.hudi, cstr_idem], hrun, h.hcs, hu, ?_,
    by simp [cstring, h.hudi, cstr_idem], hpc, udi_check_good m2 _ _ h.hudi hpc, ?_⟩
  · rw [hu]
    show m0.size + 2 ≠ udi
    omega
  · intro ctx err
    exact commit_changeset_eq m2 ctx cs err c (cstr s) h.hcs (fun _ => h.hudi)

theorem changeset_udi_fixed_witness :
    ∃ c1 n m2 c2, exHeapCs.read 9 = some (Obj.cset c1) ∧
      cstring exHeapCs c1.udi = some (cstr (ascii "/org/freedesktop/Hal/devices/foo")) ∧
      run_setters_count 9 [SetterCall.strlist 2 6, SetterCall.int 2 (-7)] exHeapCs =
        some (n, m2) ∧
      m2.read 9 = some (Obj.cset c2) ∧
      c2.udi = c1.udi ∧ c2.udi ≠ 1 ∧
      cstring m2 c2.udi = some (cstr (ascii "/org/freedesktop/Hal/devices/foo")) ∧
      UDI_PREFIX <+: cstr (ascii "/org/freedesktop/Hal/devices/foo") ∧
      LIBHAL_CHECK_UDI_VALID m2 c2.udi = some true ∧
      ∀ ctx err, libhal_device_commit_changeset m2 ctx 9 err = some (false, m2) :=
  changeset_udi_fixed exHeap 1 9 exHeapCs [SetterCall.strlist 2 6, SetterCall.int 2 (-7)]
    (ascii "/org/freedesktop/Hal/devices/foo") (by decide) (by decide) (by decide) (by decide)

/-! ### Two heaps that differ in the flags of one context -/

theorem Mem.push_put (m : Mem) (p : Nat) (a o : Obj) (h : (m.read p).isSome) :
    (m.put p a).push o = (m.push o).put p a := by
  have hp : ∃ w, m.read p = some w := Option.isSome_iff_exists.1 h
  obtain ⟨w, hw⟩ := hp
  have hle := Mem.le_size_of_read m p w hw
  have h2 : ((m.push o).read p).isSome := by
    have : p ≠ m.size + 1 := by omega
    simp [this, hw]
  unfold Mem.put
  rw [if_pos h, if_pos h2]
  unfold Mem.size at hle
  simp only [Mem.push, Mem.mk.injEq, and_true, true_and]
  rw [List.set_append_left _ _ (by omega)]

theorem Mem.tick_put (m : Mem) (p : Nat) (a : Obj) : (m.put p a).tick = m.tick.put p a := by
  unfold Mem.put
  have : m.tick.read p = m.read p := rfl
  rw [this]
  split <;> rfl

theorem Mem.put_of_live (m : Mem) (p : Nat) (a : Obj) (h : (m.read p).isSome) :
    m.put p a = { m with heap := m.heap.set (p - 1) (some a) } := by
  unfold Mem.put
  rw [if_pos h]

theorem Mem.put_of_dead (m : Mem) (p : Nat) (a : Obj) (h : ¬ (m.read p).isSome) :
    m.put p a = m := by
  unfold Mem.put
  rw [if_neg h]

theorem Mem.put_comm (m : Mem) (p q : Nat) (a b : Obj) (hne : p ≠ q) :
    (m.put p a).put q b = (m.put q b).put p a := by
  have h1 : ((m.put p a).read q).isSome = (m.read q).isSome := by
    rw [Mem.read_put]
    simp [Ne.symm hne]
  have h2 : ((m.put q b).read p).isSome = (m.read p).isSome := by
    rw [Mem.read_put]
    simp [hne]
  by_cases hp : (m.read p).isSome
  · by_cases hq : (m.read q).isSome
    · have hp0 : p ≠ 0 := by
        intro e
        subst e
        simp at hp
      have hq0 : q ≠ 0 := by
        intro e
        subst e
        simp at hq
      have hpq : p - 1 ≠ q - 1 := by omega
      rw [Mem.put_of_live (m.put p a) q b (by rw [h1]; exact hq),
        Mem.put_of_live (m.put q b) p a (by rw [h2]; exact hp),
        Mem.put_of_live m p a hp, Mem.put_of_live m q b hq]
      simp only [Mem.mk.injEq, and_true, true_and]
      exact List.set_comm _ _ _ hpq
    · rw [Mem.put_of_dead (m.put p a) q b (by rw [h1]; exact hq), Mem.put_of_dead m q b hq]
  · rw [Mem.put_of_dead (m.put q b) p a (by rw [h2]; exact hp), Mem.put_of_dead m p a hp]

theorem SameButFlags.update (x y : LibHalContext) (h : SameButFlags x y)
    (f : LibHalContext → LibHalContext)
    (hc : ∀ z, (f z).connection = z.connection) (hd : ∀ z, (f z).user_data = z.user_data)
    (hk : ∀ (k : Callback) z, k.slot (f z) = k.slot z) : SameButFlags (f x) (f y) :=
  SameButFlags.mk (by rw [hc, hc, h.connection]) (by rw [hd, hd, h.user_data])
    (fun k => by rw [hk, hk, h.slots k])

theorem SameButFlags.store (x y : LibHalContext) (h : SameButFlags x y) (k : Callback)
    (cb : Nat) : SameButFlags (k.store cb x) (k.store cb y) := by
  refine SameButFlags.mk ?_ ?_ ?_
  · cases k <;> exact h.connection
  · cases k <;> exact h.user_data
  · intro j
    have hj := h.slots j
    cases k <;> cases j <;> first | rfl | exact hj

theorem twin_str (m1 : Mem) (ctx : Nat) (x y : LibHalContext) (hx : m1.getCtx ctx = some x)
    (q : Nat) (s : List Nat) :
    (m1.put ctx (Obj.ctx y)).read q = some (Obj.str s) ↔ m1.read q = some (Obj.str s) := by
  rw [Mem.getCtx_eq_some] at hx
  by_cases hq : q = ctx
  · subst hq
    simp [hx]
  · simp [hq]

theorem twin_udi_check (m1 : Mem) (ctx : Nat) (x y : LibHalContext)
    (hx : m1.getCtx ctx = some x) (udi : Nat) :
    LIBHAL_CHECK_UDI_VALID (m1.put ctx (Obj.ctx y)) udi = LIBHAL_CHECK_UDI_VALID m1 udi := by
  rw [Mem.getCtx_eq_some] at hx
  unfold LIBHAL_CHECK_UDI_VALID
  by_cases hq : udi = ctx
  · subst hq
    simp [hx]
  · simp [hq]

theorem twin_computer_serial (m1 : Mem) (ctx : Nat) (x y : LibHalContext)
    (hx : m1.getCtx ctx = some x) (udi key : Nat) :
    is_computer_serial (m1.put ctx (Obj.ctx y)) udi key = is_computer_serial m1 udi key := by
  rw [Mem.getCtx_eq_some] at hx
  unfold is_computer_serial
  have hr : ∀ q, q ≠ ctx → (m1.put ctx (Obj.ctx y)).read q = m1.read q := by
    intro q hq
    simp [hq]
  have hc : (m1.put ctx (Obj.ctx y)).read ctx = some (Obj.ctx y) := by simp [hx]
  by_cases hu : udi = ctx
  · subst hu
    rw [hc, hx]
  · rw [hr udi hu]
    by_cases hk : key = ctx
    · subst hk
      rw [hc, hx]
    · rw [hr key hk]

theorem twin_setInt (m1 : Mem) (ctx : Nat) (x y : LibHalContext) (hx : m1.getCtx ctx = some x)
    (p : Nat) (v : Int) :
    (m1.put ctx (Obj.ctx y)).setInt p v =
      (m1.setInt p v).map (fun m => m.put ctx (Obj.ctx y)) := by
  rw [Mem.getCtx_eq_some] at hx
  unfold Mem.setInt
  by_cases hp : p = ctx
  · subst hp
    simp [hx]
  · have hr : (m1.put ctx (Obj.ctx y)).read p = m1.read p := by simp [hp]
    rw [hr]
    cases hm : m1.read p with
    | none => rfl
    | some o =>
      cases o <;> try rfl
      simp only [Mem.write_eq, hr, hm, Option.isSome_some, if_true, Option.map_some']
      rw [Mem.put_comm _ _ _ _ _ (Ne.symm hp)]

theorem twin_setPtr (m1 : Mem) (ctx : Nat) (x y : LibHalContext) (hx : m1.getCtx ctx = some x)
    (p v : Nat) :
    (m1.put ctx (Obj.ctx y)).setPtr p v =
      (m1.setPtr p v).map (fun m => m.put ctx (Obj.ctx y)) := by
  rw [Mem.getCtx_eq_some] at hx
  unfold Mem.setPtr
  by_cases hp : p = ctx
  · subst hp
    simp [hx]
  · have hr : (m1.put ctx (Obj.ctx y)).read p = m1.read p := by simp [hp]
    rw [hr]
    cases hm : m1.read p with
    | none => rfl
    | some o =>
      cases o <;> try rfl
      simp only [Mem.write_eq, hr, hm, Option.isSome_some, if_true, Option.map_some']
      rw [Mem.put_comm _ _ _ _ _ (Ne.symm hp)]

theorem twin_alloc (m1 : Mem) (p : Nat) (a o : Obj) (h : (m1.read p).isSome) :
    (m1.put p a).alloc o = ((m1.alloc o).1, (m1.alloc o).2.put p a) := by
  by_cases ho : m1.outcome m1.nalloc = true
  · have ho2 : (m1.put p a).outcome (m1.put p a).nalloc = true := by simpa using ho
    rw [Mem.alloc_ok _ _ ho2, Mem.alloc_ok _ _ ho, Mem.size_put, Mem.push_put m1 p a o h]
  · have hf : m1.outcome m1.nalloc = false := by simpa using ho
    have hf2 : (m1.put p a).outcome (m1.put p a).nalloc = false := by simpa using hf
    rw [Mem.alloc_fail _ _ hf2, Mem.alloc_fail _ _ hf, Mem.tick_put]

theorem twin_get_property_string (m1 : Mem) (ctx : Nat) (x y : LibHalContext)
    (hx : m1.getCtx ctx = some x) (udi key e : Nat) :
    libhal_device_get_property_string (m1.put ctx (Obj.ctx y)) ctx udi key e =
      (libhal_device_get_property_string m1 ctx udi key e).map
        (fun r => (r.1, r.2.put ctx (Obj.ctx y))) := by
  have hlive : (m1.read ctx).isSome := by
    rw [(Mem.getCtx_eq_some m1 ctx x).1 hx]
    rfl
  unfold libhal_device_get_property_string
  rw [twin_udi_check m1 ctx x y hx, twin_computer_serial m1 ctx x y hx]
  split
  · rfl
  · split
    · rfl
    · rfl
    · split
      · rfl
      · split
        · rfl
        · simp only [strdup_literal, Option.map_some']
          rw [twin_alloc m1 ctx _ _ hlive]
        · rfl

theorem twin_get_all_devices (m1 : Mem) (ctx : Nat) (x y : LibHalContext)
    (hx : m1.getCtx ctx = some x) (n u ps e : Nat) :
    libhal_get_all_devices_with_properties (m1.put ctx (Obj.ctx y)) ctx n u ps e =
      (libhal_get_all_devices_with_properties m1 ctx n u ps e).map
        (fun r => (r.1, r.2.put ctx (Obj.ctx y))) := by
  unfold libhal_get_all_devices_with_properties
  split
  · rfl
  · split
    · rfl
    · split
      · rfl
      · split
        · rfl
        · rw [twin_setInt m1 ctx x y hx]
          cases h1 : m1.setInt n 0 with
          | none => rfl
          | some ma =>
            have hxa : ma.getCtx ctx = some x := by
              rw [Mem.getCtx_setInt m1 ma n ctx 0 h1]
              exact hx
            simp only [Option.map_some']
            rw [twin_setPtr ma ctx x y hxa]
            cases h2 : ma.setPtr u 0 with
            | none => rfl
            | some mb =>
              have hxb : mb.getCtx ctx = some x := by
                rw [Mem.getCtx_setPtr ma mb u ctx 0 h2]
                exact hxa
              simp only [Option.map_some']
              rw [twin_setPtr mb ctx x y hxb]
              cases h3 : mb.setPtr ps 0 with
              | none => rfl
              | some mc => rfl

theorem twin_done (ctx : Nat) (ret1 ret2 : Option Ret) (run1 run2 : Option Mem) (m1' : Mem)
    (x' y' : LibHalContext) (e : ret2 = ret1) (r1 : run1 = some m1')
    (hx' : m1'.getCtx ctx = some x') (hs : SameButFlags x' y')
    (r2 : run2 = some (m1'.put ctx (Obj.ctx y'))) :
    ret2 = ret1 ∧ (run1 = none → run2 = none) ∧
    (∀ m, run1 = some m → ∃ x' y', m.getCtx ctx = some x' ∧ SameButFlags x' y' ∧
      run2 = some (m.put ctx (Obj.ctx y'))) := by
  refine ⟨e, ?_, ?_⟩
  · intro h
    rw [r1] at h
    cases h
  · intro m hm
    rw [r1] at hm
    cases hm
    exact ⟨x', y', hx', hs, r2⟩

theorem twin_store (ctx : Nat) (m1 : Mem) (x y : LibHalContext) (f : LibHalContext → LibHalContext)
    (ret1 ret2 : Option Ret) (run1 run2 : Option Mem)
    (hx : m1.getCtx ctx = some x) (hs : SameButFlags (f x) (f y))
    (e1 : ret1 = some (Ret.bool true)) (e2 : ret2 = some (Ret.bool true))
    (r1 : run1 = some (m1.put ctx (Obj.ctx (f x))))
    (r2 : run2 = some ((m1.put ctx (Obj.ctx y)).put ctx (Obj.ctx (f y)))) :
    ret2 = ret1 ∧ (run1 = none → run2 = none) ∧
    (∀ m, run1 = some m → ∃ x' y', m.getCtx ctx = some x' ∧ SameButFlags x' y' ∧
      run2 = some (m.put ctx (Obj.ctx y'))) :=
  twin_done ctx ret1 ret2 run1 run2 _ (f x) (f y) (by rw [e1, e2]) r1
    (Mem.getCtx_put m1 ctx x _ hx) hs (by rw [r2, Mem.put_put, Mem.put_put])

theorem CtxOp.twin_step (ctx : Nat) (op : CtxOp) (m1 : Mem) (x y : LibHalContext)
    (hx : m1.getCtx ctx = some x) (h : SameButFlags x y) :
    op.ret ctx (m1.put ctx (Obj.ctx y)) = op.ret ctx m1 ∧
    (op.run ctx m1 = none → op.run ctx (m1.put ctx (Obj.ctx y)) = none) ∧
    (∀ m1', op.run ctx m1 = some m1' → ∃ x' y', m1'.getCtx ctx = some x' ∧
      SameButFlags x' y' ∧
      op.run ctx (m1.put ctx (Obj.ctx y)) = some (m1'.put ctx (Obj.ctx y'))) := by
  have hy : (m1.put ctx (Obj.ctx y)).getCtx ctx = some y := Mem.getCtx_put m1 ctx x y hx
  have hflag : ∀ (f : LibHalContext → LibHalContext), (∀ z, (f z).connection = z.connection) →
      (∀ z, (f z).user_data = z.user_data) → (∀ (k : Callback) z, k.slot (f z) = k.slot z) →
      SameButFlags (f x) (f y) :=
    fun f h1 h2 h3 => SameButFlags.update x y h f h1 h2 h3
  cases op with
  | set_user_data d =>
    refine twin_store ctx m1 x y (fun c => { c with user_data := d }) _ _ _ _ hx ?_ ?_ ?_ ?_ ?_
    · exact SameButFlags.mk h.connection rfl
        (fun k => (by have := h.slots k; cases k <;> exact this))
    · simp [CtxOp.ret, set_user_data_eq _ ctx d _ hx]
    · simp [CtxOp.ret, set_user_data_eq _ ctx d _ hy]
    · simp [CtxOp.run, set_user_data_eq _ ctx d _ hx]
    · simp [CtxOp.run, set_user_data_eq _ ctx d _ hy]
  | set_cache b =>
    refine twin_store ctx m1 x y (fun c => { c with cache_enabled := b }) _ _ _ _ hx ?_ ?_ ?_ ?_ ?_
    · exact hflag (fun c => { c with cache_enabled := b }) (fun _ => rfl) (fun _ => rfl)
        (fun k _ => (by cases k <;> rfl))
    · simp [CtxOp.ret, set_cache_eq _ ctx b _ hx]
    · simp [CtxOp.ret, set_cache_eq _ ctx b _ hy]
    · simp [CtxOp.run, set_cache_eq _ ctx b _ hx]
    · simp [CtxOp.run, set_cache_eq _ ctx b _ hy]
  | set_dbus_connection conn =>
    by_cases hc : conn = 0
    · subst hc
      refine twin_done ctx _ _ _ _ m1 x y ?_ ?_ hx h ?_
      · simp [CtxOp.ret, set_dbus_connection_eq _ ctx 0 _ hx,
          set_dbus_connection_eq _ ctx 0 _ hy]
      · simp [CtxOp.run, set_dbus_connection_eq _ ctx 0 _ hx]
      · simp [CtxOp.run, set_dbus_connection_eq _ ctx 0 _ hy]
    · refine twin_store ctx m1 x y (fun c => { c with connection := conn }) _ _ _ _ hx ?_ ?_ ?_
        ?_ ?_
      · exact SameButFlags.mk rfl h.user_data
          (fun k => (by have := h.slots k; cases k <;> exact this))
      · simp [CtxOp.ret, set_dbus_connection_eq _ ctx conn _ hx, hc]
      · simp [CtxOp.ret, set_dbus_connection_eq _ ctx conn _ hy, hc]
      · simp [CtxOp.run, set_dbus_connection_eq _ ctx conn _ hx, hc]
      · simp [CtxOp.run, set_dbus_connection_eq _ ctx conn _ hy, hc]
  | init e =>
    have hcy : y.connection = x.connection := h.connection.symm
    by_cases hc : x.connection = 0
    · refine twin_done ctx _ _ _ _ m1 x y ?_ ?_ hx h ?_
      · simp [CtxOp.ret, ctx_init_eq _ ctx e _ hx, ctx_init_eq _ ctx e _ hy, hc, hcy]
      · simp [CtxOp.run, ctx_init_eq _ ctx e _ hx, hc]
      · simp [CtxOp.run, ctx_init_eq _ ctx e _ hy, hc, hcy]
    · refine twin_store ctx m1 x y
        (fun c => { c with is_initialized := true, is_direct := false }) _ _ _ _ hx ?_ ?_ ?_ ?_ ?_
      · exact hflag (fun c => { c with is_initialized := true, is_direct := false })
          (fun _ => rfl) (fun _ => rfl) (fun k _ => (by cases k <;> rfl))
      · simp [CtxOp.ret, ctx_init_eq _ ctx e _ hx, hc]
      · simp [CtxOp.ret, ctx_init_eq _ ctx e _ hy, hc, hcy]
      · simp [CtxOp.run, ctx_init_eq _ ctx e _ hx, hc]
      · simp [CtxOp.run, ctx_init_eq _ ctx e _ hy, hc, hcy]
  | shutdown e =>
    refine twin_store ctx m1 x y (fun c => { c with is_initialized := false }) _ _ _ _ hx ?_ ?_
      ?_ ?_ ?_
    · exact hflag (fun c => { c with is_initialized := false }) (fun _ => rfl) (fun _ => rfl)
        (fun k _ => (by cases k <;> rfl))
    · simp [CtxOp.ret, shutdown_eq _ ctx e _ hx]
    · simp [CtxOp.ret, shutdown_eq _ ctx e _ hy]
    · simp [CtxOp.run, shutdown_eq _ ctx e _ hx]
    · simp [CtxOp.run, shutdown_eq _ ctx e _ hy]
  | set_callback k cb =>
    refine twin_store ctx m1 x y (k.store cb) _ _ _ _ hx (SameButFlags.store x y h k cb) ?_ ?_
      ?_ ?_
    · simp [CtxOp.ret, callback_setter_eq k _ ctx cb _ hx]
    · simp [CtxOp.ret, callback_setter_eq k _ ctx cb _ hy]
    · simp [CtxOp.run, callback_setter_eq k _ ctx cb _ hx]
    · simp [CtxOp.run, callback_setter_eq k _ ctx cb _ hy]
  | get_property_string udi key e =>
    have ht := twin_get_property_string m1 ctx x y hx udi key e
    cases hr : libhal_device_get_property_string m1 ctx udi key e with
    | none =>
      rw [hr] at ht
      exact ⟨by simp [CtxOp.ret, ht, hr], fun _ => by simp [CtxOp.run, ht],
        fun m hm => by simp [CtxOp.run, hr] at hm⟩
    | some rm =>
      obtain ⟨r, ma⟩ := rm
      rw [hr] at ht
      refine twin_done ctx _ _ _ _ ma x y ?_ ?_
        (get_property_string_getCtx m1 ma ctx udi key e r ctx x hx hr) h ?_
      · simp [CtxOp.ret, ht, hr]
      · simp [CtxOp.run, hr]
      · simp [CtxOp.run, ht]
  | get_all_devices_with_properties n u ps e =>
    have ht := twin_get_all_devices m1 ctx x y hx n u ps e
    cases hr : libhal_get_all_devices_with_properties m1 ctx n u ps e with
    | none =>
      rw [hr] at ht
      exact ⟨by simp [CtxOp.ret, ht, hr], fun _ => by simp [CtxOp.run, ht],
        fun m hm => by simp [CtxOp.run, hr] at hm⟩
    | some rm =>
      obtain ⟨r, ma⟩ := rm
      rw [hr] at ht
      refine twin_done ctx _ _ _ _ ma x y ?_ ?_
        (by rw [get_all_devices_getCtx m1 ma ctx n u ps e ctx r hr]; exact hx) h ?_
      · simp [CtxOp.ret, ht, hr]
      · simp [CtxOp.run, hr]
      · simp [CtxOp.run, ht]

theorem observe_twin (ctx : Nat) : ∀ (ops : List CtxOp) (m1 : Mem) (x y : LibHalContext),
    m1.getCtx ctx = some x → SameButFlags x y →
    (observe ctx ops m1 = none → observe ctx ops (m1.put ctx (Obj.ctx y)) = none) ∧
    ∀ rs c d ma, observe ctx ops m1 = some (rs, c, d, ma) →
      ∃ mb, observe ctx ops (m1.put ctx (Obj.ctx y)) = some (rs, c, d, mb) ∧
        ∀ q, q ≠ ctx → mb.read q = ma.read q := by
  intro ops
  induction ops with
  | nil =>
    intro m1 x y hx h
    have hy : (m1.put ctx (Obj.ctx y)).getCtx ctx = some y := Mem.getCtx_put m1 ctx x y hx
    have e1 : observe ctx [] m1 = some ([], x.connection, x.user_data, m1) := by
      simp [observe, get_dbus_connection_eq m1 ctx x hx, get_user_data_eq m1 ctx x hx]
    have e2 : observe ctx [] (m1.put ctx (Obj.ctx y)) =
        some ([], x.connection, x.user_data, m1.put ctx (Obj.ctx y)) := by
      simp [observe, get_dbus_connection_eq _ ctx y hy, get_user_data_eq _ ctx y hy,
        h.connection, h.user_data]
    refine ⟨fun hn => (by rw [e1] at hn; cases hn), ?_⟩
    intro rs c d ma hm
    rw [e1] at hm
    cases hm
    exact ⟨_, e2, fun q hq => by simp [hq]⟩
  | cons op ops ih =>
    intro m1 x y hx h
    obtain ⟨hret, hnone, hsome⟩ := CtxOp.twin_step ctx op m1 x y hx h
    cases hr : op.run ctx m1 with
    | none =>
      have hr2 := hnone hr
      have e1 : observe ctx (op :: ops) m1 = none := by
        unfold observe
        rw [hr]
        cases op.ret ctx m1 <;> rfl
      have e2 : observe ctx (op :: ops) (m1.put ctx (Obj.ctx y)) = none := by
        unfold observe
        rw [hr2]
        cases op.ret ctx (m1.put ctx (Obj.ctx y)) <;> rfl
      exact ⟨fun _ => e2, fun rs c d ma hm => by rw [e1] at hm; cases hm⟩
    | some m1' =>
      obtain ⟨x', y', hx', hs', hr2⟩ := hsome m1' hr
      obtain ⟨ihn, ihs⟩ := ih m1' x' y' hx' hs'
      cases hv : op.ret ctx m1 with
      | none =>
        have e1 : observe ctx (op :: ops) m1 = none := by
          unfold observe
          rw [hv]
        have e2 : observe ctx (op :: ops) (m1.put ctx (Obj.ctx y)) = none := by
          unfold observe
          rw [hret, hv]
        exact ⟨fun _ => e2, fun rs c d ma hm => by rw [e1] at hm; cases hm⟩
      | some r =>
        have e1 : observe ctx (op :: ops) m1 =
            match observe ctx ops m1' with
            | some (rs, c, d, m2) => some (r :: rs, c, d, m2)
            | none => none := by
          rw [observe, hv, hr]
        have e2 : observe ctx (op :: ops) (m1.put ctx (Obj.ctx y)) =
            match observe ctx ops (m1'.put ctx (Obj.ctx y')) with
            | some (rs, c, d, m2) => some (r :: rs, c, d, m2)
            | none => none := by
          rw [observe, hret, hv, hr2]
        cases ho : observe ctx ops m1' with
        | none =>
          rw [ho] at e1
          rw [ihn ho] at e2
          exact ⟨fun _ => e2, fun rs c d ma hm => by rw [e1] at hm; cases hm⟩
        | some o =>
          obtain ⟨rs, c, d, ma⟩ := o
          obtain ⟨mb, hb, hread⟩ := ihs rs c d ma ho
          rw [ho] at e1
          rw [hb] at e2
          refine ⟨fun hn => (by rw [e1] at hn; cases hn), ?_⟩
          intro rs2 c2 d2 ma2 hm
          rw [e1] at hm
          cases hm
          exact ⟨mb, e2, hread⟩

theorem CtxOp.run_keeps_shutdown_flag (ctx : Nat) (op : CtxOp) (m m1 : Mem) (x : LibHalContext)
    (hx : m.getCtx ctx = some x) (h : op.run ctx m = some m1) :
    ∃ x1, m1.getCtx ctx = some x1 ∧ x1.is_shutdown = x.is_shutdown := by
  have key : ∀ y : LibHalContext, y.is_shutdown = x.is_shutdown →
      ∃ x1, (m.put ctx (Obj.ctx y)).getCtx ctx = some x1 ∧ x1.is_shutdown = x.is_shutdown :=
    fun y hy => ⟨y, Mem.getCtx_put m ctx x y hx, hy⟩
  cases op with
  | set_user_data d =>
    simp only [CtxOp.run, set_user_data_eq m ctx d x hx, Option.map_some', Option.some.injEq] at h
    subst h
    exact key _ rfl
  | set_cache b =>
    simp only [CtxOp.run, set_cache_eq m ctx b x hx, Option.map_some', Option.some.injEq] at h
    subst h
    exact key _ rfl
  | set_dbus_connection conn =>
    simp only [CtxOp.run, set_dbus_connection_eq m ctx conn x hx] at h
    by_cases hc : conn = 0
    · simp only [hc, if_true, Option.map_some', Option.some.injEq] at h
      subst h
      exact ⟨x, hx, rfl⟩
    · simp only [hc, if_false, Option.map_some', Option.some.injEq] at h
      subst h
      exact key _ rfl
  | init e =>
    simp only [CtxOp.run, ctx_init_eq m ctx e x hx] at h
    by_cases hc : x.connection = 0
    · simp only [hc, if_true, Option.map_some', Option.some.injEq] at h
      subst h
      exact ⟨x, hx, rfl⟩
    · simp only [hc, if_false, Option.map_some', Option.some.injEq] at h
      subst h
      exact key _ rfl
  | shutdown e =>
    simp only [CtxOp.run, shutdown_eq m ctx e x hx, Option.map_some', Option.some.injEq] at h
    subst h
    exact key _ rfl
  | set_callback k cb =>
    simp only [CtxOp.run, callback_setter_eq k m ctx cb x hx, Option.map_some',
      Option.some.injEq] at h
    subst h
    exact key _ (by cases k <;> rfl)
  | get_property_string udi key e =>
    simp only [CtxOp.run] at h
    cases hr : libhal_device_get_property_string m ctx udi key e with
    | none => simp [hr] at h
    | some rm =>
      obtain ⟨r, m2⟩ := rm
      simp only [hr, Option.map_some', Option.some.injEq] at h
      subst h
      exact ⟨x, get_property_string_getCtx m m2 ctx udi key e r ctx x hx hr, rfl⟩
  | get_all_devices_with_properties n u ps e =>
    simp only [CtxOp.run] at h
    cases hr : libhal_get_all_devices_with_properties m ctx n u ps e with
    | none => simp [hr] at h
    | some rm =>
      obtain ⟨r, m2⟩ := rm
      simp only [hr, Option.map_some', Option.some.injEq] at h
      subst h
      exact ⟨x, by rw [get_all_devices_getCtx m m2 ctx n u ps e ctx r hr]; exact hx, rfl⟩

theorem run_ctx_ops_keeps_shutdown_flag (ctx : Nat) (ops : List CtxOp) (m m1 : Mem)
    (x : LibHalContext) (hx : m.getCtx ctx = some x) (h : run_ctx_ops ctx ops m = some m1) :
    ∃ x1, m1.getCtx ctx = some x1 ∧ x1.is_shutdown = x.is_shutdown := by
  induction ops generalizing m x with
  | nil =>
    simp only [run_ctx_ops, Option.some.injEq] at h
    subst h
    exact ⟨x, hx, rfl⟩
  | cons op ops ih =>
    simp only [run_ctx_ops] at h
    cases hr : op.run ctx m with
    | none => simp [hr] at h
    | some m2 =>
      simp only [hr] at h
      obtain ⟨x2, hx2, hf2⟩ := CtxOp.run_keeps_shutdown_flag ctx op m m2 x hx hr
      obtain ⟨x1, hx1, hf1⟩ := ih m2 x2 hx2 h
      exact ⟨x1, hx1, by rw [hf1, hf2]⟩

theorem ctx_start_shutdown_flag (m0 : Mem) (env err0 ctx : Nat) (m : Mem)
    (hstart : libhal_ctx_new m0 = some (ctx, m) ∨
      libhal_ctx_init_direct m0 env err0 = some (ctx, m))
    (hctx : ctx ≠ 0) : ∃ x, m.getCtx ctx = some x ∧ x.is_shutdown = false := by
  rcases hstart with h | h
  · rw [ctx_new_eq] at h
    by_cases ho : m0.outcome m0.nalloc = true
    · simp only [ho, if_true, Option.some.injEq, Prod.mk.injEq] at h
      obtain ⟨rfl, rfl⟩ := h
      exact ⟨zeroCtx, Mem.getCtx_push m0 zeroCtx, rfl⟩
    · rw [if_neg ho] at h
      simp only [Option.some.injEq, Prod.mk.injEq] at h
      exact absurd h.1.symm hctx
  · rw [ctx_init_direct_eq] at h
    by_cases ho : m0.outcome m0.nalloc = true
    · by_cases he : env = 0
      · simp only [ho, he, if_true, Option.some.injEq, Prod.mk.injEq] at h
        exact absurd h.1.symm hctx
      · simp only [ho, he, if_true, if_false, Option.some.injEq, Prod.mk.injEq] at h
        obtain ⟨rfl, rfl⟩ := h
        exact ⟨_, Mem.getCtx_push m0 _, rfl⟩
    · rw [if_neg ho] at h
      simp only [Option.some.injEq, Prod.mk.injEq] at h
      exact absurd h.1.symm hctx

/-- C37.  In every context state reached from `libhal_ctx_new` or
`libhal_ctx_init_direct` through a sequence of calls on the context (the setters,
`libhal_ctx_init`, `libhal_ctx_shutdown` and the protocol calls), `is_shutdown`
is FALSE.  `libhal_ctx_shutdown` on such a state returns TRUE and clears
`is_initialized` only, leaving `is_shutdown` FALSE.  The shut-down context
cannot be told from a context that is not initialized and has the same
connection, callbacks and user data: put in its place, that context makes every
later sequence of calls return the same values, `libhal_ctx_get_dbus_connection`
and `libhal_ctx_get_user_data` return the same results, and every block of the
heap but the context is the same at the end. -/
theorem is_shutdown_never_set (m0 : Mem) (env err0 ctx : Nat) (m : Mem) (ops : List CtxOp)
    (m2 : Mem)
    (hstart : libhal_ctx_new m0 = some (ctx, m) ∨
      libhal_ctx_init_direct m0 env err0 = some (ctx, m))
    (hctx : ctx ≠ 0) (hrun : run_ctx_ops ctx ops m = some m2) :
    ∃ x2, m2.getCtx ctx = some x2 ∧ x2.is_shutdown = false ∧
      ∀ err, ∃ m3 x3, libhal_ctx_shutdown m2 ctx err = some (true, m3) ∧
        m3.getCtx ctx = some x3 ∧ x3 = { x2 with is_initialized := false } ∧
        x3.is_initialized = false ∧ x3.is_shutdown = false ∧
        ∀ y : LibHalContext, y.is_initialized = false → y.is_shutdown = false →
          SameButFlags x3 y → ∀ ops' : List CtxOp,
            (observe ctx ops' m3 = none → observe ctx ops' (m3.put ctx (Obj.ctx y)) = none) ∧
            ∀ rs c d ma, observe ctx ops' m3 = some (rs, c, d, ma) →
              ∃ mb, observe ctx ops' (m3.put ctx (Obj.ctx y)) = some (rs, c, d, mb) ∧
                ∀ q, q ≠ ctx → mb.read q = ma.read q := by
  obtain ⟨x, hx, hf⟩ := ctx_start_shutdown_flag m0 env err0 ctx m hstart hctx
  obtain ⟨x2, hx2, hf2⟩ := run_ctx_ops_keeps_shutdown_flag ctx ops m m2 x hx hrun
  refine ⟨x2, hx2, by rw [hf2, hf], ?_⟩
  intro err
  have hx3 := Mem.getCtx_put m2 ctx x2 { x2 with is_initialized := false } hx2
  refine ⟨_, _, shutdown_eq m2 ctx err x2 hx2, hx3, rfl, rfl, by rw [← hf, ← hf2], ?_⟩
  intro y _ _ hs ops'
  exact observe_twin ctx ops' _ _ y hx3 hs

theorem is_shutdown_never_set_witness :
    ∃ x2, exHeapDown.getCtx 6 = some x2 ∧ x2.is_shutdown = false ∧
      ∃ m3 x3, libhal_ctx_shutdown exHeapDown 6 0 = some (true, m3) ∧
        m3.getCtx 6 = some x3 ∧ x3.is_initialized = false ∧ x3.is_shutdown = false := by
  obtain ⟨x2, h1, h2, h3⟩ := is_shutdown_never_set exHeapQ 0 0 6 exHeapNew
    [CtxOp.set_dbus_connection 77, CtxOp.init 0, CtxOp.shutdown 0] exHeapDown
    (Or.inl (by decide)) (by decide) (by decide)
  obtain ⟨m3, x3, h4, h5, _, h6, h7, _⟩ := h3 0
  exact ⟨x2, h1, h2, m3, x3, h4, h5, h6, h7⟩

theorem get_all_properties_null_witness :
    libhal_device_get_all_properties exHeap 8 1 0 = some (0, exHeap) ∧
    libhal_device_get_all_properties exHeap 8 7 0 = some (0, exHeap) :=
  ⟨(get_all_properties_null exHeap 8 1 0).2.1 (ascii "/org/freedesktop/Hal/devices/foo")
      (fun _ => by decide),
    (get_all_properties_null exHeap 8 7 0).2.1 (ascii "not-a-real-udi") (fun _ => by decide)⟩

end LibHal
